import Mathlib

/-!
# Csound: string opcodes (`OOps/str_ops.c`), FluidSynth opcodes
(`Opcodes/fluidOpcodes/fluidOpcodes.c`) and helpers of the FLTK front end
(`frontends/fltk_gui/CsoundGUIMain.cpp`)

A shallow embedding of the opcode entry points and of the part of the engine
state they read and write, and of the string helpers of the front end,
followed by theorems about them.

Conventions of the embedding

* A `MYFLT` cell is read by the code only through `(int)`, `RNDINT`, a
  comparison or a copy; the embedding carries the integer the cell denotes.
  The conversion `(MYFLT) x` of a `long` in `strtol_opcode` is `castMYFLT`.
* Strings live in byte buffers (`List Char`, terminated by `NUL`); arguments of
  opcodes are addresses of cells, so two arguments can be the same cell.
* A call of an opcode is an `Outcome`: it returns, or it reaches `Die` (which
  does not return), or it leaves the defined behaviour of C (`undef`).
* A conversion of a `size_t` to `int` is `toInt32`; arithmetic on `long` that
  leaves the range of a `long` of 64 bits is undefined.
* What the build fixes and the source files do not (whether `HAVE_SNPRINTF` is
  defined, the conversion of a `long` to `MYFLT`) is carried by the engine
  state as `HAVE_SNPRINTF` and `castMYFLT`.
* A `std::string` of the front end is the list of its characters; `c_str()`
  read as a C string is `cstr`.  The arithmetic on the `double` of
  `setTimeDisplay` is a parameter (`DoubleArith`).
* The instance pool and the scheduler clock are not part of the source files;
  they are modelled from the specification, and every definition of that model
  says so.
-/

namespace Csound

/-! ## Basic types and constants (`csoundCore.h`) -/

/-- The numeric type of the engine. -/
abbrev MYFLT := Int

/-- Status `OK` of `csoundCore.h`. -/
def OK : Int := 0

/-- Status `NOTOK` of `csoundCore.h`. -/
def NOTOK : Int := -1

/-- The magic number that marks a string p-field. -/
def SSTRCOD : MYFLT := 3945467

/-- Initial size of the strset table (`str_ops.c`). -/
def STRSMAX : Int := 8

/-- Message level bit for warnings. -/
def WARNMSG : Nat := 4

/-- Largest value of a C `int`. -/
def INT_MAX : Int := 2147483647

/-- Value of a `size_t` converted to `int` (two's complement, 32 bits). -/
def toInt32 (n : Nat) : Int :=
  if n % 4294967296 < 2147483648 then (n % 4294967296 : Nat) else (n % 4294967296 : Nat) - 4294967296

/-- Largest value of a C `long` of 64 bits. -/
def LONG_MAX : Int := 9223372036854775807

/-- The number of low bits to drop from `m` so that `bits` bits are left: the
least `s` with `m / 2^s < 2^bits`, found by counting up from `s` in at most
`fuel` steps. -/
def dropBits (bits : Nat) : Nat → Nat → Nat → Nat
  | 0, _, s => s
  | fuel + 1, m, s => if m >>> s < 2 ^ bits then s else dropBits bits fuel m (s + 1)

/-- Rounding of the exact value `m * 2^e` to `bits` significant bits, to the
nearest value, a tie going to the even one: the result is `(m1, e1)` for the
value `m1 * 2^e1`. -/
def roundBits (bits : Nat) (m : Nat) (e : Int) : Nat × Int :=
  let s := dropBits bits m m 0
  if s = 0 then (m, e)
  else
    let q := m >>> s
    let r := m % 2 ^ s
    let half := 2 ^ (s - 1)
    let q1 := if r > half ∨ (r = half ∧ q % 2 = 1) then q + 1 else q
    (q1, e + s)

/-- The conversion `(float) x` of a `long` on a machine with the IEEE 754
format binary32 (24 significant bits) and rounding to nearest. -/
def castFloat (x : Int) : Int :=
  let r := roundBits 24 x.natAbs 0
  if x < 0 then -((r.1 <<< r.2.toNat : Nat) : Int) else ((r.1 <<< r.2.toNat : Nat) : Int)

/-- Result of calling an entry point. -/
inductive Outcome (α : Type) where
  /-- the call returned -/
  | ret (v : α)
  /-- the call reached `csound->Die`, which does not return -/
  | die (msg : String)
  /-- the call left the defined behaviour of C (access outside an object, signed overflow) -/
  | undef

/-- What the engine was asked to print or report. -/
inductive Event where
  | Message (text : String)
  | Warning (text : String)
  | InitError (msg : String)
  | PerfError (msg : String)
deriving DecidableEq, Repr

/-! ## The C string library on byte buffers -/

/-- The terminating byte of a C string. -/
def NUL : Char := Char.ofNat 0

/-- Text of the C string that starts a buffer: the bytes before the first `NUL`. -/
def cstr (buf : List Char) : List Char := buf.takeWhile (fun c => c != NUL)

/-- Library `strlen`. -/
def strlen (buf : List Char) : Nat := (cstr buf).length

/-- Store `bytes` into `buf` from offset `off`; `none` when the store leaves the buffer. -/
def poke (buf : List Char) (off : Nat) (bytes : List Char) : Option (List Char) :=
  if off + bytes.length ≤ buf.length then
    some (buf.take off ++ bytes ++ buf.drop (off + bytes.length))
  else none

/-- Library `strcpy(dst, src)`. -/
def c_strcpy (dst src : List Char) : Option (List Char) :=
  poke dst 0 (cstr src ++ [NUL])

/-- Library `strcat(dst, src)`. -/
def c_strcat (dst src : List Char) : Option (List Char) :=
  poke dst (strlen dst) (cstr src ++ [NUL])

/-- Library `memmove(dst + off, src, n)` and `memcpy(dst + off, src, n)`:
the `n` bytes are read before any is stored. -/
def c_memmove (dst : List Char) (off : Nat) (src : List Char) (n : Nat) : Option (List Char) :=
  if n ≤ src.length then poke dst off (src.take n) else none

/-- Library `isalpha` in the C locale. -/
def isalpha (c : Char) : Bool := c.isAlpha

/-! ## Engine state seen by `str_ops.c` -/

/-- The fields of `ENVIRON` used by the string opcodes.  `strsets` is `none`
for a `NULL` table and otherwise holds `strsmax + 1` slots; `strarg` is
`currevent->strarg`; `mem` is the storage of string cells and `fmem` the
storage of numeric cells, both addressed by the argument pointers of an
opcode.  `initErrStatus` and `perfErrStatus` give the status the engine's
`InitError` and `PerfError` return for a message; `log` records the calls of
the engine's message functions.  Two entries are not members of the struct but
facts of the build that the source files leave open: `HAVE_SNPRINTF` tells
whether the macro of that name is defined when `str_ops.c` is compiled
(str_ops.c:33-38), and `castMYFLT` is the conversion `(MYFLT) x` of a `long`,
`MYFLT` being `float` or `double`. -/
structure ENVIRON where
  strsets : Option (List (Option (List Char)))
  strsmax : Int
  strVarMaxLen : Int
  strarg : Option (List Char)
  msglevel : Nat
  errmsg : String
  mem : Nat → List Char
  fmem : Nat → MYFLT
  initErrStatus : String → Int
  perfErrStatus : String → Int
  log : List Event
  HAVE_SNPRINTF : Bool
  castMYFLT : Int → MYFLT

/-- Engine call `csound->Message`. -/
def ENVIRON.Message (csound : ENVIRON) (text : String) : ENVIRON :=
  { csound with log := csound.log ++ [Event.Message text] }

/-- Engine call `csound->Warning`. -/
def ENVIRON.Warning (csound : ENVIRON) (text : String) : ENVIRON :=
  { csound with log := csound.log ++ [Event.Warning text] }

/-- Engine call `csound->InitError`: reports and returns the engine's status. -/
def ENVIRON.InitError (csound : ENVIRON) (msg : String) : Int × ENVIRON :=
  (csound.initErrStatus msg, { csound with log := csound.log ++ [Event.InitError msg] })

/-- Engine call `csound->PerfError`: reports and returns the engine's status. -/
def ENVIRON.PerfError (csound : ENVIRON) (msg : String) : Int × ENVIRON :=
  (csound.perfErrStatus msg, { csound with log := csound.log ++ [Event.PerfError msg] })

/-- Store into the string cell at address `a`. -/
def ENVIRON.setMem (csound : ENVIRON) (a : Nat) (buf : List Char) : ENVIRON :=
  { csound with mem := Function.update csound.mem a buf }

/-- Store into the numeric cell at address `a`. -/
def ENVIRON.setF (csound : ENVIRON) (a : Nat) (v : MYFLT) : ENVIRON :=
  { csound with fmem := Function.update csound.fmem a v }

/-- Macro `RNDINT` followed by the conversion to `int`, on an integral cell. -/
def RNDINT (x : MYFLT) : Int := x

/-! ## strset / strget -/

/-- Arguments of `strset` (`indx`, `str`), also used by `strtod` and `strtol`
(`indx` is then the output and `str` the input); `XSTRCODE` is non-zero when
`str` is a string argument. -/
structure STRSET_OP where
  indx : Nat
  str : Nat
  XSTRCODE : Nat

/-- Arguments of `strget`. -/
structure STRGET_OP where
  r : Nat
  indx : Nat

/-- `str_set` (str_ops.c:42). -/
def str_set (csound : ENVIRON) (ndx : Int) (s : List Char) : Outcome ENVIRON :=
  let csound1 : ENVIRON :=
    match csound.strsets with
    | none => { csound with strsmax := STRSMAX,
                            strsets := some (List.replicate (STRSMAX + 1).toNat none) }
    | some _ => csound
  let grown : Option ENVIRON :=
    if ndx > csound1.strsmax then
      let newmax : Int := Int.lor ndx (STRSMAX - 1) + 1
      if newmax > INT_MAX then none
      else some { csound1 with
                  strsets := csound1.strsets.map
                    (fun t => t ++ List.replicate (newmax - csound1.strsmax).toNat none),
                  strsmax := newmax }
    else some csound1
  match grown with
  | none => Outcome.undef
  | some csound2 =>
    if ndx < 0 then Outcome.die "illegal strset index"
    else
      match csound2.strsets with
      | none => Outcome.undef
      | some tbl =>
        match tbl.get? ndx.toNat with
        | none => Outcome.undef
        | some old =>
          let store (c : ENVIRON) : ENVIRON :=
            let c1 : ENVIRON := { c with strsets := some (tbl.set ndx.toNat (some (cstr s))) }
            if c1.msglevel &&& 7 = 7 then
              c1.Message ("Strsets[" ++ toString ndx ++ "]: '" ++ String.mk (cstr s) ++ "'\n")
            else c1
          match old with
          | none => Outcome.ret (store csound2)
          | some prev =>
            if cstr s = cstr prev then Outcome.ret csound2
            else
              let csound3 : ENVIRON :=
                if csound2.msglevel &&& WARNMSG ≠ 0 then
                  (csound2.Warning ("strset index conflict at " ++ toString ndx)).Warning
                    ("previous value: '" ++ String.mk (cstr prev) ++ "', replaced with '"
                      ++ String.mk (cstr s) ++ "'")
                else csound2
              Outcome.ret (store csound3)

/-- `strset_init` (str_ops.c:78). -/
def strset_init (csound : ENVIRON) (p : STRSET_OP) : Outcome (Int × ENVIRON) :=
  match str_set csound (RNDINT (csound.fmem p.indx)) (csound.mem p.str) with
  | Outcome.ret csound1 => Outcome.ret (OK, csound1)
  | Outcome.die msg => Outcome.die msg
  | Outcome.undef => Outcome.undef

/-- `strget_init` (str_ops.c:100). -/
def strget_init (csound : ENVIRON) (p : STRGET_OP) : Outcome (Int × ENVIRON) :=
  match poke (csound.mem p.r) 0 [NUL] with
  | none => Outcome.undef
  | some r0 =>
    let csound1 := csound.setMem p.r r0
    if csound1.fmem p.indx = SSTRCOD then
      match csound1.strarg with
      | none => Outcome.ret (OK, csound1)
      | some strarg =>
        if toInt32 (strlen strarg) ≥ csound1.strVarMaxLen then
          Outcome.ret (csound1.InitError "strget: buffer overflow")
        else
          match c_strcpy (csound1.mem p.r) strarg with
          | none => Outcome.undef
          | some r1 => Outcome.ret (OK, csound1.setMem p.r r1)
    else
      let indx : Int := RNDINT (csound1.fmem p.indx)
      if indx < 0 ∨ indx > csound1.strsmax then Outcome.ret (OK, csound1)
      else
        match csound1.strsets with
        | none => Outcome.ret (OK, csound1)
        | some tbl =>
          match tbl.get? indx.toNat with
          | none => Outcome.undef
          | some none => Outcome.ret (OK, csound1)
          | some (some s) =>
            if toInt32 (strlen s) ≥ csound1.strVarMaxLen then
              Outcome.ret (csound1.InitError "strget: buffer overflow")
            else
              match c_strcpy (csound1.mem p.r) s with
              | none => Outcome.undef
              | some r1 => Outcome.ret (OK, csound1.setMem p.r r1)

/-! ## strcpy / strcat / strcmp -/

/-- Arguments of `strcpy`. -/
structure STRCPY_OP where
  r : Nat
  str : Nat

/-- Arguments of `strcat` and `strcmp` (for `strcmp`, `r` is a numeric cell). -/
structure STRCAT_OP where
  r : Nat
  str1 : Nat
  str2 : Nat

/-- `strcpy_opcode_init` (str_ops.c:125). -/
def strcpy_opcode_init (csound : ENVIRON) (p : STRCPY_OP) : Outcome (Int × ENVIRON) :=
  let newVal := csound.mem p.str
  if p.r = p.str then Outcome.ret (OK, csound)
  else if toInt32 (strlen newVal) ≥ csound.strVarMaxLen then
    Outcome.ret (csound.InitError "strcpy: buffer overflow")
  else
    match c_strcpy (csound.mem p.r) newVal with
    | none => Outcome.undef
    | some r1 => Outcome.ret (OK, csound.setMem p.r r1)

/-- `strcpy_opcode_perf` (str_ops.c:137). -/
def strcpy_opcode_perf (csound : ENVIRON) (p : STRCPY_OP) : Outcome (Int × ENVIRON) :=
  let newVal := csound.mem p.str
  if p.r = p.str then Outcome.ret (OK, csound)
  else if toInt32 (strlen newVal) ≥ csound.strVarMaxLen then
    Outcome.ret (csound.PerfError "strcpy: buffer overflow")
  else
    match c_strcpy (csound.mem p.r) newVal with
    | none => Outcome.undef
    | some r1 => Outcome.ret (OK, csound.setMem p.r r1)

/-- The part of `strcat_opcode_init` and `strcat_opcode_perf` after the overflow
test (str_ops.c:158-169 and 179-190, the same text in both). -/
def strcat_body (csound : ENVIRON) (p : STRCAT_OP) : Outcome (Int × ENVIRON) :=
  if p.r ≠ p.str2 then
    -- if (p->r != p->str1) strcpy(p->r, newVal1);
    let step1 : Option ENVIRON :=
      if p.r ≠ p.str1 then
        (c_strcpy (csound.mem p.r) (csound.mem p.str1)).map (csound.setMem p.r)
      else some csound
    match step1 with
    | none => Outcome.undef
    | some csound1 =>
      -- strcat(p->r, newVal2);
      match c_strcat (csound1.mem p.r) (csound1.mem p.str2) with
      | none => Outcome.undef
      | some r1 => Outcome.ret (OK, csound1.setMem p.r r1)
  else if (csound.mem p.str1).headD NUL = NUL then Outcome.ret (OK, csound)
  else
    -- memmove(newVal2 + strlen(newVal1), newVal2, strlen(newVal2) + 1);
    match c_memmove (csound.mem p.str2) (strlen (csound.mem p.str1)) (csound.mem p.str2)
            (strlen (csound.mem p.str2) + 1) with
    | none => Outcome.undef
    | some b1 =>
      let csound1 := csound.setMem p.str2 b1
      if p.r ≠ p.str1 then
        -- memcpy(newVal2, newVal1, strlen(newVal1));
        match c_memmove (csound1.mem p.str2) 0 (csound1.mem p.str1)
                (strlen (csound1.mem p.str1)) with
        | none => Outcome.undef
        | some b2 => Outcome.ret (OK, csound1.setMem p.str2 b2)
      else Outcome.ret (OK, csound1)

/-- `strcat_opcode_init` (str_ops.c:151). -/
def strcat_opcode_init (csound : ENVIRON) (p : STRCAT_OP) : Outcome (Int × ENVIRON) :=
  if toInt32 (strlen (csound.mem p.str1) + strlen (csound.mem p.str2))
      ≥ csound.strVarMaxLen then
    Outcome.ret (csound.InitError "strcat: buffer overflow")
  else strcat_body csound p

/-- `strcat_opcode_perf` (str_ops.c:172). -/
def strcat_opcode_perf (csound : ENVIRON) (p : STRCAT_OP) : Outcome (Int × ENVIRON) :=
  if toInt32 (strlen (csound.mem p.str1) + strlen (csound.mem p.str2))
      ≥ csound.strVarMaxLen then
    Outcome.ret (csound.PerfError "strcat: buffer overflow")
  else strcat_body csound p

/-- Library `strcmp`, as the sign of the comparison (bytes compared as unsigned). -/
def c_strcmp : List Char → List Char → Int
  | [], [] => 0
  | [], _ :: _ => -1
  | _ :: _, [] => 1
  | a :: as, b :: bs =>
    if a.toNat < b.toNat then -1 else if b.toNat < a.toNat then 1 else c_strcmp as bs

/-- `strcmp_opcode` (str_ops.c:195). -/
def strcmp_opcode (csound : ENVIRON) (p : STRCAT_OP) : Outcome (Int × ENVIRON) :=
  let csound1 := csound.setF p.r 0
  if p.str1 = p.str2 then Outcome.ret (OK, csound1)
  else
    let i := c_strcmp (cstr (csound1.mem p.str1)) (cstr (csound1.mem p.str2))
    if i < 0 then Outcome.ret (OK, csound1.setF p.r (-1))
    else if i > 0 then Outcome.ret (OK, csound1.setF p.r 1)
    else Outcome.ret (OK, csound1)

/-! ## puts -/

/-- Arguments and private state of `puts`. -/
structure PUTS_OP where
  str : Nat
  ktrig : Nat
  no_newline : Nat
  prv_ktrig : MYFLT
  noNewLine : Int

/-- The two calls of `csound->Message` in `puts` (str_ops.c:356-359, 369-372). -/
def puts_print (csound : ENVIRON) (p : PUTS_OP) : ENVIRON :=
  if p.noNewLine = 0 then csound.Message (String.mk (cstr (csound.mem p.str)) ++ "\n")
  else csound.Message (String.mk (cstr (csound.mem p.str)))

/-- `puts_opcode_init` (str_ops.c:352). -/
def puts_opcode_init (csound : ENVIRON) (p : PUTS_OP) : Outcome (Int × ENVIRON × PUTS_OP) :=
  let p1 : PUTS_OP := { p with noNewLine := if csound.fmem p.no_newline = 0 then 0 else 1 }
  let csound1 := if csound.fmem p1.ktrig > 0 then puts_print csound p1 else csound
  Outcome.ret (OK, csound1, { p1 with prv_ktrig := csound1.fmem p1.ktrig })

/-- `puts_opcode_perf` (str_ops.c:365). -/
def puts_opcode_perf (csound : ENVIRON) (p : PUTS_OP) : Outcome (Int × ENVIRON × PUTS_OP) :=
  if csound.fmem p.ktrig ≠ p.prv_ktrig ∧ csound.fmem p.ktrig > 0 then
    let p1 : PUTS_OP := { p with prv_ktrig := csound.fmem p.ktrig }
    Outcome.ret (OK, puts_print csound p1, p1)
  else Outcome.ret (OK, csound, p)

/-! ## strtod / strtol -/

/-- The string argument of `strtod` and `strtol` (str_ops.c:383-395 and 425-437):
`none` stands for the `NULL` pointer, `undef` for a read outside the strset table. -/
def strarg_of (csound : ENVIRON) (p : STRSET_OP) : Outcome (Option (List Char)) :=
  if p.XSTRCODE ≠ 0 then Outcome.ret (some (csound.mem p.str))
  else if csound.fmem p.str = SSTRCOD then Outcome.ret csound.strarg
  else
    let ndx : Int := RNDINT (csound.fmem p.str)
    if ndx ≥ 0 ∧ ndx ≤ csound.strsmax then
      match csound.strsets with
      | none => Outcome.ret none
      | some tbl =>
        match tbl.get? ndx.toNat with
        | none => Outcome.undef
        | some e => Outcome.ret e
    else Outcome.ret none

/-- The loop `while (*s == ' ' || *s == '\t') s++`. -/
def skipBlanks : List Char → List Char
  | [] => []
  | c :: cs => if c = ' ' ∨ c = '\t' then skipBlanks cs else c :: cs

/-- `strtod_opcode` (str_ops.c:377).  `libc_strtod` is the library `strtod`: for
a text it gives the value and the text left at `tmp`. -/
def strtod_opcode (libc_strtod : List Char → MYFLT × List Char)
    (csound : ENVIRON) (p : STRSET_OP) (err_func : ENVIRON → String → Int × ENVIRON) :
    Outcome (Int × ENVIRON) :=
  match strarg_of csound p with
  | Outcome.undef => Outcome.undef
  | Outcome.die msg => Outcome.die msg
  | Outcome.ret none => Outcome.ret (err_func csound "strtod: empty string")
  | Outcome.ret (some s0) =>
    let s := skipBlanks (cstr s0)
    if s = [] then Outcome.ret (err_func csound "strtod: empty string")
    else
      let (x, tmp) := libc_strtod s
      if tmp ≠ [] then Outcome.ret (err_func csound "strtod: invalid format")
      else Outcome.ret (OK, csound.setF p.indx x)

/-- `strtod_opcode_init` (str_ops.c:406). -/
def strtod_opcode_init (libc_strtod : List Char → MYFLT × List Char)
    (csound : ENVIRON) (p : STRSET_OP) : Outcome (Int × ENVIRON) :=
  strtod_opcode libc_strtod csound p ENVIRON.InitError

/-- `strtod_opcode_perf` (str_ops.c:412). -/
def strtod_opcode_perf (libc_strtod : List Char → MYFLT × List Char)
    (csound : ENVIRON) (p : STRSET_OP) : Outcome (Int × ENVIRON) :=
  strtod_opcode libc_strtod csound p ENVIRON.PerfError

/-- The loop of radix 8 (str_ops.c:457): the value so far and the text left;
`none` when the value leaves the range of `long` (a signed overflow, which is
undefined). -/
def strtol_oct : Int → List Char → Option (Int × List Char)
  | x, [] => some (x, [])
  | x, c :: cs =>
    if '0' ≤ c ∧ c ≤ '7' then
      if x * 8 + ((c.toNat : Int) - 48) > LONG_MAX then none
      else strtol_oct (x * 8 + ((c.toNat : Int) - 48)) cs
    else some (x, c :: cs)

/-- The loop of radix 10 (str_ops.c:460). -/
def strtol_dec : Int → List Char → Option (Int × List Char)
  | x, [] => some (x, [])
  | x, c :: cs =>
    if '0' ≤ c ∧ c ≤ '9' then
      if x * 10 + ((c.toNat : Int) - 48) > LONG_MAX then none
      else strtol_dec (x * 10 + ((c.toNat : Int) - 48)) cs
    else some (x, c :: cs)

/-- The loop of radix 16 (str_ops.c:463-472). -/
def strtol_hex : Int → List Char → Option (Int × List Char)
  | x, [] => some (x, [])
  | x, c :: cs =>
    if '0' ≤ c ∧ c ≤ '9' then
      if x * 16 + ((c.toNat : Int) - 48) > LONG_MAX then none
      else strtol_hex (x * 16 + ((c.toNat : Int) - 48)) cs
    else if 'A' ≤ c ∧ c ≤ 'F' then
      if x * 16 + ((c.toNat : Int) - 65) + 10 > LONG_MAX then none
      else strtol_hex (x * 16 + ((c.toNat : Int) - 65) + 10) cs
    else if 'a' ≤ c ∧ c ≤ 'f' then
      if x * 16 + ((c.toNat : Int) - 97) + 10 > LONG_MAX then none
      else strtol_hex (x * 16 + ((c.toNat : Int) - 97) + 10) cs
    else (some (x, c :: cs))

/-- The end of `strtol_opcode` (str_ops.c:455-478): the loop of the radix, the
test that nothing is left, the sign and the store of `(MYFLT) x`. -/
def strtol_digits (csound : ENVIRON) (p : STRSET_OP)
    (err_func : ENVIRON → String → Int × ENVIRON) (sgn radix : Nat) (s2 : List Char) :
    Outcome (Int × ENVIRON) :=
  match (if radix = 8 then strtol_oct 0 s2
         else if radix = 10 then strtol_dec 0 s2
         else strtol_hex 0 s2) with
  | none => Outcome.undef
  | some (x, s3) =>
    if s3 ≠ [] then Outcome.ret (err_func csound "strtol: invalid format")
    else
      let x1 := if sgn ≠ 0 then -x else x
      Outcome.ret (OK, csound.setF p.indx (csound.castMYFLT x1))

/-- `strtol_opcode` (str_ops.c:418). -/
def strtol_opcode (csound : ENVIRON) (p : STRSET_OP)
    (err_func : ENVIRON → String → Int × ENVIRON) : Outcome (Int × ENVIRON) :=
  match strarg_of csound p with
  | Outcome.undef => Outcome.undef
  | Outcome.die msg => Outcome.die msg
  | Outcome.ret none => Outcome.ret (err_func csound "strtol: empty string")
  | Outcome.ret (some s0) =>
    let s := skipBlanks (cstr s0)
    if s = [] then Outcome.ret (err_func csound "strtol: empty string")
    else
      -- if (*s == '+') s++; else if (*s == '-') sgn++, s++;
      let (sgn, s1) : Nat × List Char :=
        match s with
        | '+' :: t => (0, t)
        | '-' :: t => (1, t)
        | t => (0, t)
      -- if (*s == '0') ...
      let prefixed : Option (Nat × List Char) :=
        match s1 with
        | '0' :: t =>
          match t with
          | [] => none
          | c :: t1 => if c = 'x' ∨ c = 'X' then some (16, t1) else some (8, c :: t1)
        | t => some (10, t)
      match prefixed with
      | none => Outcome.ret (OK, csound.setF p.indx 0)
      | some (radix, s2) =>
        if s2 = [] then Outcome.ret (err_func csound "strtol: invalid format")
        else strtol_digits csound p err_func sgn radix s2

/-- `strtol_opcode_init` (str_ops.c:481). -/
def strtol_opcode_init (csound : ENVIRON) (p : STRSET_OP) : Outcome (Int × ENVIRON) :=
  strtol_opcode csound p ENVIRON.InitError

/-- `strtol_opcode_perf` (str_ops.c:487). -/
def strtol_opcode_perf (csound : ENVIRON) (p : STRSET_OP) : Outcome (Int × ENVIRON) :=
  strtol_opcode csound p ENVIRON.PerfError

/-! ## sprintf -/

/-- Arguments of `sprintf`: output cell, format cell and the value arguments
(`p->args`); `XSTRCODE` has bit `k` set when input argument `k` is a string
(bit 0 is the format), `XINCODE` has a bit set for each audio-rate argument. -/
structure SPRINTF_OP where
  r : Nat
  sfmt : Nat
  args : List Nat
  XSTRCODE : Nat
  XINCODE : Nat

/-- Number of input arguments, the format included. -/
def SPRINTF_OP.INOCOUNT (p : SPRINTF_OP) : Nat := p.args.length + 1

/-- The value handed to the library `snprintf` with a format segment. -/
inductive FmtVal where
  | int (v : Int)
  | dbl (v : MYFLT)
  | str (s : List Char)

/-- Local variables of `sprintf_opcode`: `strseg` holds `strseg[0 .. i-1]` (so
`i` is its length), `fmt` and `segwaiting` are offsets into the format buffer
(`none` is `NULL`), `len` is also the offset of `outstring` in the output. -/
structure SprintfLocals where
  len : Int
  numVals : Int
  strCode : Nat
  strseg : List Char
  fmt : Nat
  j : Nat
  segwaiting : Option Nat

/-- An error return of `sprintf_opcode`: the message goes to `csound->errmsg`. -/
def sprintf_err (csound : ENVIRON) (msg : String) : Outcome (Int × ENVIRON) :=
  Outcome.ret (-1, { csound with errmsg := msg })

/-- The scan `while (!isalpha(*segwaiting) && *segwaiting != '\0') segwaiting++`
from offset `off`; `none` when it runs off the buffer. -/
def scanAlpha (buf : List Char) (off : Nat) : Option Nat :=
  let k := ((buf.drop off).takeWhile (fun c => !isalpha c && c != NUL)).length
  if off + k < buf.length then some (off + k) else none

/-- The argument handed to `snprintf`, by the conversion character
(the `switch (*segwaiting)` of str_ops.c:262-303): either an early return of
`sprintf_opcode` or the value. -/
def sprintf_value (p : SPRINTF_OP) (code : Char) (pp : Nat) (csound : ENVIRON) :
    Except (Outcome (Int × ENVIRON)) FmtVal :=
  if code ∈ ['d', 'i', 'o', 'x', 'X', 'u', 'c'] then
    Except.ok (FmtVal.int (RNDINT (csound.fmem pp)))
  else if code ∈ ['e', 'E', 'f', 'F', 'g', 'G'] then
    Except.ok (FmtVal.dbl (csound.fmem pp))
  else if code = 's' then
    if pp = p.r then
      Except.error (sprintf_err csound
        "sprintf: output argument may not be the same as any of the input args")
    else Except.ok (FmtVal.str (cstr (csound.mem pp)))
  else Except.error (sprintf_err csound "sprintf: invalid format string")

/-- The bytes `snprintf(outstring, maxChars, ...)` stores for the text it
produced: nothing for a size of 0, else at most `maxChars - 1` bytes of the text
and a `NUL` (a negative `maxChars` is a huge `size_t`). -/
def snprintf_bytes (maxChars : Int) (text : List Char) : List Char :=
  if maxChars = 0 then []
  else if maxChars < 0 then text ++ [NUL]
  else text.take (maxChars.toNat - 1) ++ [NUL]

/-- Printing of the waiting segment (str_ops.c:246-316), with both branches of
`#ifdef HAVE_SNPRINTF`.  `libc_snprintf seg v` is the text the library produces
for the format `seg` and the value `v` (`none` for a negative return), for
`snprintf` and for `sprintf` alike.  With `HAVE_SNPRINTF` the call of
`snprintf` stores at most `maxChars` bytes and a negative return or an excess
length is an error return; without it `sprintf` stores the whole text and its
`NUL`, and a negative return or an excess length reaches `Die`.  The result is
either an early return of `sprintf_opcode` (or its `Die`) or the locals and
engine state after the segment. -/
def sprintf_segment (libc_snprintf : List Char → FmtVal → Option (List Char))
    (p : SPRINTF_OP) (maxLen : Int) (sw : Nat) (L : SprintfLocals) (csound : ENVIRON) :
    Except (Outcome (Int × ENVIRON)) (SprintfLocals × ENVIRON) :=
  let maxChars : Int := maxLen - L.len
  if L.numVals ≤ 0 then
    Except.error (sprintf_err csound "sprintf: insufficient arguments for format")
  else
    match (csound.mem p.sfmt).get? sw with
    | none => Except.error Outcome.undef
    | some code =>
      if (code = 's' ∧ L.strCode &&& 1 = 0) ∨ (code ≠ 's' ∧ L.strCode &&& 1 ≠ 0) then
        Except.error (sprintf_err csound "sprintf: argument type inconsistent with format")
      else
        match p.args.get? L.j with
        | none => Except.error Outcome.undef
        | some pp =>
          match sprintf_value p code pp csound with
          | Except.error e => Except.error e
          | Except.ok v =>
            match libc_snprintf L.strseg v with
            | none =>
              if csound.HAVE_SNPRINTF then
                Except.error (sprintf_err csound "sprintf: buffer overflow")
              else Except.error (Outcome.die "sprintf: buffer overflow")
            | some text =>
              match poke (csound.mem p.r) L.len.toNat
                  (if csound.HAVE_SNPRINTF then snprintf_bytes maxChars text
                    else text ++ [NUL]) with
              | none => Except.error Outcome.undef
              | some r1 =>
                let csound1 := csound.setMem p.r r1
                if (text.length : Int) ≥ maxChars then
                  if csound.HAVE_SNPRINTF then
                    Except.error (sprintf_err csound1 "sprintf: buffer overflow")
                  else Except.error (Outcome.die "sprintf: buffer overflow")
                else
                  Except.ok ({ L with len := L.len + text.length,
                                      numVals := L.numVals - 1,
                                      strCode := L.strCode >>> 1,
                                      j := L.j + 1,
                                      strseg := [] }, csound1)

/-- The end of an iteration that found `'%'` or the end of the format
(str_ops.c:318-325), and the test after the loop (327-331): either the return
of `sprintf_opcode` or the locals for the next iteration. -/
def sprintf_next (p : SPRINTF_OP) (L : SprintfLocals) (csound : ENVIRON) :
    Except (Outcome (Int × ENVIRON)) SprintfLocals :=
  match (csound.mem p.sfmt).get? L.fmt with
  | none => Except.error Outcome.undef
  | some c =>
    if c = NUL then
      if L.numVals > 0 then
        Except.error (sprintf_err csound "sprintf: too many arguments for format")
      else Except.error (Outcome.ret (0, csound))
    else
      match scanAlpha (csound.mem p.sfmt) (L.fmt + 1) with
      | none => Except.error Outcome.undef
      | some sw =>
        Except.ok { L with strseg := L.strseg ++ [c], fmt := L.fmt + 1, segwaiting := some sw }

/-- The test `if (segwaiting != NULL)` with the printing of the waiting segment
(str_ops.c:245-317). -/
def sprintf_flush (libc_snprintf : List Char → FmtVal → Option (List Char))
    (p : SPRINTF_OP) (maxLen : Int) (L : SprintfLocals) (csound : ENVIRON) :
    Except (Outcome (Int × ENVIRON)) (SprintfLocals × ENVIRON) :=
  match L.segwaiting with
  | none => Except.ok (L, csound)
  | some sw => sprintf_segment libc_snprintf p maxLen sw L csound

/-- The test `fmt[0] == '%' && fmt[1] == '%'` on the byte `c` at `fmt`; `none`
when `fmt[1]` is read outside the buffer. -/
def sprintf_pair (buf : List Char) (fmt : Nat) (c : Char) : Option Bool :=
  if c = '%' then (buf.get? (fmt + 1)).map (fun c1 => c1 = '%') else some false

/-- The loop `while (1)` of `sprintf_opcode` (str_ops.c:230-326) with the code
after it.  The first argument bounds the number of iterations; `none` means the
bound was used up.  Every iteration that does not return moves `fmt` forward
and a read of the format past its buffer is `undef`, so one more than the size
of the format buffer is enough (theorem `sprintf_loop_isSome`). -/
def sprintf_loop (libc_snprintf : List Char → FmtVal → Option (List Char))
    (p : SPRINTF_OP) (maxLen : Int) :
    Nat → SprintfLocals → ENVIRON → Option (Outcome (Int × ENVIRON))
  | 0, _, _ => none
  | fuel + 1, L, csound =>
    if L.strseg.length ≥ 2047 then
      some (sprintf_err csound "sprintf: format string too long")
    else
      match (csound.mem p.sfmt).get? L.fmt with
      | none => some Outcome.undef
      | some c =>
        if c ≠ '%' ∧ c ≠ NUL then
          sprintf_loop libc_snprintf p maxLen fuel
            { L with strseg := L.strseg ++ [c], fmt := L.fmt + 1 } csound
        else
          match sprintf_pair (csound.mem p.sfmt) L.fmt c with
          | none => some Outcome.undef
          | some true =>
            sprintf_loop libc_snprintf p maxLen fuel
              { L with strseg := L.strseg ++ ['%', '%'], fmt := L.fmt + 2 } csound
          | some false =>
            match sprintf_flush libc_snprintf p maxLen L csound with
            | Except.error e => some e
            | Except.ok (L1, csound1) =>
              match sprintf_next p L1 csound1 with
              | Except.error e => some e
              | Except.ok L2 => sprintf_loop libc_snprintf p maxLen fuel L2 csound1

/-- `sprintf_opcode` (str_ops.c:212). -/
def sprintf_opcode (libc_snprintf : List Char → FmtVal → Option (List Char))
    (csound : ENVIRON) (p : SPRINTF_OP) : Outcome (Int × ENVIRON) :=
  let numVals : Int := (p.INOCOUNT : Int) - 1
  if p.XINCODE ≠ 0 then sprintf_err csound "sprintf: a-rate argument not allowed"
  else if numVals > 30 then Outcome.die "sprintf: too many arguments"
  else
    match sprintf_loop libc_snprintf p csound.strVarMaxLen ((csound.mem p.sfmt).length + 1)
        { len := 0, numVals := numVals, strCode := p.XSTRCODE >>> 1, strseg := [],
          fmt := 0, j := 0, segwaiting := none } csound with
    | some o => o
    | none => Outcome.undef

/-- The store `((char*) p->r)[0] = '\0'` followed by the error report of the
wrappers of `sprintf_opcode`. -/
def sprintf_fail (csound : ENVIRON) (p : SPRINTF_OP)
    (err_func : ENVIRON → String → Int × ENVIRON) : Outcome (Int × ENVIRON) :=
  match poke (csound.mem p.r) 0 [NUL] with
  | none => Outcome.undef
  | some r0 => Outcome.ret (err_func (csound.setMem p.r r0) csound.errmsg)

/-- `sprintf_opcode_init` (str_ops.c:334). -/
def sprintf_opcode_init (libc_snprintf : List Char → FmtVal → Option (List Char))
    (csound : ENVIRON) (p : SPRINTF_OP) : Outcome (Int × ENVIRON) :=
  match sprintf_opcode libc_snprintf csound p with
  | Outcome.undef => Outcome.undef
  | Outcome.die msg => Outcome.die msg
  | Outcome.ret (st, csound1) =>
    if st ≠ 0 then sprintf_fail csound1 p ENVIRON.InitError
    else Outcome.ret (OK, csound1)

/-- `sprintf_opcode_perf` (str_ops.c:343). -/
def sprintf_opcode_perf (libc_snprintf : List Char → FmtVal → Option (List Char))
    (csound : ENVIRON) (p : SPRINTF_OP) : Outcome (Int × ENVIRON) :=
  match sprintf_opcode libc_snprintf csound p with
  | Outcome.undef => Outcome.undef
  | Outcome.die msg => Outcome.die msg
  | Outcome.ret (st, csound1) =>
    if st ≠ 0 then sprintf_fail csound1 p ENVIRON.PerfError
    else Outcome.ret (OK, csound1)

/-! ## FluidSynth opcodes (`fluidOpcodes.c`) -/

/-- A pointer to a synthesizer object of the FluidSynth library. -/
abbrev fluid_synth_t := Nat

/-- Calls into the FluidSynth library, in the order they are made. -/
inductive FluidCall where
  | new_fluid_settings
  | settings_setnum (name : String) (v : MYFLT)
  | settings_setint (name : String) (v : Int)
  | new_fluid_synth (e : fluid_synth_t)
  | sfload (e : fluid_synth_t) (path : List Char)
  | program_select (e : fluid_synth_t) (chan sfont bank preset : Int)
  | cc (e : fluid_synth_t) (chan ctrl val : Int)
  | noteon (e : fluid_synth_t) (chan key vel : Int)
  | noteoff (e : fluid_synth_t) (chan key : Int)
  | program_change (e : fluid_synth_t) (chan prog : Int)
  | pitch_bend (e : fluid_synth_t) (chan val : Int)
  | write_float (e : fluid_synth_t)
deriving DecidableEq, Repr

/-- The entry points of the module, as they stand in the table `localops`. -/
inductive SUBR where
  | fluidEngineIopadr | fluidLoadIopadr | fluidProgramSelectIopadr
  | fluidCC_I_Iopadr | fluidCC_K_Iopadr | fluidCC_K_Kopadr
  | fluidNoteIopadr | fluidNoteKopadr
  | fluidOutIopadr | fluidOutAopadr
  | fluidAllOutIopadr | fluidAllOutAopadr
  | fluidControl_init | fluidControl_kontrol
deriving DecidableEq, Repr

/-- The opcode data blocks whose `sizeof` fills `dsblksiz`. -/
inductive DataBlock where
  | FLUIDENGINE | FLUIDLOAD | FLUID_PROGRAM_SELECT | FLUID_CC | FLUID_NOTE
  | FLUIDOUT | FLUIDALLOUT | FLUIDCONTROL
deriving DecidableEq, Repr

/-- Struct `OENTRY` of `csoundCore.h`, with the fields the module fills; `none`
is a null pointer (for `dsblksiz`, the number 0). -/
structure OENTRY where
  opname : Option String
  dsblksiz : Option DataBlock
  thread : Nat
  outypes : Option String
  intypes : Option String
  iopadr : Option SUBR
  kopadr : Option SUBR
  aopadr : Option SUBR
deriving DecidableEq, Repr

/-- Struct `fluidSynthGlobals` (fluidOpcodes.c:98): the table of engines
(`[]` for the `NULL` pointer) and the number of engines. -/
structure fluidSynthGlobals where
  fluid_engines : List fluid_synth_t
  cnt : Nat
deriving DecidableEq, Repr

/-- The engine handle as the module sees it.  `globals` is the named global
variable "fluid.engines" (`none` while it does not exist) and `createFails`
tells whether `CreateGlobalVariable` would fail; `registry` is the list of
opcodes appended so far and `appendStatus` the status `AppendOpcode` returns
for an entry given that list; `deinitCallbacks` counts the calls of
`RegisterDeinitCallback`.  `calls` is the history of library calls; what the
library answers may depend on it: `new_fluid_synth` is the pointer it returns,
`fluid_synth_sfload` the soundfont id, `fluid_synth_write_float` the frame
(left, right) rendered by an engine, `presets` the (bank, number, name) list of
a loaded soundfont. -/
structure CSOUND where
  globals : Option fluidSynthGlobals
  createFails : Bool
  ksmps : Int
  esr : MYFLT
  msglevel : Nat
  log : List Event
  registry : List OENTRY
  appendStatus : List OENTRY → OENTRY → Int
  deinitCallbacks : Nat
  calls : List FluidCall
  new_fluid_synth : List FluidCall → fluid_synth_t
  fluid_synth_sfload : List FluidCall → fluid_synth_t → List Char → Int
  fluid_synth_write_float : List FluidCall → fluid_synth_t → MYFLT × MYFLT
  FindInputFile : List Char → Option (List Char)
  fluid_is_soundfont : List Char → Bool
  presets : fluid_synth_t → Int → List (Int × Int × String)

/-- Engine call `csound->Message`. -/
def CSOUND.Message (csound : CSOUND) (text : String) : CSOUND :=
  { csound with log := csound.log ++ [Event.Message text] }

/-- Engine call `csound->InitError` (the module ignores its status). -/
def CSOUND.InitError (csound : CSOUND) (msg : String) : CSOUND :=
  { csound with log := csound.log ++ [Event.InitError msg] }

/-- A call into the library is added to the history. -/
def CSOUND.call (csound : CSOUND) (c : FluidCall) : CSOUND :=
  { csound with calls := csound.calls ++ [c] }

/-- Conversion `(int) x` of a numeric cell. -/
def castInt (x : MYFLT) : Int := x

/-- Library `realloc` on a table of pointers: the first entries are kept, new
entries are not initialised (here 0). -/
def c_realloc (tbl : List fluid_synth_t) (n : Nat) : List fluid_synth_t :=
  tbl.take n ++ List.replicate (n - tbl.length) 0

/-- The read `pp->fluid_engines[n]`; `none` outside the table. -/
def fluidSynthGlobals.engine (pp : fluidSynthGlobals) (n : Int) : Option fluid_synth_t :=
  if n < 0 then none else pp.fluid_engines.get? n.toNat

/-- `fluid_allocGlobals` (fluidOpcodes.c:103). -/
def fluid_allocGlobals (csound : CSOUND) : Outcome (fluidSynthGlobals × CSOUND) :=
  if csound.createFails then Outcome.die "fluid: error allocating globals"
  else
    let pp : fluidSynthGlobals := { fluid_engines := [], cnt := 0 }
    Outcome.ret (pp, { csound with globals := some pp })

/-- `fluid_getGlobals` (fluidOpcodes.c:118). -/
def fluid_getGlobals (csound : CSOUND) : Outcome (fluidSynthGlobals × CSOUND) :=
  match csound.globals with
  | none => fluid_allocGlobals csound
  | some pp => Outcome.ret (pp, csound)

/-- `fluidEngine_Alloc` (fluidOpcodes.c:132): the result is the returned `int`. -/
def fluidEngine_Alloc (csound : CSOUND) (fluidSynth : fluid_synth_t) : Outcome (Int × CSOUND) :=
  match fluid_getGlobals csound with
  | Outcome.undef => Outcome.undef
  | Outcome.die msg => Outcome.die msg
  | Outcome.ret (pp, csound1) =>
    let ndx : Nat := pp.cnt
    let cnt1 : Nat := pp.cnt + 1
    let tbl1 := c_realloc pp.fluid_engines cnt1
    if ndx < tbl1.length then
      Outcome.ret (toInt32 ndx,
        { csound1 with globals := some { fluid_engines := tbl1.set ndx fluidSynth, cnt := cnt1 } })
    else Outcome.undef

/-- Data block of `fluidEngine`. -/
structure FLUIDENGINE where
  iEngineNum : MYFLT

/-- The creation of the synthesizer (fluidOpcodes.c:158-168): the pointer the
library returns and the engine state. -/
def fluidEngine_new (csound : CSOUND) : fluid_synth_t × CSOUND :=
  let csound1 := (((csound.call FluidCall.new_fluid_settings).call
    (FluidCall.settings_setnum "synth.sample-rate" csound.esr)).call
    (FluidCall.settings_setint "synth.polyphony" 4096)).call
    (FluidCall.settings_setint "synth.midi-channels" 256)
  let fluidSynth := csound1.new_fluid_synth csound1.calls
  (fluidSynth, (csound1.call (FluidCall.new_fluid_synth fluidSynth)).Message
    ("Allocated fluidsynth with sampling rate = " ++ toString csound.esr ++ ".\n"))

/-- `fluidEngineIopadr` (fluidOpcodes.c:152). -/
def fluidEngineIopadr (csound : CSOUND) (p : FLUIDENGINE) :
    Outcome (Int × CSOUND × FLUIDENGINE) :=
  match fluidEngine_Alloc (fluidEngine_new csound).2 (fluidEngine_new csound).1 with
  | Outcome.undef => Outcome.undef
  | Outcome.die msg => Outcome.die msg
  | Outcome.ret (ndx, csound3) =>
    let csound4 := csound3.Message ("Created Fluid Engine - Number : " ++ toString ndx ++ ".\n")
    Outcome.ret (OK, csound4, { p with iEngineNum := ndx })

/-- Data block of `fluidLoad`; `filename` is the name `strarg2name` gives for
the first argument. -/
structure FLUIDLOAD where
  iInstrumentNumber : MYFLT
  filename : List Char
  iEngineNum : MYFLT
  iListPresets : MYFLT

/-- The messages of the preset listing (fluidOpcodes.c:218-225). -/
def listPresets (csound : CSOUND) (sfontId : Int) : List (Int × Int × String) → CSOUND
  | [] => csound
  | (bank, num, name) :: rest =>
    listPresets (csound.Message ("SoundFont: " ++ toString sfontId ++ "  Bank: " ++ toString bank
      ++ "  Preset: " ++ toString num ++ "  " ++ name ++ "\n")) sfontId rest

/-- The search for the file and the load (fluidOpcodes.c:197-202): the
soundfont id (-1 when nothing was loaded) and the engine state. -/
def fluidLoad_sfload (csound : CSOUND) (pp : fluidSynthGlobals) (engineNum : Int)
    (filename : List Char) : Outcome (Int × CSOUND) :=
  match csound.FindInputFile filename with
  | none => Outcome.ret (-1, csound)
  | some fullpath =>
    if csound.fluid_is_soundfont fullpath then
      let c1 := csound.Message ("Loading SoundFont : " ++ String.mk fullpath ++ ".\n")
      match pp.engine engineNum with
      | none => Outcome.undef
      | some e =>
        Outcome.ret (c1.fluid_synth_sfload c1.calls e fullpath,
                     c1.call (FluidCall.sfload e fullpath))
    else Outcome.ret (-1, csound)

/-- `fluidLoadIopadr` (fluidOpcodes.c:182). -/
def fluidLoadIopadr (csound : CSOUND) (p : FLUIDLOAD) : Outcome (Int × CSOUND × FLUIDLOAD) :=
  match fluid_getGlobals csound with
  | Outcome.undef => Outcome.undef
  | Outcome.die msg => Outcome.die msg
  | Outcome.ret (pp, csound1) =>
    let engineNum : Int := castInt p.iEngineNum
    if engineNum ≥ toInt32 pp.cnt ∨ engineNum < 0 then
      Outcome.ret (NOTOK,
        csound1.InitError ("Illegal Engine Number: " ++ toString engineNum ++ "."), p)
    else
      let filename := p.filename
      match fluidLoad_sfload csound1 pp engineNum filename with
      | Outcome.undef => Outcome.undef
      | Outcome.die msg => Outcome.die msg
      | Outcome.ret (sfontId, csound2) =>
        let p1 : FLUIDLOAD := { p with iInstrumentNumber := sfontId }
        if sfontId < 0 then
          Outcome.ret (NOTOK,
            csound2.InitError ("fluid: unable to load " ++ String.mk filename), p1)
        else if p1.iListPresets ≠ 0 then
          match pp.engine engineNum with
          | none => Outcome.undef
          | some e => Outcome.ret (OK, listPresets csound2 sfontId (csound2.presets e sfontId), p1)
        else Outcome.ret (OK, csound2, p1)

/-- Data block of `fluidProgramSelect`. -/
structure FLUID_PROGRAM_SELECT where
  iEngineNumber : MYFLT
  iChannelNumber : MYFLT
  iInstrumentNumber : MYFLT
  iBankNumber : MYFLT
  iPresetNumber : MYFLT

/-- `fluidProgramSelectIopadr` (fluidOpcodes.c:233). -/
def fluidProgramSelectIopadr (csound : CSOUND) (p : FLUID_PROGRAM_SELECT) :
    Outcome (Int × CSOUND) :=
  match fluid_getGlobals csound with
  | Outcome.undef => Outcome.undef
  | Outcome.die msg => Outcome.die msg
  | Outcome.ret (pp, csound1) =>
    let engineNum := castInt p.iEngineNumber
    let channelNum := castInt p.iChannelNumber
    let instrumentNum := castInt p.iInstrumentNumber
    let bankNum := castInt p.iBankNumber
    let presetNum := castInt p.iPresetNumber
    match pp.engine engineNum with
    | none => Outcome.undef
    | some e =>
      Outcome.ret (OK,
        csound1.call (FluidCall.program_select e channelNum instrumentNum bankNum presetNum))

/-- Data block of `fluidCCi` and `fluidCCk`. -/
structure FLUID_CC where
  iEngineNumber : MYFLT
  iChannelNumber : MYFLT
  iControllerNumber : MYFLT
  kVal : MYFLT
  priorMidiValue : Int
  fluidEngine : fluid_synth_t

/-- `fluidCC_I_Iopadr` (fluidOpcodes.c:253). -/
def fluidCC_I_Iopadr (csound : CSOUND) (p : FLUID_CC) : Outcome (Int × CSOUND × FLUID_CC) :=
  match fluid_getGlobals csound with
  | Outcome.undef => Outcome.undef
  | Outcome.die msg => Outcome.die msg
  | Outcome.ret (pp, csound1) =>
    let engineNum := castInt p.iEngineNumber
    let channelNum := castInt p.iChannelNumber
    let controllerNum := castInt p.iControllerNumber
    let value := castInt p.kVal
    match pp.engine engineNum with
    | none => Outcome.undef
    | some e => Outcome.ret (OK, csound1.call (FluidCall.cc e channelNum controllerNum value), p)

/-- `fluidCC_K_Iopadr` (fluidOpcodes.c:267). -/
def fluidCC_K_Iopadr (csound : CSOUND) (p : FLUID_CC) : Outcome (Int × CSOUND × FLUID_CC) :=
  match fluid_getGlobals csound with
  | Outcome.undef => Outcome.undef
  | Outcome.die msg => Outcome.die msg
  | Outcome.ret (pp, csound1) =>
    match pp.engine (castInt p.iEngineNumber) with
    | none => Outcome.undef
    | some e => Outcome.ret (OK, csound1, { p with fluidEngine := e, priorMidiValue := -1 })

/-- `fluidCC_K_Kopadr` (fluidOpcodes.c:277). -/
def fluidCC_K_Kopadr (csound : CSOUND) (p : FLUID_CC) : Outcome (Int × CSOUND × FLUID_CC) :=
  let value := castInt p.kVal
  if value ≠ p.priorMidiValue then
    Outcome.ret (OK,
      csound.call (FluidCall.cc p.fluidEngine (castInt p.iChannelNumber)
        (castInt p.iControllerNumber) value),
      { p with priorMidiValue := value })
  else Outcome.ret (OK, csound, p)

/-- Data block of `fluidNote`; `relesing` is `p->h.insdshead->relesing`, the
flag of the owning instrument instance. -/
structure FLUID_NOTE where
  iEngineNumber : MYFLT
  iChannelNumber : MYFLT
  iMidiKeyNumber : MYFLT
  iVelocity : MYFLT
  relesing : Int
  initDone : Int
  iChn : Int
  iKey : Int
  fluidEngine : fluid_synth_t
deriving DecidableEq, Repr

/-- `fluidNoteTurnoff` (fluidOpcodes.c:295). -/
def fluidNoteTurnoff (csound : CSOUND) (p : FLUID_NOTE) : Outcome (Int × CSOUND × FLUID_NOTE) :=
  if p.initDone ≠ 0 then
    Outcome.ret (OK, csound.call (FluidCall.noteoff p.fluidEngine p.iChn p.iKey),
      { p with initDone := 0 })
  else Outcome.ret (OK, csound, p)

/-- `fluidNoteIopadr` (fluidOpcodes.c:305). -/
def fluidNoteIopadr (csound : CSOUND) (p : FLUID_NOTE) : Outcome (Int × CSOUND × FLUID_NOTE) :=
  match fluid_getGlobals csound with
  | Outcome.undef => Outcome.undef
  | Outcome.die msg => Outcome.die msg
  | Outcome.ret (pp, csound1) =>
    let engineNum := castInt p.iEngineNumber
    let channelNum := castInt p.iChannelNumber
    let key := castInt p.iMidiKeyNumber
    let velocity := castInt p.iVelocity
    match pp.engine engineNum with
    | none => Outcome.undef
    | some e =>
      let p1 : FLUID_NOTE := { p with iChn := channelNum, iKey := key, fluidEngine := e }
      let turned : Outcome (Int × CSOUND × FLUID_NOTE) :=
        if p1.initDone ≠ 0 then fluidNoteTurnoff csound1 p1
        else Outcome.ret (OK, { csound1 with deinitCallbacks := csound1.deinitCallbacks + 1 }, p1)
      match turned with
      | Outcome.undef => Outcome.undef
      | Outcome.die msg => Outcome.die msg
      | Outcome.ret (_, csound2, p2) =>
        Outcome.ret (OK,
          csound2.call (FluidCall.noteon p2.fluidEngine channelNum key velocity),
          { p2 with initDone := 1 })

/-- `fluidNoteKopadr` (fluidOpcodes.c:331). -/
def fluidNoteKopadr (csound : CSOUND) (p : FLUID_NOTE) : Outcome (Int × CSOUND × FLUID_NOTE) :=
  if p.relesing ≠ 0 then
    if p.initDone ≠ 0 then
      match fluidNoteTurnoff csound p with
      | Outcome.undef => Outcome.undef
      | Outcome.die msg => Outcome.die msg
      | Outcome.ret (_, csound1, p1) => Outcome.ret (OK, csound1, p1)
    else Outcome.ret (OK, csound, p)
  else Outcome.ret (OK, csound, p)

/-- Data block of `fluidOut`; the audio outputs are the memory from the start
of each output vector, indexed by sample. -/
structure FLUIDOUT where
  aLeftOut : Nat → MYFLT
  aRightOut : Nat → MYFLT
  iEngineNum : MYFLT
  fluidEngine : fluid_synth_t

/-- `fluidOutIopadr` (fluidOpcodes.c:342). -/
def fluidOutIopadr (csound : CSOUND) (p : FLUIDOUT) : Outcome (Int × CSOUND × FLUIDOUT) :=
  match fluid_getGlobals csound with
  | Outcome.undef => Outcome.undef
  | Outcome.die msg => Outcome.die msg
  | Outcome.ret (pp, csound1) =>
    let engineNum := castInt p.iEngineNum
    if engineNum ≥ toInt32 pp.cnt ∨ engineNum < 0 then
      Outcome.ret (NOTOK,
        csound1.InitError ("Illegal Engine Number: " ++ toString engineNum ++ "."), p)
    else
      match pp.engine engineNum with
      | none => Outcome.undef
      | some e => Outcome.ret (OK, csound1, { p with fluidEngine := e })

/-- One call `fluid_synth_write_float(engine, 1, &leftSample, 0, 1, &rightSample, 0, 1)`:
the frame rendered and the engine state after it. -/
def write_frame (csound : CSOUND) (e : fluid_synth_t) : (MYFLT × MYFLT) × CSOUND :=
  (csound.fluid_synth_write_float csound.calls e, csound.call (FluidCall.write_float e))

/-- The `do ... while (++i < csound->ksmps)` of `fluidOutAopadr`
(fluidOpcodes.c:361-368), entered with the value of `i`; the first argument
bounds the number of passes and `none` means it was used up. -/
def fluidOut_loop (ksmps : Int) : Nat → Int → CSOUND → FLUIDOUT → Option (CSOUND × FLUIDOUT)
  | 0, _, _, _ => none
  | fuel + 1, i, csound, p =>
    let (frame, csound1) := write_frame csound p.fluidEngine
    let p1 : FLUIDOUT := { p with aLeftOut := Function.update p.aLeftOut i.toNat frame.1,
                                  aRightOut := Function.update p.aRightOut i.toNat frame.2 }
    if i + 1 < ksmps then fluidOut_loop ksmps fuel (i + 1) csound1 p1
    else some (csound1, p1)

/-- `fluidOutAopadr` (fluidOpcodes.c:356). -/
def fluidOutAopadr (csound : CSOUND) (p : FLUIDOUT) : Outcome (Int × CSOUND × FLUIDOUT) :=
  match fluidOut_loop csound.ksmps (csound.ksmps.toNat + 1) 0 csound p with
  | some (csound1, p1) => Outcome.ret (OK, csound1, p1)
  | none => Outcome.undef

/-- Data block of `fluidAllOut`: `fluidEngines` is the table as it was when the
opcode was initialised. -/
structure FLUIDALLOUT where
  aLeftOut : Nat → MYFLT
  aRightOut : Nat → MYFLT
  fluidEngines : List fluid_synth_t
  cnt : Int

/-- `fluidAllOutIopadr` (fluidOpcodes.c:373). -/
def fluidAllOutIopadr (csound : CSOUND) (p : FLUIDALLOUT) :
    Outcome (Int × CSOUND × FLUIDALLOUT) :=
  match fluid_getGlobals csound with
  | Outcome.undef => Outcome.undef
  | Outcome.die msg => Outcome.die msg
  | Outcome.ret (pp, csound1) =>
    Outcome.ret (OK, csound1, { p with fluidEngines := pp.fluid_engines, cnt := toInt32 pp.cnt })

/-- The inner `do ... while (++j < p->cnt)` of `fluidAllOutAopadr`
(fluidOpcodes.c:394-401) for sample `i`; the outer `Option` is `none` when the
bound on the passes was used up, the inner one when the table is read outside
its bounds. -/
def fluidAllOut_inner (i : Nat) :
    Nat → Int → CSOUND → FLUIDALLOUT → Option (Option (CSOUND × FLUIDALLOUT))
  | 0, _, _, _ => none
  | fuel + 1, j, csound, p =>
    match (if j < 0 then none else p.fluidEngines.get? j.toNat) with
    | none => some none
    | some e =>
      let (frame, csound1) := write_frame csound e
      let p1 : FLUIDALLOUT :=
        { p with aLeftOut := Function.update p.aLeftOut i (p.aLeftOut i + frame.1),
                 aRightOut := Function.update p.aRightOut i (p.aRightOut i + frame.2) }
      if j + 1 < p.cnt then fluidAllOut_inner i fuel (j + 1) csound1 p1
      else some (some (csound1, p1))

/-- The outer `do ... while (++i < csound->ksmps)` of `fluidAllOutAopadr`
(fluidOpcodes.c:390-402). -/
def fluidAllOut_outer (ksmps : Int) :
    Nat → Int → CSOUND → FLUIDALLOUT → Option (Option (CSOUND × FLUIDALLOUT))
  | 0, _, _, _ => none
  | fuel + 1, i, csound, p =>
    let p0 : FLUIDALLOUT := { p with aLeftOut := Function.update p.aLeftOut i.toNat 0,
                                     aRightOut := Function.update p.aRightOut i.toNat 0 }
    match fluidAllOut_inner i.toNat (p.cnt.toNat + 1) 0 csound p0 with
    | none => none
    | some none => some none
    | some (some (csound1, p1)) =>
      if i + 1 < ksmps then fluidAllOut_outer ksmps fuel (i + 1) csound1 p1
      else some (some (csound1, p1))

/-- `fluidAllOutAopadr` (fluidOpcodes.c:383). -/
def fluidAllOutAopadr (csound : CSOUND) (p : FLUIDALLOUT) :
    Outcome (Int × CSOUND × FLUIDALLOUT) :=
  if p.cnt ≤ 0 then Outcome.ret (OK, csound, p)
  else
    match fluidAllOut_outer csound.ksmps (csound.ksmps.toNat + 1) 0 csound p with
    | some (some (csound1, p1)) => Outcome.ret (OK, csound1, p1)
    | _ => Outcome.undef

/-- Data block of `fluidControl`. -/
structure FLUIDCONTROL where
  iFluidEngine : MYFLT
  kMidiStatus : MYFLT
  kMidiChannel : MYFLT
  kMidiData1 : MYFLT
  kMidiData2 : MYFLT
  priorMidiStatus : Int
  priorMidiChannel : Int
  priorMidiData1 : Int
  priorMidiData2 : Int
  fluidEngine : fluid_synth_t
deriving DecidableEq, Repr

/-- `fluidControl_init` (fluidOpcodes.c:407). -/
def fluidControl_init (csound : CSOUND) (p : FLUIDCONTROL) :
    Outcome (Int × CSOUND × FLUIDCONTROL) :=
  match fluid_getGlobals csound with
  | Outcome.undef => Outcome.undef
  | Outcome.die msg => Outcome.die msg
  | Outcome.ret (pp, csound1) =>
    match pp.engine (castInt p.iFluidEngine) with
    | none => Outcome.undef
    | some e =>
      Outcome.ret (OK, csound1,
        { p with fluidEngine := e, priorMidiStatus := -1, priorMidiChannel := -1,
                 priorMidiData1 := -1, priorMidiData2 := -1 })

/-- A message printed when `printMsgs` is set. -/
def CSOUND.MessageIf (csound : CSOUND) (printMsgs : Bool) (text : String) : CSOUND :=
  if printMsgs then csound.Message text else csound

/-- The `switch (midiStatus)` of `fluidControl_kontrol` (fluidOpcodes.c:434-486). -/
def fluidControl_switch (csound : CSOUND) (fluidEngine : fluid_synth_t) (printMsgs : Bool)
    (midiStatus midiChannel midiData1 midiData2 : Int) : CSOUND :=
  let args3 := "s:" ++ toString midiStatus ++ " c:" ++ toString midiChannel
    ++ " k:" ++ toString midiData1
  let args4 := args3 ++ " v:" ++ toString midiData2
  if midiStatus = 0x80 then
    (csound.call (FluidCall.noteoff fluidEngine midiChannel midiData1)).MessageIf printMsgs
      ("Note off:   " ++ args3 ++ "\n")
  else if midiStatus = 0x90 then
    (if midiData2 ≠ 0 then
      csound.call (FluidCall.noteon fluidEngine midiChannel midiData1 midiData2)
    else
      csound.call (FluidCall.noteoff fluidEngine midiChannel midiData1)).MessageIf printMsgs
      ("Note on:    " ++ args4 ++ "\n")
  else if midiStatus = 0xA0 then
    csound.MessageIf printMsgs ("Key pressure (not handled): " ++ args4 ++ "\n")
  else if midiStatus = 0xB0 then
    (csound.call (FluidCall.cc fluidEngine midiChannel midiData1 midiData2)).MessageIf printMsgs
      ("Control change: " ++ args4 ++ "\n")
  else if midiStatus = 0xC0 then
    (csound.call (FluidCall.program_change fluidEngine midiChannel midiData1)).MessageIf
      printMsgs ("Program change: " ++ args3 ++ "\n")
  else if midiStatus = 0xD0 then
    csound.MessageIf printMsgs ("After touch (not handled): " ++ args4 ++ "\n")
  else if midiStatus = 0xE0 then
    (csound.call (FluidCall.pitch_bend fluidEngine midiChannel midiData1)).MessageIf printMsgs
      ("Pitch bend: " ++ args3 ++ "\n")
  else if midiStatus = 0xF0 then
    csound.MessageIf printMsgs ("System exclusive (not handled): " ++ args4 ++ "\n")
  else csound

/-- `fluidControl_kontrol` (fluidOpcodes.c:421). -/
def fluidControl_kontrol (csound : CSOUND) (p : FLUIDCONTROL) :
    Outcome (Int × CSOUND × FLUIDCONTROL) :=
  let midiStatus : Int := Int.land 0xF0 (castInt p.kMidiStatus)
  let midiChannel := castInt p.kMidiChannel
  let midiData1 := castInt p.kMidiData1
  let midiData2 := castInt p.kMidiData2
  if midiData2 ≠ p.priorMidiData2 ∨ midiData1 ≠ p.priorMidiData1 ∨
      midiChannel ≠ p.priorMidiChannel ∨ midiStatus ≠ p.priorMidiStatus then
    let printMsgs : Bool := csound.msglevel &&& 7 = 7
    let csound1 := fluidControl_switch csound p.fluidEngine printMsgs
      midiStatus midiChannel midiData1 midiData2
    Outcome.ret (OK, csound1,
      { p with priorMidiStatus := midiStatus, priorMidiChannel := midiChannel,
               priorMidiData1 := midiData1, priorMidiData2 := midiData2 })
  else Outcome.ret (OK, csound, p)

/-! ## The opcode table and the module entry points -/

/-- Table `localops` (fluidOpcodes.c:498), the closing entry included. -/
def localops : List OENTRY :=
  [ { opname := some "fluidEngine", dsblksiz := some DataBlock.FLUIDENGINE, thread := 1,
      outypes := some "i", intypes := some "",
      iopadr := some SUBR.fluidEngineIopadr, kopadr := none, aopadr := none },
    { opname := some "fluidLoad", dsblksiz := some DataBlock.FLUIDLOAD, thread := 1,
      outypes := some "i", intypes := some "Tio",
      iopadr := some SUBR.fluidLoadIopadr, kopadr := none, aopadr := none },
    { opname := some "fluidProgramSelect", dsblksiz := some DataBlock.FLUID_PROGRAM_SELECT,
      thread := 1, outypes := some "", intypes := some "iiiii",
      iopadr := some SUBR.fluidProgramSelectIopadr, kopadr := none, aopadr := none },
    { opname := some "fluidCCi", dsblksiz := some DataBlock.FLUID_CC, thread := 1,
      outypes := some "", intypes := some "iiii",
      iopadr := some SUBR.fluidCC_I_Iopadr, kopadr := none, aopadr := none },
    { opname := some "fluidCCk", dsblksiz := some DataBlock.FLUID_CC, thread := 3,
      outypes := some "", intypes := some "ikkk",
      iopadr := some SUBR.fluidCC_K_Iopadr, kopadr := some SUBR.fluidCC_K_Kopadr,
      aopadr := none },
    { opname := some "fluidNote", dsblksiz := some DataBlock.FLUID_NOTE, thread := 3,
      outypes := some "", intypes := some "iiii",
      iopadr := some SUBR.fluidNoteIopadr, kopadr := some SUBR.fluidNoteKopadr,
      aopadr := none },
    { opname := some "fluidOut", dsblksiz := some DataBlock.FLUIDOUT, thread := 5,
      outypes := some "aa", intypes := some "i",
      iopadr := some SUBR.fluidOutIopadr, kopadr := none,
      aopadr := some SUBR.fluidOutAopadr },
    { opname := some "fluidAllOut", dsblksiz := some DataBlock.FLUIDALLOUT, thread := 5,
      outypes := some "aa", intypes := some "i",
      iopadr := some SUBR.fluidAllOutIopadr, kopadr := none,
      aopadr := some SUBR.fluidAllOutAopadr },
    { opname := some "fluidControl", dsblksiz := some DataBlock.FLUIDCONTROL, thread := 3,
      outypes := some "", intypes := some "ikkkk",
      iopadr := some SUBR.fluidControl_init, kopadr := some SUBR.fluidControl_kontrol,
      aopadr := none },
    { opname := none, dsblksiz := none, thread := 0, outypes := none, intypes := none,
      iopadr := none, kopadr := none, aopadr := none } ]

/-- Engine call `csound->AppendOpcode` with the fields of `ep`: the entry joins
the registry and the engine's status is returned. -/
def CSOUND.AppendOpcode (csound : CSOUND) (ep : OENTRY) : Int × CSOUND :=
  (csound.appendStatus csound.registry ep, { csound with registry := csound.registry ++ [ep] })

/-- The `for` loop of `csoundModuleInit` (fluidOpcodes.c:532-539) from entry
`ep` on; running off a table without a closing entry is `undef`. -/
def csoundModuleInit_loop : List OENTRY → Int → CSOUND → Outcome (Int × CSOUND)
  | [], _, _ => Outcome.undef
  | ep :: rest, err, csound =>
    match ep.opname with
    | none => Outcome.ret (err, csound)
    | some _ =>
      let (st, csound1) := csound.AppendOpcode ep
      csoundModuleInit_loop rest (Int.lor err st) csound1

/-- `csoundModuleInit` (fluidOpcodes.c:527). -/
def csoundModuleInit (csound : CSOUND) : Outcome (Int × CSOUND) :=
  csoundModuleInit_loop localops 0 csound

/-- The status of the call of `AppendOpcode` for entry `k` of `localops`, when
the entries before it have been appended to the registry of `csound`. -/
def appendResult (csound : CSOUND) (k : Nat) : Int :=
  match localops.get? k with
  | some ep => csound.appendStatus (csound.registry ++ localops.take k) ep
  | none => 0

/-- The frame an engine renders after `i` further frames have been requested
from it, starting from the state `csound`. -/
def frameAt (csound : CSOUND) (e : fluid_synth_t) (i : Nat) : MYFLT × MYFLT :=
  csound.fluid_synth_write_float (csound.calls ++ List.replicate i (FluidCall.write_float e)) e

/-! ## Entry points as data -/

/-- A call of an opcode entry point of `str_ops.c` with its data block. -/
inductive StrOpcode where
  | strset_init (p : STRSET_OP)
  | strget_init (p : STRGET_OP)
  | strcpy_opcode_init (p : STRCPY_OP)
  | strcpy_opcode_perf (p : STRCPY_OP)
  | strcat_opcode_init (p : STRCAT_OP)
  | strcat_opcode_perf (p : STRCAT_OP)
  | strcmp_opcode (p : STRCAT_OP)
  | sprintf_opcode_init (p : SPRINTF_OP)
  | sprintf_opcode_perf (p : SPRINTF_OP)
  | puts_opcode_init (p : PUTS_OP)
  | puts_opcode_perf (p : PUTS_OP)
  | strtod_opcode_init (p : STRSET_OP)
  | strtod_opcode_perf (p : STRSET_OP)
  | strtol_opcode_init (p : STRSET_OP)
  | strtol_opcode_perf (p : STRSET_OP)

/-- Forget the data block in the result of an entry point. -/
def Outcome.dropBlock {σ β : Type} : Outcome (Int × σ × β) → Outcome (Int × σ)
  | Outcome.ret (st, s, _) => Outcome.ret (st, s)
  | Outcome.die msg => Outcome.die msg
  | Outcome.undef => Outcome.undef

/-- Run one entry point of `str_ops.c`: the status and the engine state. -/
def StrOpcode.exec (libc_strtod : List Char → MYFLT × List Char)
    (libc_snprintf : List Char → FmtVal → Option (List Char)) (csound : ENVIRON) :
    StrOpcode → Outcome (Int × ENVIRON)
  | StrOpcode.strset_init p => Csound.strset_init csound p
  | StrOpcode.strget_init p => Csound.strget_init csound p
  | StrOpcode.strcpy_opcode_init p => Csound.strcpy_opcode_init csound p
  | StrOpcode.strcpy_opcode_perf p => Csound.strcpy_opcode_perf csound p
  | StrOpcode.strcat_opcode_init p => Csound.strcat_opcode_init csound p
  | StrOpcode.strcat_opcode_perf p => Csound.strcat_opcode_perf csound p
  | StrOpcode.strcmp_opcode p => Csound.strcmp_opcode csound p
  | StrOpcode.sprintf_opcode_init p => Csound.sprintf_opcode_init libc_snprintf csound p
  | StrOpcode.sprintf_opcode_perf p => Csound.sprintf_opcode_perf libc_snprintf csound p
  | StrOpcode.puts_opcode_init p => (Csound.puts_opcode_init csound p).dropBlock
  | StrOpcode.puts_opcode_perf p => (Csound.puts_opcode_perf csound p).dropBlock
  | StrOpcode.strtod_opcode_init p => Csound.strtod_opcode_init libc_strtod csound p
  | StrOpcode.strtod_opcode_perf p => Csound.strtod_opcode_perf libc_strtod csound p
  | StrOpcode.strtol_opcode_init p => Csound.strtol_opcode_init csound p
  | StrOpcode.strtol_opcode_perf p => Csound.strtol_opcode_perf csound p

/-- A call of an entry point of `fluidOpcodes.c` with its data block: the
entries of `localops` and the deinit callback `fluidNoteTurnoff`. -/
inductive FluidOpcode where
  | fluidEngineIopadr (p : FLUIDENGINE)
  | fluidLoadIopadr (p : FLUIDLOAD)
  | fluidProgramSelectIopadr (p : FLUID_PROGRAM_SELECT)
  | fluidCC_I_Iopadr (p : FLUID_CC)
  | fluidCC_K_Iopadr (p : FLUID_CC)
  | fluidCC_K_Kopadr (p : FLUID_CC)
  | fluidNoteTurnoff (p : FLUID_NOTE)
  | fluidNoteIopadr (p : FLUID_NOTE)
  | fluidNoteKopadr (p : FLUID_NOTE)
  | fluidOutIopadr (p : FLUIDOUT)
  | fluidOutAopadr (p : FLUIDOUT)
  | fluidAllOutIopadr (p : FLUIDALLOUT)
  | fluidAllOutAopadr (p : FLUIDALLOUT)
  | fluidControl_init (p : FLUIDCONTROL)
  | fluidControl_kontrol (p : FLUIDCONTROL)

/-- Run one entry point of `fluidOpcodes.c`: the status and the engine state. -/
def FluidOpcode.exec (csound : CSOUND) : FluidOpcode → Outcome (Int × CSOUND)
  | FluidOpcode.fluidEngineIopadr p => (Csound.fluidEngineIopadr csound p).dropBlock
  | FluidOpcode.fluidLoadIopadr p => (Csound.fluidLoadIopadr csound p).dropBlock
  | FluidOpcode.fluidProgramSelectIopadr p => Csound.fluidProgramSelectIopadr csound p
  | FluidOpcode.fluidCC_I_Iopadr p => (Csound.fluidCC_I_Iopadr csound p).dropBlock
  | FluidOpcode.fluidCC_K_Iopadr p => (Csound.fluidCC_K_Iopadr csound p).dropBlock
  | FluidOpcode.fluidCC_K_Kopadr p => (Csound.fluidCC_K_Kopadr csound p).dropBlock
  | FluidOpcode.fluidNoteTurnoff p => (Csound.fluidNoteTurnoff csound p).dropBlock
  | FluidOpcode.fluidNoteIopadr p => (Csound.fluidNoteIopadr csound p).dropBlock
  | FluidOpcode.fluidNoteKopadr p => (Csound.fluidNoteKopadr csound p).dropBlock
  | FluidOpcode.fluidOutIopadr p => (Csound.fluidOutIopadr csound p).dropBlock
  | FluidOpcode.fluidOutAopadr p => (Csound.fluidOutAopadr csound p).dropBlock
  | FluidOpcode.fluidAllOutIopadr p => (Csound.fluidAllOutIopadr csound p).dropBlock
  | FluidOpcode.fluidAllOutAopadr p => (Csound.fluidAllOutAopadr csound p).dropBlock
  | FluidOpcode.fluidControl_init p => (Csound.fluidControl_init csound p).dropBlock
  | FluidOpcode.fluidControl_kontrol p => (Csound.fluidControl_kontrol csound p).dropBlock

/-- Whether the call is an activation of `fluidEngine`. -/
def FluidOpcode.isEngine : FluidOpcode → Bool
  | FluidOpcode.fluidEngineIopadr _ => true
  | _ => false

/-- A run of the module: the calls are made one after the other on the engine
state; a call that does not return ends the run with its outcome. -/
def fluidRun : List FluidOpcode → CSOUND → Outcome CSOUND
  | [], csound => Outcome.ret csound
  | op :: rest, csound =>
    match op.exec csound with
    | Outcome.ret (_, csound1) => fluidRun rest csound1
    | Outcome.die msg => Outcome.die msg
    | Outcome.undef => Outcome.undef

/-- The engine table of a state, empty while the global variable does not exist. -/
def CSOUND.engines (csound : CSOUND) : List fluid_synth_t :=
  match csound.globals with
  | none => []
  | some pp => pp.fluid_engines

/-- The engine count of a state, 0 while the global variable does not exist. -/
def CSOUND.cnt (csound : CSOUND) : Nat :=
  match csound.globals with
  | none => 0
  | some pp => pp.cnt

/-! ## Auxiliary predicates on engine states -/

/-- Only the history of library calls differs between the two states. -/
def onlyCalls (cs cs1 : CSOUND) : Prop := ∃ l, cs1 = { cs with calls := l }

/-- The engine table, its count and `createFails` are the same in the two states. -/
def sameTable (cs cs1 : CSOUND) : Prop :=
  cs1.createFails = cs.createFails ∧ cs1.engines = cs.engines ∧ cs1.cnt = cs.cnt

/-- The status is `OK`, or it is `NOTOK` and the last thing the call did to the
log was a call of `InitError`. -/
def reportedInit (cs cs1 : CSOUND) (st : Int) : Prop :=
  st = OK ∨ (st = NOTOK ∧ ∃ pre msg, cs1.log = cs.log ++ pre ++ [Event.InitError msg])

/-- The effect of an entry point of the module other than an engine allocation. -/
def FluidEffect (cs cs1 : CSOUND) (st : Int) : Prop :=
  sameTable cs cs1 ∧ reportedInit cs cs1 st

/-! ## Runs of one `fluidNote` instance -/

/-- A call on one `fluidNote` instance: an activation with the values of its
four arguments, a control step with the value of the releasing flag of the
owning instance, or the deinit callback. -/
inductive NoteCall where
  | activate (iEngineNumber iChannelNumber iMidiKeyNumber iVelocity : MYFLT)
  | control (relesing : Int)
  | deinit
deriving DecidableEq, Repr

/-- One call on the instance: the arguments of an activation are stored in the
data block before `fluidNoteIopadr` runs, the flag of the owning instance is
set before `fluidNoteKopadr` runs. -/
def noteStep (csound : CSOUND) (p : FLUID_NOTE) : NoteCall → Outcome (Int × CSOUND × FLUID_NOTE)
  | NoteCall.activate e c k v =>
    fluidNoteIopadr csound { p with iEngineNumber := e, iChannelNumber := c,
                                    iMidiKeyNumber := k, iVelocity := v }
  | NoteCall.control r => fluidNoteKopadr csound { p with relesing := r }
  | NoteCall.deinit => fluidNoteTurnoff csound p

/-- A sequence of calls on one `fluidNote` instance; a call that does not return
ends the sequence with its outcome. -/
def noteRun : List NoteCall → CSOUND → FLUID_NOTE → Outcome (CSOUND × FLUID_NOTE)
  | [], csound, p => Outcome.ret (csound, p)
  | c :: rest, csound, p =>
    match noteStep csound p c with
    | Outcome.ret (_, csound1, p1) => noteRun rest csound1 p1
    | Outcome.die msg => Outcome.die msg
    | Outcome.undef => Outcome.undef

/-- Whether a library call is `fluid_synth_noteon`. -/
def FluidCall.isNoteOn : FluidCall → Bool
  | FluidCall.noteon _ _ _ _ => true
  | _ => false

/-- Whether a library call is `fluid_synth_noteoff`. -/
def FluidCall.isNoteOff : FluidCall → Bool
  | FluidCall.noteoff _ _ _ => true
  | _ => false

/-- Number of note-ons minus number of note-offs in a history of library calls. -/
def sounding (calls : List FluidCall) : Int :=
  (calls.countP FluidCall.isNoteOn : Int) - (calls.countP FluidCall.isNoteOff : Int)

/-- An activation names an engine of the table (the other calls take no engine
number). -/
def validNoteCall (csound : CSOUND) : NoteCall → Prop
  | NoteCall.activate e _ _ _ => 0 ≤ castInt e ∧ (castInt e).toNat < csound.engines.length
  | _ => True

/-- A property of the value of a call that returns. -/
def Outcome.OnRet {α : Type} (o : Outcome α) (P : α → Prop) : Prop :=
  match o with
  | Outcome.ret v => P v
  | Outcome.die _ => True
  | Outcome.undef => True

/-- an error function of the engine: it leaves the storage alone -/
def IsErrFunc (f : ENVIRON → String → Int × ENVIRON) : Prop :=
  ∀ cs msg, (f cs msg).2.mem = cs.mem ∧ (f cs msg).2.fmem = cs.fmem

/-- string variable -/
def IsStrVar (csound : ENVIRON) (a : Nat) : Prop :=
  ((csound.mem a).length : Int) = csound.strVarMaxLen ∧ NUL ∈ csound.mem a

/-- The strset table, when allocated, has `strsmax + 1` slots, as `str_set`
allocates it. -/
def StrsetsWF (csound : ENVIRON) : Prop :=
  ∀ tbl, csound.strsets = some tbl → (tbl.length : Int) = csound.strsmax + 1

/-- The strings whose length the call converts to `int` are shorter than 2^31
bytes, so that the conversion keeps the length. -/
def FitsInt (csound : ENVIRON) : StrOpcode → Prop
  | StrOpcode.strget_init _ =>
    (∀ s, csound.strarg = some s → strlen s < 2147483648) ∧
    (∀ tbl s, csound.strsets = some tbl → some s ∈ tbl → strlen s < 2147483648)
  | StrOpcode.strcpy_opcode_init p => strlen (csound.mem p.str) < 2147483648
  | StrOpcode.strcpy_opcode_perf p => strlen (csound.mem p.str) < 2147483648
  | StrOpcode.strcat_opcode_init p =>
    strlen (csound.mem p.str1) + strlen (csound.mem p.str2) < 2147483648
  | StrOpcode.strcat_opcode_perf p =>
    strlen (csound.mem p.str1) + strlen (csound.mem p.str2) < 2147483648
  | _ => True

/-- The call returns, and afterwards the cell `r` is a string variable whose
string has at most `strVarMaxLen - 1` characters; `strVarMaxLen` is as before. -/
def KeepsBound (csound : ENVIRON) (r : Nat) (o : Outcome (Int × ENVIRON)) : Prop :=
  ∃ st cs1, o = Outcome.ret (st, cs1) ∧ IsStrVar cs1 r ∧
    (strlen (cs1.mem r) : Int) ≤ cs1.strVarMaxLen - 1 ∧ cs1.strVarMaxLen = csound.strVarMaxLen

/-- the message log, the status oracles and the build are the same -/
def SameEngine (cs cs1 : ENVIRON) : Prop :=
  cs1.log = cs.log ∧ cs1.initErrStatus = cs.initErrStatus ∧
  cs1.perfErrStatus = cs.perfErrStatus ∧ cs1.HAVE_SNPRINTF = cs.HAVE_SNPRINTF

/-- whether the call reached Die -/
def Outcome.isDie {α : Type} : Outcome α → Bool
  | Outcome.die _ => true
  | _ => false

/-- the call did not reach `Die`, unless it is the `Die` of the buffer overflow of `sprintf`
in a build without `snprintf`, and if it returned the log and status oracles are unchanged -/
def Quiet (cs : ENVIRON) (o : Outcome (Int × ENVIRON)) : Prop :=
  (o.isDie = true → cs.HAVE_SNPRINTF = false ∧ o = Outcome.die "sprintf: buffer overflow") ∧
  o.OnRet (fun r => SameEngine cs r.2)

/-- the step either ends the call quietly or continues with the log, the status oracles and
the size of the format buffer unchanged -/
def StepQuiet {β : Type} (cs : ENVIRON) (p : SPRINTF_OP) (n : Nat) (st : β → ENVIRON) :
    Except (Outcome (Int × ENVIRON)) β → Prop
  | Except.error e => Quiet cs e
  | Except.ok v => SameEngine cs (st v) ∧ ((st v).mem p.sfmt).length = n

/-- The status is `OK`, or it is the status the engine gave to the call of `InitError` or
`PerfError` that the entry point made last. -/
def reportedStr (cs cs1 : ENVIRON) (st : Int) : Prop :=
  st = OK ∨ ∃ msg, (st = cs.initErrStatus msg ∧ cs1.log = cs.log ++ [Event.InitError msg]) ∨
    (st = cs.perfErrStatus msg ∧ cs1.log = cs.log ++ [Event.PerfError msg])

/-- The call does not reach `Die`, and if it returns it reports as `reportedStr` says. -/
def Reports (cs : ENVIRON) (o : Outcome (Int × ENVIRON)) : Prop :=
  o.isDie = false ∧ o.OnRet (fun r => reportedStr cs r.2 r.1)

/-- The output string cell of `strget`, `strcpy` and `strcat` (both variants);
`none` for the other entry points. -/
def StrOpcode.outVar : StrOpcode → Option Nat
  | StrOpcode.strget_init p => some p.r
  | StrOpcode.strcpy_opcode_init p => some p.r
  | StrOpcode.strcpy_opcode_perf p => some p.r
  | StrOpcode.strcat_opcode_init p => some p.r
  | StrOpcode.strcat_opcode_perf p => some p.r
  | _ => none

/-- What the output argument holds after a call that returned an error status:
the empty string for `strget` and `sprintf`, what it held before the call for
`strcpy`, `strcat`, `strtod` and `strtol`. -/
def OutputAfterError (csound cs1 : ENVIRON) : StrOpcode → Prop
  | StrOpcode.strget_init p => cstr (cs1.mem p.r) = []
  | StrOpcode.sprintf_opcode_init p => cstr (cs1.mem p.r) = []
  | StrOpcode.sprintf_opcode_perf p => cstr (cs1.mem p.r) = []
  | StrOpcode.strcpy_opcode_init p => cs1.mem p.r = csound.mem p.r
  | StrOpcode.strcpy_opcode_perf p => cs1.mem p.r = csound.mem p.r
  | StrOpcode.strcat_opcode_init p => cs1.mem p.r = csound.mem p.r
  | StrOpcode.strcat_opcode_perf p => cs1.mem p.r = csound.mem p.r
  | StrOpcode.strtod_opcode_init p => cs1.fmem p.indx = csound.fmem p.indx
  | StrOpcode.strtod_opcode_perf p => cs1.fmem p.indx = csound.fmem p.indx
  | StrOpcode.strtol_opcode_init p => cs1.fmem p.indx = csound.fmem p.indx
  | StrOpcode.strtol_opcode_perf p => cs1.fmem p.indx = csound.fmem p.indx
  | StrOpcode.strset_init _ => True
  | StrOpcode.strcmp_opcode _ => True
  | StrOpcode.puts_opcode_init _ => True
  | StrOpcode.puts_opcode_perf _ => True

/-- The opcodes of the SYNTAX section of the man page at the head of
`fluidOpcodes.c` (lines 50-66): name, number of outputs, number of arguments. -/
def manPageSyntax : List (String × Nat × Nat) :=
  [("fluidEngine", 1, 0), ("fluidLoad", 1, 2), ("fluidProgramSelect", 0, 5),
   ("fluidCC", 0, 4), ("fluidNote", 0, 4), ("fluidOut", 2, 1)]

/-- The output and input signatures under which `csoundModuleInit` registers a
name: those of the first entry of `localops` with that name, `none` when no
entry has it. -/
def registered (name : String) : Option (Option String × Option String) :=
  (localops.find? (fun ep => ep.opname = some name)).map (fun ep => (ep.outypes, ep.intypes))

/-- A fresh engine handle for the examples: no global variable yet, a cycle of
4 samples, a library whose answers record the history of calls. -/
def sampleCsound : CSOUND :=
  { globals := none, createFails := false, ksmps := 4, esr := 44100, msglevel := 0, log := [],
    registry := [], appendStatus := fun _ _ => 0, deinitCallbacks := 0, calls := [],
    new_fluid_synth := fun calls => calls.length + 100,
    fluid_synth_sfload := fun _ _ _ => 1,
    fluid_synth_write_float := fun calls e => (calls.length, e),
    FindInputFile := fun f => some f, fluid_is_soundfont := fun _ => true,
    presets := fun _ _ => [] }

/-- The sample handle with one engine in the table. -/
def oneEngine : CSOUND := { sampleCsound with globals := some ⟨[100], 1⟩ }

/-- A `fluidOut` data block bound to engine 100. -/
def sampleOut : FLUIDOUT :=
  { aLeftOut := fun _ => 0, aRightOut := fun _ => 0, iEngineNum := 0, fluidEngine := 100 }

/-- A fresh `fluidNote` data block. -/
def sampleNote : FLUID_NOTE :=
  { iEngineNumber := 0, iChannelNumber := 0, iMidiKeyNumber := 0, iVelocity := 0,
    relesing := 0, initDone := 0, iChn := 0, iKey := 0, fluidEngine := 0 }

/-- An engine state for the examples of the string opcodes: string variables of
8 bytes; cell 0 holds "abc", cell 1 "hello", the others are empty; numeric cell 0
holds -1 and the others 42.  The build has `snprintf` and a `MYFLT` that is
`float`. -/
def sampleEnviron : ENVIRON :=
  { strsets := none, strsmax := 0, strVarMaxLen := 8, strarg := none, msglevel := 0,
    errmsg := "",
    mem := fun a =>
      if a = 0 then ['a', 'b', 'c', NUL, NUL, NUL, NUL, NUL]
      else if a = 1 then ['h', 'e', 'l', 'l', 'o', NUL, NUL, NUL]
      else [NUL, NUL, NUL, NUL, NUL, NUL, NUL, NUL],
    fmem := fun a => if a = 0 then -1 else 42,
    initErrStatus := fun _ => 1, perfErrStatus := fun _ => 1, log := [],
    HAVE_SNPRINTF := true, castMYFLT := castFloat }

/-- The state the sample handle reaches by one activation of `fluidEngine`. -/
def afterOneEngine : CSOUND :=
  { sampleCsound with
    globals := some ⟨[104], 1⟩,
    calls := [FluidCall.new_fluid_settings,
              FluidCall.settings_setnum "synth.sample-rate" 44100,
              FluidCall.settings_setint "synth.polyphony" 4096,
              FluidCall.settings_setint "synth.midi-channels" 256,
              FluidCall.new_fluid_synth 104],
    log := [Event.Message "Allocated fluidsynth with sampling rate = 44100.\n",
            Event.Message "Created Fluid Engine - Number : 0.\n"] }

/-! ## Observations used by the theorems: sums of frames, table lookups, reference parser -/

/-- The frames requested for one sample by `fluidAllOutAopadr`: one from each
engine of the list, in order.  From the history `calls` and the sums `acc` so
far it gives the sums (left, right) after the last engine; each engine renders
its frame after the calls made before it. -/
def renderAll (f : List FluidCall → fluid_synth_t → MYFLT × MYFLT) :
    List FluidCall → List fluid_synth_t → MYFLT × MYFLT → MYFLT × MYFLT
  | _, [], acc => acc
  | calls, e :: es, acc =>
    renderAll f (calls ++ [FluidCall.write_float e]) es
      (acc.1 + (f calls e).1, acc.2 + (f calls e).2)

/-- The library calls of `fluidAllOutAopadr` for one sample. -/
def allOutCalls (p : FLUIDALLOUT) : List FluidCall :=
  (p.fluidEngines.take p.cnt.toNat).map FluidCall.write_float

/-- The value of sample `i` of `fluidAllOut`: the sum, from zero and in table
order, of the frames its `cnt` engines render for that sample, after the calls
of the samples before it. -/
def sampleSum (csound : CSOUND) (p : FLUIDALLOUT) (i : Nat) : MYFLT × MYFLT :=
  renderAll csound.fluid_synth_write_float
    (csound.calls ++ (List.replicate i (allOutCalls p)).flatten)
    (p.fluidEngines.take p.cnt.toNat) (0, 0)

/-- A `fluidAllOut` data block over two engines whose vectors hold 7. -/
def sampleAllOut : FLUIDALLOUT :=
  { aLeftOut := fun _ => 7, aRightOut := fun _ => 7, fluidEngines := [100, 101], cnt := 2 }

/-- A state with three string variables of 8 bytes: cell 0 holds "ab", cell 1
holds "cde" and cell 2 holds "zz". -/
def aliasEnviron : ENVIRON :=
  { sampleEnviron with
    mem := fun a =>
      if a = 0 then ['a', 'b', NUL, 'x', 'x', 'x', 'x', 'x']
      else if a = 1 then ['c', 'd', 'e', NUL, 'y', 'y', 'y', 'y']
      else ['z', 'z', NUL, NUL, NUL, NUL, NUL, NUL] }

/-- The string the output cell `r` holds after a call that returned `OK`;
`none` for any other outcome. -/
def outString (r : Nat) : Outcome (Int × ENVIRON) → Option (List Char)
  | Outcome.ret (st, cs1) => if st = OK then some (cstr (cs1.mem r)) else none
  | _ => none

/-- A decimal digit. -/
def isDecDigit (c : Char) : Bool := decide ('0' ≤ c ∧ c ≤ '9')

/-- The value of a digit: 0 to 9 for '0' to '9', 10 to 15 for 'A' to 'F' and
for 'a' to 'f'. -/
def digitValue (c : Char) : Int :=
  if '0' ≤ c ∧ c ≤ '9' then (c.toNat : Int) - 48
  else if 'A' ≤ c ∧ c ≤ 'F' then (c.toNat : Int) - 65 + 10
  else (c.toNat : Int) - 97 + 10

/-- The value of a digit string in a radix, most significant digit first. -/
def valueOf (radix : Int) (ds : List Char) : Int :=
  ds.foldl (fun x c => x * radix + digitValue c) 0

/-- The value of a digit string in a radix, continuing from the value `x`. -/
def valueFrom (radix : Int) (x : Int) (ds : List Char) : Int :=
  ds.foldl (fun x c => x * radix + digitValue c) x

/-- Modelled from the spec: the part of struct `INSDS` (csoundCore.h:286-320)
the pool works on; the allocator itself (insert.c) is not among the sources.
`held` counts the file handles and auxiliary blocks the instance holds. -/
structure INSDS where
  insno : Nat
  actflg : Bool
  relesing : Bool
  offtim : Int
  held : Nat
deriving DecidableEq, Repr

/-- Modelled from the spec: the part of struct `INSTRTXT` (csoundCore.h:191-217)
the pool works on.  `instances` is the chain `instance` of all allocated
instances of the template and `act_instance` the chain of its free instances (the link
`INSDS.nxtact`), most recently freed first; instances are named by their index
in the store of the pool, which never changes. -/
structure INSTRTXT where
  muted : Bool
  maxalloc : Nat
  active : Nat
  instances : List Nat
  act_instance : List Nat
deriving DecidableEq, Repr

/-- Modelled from the spec: the state of the instance allocator (§4.2): the
templates by instrument number, the store of instances, the global list of
active instances and the instances whose deactivation entry points have run,
in that order. -/
structure Pool where
  instrtxt : List (Option INSTRTXT)
  insds : List INSDS
  actlist : List Nat
  deactivated : List Nat
deriving DecidableEq, Repr

/-- Modelled from the spec: what `Acquire` and `Release` report (§4.2, §7). -/
inductive PoolStatus where
  | done (inst : Nat)
  | AllocationDenied
  | rejected
deriving DecidableEq, Repr

/-- The template of an instrument number, `none` when it is unknown. -/
def Pool.template (pool : Pool) (insno : Nat) : Option INSTRTXT :=
  (pool.instrtxt.get? insno).join

/-- Modelled from the spec: `Acquire(instrumentRef)` (§4.2).  It is denied when
the instrument is unknown, muted, or has as many active instances as its
maximum (0 = unlimited).  Otherwise the template's free list is popped if it is
not empty (the most recently freed instance first), else fresh storage is
appended to the store and to the template's allocation chain; the transient
fields are reset and the instance joins the active list. -/
def Acquire (pool : Pool) (insno : Nat) : PoolStatus × Pool :=
  match pool.template insno with
  | none => (PoolStatus.AllocationDenied, pool)
  | some tp =>
    if tp.muted ∨ (tp.maxalloc ≠ 0 ∧ tp.active ≥ tp.maxalloc) then
      (PoolStatus.AllocationDenied, pool)
    else
      let fresh : INSDS := { insno := insno, actflg := true, relesing := false, offtim := 0,
                             held := 0 }
      match tp.act_instance with
      | ip :: rest =>
        (PoolStatus.done ip,
          { pool with
            instrtxt := pool.instrtxt.set insno
              (some { tp with act_instance := rest, active := tp.active + 1 }),
            insds := pool.insds.set ip fresh,
            actlist := pool.actlist ++ [ip] })
      | [] =>
        (PoolStatus.done pool.insds.length,
          { pool with
            instrtxt := pool.instrtxt.set insno
              (some { tp with instances := tp.instances ++ [pool.insds.length],
                              active := tp.active + 1 }),
            insds := pool.insds ++ [fresh],
            actlist := pool.actlist ++ [pool.insds.length] })

/-- Modelled from the spec: `Release(instance)` (§4.2).  An instance that is not
active (unknown, or already released) is rejected and the state is left as it
is.  Otherwise the deactivation entry points run, the held files and auxiliary
blocks are given back, the instance leaves the active list and is put at the
head of its template's free list. -/
def Release (pool : Pool) (ip : Nat) : PoolStatus × Pool :=
  match pool.insds.get? ip with
  | none => (PoolStatus.rejected, pool)
  | some inst =>
    if inst.actflg = false then (PoolStatus.rejected, pool)
    else
      match pool.template inst.insno with
      | none => (PoolStatus.rejected, pool)
      | some tp =>
        (PoolStatus.done ip,
          { pool with
            instrtxt := pool.instrtxt.set inst.insno
              (some { tp with act_instance := ip :: tp.act_instance, active := tp.active - 1 }),
            insds := pool.insds.set ip { inst with actflg := false, relesing := false, held := 0 },
            actlist := pool.actlist.erase ip,
            deactivated := pool.deactivated ++ [ip] })

/-- The free list of the template of an instrument number. -/
def Pool.freeList (pool : Pool) (insno : Nat) : List Nat :=
  match pool.template insno with
  | none => []
  | some tp => tp.act_instance

/-- A pool with instrument 1, without a limit, and three active instances of it. -/
def samplePool : Pool :=
  { instrtxt := [none, some { muted := false, maxalloc := 0, active := 3,
                              instances := [0, 1, 2], act_instance := [] }],
    insds := [⟨1, true, false, 0, 0⟩, ⟨1, true, false, 0, 2⟩, ⟨1, true, false, 0, 0⟩],
    actlist := [0, 1, 2],
    deactivated := [] }

/-! ## Scheduler clock (modelled from the spec, §4.3 and §4.4) -/

/-- Default sample rate `DFLT_SR` (csoundCore.h:111). -/
def DFLT_SR : MYFLT := 44100

/-- Default control rate `DFLT_KR` (csoundCore.h:112). -/
def DFLT_KR : MYFLT := 4410

/-- Default cycle width `DFLT_KSMPS` (csoundCore.h:113). -/
def DFLT_KSMPS : Int := 10

/-- Modelled from the spec: the clock of the scheduler and one instance under
it; the scheduler (musmon.c) and the performance loop are not among the
sources.  `curTime`, `curTime_inc`, `beatTime` and `cyclesRemaining` are fields
of `sensEvents_t` (csoundCore.h:491-501), `kcounter` counts the control cycles,
`actflg` and `offtim` are the instance's active flag and termination time in
seconds, `performed` counts the cycles in which the instance ran its control
chain and `releasedOn` is the cycle on which it was released.  Times are exact
rationals. -/
structure Performance where
  curTime : ℚ
  curTime_inc : ℚ
  beatTime : ℚ
  cyclesRemaining : Nat
  kcounter : Nat
  actflg : Bool
  offtim : ℚ
  performed : Nat
  releasedOn : Option Nat

/-- Modelled from the spec: `cyclesRemaining`, the smallest number of control
cycles whose cumulative duration reaches the time `t` from the time `now`
(§4.3). -/
def cyclesUntil (inc now t : ℚ) : Nat := ⌈(t - now) / inc⌉₊

/-- Modelled from the spec: an Activate event at beat `beat` with a duration in
seconds, dispatched on a fresh clock with the given tempo, sample rate and
cycle width (§4.3): one beat lasts `60 / tempo` seconds, one cycle lasts
`ksmps / sr` seconds, the termination time is start + duration, and the
termination is due after `cyclesRemaining` cycles. -/
def activateEvent (tempo sr : ℚ) (ksmps : Nat) (beat dur : ℚ) : Performance :=
  { curTime := beat * (60 / tempo),
    curTime_inc := ksmps / sr,
    beatTime := 60 / tempo,
    cyclesRemaining := cyclesUntil (ksmps / sr) (beat * (60 / tempo))
      (beat * (60 / tempo) + dur),
    kcounter := 0,
    actflg := true,
    offtim := beat * (60 / tempo) + dur,
    performed := 0,
    releasedOn := none }

/-- Modelled from the spec: one control cycle (§4.4).  An active instance runs
its control chain; the cycle counter and the clock advance; an instance whose
termination has become due is released at the end of the cycle, after it has
contributed the cycle's output. -/
def runCycle (st : Performance) : Performance :=
  if st.actflg then
    let st1 : Performance :=
      { st with performed := st.performed + 1, kcounter := st.kcounter + 1,
                curTime := st.curTime + st.curTime_inc,
                cyclesRemaining := st.cyclesRemaining - 1 }
    if st1.cyclesRemaining = 0 then
      { st1 with actflg := false, releasedOn := some st1.kcounter }
    else st1
  else
    { st with kcounter := st.kcounter + 1, curTime := st.curTime + st.curTime_inc }

/-- Modelled from the spec: `n` control cycles in a row. -/
def runCycles : Nat → Performance → Performance
  | 0, st => st
  | n + 1, st => runCycles n (runCycle st)

/-- The Activate event of the scenario: tempo 60, the default sample rate and
cycle width, beat 0, duration 2 seconds. -/
def twoSecondNote : Performance := activateEvent 60 DFLT_SR DFLT_KSMPS.toNat 0 2

/-! ## Observations on runs of `fluidNote` and `puts` -/

/-- The library calls an outcome of `noteRun` has recorded; `none` when the run
did not return. -/
def callsOf : Outcome (CSOUND × FLUID_NOTE) → Option (List FluidCall)
  | Outcome.ret (csound, _) => some csound.calls
  | _ => none

/-- Whether every note-off of a history of library calls goes to the engine,
channel and key of the most recent note-on before it (`last`, `none` when no
note-on came before). -/
def noteOffsFollow : Option (fluid_synth_t × Int × Int) → List FluidCall → Bool
  | _, [] => true
  | _, FluidCall.noteon e c k _ :: rest => noteOffsFollow (some (e, c, k)) rest
  | last, FluidCall.noteoff e c k :: rest =>
    decide (last = some (e, c, k)) && noteOffsFollow last rest
  | last, _ :: rest => noteOffsFollow last rest

/-- A run of one `puts` instance after its initialization: before every control
cycle the cell `ktrig` receives the next value of the trigger signal, then
`puts_opcode_perf` runs.  The result is the engine state and the data block
after the last cycle. -/
def putsCycles : List MYFLT → ENVIRON → PUTS_OP → ENVIRON × PUTS_OP
  | [], csound, p => (csound, p)
  | v :: vs, csound, p =>
    match puts_opcode_perf (csound.setF p.ktrig v) p with
    | Outcome.ret (_, csound1, p1) => putsCycles vs csound1 p1
    | _ => (csound, p)

/-- A run of one `puts` instance: the cell `ktrig` holds the first value of the
trigger signal when `puts_opcode_init` runs, the control cycles follow. -/
def putsRun (trig0 : MYFLT) (trigs : List MYFLT) (csound : ENVIRON) (p : PUTS_OP) :
    ENVIRON × PUTS_OP :=
  match puts_opcode_init (csound.setF p.ktrig trig0) p with
  | Outcome.ret (_, csound1, p1) => putsCycles trigs csound1 p1
  | _ => (csound, p)

/-- Modelled on the words of the claim: the cycles on which `puts` is to print,
when it prints on the cycles whose trigger value is positive and differs from
the value of the cycle before (`prev`). -/
def spec_putsPrints : MYFLT → List MYFLT → List Bool
  | _, [] => []
  | prev, v :: vs => decide (v > 0 ∧ v ≠ prev) :: spec_putsPrints v vs

/-- The cycles on which `puts_opcode_perf` prints, from the messages it adds to
the log, for the same run as `putsCycles`. -/
def putsPrints : List MYFLT → ENVIRON → PUTS_OP → List Bool
  | [], _, _ => []
  | v :: vs, csound, p =>
    match puts_opcode_perf (csound.setF p.ktrig v) p with
    | Outcome.ret (_, csound1, p1) =>
      decide (csound1.log.length ≠ csound.log.length) :: putsPrints vs csound1 p1
    | _ => []

/-- A fresh data block of `puts` for the examples: the string is cell 1 of
`sampleEnviron` ("hello"), the trigger is numeric cell 5. -/
def samplePuts : PUTS_OP :=
  { str := 1, ktrig := 5, no_newline := 3, prv_ktrig := 0, noNewLine := 0 }

/-! ## The init and perf variants of one opcode -/

/-- What the claim says of the two variants of an opcode: both return `OK` with
the same engine state; or both fail with the same message on the same state
`base`, the init variant returning what `InitError` gives and the perf variant
what `PerfError` gives; or neither returns, in the same way. -/
def DifferOnlyInReport (oi op : Outcome (Int × ENVIRON)) : Prop :=
  (∃ cs1, oi = Outcome.ret (OK, cs1) ∧ op = Outcome.ret (OK, cs1)) ∨
  (∃ (base : ENVIRON) (msg : String),
    oi = Outcome.ret (base.InitError msg) ∧ op = Outcome.ret (base.PerfError msg)) ∨
  (oi = Outcome.undef ∧ op = Outcome.undef) ∨
  (∃ msg, oi = Outcome.die msg ∧ op = Outcome.die msg)

/-! ## The FLTK front end (`CsoundGUIMain.cpp`) -/

/-- The test `c == ' ' || c == '\t' || c == '\r' || c == '\n'` that `runCmd`,
`isEmptyString` and `stripString` make on a character. -/
def isWhiteSpace (c : Char) : Bool := c = ' ' || c = '\t' || c = '\r' || c = '\n'

/-- The double-quote character. -/
def DQUOTE : Char := Char.ofNat 34

/-- The members of `CsoundGUIMain` that `setTimeDisplay` uses: the count shown
last and the text of the widget `scoreTimeDisplay`. -/
structure CsoundGUIMain where
  prvTime : Int
  scoreTimeDisplay : List Char

/-- The character `(char) d + '0'`. -/
def digitChar (d : Int) : Char := Char.ofNat (d.toNat + 48)

/-- The arithmetic on `double` that `setTimeDisplay` uses.  What the machine
gives for a comparison, a product and a conversion of `double` values is not
fixed by the source (it depends on the format of `double` and on the precision
in which the product is evaluated), so it is a parameter: `ltZero t` is the
value of `t < 0.0` and `mul10ToInt t` the value of `(int) (t * 10.0)`, `none`
where that conversion is undefined (a NaN, or an integral part that an `int`
cannot hold). -/
structure DoubleArith (double : Type) where
  ltZero : double → Bool
  mul10ToInt : double → Option Int

/-- `CsoundGUIMain::setTimeDisplay` (CsoundGUIMain.cpp:23).  The tests and the
arithmetic on `timeVal` are those of `fp`; a conversion `(int) (timeVal * 10.0)`
that is undefined, or whose value is outside the range of `int`, leaves the
defined behaviour.  In the branch of the digits `timeVal_i` is not negative, so
`/` and `%` are those of C.  The widget receives the string in `buf`. -/
def setTimeDisplay {double : Type} (fp : DoubleArith double) (self : CsoundGUIMain)
    (timeVal : double) : Outcome CsoundGUIMain :=
  match (if fp.ltZero timeVal then some (-1) else fp.mul10ToInt timeVal) with
  | none => Outcome.undef
  | some timeVal_i =>
    if timeVal_i < -INT_MAX - 1 ∨ timeVal_i > INT_MAX then Outcome.undef
    else if timeVal_i = self.prvTime then Outcome.ret self
    else
      let buf := List.replicate 13 'x'
      let buf := buf.set 0 ' '
      let buf := buf.set 1 ' '
      let buf := buf.set 4 ':'
      let buf := buf.set 7 ':'
      let buf := buf.set 10 '.'
      let buf := buf.set 12 NUL
      let buf :=
        if timeVal_i < 0 then
          let buf := buf.set 2 '-'
          let buf := buf.set 3 '-'
          let buf := buf.set 5 '-'
          let buf := buf.set 6 '-'
          let buf := buf.set 8 '-'
          let buf := buf.set 9 '-'
          buf.set 11 '-'
        else
          let buf := buf.set 11 (digitChar (timeVal_i % 10))
          let t := timeVal_i / 10
          let buf := buf.set 9 (digitChar (t % 10))
          let t := t / 10
          let buf := buf.set 8 (digitChar (t % 6))
          let t := t / 6
          let buf := buf.set 6 (digitChar (t % 10))
          let t := t / 10
          let buf := buf.set 5 (digitChar (t % 6))
          let t := t / 6
          let buf := buf.set 3 (digitChar (t % 10))
          let t := t / 10
          let buf := buf.set 2 (digitChar (t % 10))
          let t := t / 10
          if t ≠ 0 then buf.set 1 (digitChar (t % 10)) else buf
      Outcome.ret { prvTime := timeVal_i, scoreTimeDisplay := cstr buf }

/-- Local variables of `runCmd`: the token being collected, the tokens
finished so far (`args`; `nTokens` is their number) and the mode
(0: white space, 1: collecting, 2: quoted string). -/
structure RunCmdLocals where
  curToken : List Char
  args : List (List Char)
  mode : Int

/-- The body of the loop of `runCmd` for the character `c`
(CsoundGUIMain.cpp:80-101). -/
def runCmd_step (L : RunCmdLocals) (c : Char) : RunCmdLocals :=
  if isWhiteSpace c = true ∧ L.mode ≠ 2 then
    if L.mode ≠ 0 then { mode := 0, args := L.args ++ [L.curToken], curToken := [] }
    else L
  else if c = DQUOTE then
    if L.mode = 2 then { L with mode := 1 } else { L with mode := 2 }
  else
    { L with mode := if L.mode = 0 then 1 else L.mode, curToken := L.curToken ++ [c] }

/-- The loop `for (int i = 0; i < len; i++)` of `runCmd`, with
`len = (int) cmdLine.size()`. -/
def runCmd_loop (cmdLine : List Char) : RunCmdLocals :=
  (cmdLine.take (toInt32 cmdLine.length).toNat).foldl runCmd_step
    { curToken := [], args := [], mode := 0 }

/-- The argument tokens `runCmd` has built when it tests `nTokens`
(CsoundGUIMain.cpp:103-107). -/
def runCmd_args (cmdLine : List Char) : List (List Char) :=
  let L := runCmd_loop cmdLine
  if L.mode = 1 then L.args ++ [L.curToken] else L.args

/-- `CsoundGUIMain::runCmd` (CsoundGUIMain.cpp:68); `csoundRunCommand` is the
call of the host API on the argument vector. -/
def runCmd (csoundRunCommand : List (List Char) → Int) (cmdLine : List Char) : Int :=
  let args := runCmd_args cmdLine
  if args.length = 0 then 0
  else if csoundRunCommand args < 0 then -1
  else 0

/-- `CsoundGUIMain::isEmptyString` (CsoundGUIMain.cpp:117). -/
def isEmptyString (s : List Char) : Bool :=
  (s.take (toInt32 s.length).toNat).all isWhiteSpace

/-- `CsoundGUIMain::stripString` (CsoundGUIMain.cpp:130): the new value of
`dst`.  `src` holds the characters at the pointer `src` (`none` for a null
pointer); it is read as a C string.  `pos0` is where the first loop stops,
`pos1` where the second one stops, and the third loop copies the characters
from `pos0` to `pos1`. -/
def stripString (dst : List Char) (src : Option (List Char)) : List Char :=
  let src := match src with
    | none => cstr dst
    | some s => cstr s
  if src ≠ [] then
    let len : Int := toInt32 src.length
    let pos0 : Int := ((src.take len.toNat).takeWhile isWhiteSpace).length
    let pos1 : Int := len - 1 - ((src.take len.toNat).reverse.takeWhile isWhiteSpace).length
    (src.drop pos0.toNat).take (pos1 - pos0 + 1).toNat
  else []

/-- Library `strncmp(s, lit, n) == 0` on strings given by their characters. -/
def c_strncmp_eq (s lit : List Char) (n : Nat) : Bool := s.take n = lit.take n

/-- The loop `do ... while (*(++s) != '\0')` of `isRtAudioDevice`
(CsoundGUIMain.cpp:192-198) on the characters from `s` to the end of the
string, which are not empty when the loop is entered; `none` when `devNum`
leaves the range of `int`. -/
def isRtAudioDevice_loop : Int → List Char → Option Bool
  | _, [] => some true
  | devNum, c :: rest =>
    if c < '0' ∨ c > '9' then some false
    else
      let devNum1 := devNum * 10 + ((c.toNat : Int) - 48)
      if devNum1 > INT_MAX then none
      else if devNum1 > 1023 then some false
      else isRtAudioDevice_loop devNum1 rest

/-- The part of `isRtAudioDevice` after the prefix (CsoundGUIMain.cpp:188-200). -/
def isRtAudioDevice_rest (s : List Char) : Option Bool :=
  match s with
  | [] => some true
  | c :: _ => if c = ':' then some true else isRtAudioDevice_loop 0 s

/-- `CsoundGUIMain::isRtAudioDevice` (CsoundGUIMain.cpp:171); `none` when the
device number leaves the range of `int`. -/
def isRtAudioDevice (fileName : List Char) (isOutput : Bool) : Option Bool :=
  if toInt32 fileName.length < 3 then some false
  else
    let s := cstr fileName
    if c_strncmp_eq s "devaudio".toList 8 then isRtAudioDevice_rest (s.drop 8)
    else if (isOutput ∧ c_strncmp_eq s "dac".toList 3) ∨
        (¬ isOutput ∧ c_strncmp_eq s "adc".toList 3) then
      isRtAudioDevice_rest (s.drop 3)
    else some false

/-- The command line `editOrcFile`, `editScoreFile` and `editSoundFile` build
from the editor program and the file name (CsoundGUIMain.cpp:464-467, 478-481
and 496-499). -/
def editCmdLine (program fileName : List Char) : List Char :=
  ((stripString [] (some program) ++ [' ', DQUOTE]) ++ fileName) ++ [DQUOTE]

/-- `CsoundGUIMain::editOrcFile` (CsoundGUIMain.cpp:457) on the members
`currentPerformanceSettings.orcName` and
`currentGlobalSettings.textEditorProgram`: the argument tokens of the call of
`runCmd`, `none` when it returns before. -/
def editOrcFile (orcName textEditorProgram : List Char) : Option (List (List Char)) :=
  if isEmptyString orcName ∨ isEmptyString textEditorProgram then none
  else some (runCmd_args (editCmdLine textEditorProgram orcName))

/-- `CsoundGUIMain::editScoreFile` (CsoundGUIMain.cpp:471). -/
def editScoreFile (scoName textEditorProgram : List Char) : Option (List (List Char)) :=
  if isEmptyString scoName ∨ isEmptyString textEditorProgram then none
  else some (runCmd_args (editCmdLine textEditorProgram scoName))

/-- `CsoundGUIMain::editSoundFile` (CsoundGUIMain.cpp:485); the outer `none`
is the undefined device number of `isRtAudioDevice`. -/
def editSoundFile (fileName_ : Option (List Char)) (soundEditorProgram : List Char) :
    Option (Option (List (List Char))) :=
  let fileName := stripString [] fileName_
  if toInt32 fileName.length = 0 ∨ isEmptyString soundEditorProgram then some none
  else
    match isRtAudioDevice fileName true with
    | none => none
    | some true => some none
    | some false => some (some (runCmd_args (editCmdLine soundEditorProgram fileName)))

/-! ## Reference functions for the front end -/

/-- Modelled on the words of the claim: the substring from the first to the
last character that is not white space. -/
def spec_strip (s : List Char) : List Char :=
  (s.dropWhile isWhiteSpace).rdropWhile isWhiteSpace

/-- Modelled on the words of the claim: the name is a prefix `P` followed by a
rest `R`; `P` is "devaudio", or "dac" for an output, or "adc" for an input; `R`
is empty, or begins with ':', or is a non-empty string of decimal digits whose
value is at most 1023. -/
def spec_isRtAudioDevice (name : List Char) (isOutput : Bool) : Prop :=
  ∃ P R, name = P ++ R ∧
    (P = "devaudio".toList ∨ (isOutput = true ∧ P = "dac".toList) ∨
      (isOutput = false ∧ P = "adc".toList)) ∧
    (R = [] ∨ R.head? = some ':' ∨
      (R ≠ [] ∧ (∀ c ∈ R, isDecDigit c = true) ∧ valueOf 10 R ≤ 1023))

/-- The values the loop of `isRtAudioDevice` assigns to `devNum`, in order. -/
def isRtAudioDevice_devNums : Int → List Char → List Int
  | _, [] => []
  | devNum, c :: rest =>
    if c < '0' ∨ c > '9' then []
    else
      let devNum1 := devNum * 10 + ((c.toNat : Int) - 48)
      if devNum1 > INT_MAX then [devNum1]
      else if devNum1 > 1023 then [devNum1]
      else devNum1 :: isRtAudioDevice_devNums devNum1 rest

/-- The condition of the claim on the rest `R` of the name. -/
def spec_rtRest (R : List Char) : Prop :=
  R = [] ∨ R.head? = some ':' ∨
    (R ≠ [] ∧ (∀ c ∈ R, isDecDigit c = true) ∧ valueOf 10 R ≤ 1023)

/-! ## Reference functions for the tokens of `runCmd` -/

/-- Modelled on the words of the claim: the command line with every double
quote and every white-space character outside a quoted region removed;
`quoted` tells whether the text starts inside a quoted region. -/
def spec_unquote : Bool → List Char → List Char
  | _, [] => []
  | quoted, c :: t =>
    if c = DQUOTE then spec_unquote (!quoted) t
    else if isWhiteSpace c = true ∧ quoted = false then spec_unquote quoted t
    else c :: spec_unquote quoted t

/-- Whether a text that starts outside (`false`) or inside (`true`) a quoted
region ends inside one. -/
def endsQuoted : Bool → List Char → Bool
  | quoted, [] => quoted
  | quoted, c :: t => if c = DQUOTE then endsQuoted (!quoted) t else endsQuoted quoted t

/-- The modes of `runCmd`: 0 with an empty token, 1 or 2. -/
def RunCmdLocals.WF (L : RunCmdLocals) : Prop :=
  (L.mode = 0 ∧ L.curToken = []) ∨ L.mode = 1 ∨ L.mode = 2

/-! ## Reference functions for the words of a command -/

/-- Modelled on the words of the claim: the white-space-separated words of a
text. -/
def spec_words (e : List Char) : List (List Char) :=
  (e.splitOnP isWhiteSpace).filter (fun w => decide (w ≠ []))

/-- The words of a text that continues the word `cur`. -/
def wordsFrom (cur e : List Char) : List (List Char) :=
  ((e.splitOnP isWhiteSpace).modifyHead (fun h => cur ++ h)).filter (fun w => decide (w ≠ []))

/-! ## Reading the time display -/

/-- The value of the decimal digit character `c`. -/
def digitOf (c : Char) : Int := (c.toNat : Int) - 48

/-- Whether `c` is one of the characters '0' to '9'. -/
def isDigitChar (c : Char) : Prop := 48 ≤ c.toNat ∧ c.toNat ≤ 57

/-- The hours a display shows: the hundreds (nothing for a blank), the tens and
the units. -/
def hoursOf (h H1 H2 : Char) : Int :=
  (if h = ' ' then 0 else digitOf h) * 100 + digitOf H1 * 10 + digitOf H2

/-- The number two digit characters show. -/
def twoDigits (a b : Char) : Int := digitOf a * 10 + digitOf b

/-- The text of the display for a negative time. -/
def noTimeText : List Char := "  --:--:--.-".toList

/-- The display of `setTimeDisplay` after a call that returned. -/
def displayOf : Outcome CsoundGUIMain → Option (List Char)
  | Outcome.ret self => some self.scoreTimeDisplay
  | _ => none

/-- The remembered count and the display are in step: the count is -1 only
while the display shows the text for a negative time. -/
def inStep (self : CsoundGUIMain) : Prop :=
  self.prvTime = -1 → self.scoreTimeDisplay = noTimeText

/-- A value of the IEEE 754 format binary64: the finite values are
`(-1)^neg * m * 2^e` (with `m < 2^53`), and there are two infinities and the
NaNs. -/
inductive binary64 where
  | finite (neg : Bool) (m : Nat) (e : Int)
  | inf (neg : Bool)
  | nan
deriving DecidableEq, Repr

/-- The arithmetic of a machine that evaluates `timeVal * 10.0` in binary64
with rounding to nearest: the product is exact before it is rounded, and the
conversion to `int` drops the fraction. -/
def ieee : DoubleArith binary64 where
  ltZero
    | binary64.finite neg m _ => neg && decide (m ≠ 0)
    | binary64.inf neg => neg
    | binary64.nan => false
  mul10ToInt
    | binary64.finite neg m e =>
      let r := roundBits 53 (m * 10) e
      let mag : Nat := if r.2 ≥ 0 then r.1 <<< r.2.toNat else r.1 >>> (-r.2).toNat
      let v : Int := if neg then -(mag : Int) else mag
      if v < -INT_MAX - 1 ∨ v > INT_MAX then none else some v
    | binary64.inf _ => none
    | binary64.nan => none

/-- The `double` 0.3. -/
def time_0_3 : binary64 := binary64.finite false 5404319552844595 (-54)

/-- The `double` -1.0. -/
def time_minus_1 : binary64 := binary64.finite true 1 0

/-! ## The writes of `sprintf_opcode` into its segment buffer -/

/-- The values of the local variables of `sprintf_opcode` when its loop starts
(str_ops.c:214-219). -/
def SprintfLocals.initial (p : SPRINTF_OP) : SprintfLocals :=
  { len := 0, numVals := (p.INOCOUNT : Int) - 1, strCode := p.XSTRCODE >>> 1, strseg := [],
    fmt := 0, j := 0, segwaiting := none }

/-- The loop of `sprintf_opcode` as `sprintf_loop` has it, with a record of
every iteration: the offset `fmt` at its start and the indices of `strseg` it
stores into, in order (`strseg[i++] = *fmt++` at str_ops.c:236, 240, 241 and
321, `strseg[i] = '\0'` at 247).  The second component is the result of the
loop. -/
def sprintf_traced (libc_snprintf : List Char → FmtVal → Option (List Char))
    (p : SPRINTF_OP) (maxLen : Int) :
    Nat → SprintfLocals → ENVIRON → List (Nat × List Nat) × Option (Outcome (Int × ENVIRON))
  | 0, _, _ => ([], none)
  | fuel + 1, L, csound =>
    let i := L.strseg.length
    if i ≥ 2047 then
      ([(L.fmt, [])], some (sprintf_err csound "sprintf: format string too long"))
    else
      match (csound.mem p.sfmt).get? L.fmt with
      | none => ([(L.fmt, [])], some Outcome.undef)
      | some c =>
        if c ≠ '%' ∧ c ≠ NUL then
          let r := sprintf_traced libc_snprintf p maxLen fuel
            { L with strseg := L.strseg ++ [c], fmt := L.fmt + 1 } csound
          ((L.fmt, [i]) :: r.1, r.2)
        else
          match sprintf_pair (csound.mem p.sfmt) L.fmt c with
          | none => ([(L.fmt, [])], some Outcome.undef)
          | some true =>
            let r := sprintf_traced libc_snprintf p maxLen fuel
              { L with strseg := L.strseg ++ ['%', '%'], fmt := L.fmt + 2 } csound
            ((L.fmt, [i, i + 1]) :: r.1, r.2)
          | some false =>
            let w0 : List Nat := if L.segwaiting.isSome then [i] else []
            match sprintf_flush libc_snprintf p maxLen L csound with
            | Except.error e => ([(L.fmt, w0)], some e)
            | Except.ok (L1, csound1) =>
              match sprintf_next p L1 csound1 with
              | Except.error e => ([(L.fmt, w0)], some e)
              | Except.ok L2 =>
                let r := sprintf_traced libc_snprintf p maxLen fuel L2 csound1
                ((L.fmt, w0 ++ [L1.strseg.length]) :: r.1, r.2)

/-- The record of the iterations of the loop in a call of `sprintf_opcode`. -/
def sprintf_opcode_trace (libc_snprintf : List Char → FmtVal → Option (List Char))
    (csound : ENVIRON) (p : SPRINTF_OP) : List (Nat × List Nat) :=
  (sprintf_traced libc_snprintf p csound.strVarMaxLen ((csound.mem p.sfmt).length + 1)
    (SprintfLocals.initial p) csound).1

/-- An engine state whose string cell 1 holds a format of 2047 letters. -/
def longFormatEnviron : ENVIRON :=
  { sampleEnviron with
    mem := fun a => if a = 1 then List.replicate 2047 'a' ++ [NUL] else sampleEnviron.mem a }

/-- A data block of `sprintf` with the format in cell 1, the output in cell 0
and no value argument. -/
def sampleSprintf : SPRINTF_OP :=
  { r := 0, sfmt := 1, args := [], XSTRCODE := 1, XINCODE := 0 }

/-! ## Reference functions for the arguments of `sprintf` -/

/-- The first letter of a text, `NUL` when it has none: the conversion
character of the specifier whose '%' stands before the text. -/
def spec_conversionLetter (t : List Char) : Char := (t.find? isalpha).getD NUL

/-- Modelled on the words of the claim: the conversion specifiers of a format,
one for each '%' that is not part of a '%%' pair, each given by its conversion
character. -/
def spec_conversions : List Char → List Char
  | [] => []
  | [c] => if c = '%' then [NUL] else []
  | c :: d :: t =>
    if c = '%' then
      if d = '%' then spec_conversions t
      else spec_conversionLetter (d :: t) :: spec_conversions (d :: t)
    else spec_conversions (d :: t)

/-- Whether value argument `k` (counted from 0) of `sprintf` is a string: bit
`k + 1` of `XSTRCODE`. -/
def SPRINTF_OP.isStringArg (p : SPRINTF_OP) (k : Nat) : Bool := p.XSTRCODE.testBit (k + 1)

/-- Modelled on the words of the claim: the arguments do not match the format
when their number differs from the number of conversion specifiers, or when at
some position the conversion is %s and the argument is not a string, or the
conversion is not %s and the argument is a string. -/
def spec_mismatch (p : SPRINTF_OP) (format : List Char) : Prop :=
  p.args.length ≠ (spec_conversions format).length ∨
  ∃ k c, (spec_conversions format).get? k = some c ∧ k < p.args.length ∧
    ((c = 's' ∧ p.isStringArg k = false) ∨ (c ≠ 's' ∧ p.isStringArg k = true))

/-- A library `snprintf` for the examples: the text for the format "%s" and a
string is the string; every other format is given back as it is. -/
def sampleSnprintf (seg : List Char) (v : FmtVal) : Option (List Char) :=
  match v with
  | FmtVal.str s => if seg = ['%', 's'] then some s else some seg
  | _ => some seg

/-- A state with string variables of 8 bytes in which cell 0 holds "%s%d" and
cell 1 holds "ab". -/
def formatEnviron : ENVIRON :=
  { sampleEnviron with
    mem := fun a =>
      if a = 0 then ['%', 's', '%', 'd', NUL, NUL, NUL, NUL]
      else if a = 1 then ['a', 'b', NUL, NUL, NUL, NUL, NUL, NUL]
      else [NUL, NUL, NUL, NUL, NUL, NUL, NUL, NUL] }

/-- The messages of the error returns of `sprintf_opcode`. -/
def sprintfMessages : List String :=
  ["sprintf: a-rate argument not allowed", "sprintf: format string too long",
   "sprintf: insufficient arguments for format",
   "sprintf: argument type inconsistent with format",
   "sprintf: output argument may not be the same as any of the input args",
   "sprintf: invalid format string", "sprintf: buffer overflow",
   "sprintf: too many arguments for format"]

/-- The conversions still to be matched with arguments do not match them:
`convs` are the conversion characters ahead and `j` arguments are used up. -/
def mismatchFrom (p : SPRINTF_OP) (j : Nat) (convs : List Char) : Prop :=
  (p.args.length : Int) - j ≠ convs.length ∨
  ∃ k c, convs.get? k = some c ∧ j + k < p.args.length ∧
    ((c = 's' ∧ p.isStringArg (j + k) = false) ∨ (c ≠ 's' ∧ p.isStringArg (j + k) = true))

/-- What holds of the local variables at the head of every iteration of the
loop of `sprintf_opcode` when the output cell is not the format cell: the
format buffer is `B`, the output buffer has `maxLen` bytes, `len` is inside it,
`j` arguments are used up and `numVals` are left, `strCode` holds the type
bits of the arguments left, and the build has `snprintf`. -/
def SprintfInv (p : SPRINTF_OP) (maxLen : Int) (B : List Char) (L : SprintfLocals)
    (cs : ENVIRON) : Prop :=
  cs.mem p.sfmt = B ∧ ((cs.mem p.r).length : Int) = maxLen ∧ 0 ≤ L.len ∧ L.len < maxLen ∧
  L.j ≤ p.args.length ∧ L.numVals = (p.args.length : Int) - L.j ∧
  L.strCode = p.XSTRCODE >>> (L.j + 1) ∧ cs.HAVE_SNPRINTF = true

/-- The conversion character of the segment that waits to be printed, if one
waits. -/
def pendingConv (B : List Char) (L : SprintfLocals) : List Char :=
  match L.segwaiting with
  | none => []
  | some sw => [(B.get? sw).getD NUL]

/-! ## The `Die` of `sprintf` in a build without `snprintf` -/

/-- C9: in every entry of `localops`, bit 1 of `thread` is set exactly when
`iopadr` is not null, bit 2 exactly when `kopadr` is not null and bit 4 exactly
when `aopadr` is not null. -/
theorem localops_thread_agrees_with_entry_points :
    ∀ ep ∈ localops,
      (ep.thread &&& 1 ≠ 0 ↔ ep.iopadr ≠ none) ∧
      (ep.thread &&& 2 ≠ 0 ↔ ep.kopadr ≠ none) ∧
      (ep.thread &&& 4 ≠ 0 ↔ ep.aopadr ≠ none) := by
  decide

/-- Bitwise or of two naturals is zero only when both are. -/
theorem nat_lor_eq_zero (m n : Nat) : m ||| n = 0 ↔ m = 0 ∧ n = 0 := by
  constructor
  · intro h
    have hb : ∀ i, (m ||| n).testBit i = false := by simp [h]
    constructor <;> apply Nat.eq_of_testBit_eq <;> intro i <;> have := hb i <;>
      simp [Nat.testBit_or] at this ⊢ <;> tauto
  · rintro ⟨rfl, rfl⟩; rfl

/-- Bitwise or of two C integers is zero only when both are. -/
theorem int_lor_eq_zero (a b : Int) : Int.lor a b = 0 ↔ a = 0 ∧ b = 0 := by
  cases a <;> cases b <;> simp [Int.lor]
  · rename_i m n
    constructor
    · intro h
      have : (m ||| n : Nat) = 0 := by exact_mod_cast h
      exact (nat_lor_eq_zero m n).mp this
    · rintro ⟨rfl, rfl⟩; rfl

/-- C8: `csoundModuleInit` appends the nine entries of `localops` that stand
before the closing entry, each once and in table order, whatever the earlier
calls returned; it returns the bitwise or of the nine results, which is 0
exactly when every result is 0. -/
theorem csoundModuleInit_appends_all (csound : CSOUND) :
    localops.takeWhile (fun ep => ep.opname.isSome) = localops.take 9 ∧
    (localops.take 9).length = 9 ∧
    csoundModuleInit csound =
      Outcome.ret (((List.range 9).map (appendResult csound)).foldl Int.lor 0,
        { csound with registry := csound.registry ++ localops.take 9 }) ∧
    (((List.range 9).map (appendResult csound)).foldl Int.lor 0 = 0 ↔
      ∀ k < 9, appendResult csound k = 0) := by
  refine ⟨by decide, by decide, ?_, ?_⟩
  · simp [csoundModuleInit, csoundModuleInit_loop, localops, CSOUND.AppendOpcode,
      appendResult, List.range, List.range.loop]
  · simp only [List.range, List.range.loop, List.map, List.foldl, int_lor_eq_zero]
    constructor
    · intro h k hk
      interval_cases k <;> simp_all
    · intro h
      simp [h 0, h 1, h 2, h 3, h 4, h 5, h 6, h 7, h 8]

/-! ## Effects of the entry points of `fluidOpcodes.c` -/



theorem fluid_getGlobals_cases (csound : CSOUND) :
    (csound.globals = none ∧ csound.createFails = true ∧
      fluid_getGlobals csound = Outcome.die "fluid: error allocating globals") ∨
    (∃ pp, fluid_getGlobals csound = Outcome.ret (pp, { csound with globals := some pp }) ∧
      pp.fluid_engines = csound.engines ∧ pp.cnt = csound.cnt ∧
      (csound.globals = none → csound.createFails = false)) := by
  unfold fluid_getGlobals fluid_allocGlobals CSOUND.engines CSOUND.cnt
  cases hg : csound.globals with
  | none =>
    cases hc : csound.createFails with
    | true => left; simp
    | false => right; exact ⟨⟨[], 0⟩, by simp, rfl, rfl, by simp⟩
  | some pp =>
    right
    refine ⟨pp, ?_, rfl, rfl, by simp⟩
    simp only
    congr
    cases csound; simp_all

theorem onlyCalls_refl (cs : CSOUND) : onlyCalls cs cs := ⟨cs.calls, rfl⟩

theorem onlyCalls_trans {a b c : CSOUND} (h1 : onlyCalls a b) (h2 : onlyCalls b c) :
    onlyCalls a c := by
  obtain ⟨l1, rfl⟩ := h1
  obtain ⟨l2, rfl⟩ := h2
  exact ⟨l2, rfl⟩

theorem onlyCalls_call (cs : CSOUND) (c : FluidCall) : onlyCalls cs (cs.call c) := ⟨_, rfl⟩

theorem fluidOut_loop_frame (ksmps : Int) : ∀ (fuel : Nat) (i : Int) (cs : CSOUND) (q : FLUIDOUT)
    (cs1 : CSOUND) (q1 : FLUIDOUT),
    fluidOut_loop ksmps fuel i cs q = some (cs1, q1) → onlyCalls cs cs1 := by
  intro fuel
  induction fuel with
  | zero => intro i cs q cs1 q1 h; simp [fluidOut_loop] at h
  | succ f ih =>
    intro i cs q cs1 q1 h
    simp only [fluidOut_loop, write_frame] at h
    split at h
    · exact onlyCalls_trans (onlyCalls_call _ _) (ih _ _ _ _ _ h)
    · simp only [Option.some.injEq, Prod.mk.injEq] at h
      rw [← h.1]; exact onlyCalls_call _ _

theorem fluidOut_loop_isSome (ksmps : Int) : ∀ (fuel : Nat) (i : Int) (cs : CSOUND) (q : FLUIDOUT),
    ksmps - i < fuel → 0 < fuel → (fluidOut_loop ksmps fuel i cs q).isSome := by
  intro fuel
  induction fuel with
  | zero => intro i cs q h h0; omega
  | succ f ih =>
    intro i cs q h _
    simp only [fluidOut_loop, write_frame]
    split
    · exact ih _ _ _ (by omega) (by omega)
    · rfl

theorem fluidAllOut_inner_frame (i : Nat) : ∀ (fuel : Nat) (j : Int) (cs : CSOUND) (q : FLUIDALLOUT)
    (cs1 : CSOUND) (q1 : FLUIDALLOUT),
    fluidAllOut_inner i fuel j cs q = some (some (cs1, q1)) → onlyCalls cs cs1 ∧ q1.cnt = q.cnt := by
  intro fuel
  induction fuel with
  | zero => intro j cs q cs1 q1 h; simp [fluidAllOut_inner] at h
  | succ f ih =>
    intro j cs q cs1 q1 h
    simp only [fluidAllOut_inner, write_frame] at h
    split at h
    · simp at h
    · split at h
      · have := ih _ _ _ _ _ h
        exact ⟨onlyCalls_trans (onlyCalls_call _ _) this.1, this.2⟩
      · simp only [Option.some.injEq, Prod.mk.injEq] at h
        rw [← h.1, ← h.2]; exact ⟨onlyCalls_call _ _, rfl⟩

theorem fluidAllOut_outer_frame (ksmps : Int) : ∀ (fuel : Nat) (i : Int) (cs : CSOUND)
    (q : FLUIDALLOUT) (cs1 : CSOUND) (q1 : FLUIDALLOUT),
    fluidAllOut_outer ksmps fuel i cs q = some (some (cs1, q1)) → onlyCalls cs cs1 := by
  intro fuel
  induction fuel with
  | zero => intro j cs q cs1 q1 h; simp [fluidAllOut_outer] at h
  | succ f ih =>
    intro i cs q cs1 q1 h
    simp only [fluidAllOut_outer] at h
    split at h
    · simp at h
    · simp at h
    · rename_i cs2 q2 heq
      have h2 := (fluidAllOut_inner_frame _ _ _ _ _ _ _ heq).1
      split at h
      · exact onlyCalls_trans h2 (ih _ _ _ _ _ h)
      · simp only [Option.some.injEq, Prod.mk.injEq] at h
        rw [← h.1]; exact h2

theorem listPresets_frame (sf : Int) (l : List (Int × Int × String)) :
    ∀ cs : CSOUND, (listPresets cs sf l).globals = cs.globals ∧
      (listPresets cs sf l).createFails = cs.createFails := by
  induction l with
  | nil => intro cs; simp [listPresets]
  | cons a l ih =>
    intro cs
    obtain ⟨b, n, nm⟩ := a
    simp only [listPresets]
    rw [(ih _).1, (ih _).2]
    simp [CSOUND.Message]

theorem fluidEffect_of_onlyCalls {cs cs1 : CSOUND} (h : onlyCalls cs cs1) :
    FluidEffect cs cs1 OK := by
  obtain ⟨l, rfl⟩ := h
  simp [FluidEffect, sameTable, reportedInit, CSOUND.engines, CSOUND.cnt]

theorem fluidEffect_getGlobals {cs cs1 : CSOUND} {pp : fluidSynthGlobals} {st : Int}
    (he : pp.fluid_engines = cs.engines) (hc : pp.cnt = cs.cnt)
    (h : FluidEffect { cs with globals := some pp } cs1 st) : FluidEffect cs cs1 st := by
  simp only [FluidEffect, sameTable, reportedInit, CSOUND.engines, CSOUND.cnt] at h ⊢
  simp only [CSOUND.engines, CSOUND.cnt] at he hc
  obtain ⟨⟨h1, h2, h3⟩, h4⟩ := h
  exact ⟨⟨h1, by rw [h2, he], by rw [h3, hc]⟩, h4⟩

theorem fluidProgramSelect_ret (csound : CSOUND) (p : FLUID_PROGRAM_SELECT) (st : Int) (cs1 : CSOUND)
    (h : fluidProgramSelectIopadr csound p = Outcome.ret (st, cs1)) :
    FluidEffect csound cs1 st := by
  unfold fluidProgramSelectIopadr at h
  rcases fluid_getGlobals_cases csound with ⟨_, _, hd⟩ | ⟨pp, hr, he, hc, _⟩
  · simp [hd] at h
  · simp only [hr] at h
    split at h
    · simp at h
    · simp only [Outcome.ret.injEq, Prod.mk.injEq] at h
      obtain ⟨rfl, rfl⟩ := h
      exact fluidEffect_getGlobals he hc (fluidEffect_of_onlyCalls (onlyCalls_call _ _))

theorem fluidCC_I_ret (csound : CSOUND) (p : FLUID_CC) (st : Int) (cs1 : CSOUND) (p1 : FLUID_CC)
    (h : fluidCC_I_Iopadr csound p = Outcome.ret (st, cs1, p1)) :
    FluidEffect csound cs1 st := by
  unfold fluidCC_I_Iopadr at h
  rcases fluid_getGlobals_cases csound with ⟨_, _, hd⟩ | ⟨pp, hr, he, hc, _⟩
  · simp [hd] at h
  · simp only [hr] at h
    split at h
    · simp at h
    · simp only [Outcome.ret.injEq, Prod.mk.injEq] at h
      obtain ⟨rfl, rfl, _⟩ := h
      exact fluidEffect_getGlobals he hc (fluidEffect_of_onlyCalls (onlyCalls_call _ _))

theorem fluidCC_K_I_ret (csound : CSOUND) (p : FLUID_CC) (st : Int) (cs1 : CSOUND) (p1 : FLUID_CC)
    (h : fluidCC_K_Iopadr csound p = Outcome.ret (st, cs1, p1)) :
    FluidEffect csound cs1 st := by
  unfold fluidCC_K_Iopadr at h
  rcases fluid_getGlobals_cases csound with ⟨_, _, hd⟩ | ⟨pp, hr, he, hc, _⟩
  · simp [hd] at h
  · simp only [hr] at h
    split at h
    · simp at h
    · simp only [Outcome.ret.injEq, Prod.mk.injEq] at h
      obtain ⟨rfl, rfl, _⟩ := h
      exact fluidEffect_getGlobals he hc (fluidEffect_of_onlyCalls (onlyCalls_refl _))

theorem fluidCC_K_K_ret (csound : CSOUND) (p : FLUID_CC) (st : Int) (cs1 : CSOUND) (p1 : FLUID_CC)
    (h : fluidCC_K_Kopadr csound p = Outcome.ret (st, cs1, p1)) :
    FluidEffect csound cs1 st := by
  unfold fluidCC_K_Kopadr at h
  by_cases hv : castInt p.kVal ≠ p.priorMidiValue
  · rw [if_pos hv] at h
    simp only [Outcome.ret.injEq, Prod.mk.injEq] at h
    obtain ⟨rfl, rfl, _⟩ := h
    exact fluidEffect_of_onlyCalls (onlyCalls_call _ _)
  · rw [if_neg hv] at h
    simp only [Outcome.ret.injEq, Prod.mk.injEq] at h
    obtain ⟨rfl, rfl, _⟩ := h
    exact fluidEffect_of_onlyCalls (onlyCalls_refl _)

theorem fluidNoteTurnoff_ret (csound : CSOUND) (p : FLUID_NOTE) (st : Int) (cs1 : CSOUND)
    (p1 : FLUID_NOTE) (h : fluidNoteTurnoff csound p = Outcome.ret (st, cs1, p1)) :
    onlyCalls csound cs1 ∧ st = OK := by
  unfold fluidNoteTurnoff at h
  by_cases hv : p.initDone ≠ 0
  · rw [if_pos hv] at h
    simp only [Outcome.ret.injEq, Prod.mk.injEq] at h
    obtain ⟨rfl, rfl, _⟩ := h
    exact ⟨onlyCalls_call _ _, rfl⟩
  · rw [if_neg hv] at h
    simp only [Outcome.ret.injEq, Prod.mk.injEq] at h
    obtain ⟨rfl, rfl, _⟩ := h
    exact ⟨onlyCalls_refl _, rfl⟩

theorem fluidNoteKopadr_ret (csound : CSOUND) (p : FLUID_NOTE) (st : Int) (cs1 : CSOUND)
    (p1 : FLUID_NOTE) (h : fluidNoteKopadr csound p = Outcome.ret (st, cs1, p1)) :
    onlyCalls csound cs1 ∧ st = OK := by
  unfold fluidNoteKopadr at h
  by_cases hr : p.relesing ≠ 0
  · rw [if_pos hr] at h
    by_cases hv : p.initDone ≠ 0
    · rw [if_pos hv] at h
      cases ht : fluidNoteTurnoff csound p with
      | undef => simp [ht] at h
      | die msg => simp [ht] at h
      | ret v =>
        obtain ⟨s2, cs2, p2⟩ := v
        simp only [ht, Outcome.ret.injEq, Prod.mk.injEq] at h
        obtain ⟨rfl, rfl, _⟩ := h
        exact ⟨(fluidNoteTurnoff_ret _ _ _ _ _ ht).1, rfl⟩
    · rw [if_neg hv] at h
      simp only [Outcome.ret.injEq, Prod.mk.injEq] at h
      obtain ⟨rfl, rfl, _⟩ := h
      exact ⟨onlyCalls_refl _, rfl⟩
  · rw [if_neg hr] at h
    simp only [Outcome.ret.injEq, Prod.mk.injEq] at h
    obtain ⟨rfl, rfl, _⟩ := h
    exact ⟨onlyCalls_refl _, rfl⟩

theorem fluidNoteIopadr_ret (csound : CSOUND) (p : FLUID_NOTE) (st : Int) (cs1 : CSOUND)
    (p1 : FLUID_NOTE) (h : fluidNoteIopadr csound p = Outcome.ret (st, cs1, p1)) :
    FluidEffect csound cs1 st := by
  unfold fluidNoteIopadr at h
  rcases fluid_getGlobals_cases csound with ⟨_, _, hd⟩ | ⟨pp, hr, he, hc, _⟩
  · simp [hd] at h
  · simp only [hr] at h
    split at h
    · simp at h
    · rename_i e _
      by_cases hi : p.initDone ≠ 0
      · simp only [hi, ne_eq, not_false_eq_true, if_true, fluidNoteTurnoff] at h
        simp only [Outcome.ret.injEq, Prod.mk.injEq] at h
        obtain ⟨rfl, rfl, _⟩ := h
        refine fluidEffect_getGlobals he hc ?_
        simp [FluidEffect, sameTable, reportedInit, CSOUND.engines, CSOUND.cnt, CSOUND.call]
      · simp only [hi, if_false] at h
        simp only [Outcome.ret.injEq, Prod.mk.injEq] at h
        obtain ⟨rfl, rfl, _⟩ := h
        refine fluidEffect_getGlobals he hc ?_
        simp [FluidEffect, sameTable, reportedInit, CSOUND.engines, CSOUND.cnt, CSOUND.call]

theorem fluidEffect_listPresets {cs cs1 : CSOUND} (sf : Int) (l : List (Int × Int × String))
    (h : sameTable cs cs1) : FluidEffect cs (listPresets cs1 sf l) OK := by
  refine ⟨?_, Or.inl rfl⟩
  simp only [sameTable, CSOUND.engines, CSOUND.cnt] at h ⊢
  rw [(listPresets_frame sf l cs1).1, (listPresets_frame sf l cs1).2]
  exact h

theorem fluidEffect_InitError {cs cs1 : CSOUND} (msg : String) (h : sameTable cs cs1)
    (hl : ∃ pre, cs1.log = cs.log ++ pre) : FluidEffect cs (cs1.InitError msg) NOTOK := by
  obtain ⟨pre, hl⟩ := hl
  refine ⟨?_, Or.inr ⟨rfl, pre, msg, ?_⟩⟩
  · simpa [sameTable, CSOUND.engines, CSOUND.cnt, CSOUND.InitError] using h
  · simp [CSOUND.InitError, hl]

theorem sameTable_refl (cs : CSOUND) : sameTable cs cs := ⟨rfl, rfl, rfl⟩

theorem fluidLoad_sfload_ret (cs : CSOUND) (pp : fluidSynthGlobals) (n : Int) (f : List Char)
    (sf : Int) (cs1 : CSOUND) (h : fluidLoad_sfload cs pp n f = Outcome.ret (sf, cs1)) :
    sameTable cs cs1 ∧ ∃ pre, cs1.log = cs.log ++ pre := by
  unfold fluidLoad_sfload at h
  cases hf : cs.FindInputFile f with
  | none =>
    simp only [hf, Outcome.ret.injEq, Prod.mk.injEq] at h
    obtain ⟨_, rfl⟩ := h
    exact ⟨sameTable_refl _, [], by simp⟩
  | some fullpath =>
    simp only [hf] at h
    by_cases hs : cs.fluid_is_soundfont fullpath = true
    · rw [if_pos hs] at h
      cases he : pp.engine n with
      | none => simp [he] at h
      | some e =>
        simp only [he, Outcome.ret.injEq, Prod.mk.injEq] at h
        obtain ⟨_, rfl⟩ := h
        exact ⟨by simp [sameTable, CSOUND.engines, CSOUND.cnt, CSOUND.call, CSOUND.Message],
          [Event.Message _], rfl⟩
    · rw [if_neg hs] at h
      simp only [Outcome.ret.injEq, Prod.mk.injEq] at h
      obtain ⟨_, rfl⟩ := h
      exact ⟨sameTable_refl _, [], by simp⟩

theorem fluidLoad_ret (csound : CSOUND) (p : FLUIDLOAD) (st : Int) (cs1 : CSOUND)
    (p1 : FLUIDLOAD) (h : fluidLoadIopadr csound p = Outcome.ret (st, cs1, p1)) :
    FluidEffect csound cs1 st := by
  unfold fluidLoadIopadr at h
  rcases fluid_getGlobals_cases csound with ⟨_, _, hd⟩ | ⟨pp, hr, he, hc, _⟩
  · simp [hd] at h
  · simp only [hr] at h
    refine fluidEffect_getGlobals he hc ?_
    by_cases hchk : castInt p.iEngineNum ≥ toInt32 pp.cnt ∨ castInt p.iEngineNum < 0
    · rw [if_pos hchk] at h
      simp only [Outcome.ret.injEq, Prod.mk.injEq] at h
      obtain ⟨rfl, rfl, _⟩ := h
      exact fluidEffect_InitError _ (sameTable_refl _) ⟨[], by simp⟩
    · rw [if_neg hchk] at h
      cases hl : fluidLoad_sfload { csound with globals := some pp } pp (castInt p.iEngineNum)
          p.filename with
      | undef => simp [hl] at h
      | die msg => simp [hl] at h
      | ret v =>
        obtain ⟨sf, cs2⟩ := v
        obtain ⟨ht, hlog⟩ := fluidLoad_sfload_ret _ _ _ _ _ _ hl
        simp only [hl] at h
        by_cases hneg : sf < 0
        · rw [if_pos hneg] at h
          simp only [Outcome.ret.injEq, Prod.mk.injEq] at h
          obtain ⟨rfl, rfl, _⟩ := h
          exact fluidEffect_InitError _ ht hlog
        · rw [if_neg hneg] at h
          by_cases hp : p.iListPresets ≠ 0
          · rw [if_pos hp] at h
            cases hen : pp.engine (castInt p.iEngineNum) with
            | none => simp [hen] at h
            | some e =>
              simp only [hen, Outcome.ret.injEq, Prod.mk.injEq] at h
              obtain ⟨rfl, rfl, _⟩ := h
              exact fluidEffect_listPresets _ _ ht
          · rw [if_neg hp] at h
            simp only [Outcome.ret.injEq, Prod.mk.injEq] at h
            obtain ⟨rfl, rfl, _⟩ := h
            exact ⟨ht, Or.inl rfl⟩

theorem fluidOutIopadr_ret (csound : CSOUND) (p : FLUIDOUT) (st : Int) (cs1 : CSOUND)
    (p1 : FLUIDOUT) (h : fluidOutIopadr csound p = Outcome.ret (st, cs1, p1)) :
    FluidEffect csound cs1 st := by
  unfold fluidOutIopadr at h
  rcases fluid_getGlobals_cases csound with ⟨_, _, hd⟩ | ⟨pp, hr, he, hc, _⟩
  · simp [hd] at h
  · simp only [hr] at h
    refine fluidEffect_getGlobals he hc ?_
    by_cases hchk : castInt p.iEngineNum ≥ toInt32 pp.cnt ∨ castInt p.iEngineNum < 0
    · rw [if_pos hchk] at h
      simp only [Outcome.ret.injEq, Prod.mk.injEq] at h
      obtain ⟨rfl, rfl, _⟩ := h
      exact fluidEffect_InitError _ (sameTable_refl _) ⟨[], by simp⟩
    · rw [if_neg hchk] at h
      cases hen : pp.engine (castInt p.iEngineNum) with
      | none => simp [hen] at h
      | some e =>
        simp only [hen, Outcome.ret.injEq, Prod.mk.injEq] at h
        obtain ⟨rfl, rfl, _⟩ := h
        exact ⟨sameTable_refl _, Or.inl rfl⟩

theorem fluidOutAopadr_ret (csound : CSOUND) (p : FLUIDOUT) (st : Int) (cs1 : CSOUND)
    (p1 : FLUIDOUT) (h : fluidOutAopadr csound p = Outcome.ret (st, cs1, p1)) :
    FluidEffect csound cs1 st := by
  unfold fluidOutAopadr at h
  cases hl : fluidOut_loop csound.ksmps (csound.ksmps.toNat + 1) 0 csound p with
  | none => simp [hl] at h
  | some v =>
    obtain ⟨cs2, p2⟩ := v
    simp only [hl, Outcome.ret.injEq, Prod.mk.injEq] at h
    obtain ⟨rfl, rfl, _⟩ := h
    exact fluidEffect_of_onlyCalls (fluidOut_loop_frame _ _ _ _ _ _ _ hl)

theorem fluidAllOutIopadr_ret (csound : CSOUND) (p : FLUIDALLOUT) (st : Int) (cs1 : CSOUND)
    (p1 : FLUIDALLOUT) (h : fluidAllOutIopadr csound p = Outcome.ret (st, cs1, p1)) :
    FluidEffect csound cs1 st := by
  unfold fluidAllOutIopadr at h
  rcases fluid_getGlobals_cases csound with ⟨_, _, hd⟩ | ⟨pp, hr, he, hc, _⟩
  · simp [hd] at h
  · simp only [hr, Outcome.ret.injEq, Prod.mk.injEq] at h
    obtain ⟨rfl, rfl, _⟩ := h
    exact fluidEffect_getGlobals he hc ⟨sameTable_refl _, Or.inl rfl⟩

theorem fluidAllOutAopadr_ret (csound : CSOUND) (p : FLUIDALLOUT) (st : Int) (cs1 : CSOUND)
    (p1 : FLUIDALLOUT) (h : fluidAllOutAopadr csound p = Outcome.ret (st, cs1, p1)) :
    FluidEffect csound cs1 st := by
  unfold fluidAllOutAopadr at h
  by_cases hc : p.cnt ≤ 0
  · rw [if_pos hc] at h
    simp only [Outcome.ret.injEq, Prod.mk.injEq] at h
    obtain ⟨rfl, rfl, _⟩ := h
    exact ⟨sameTable_refl _, Or.inl rfl⟩
  · rw [if_neg hc] at h
    cases hl : fluidAllOut_outer csound.ksmps (csound.ksmps.toNat + 1) 0 csound p with
    | none => simp [hl] at h
    | some v =>
      cases v with
      | none => simp [hl] at h
      | some w =>
        obtain ⟨cs2, p2⟩ := w
        simp only [hl, Outcome.ret.injEq, Prod.mk.injEq] at h
        obtain ⟨rfl, rfl, _⟩ := h
        exact fluidEffect_of_onlyCalls (fluidAllOut_outer_frame _ _ _ _ _ _ _ hl)

theorem fluidControl_init_ret (csound : CSOUND) (p : FLUIDCONTROL) (st : Int) (cs1 : CSOUND)
    (p1 : FLUIDCONTROL) (h : fluidControl_init csound p = Outcome.ret (st, cs1, p1)) :
    FluidEffect csound cs1 st := by
  unfold fluidControl_init at h
  rcases fluid_getGlobals_cases csound with ⟨_, _, hd⟩ | ⟨pp, hr, he, hc, _⟩
  · simp [hd] at h
  · simp only [hr] at h
    cases hen : pp.engine (castInt p.iFluidEngine) with
    | none => simp [hen] at h
    | some e =>
      simp only [hen, Outcome.ret.injEq, Prod.mk.injEq] at h
      obtain ⟨rfl, rfl, _⟩ := h
      exact fluidEffect_getGlobals he hc ⟨sameTable_refl _, Or.inl rfl⟩

theorem call_globals (cs : CSOUND) (c : FluidCall) :
    (cs.call c).globals = cs.globals ∧ (cs.call c).createFails = cs.createFails := ⟨rfl, rfl⟩

theorem MessageIf_globals (cs : CSOUND) (b : Bool) (t : String) :
    (cs.MessageIf b t).globals = cs.globals ∧ (cs.MessageIf b t).createFails = cs.createFails := by
  cases b <;> exact ⟨rfl, rfl⟩

theorem fluidControl_switch_table (cs : CSOUND) (e : fluid_synth_t) (b : Bool) (s c d1 d2 : Int) :
    sameTable cs (fluidControl_switch cs e b s c d1 d2) := by
  unfold fluidControl_switch
  simp only [sameTable, CSOUND.engines, CSOUND.cnt]
  split_ifs <;> simp [(MessageIf_globals _ _ _).1, (MessageIf_globals _ _ _).2,
    (call_globals _ _).1, (call_globals _ _).2]

theorem fluidControl_kontrol_ret (csound : CSOUND) (p : FLUIDCONTROL) (st : Int) (cs1 : CSOUND)
    (p1 : FLUIDCONTROL) (h : fluidControl_kontrol csound p = Outcome.ret (st, cs1, p1)) :
    FluidEffect csound cs1 st := by
  unfold fluidControl_kontrol at h
  simp only at h
  split at h
  · simp only [Outcome.ret.injEq, Prod.mk.injEq] at h
    obtain ⟨rfl, rfl, _⟩ := h
    exact ⟨fluidControl_switch_table _ _ _ _ _ _ _, Or.inl rfl⟩
  · simp only [Outcome.ret.injEq, Prod.mk.injEq] at h
    obtain ⟨rfl, rfl, _⟩ := h
    exact ⟨sameTable_refl _, Or.inl rfl⟩

/-! ## fluidEngine -/

theorem toInt32_small (n : Nat) (h : n < 2147483648) : toInt32 n = n := by
  have h1 : n % 4294967296 = n := Nat.mod_eq_of_lt (by omega)
  simp [toInt32, h1, h]

theorem c_realloc_succ (tbl : List fluid_synth_t) :
    c_realloc tbl (tbl.length + 1) = tbl ++ [0] := by
  simp [c_realloc, List.take_of_length_le]

theorem fluidEngine_Alloc_spec (csound : CSOUND) (e : fluid_synth_t)
    (hinv : csound.engines.length = csound.cnt)
    (hcf : csound.globals = none → csound.createFails = false) :
    fluidEngine_Alloc csound e = Outcome.ret (toInt32 csound.cnt,
      { csound with globals := some ⟨csound.engines ++ [e], csound.cnt + 1⟩ }) := by
  unfold fluidEngine_Alloc
  rcases fluid_getGlobals_cases csound with ⟨hn, hc, _⟩ | ⟨pp, hr, he, hc, _⟩
  · rw [hcf hn] at hc; cases hc
  · have hlen : pp.fluid_engines.length = pp.cnt := by rw [he, hc]; exact hinv
    simp only [hr]
    rw [← hlen, c_realloc_succ]
    simp [← he, ← hc, ← hlen]

theorem fluidEngine_new_frame (csound : CSOUND) :
    (fluidEngine_new csound).2.globals = csound.globals ∧
    (fluidEngine_new csound).2.createFails = csound.createFails ∧
    ∃ pre, (fluidEngine_new csound).2.log = csound.log ++ pre := by
  refine ⟨?_, ?_, [Event.Message ("Allocated fluidsynth with sampling rate = "
    ++ toString csound.esr ++ ".\n")], ?_⟩ <;>
  simp [fluidEngine_new, CSOUND.call, CSOUND.Message]

theorem fluidEngineIopadr_spec (csound : CSOUND) (p : FLUIDENGINE)
    (hinv : csound.engines.length = csound.cnt)
    (hcf : csound.globals = none → csound.createFails = false) :
    ∃ csound1,
      fluidEngineIopadr csound p =
        Outcome.ret (OK, csound1, { p with iEngineNum := toInt32 csound.cnt }) ∧
      csound1.globals = some ⟨csound.engines ++ [(fluidEngine_new csound).1], csound.cnt + 1⟩ ∧
      csound1.createFails = csound.createFails := by
  obtain ⟨hg, hc, _⟩ := fluidEngine_new_frame csound
  have he : (fluidEngine_new csound).2.engines = csound.engines := by
    simp only [CSOUND.engines, hg]
  have hn : (fluidEngine_new csound).2.cnt = csound.cnt := by
    simp only [CSOUND.cnt, hg]
  unfold fluidEngineIopadr
  rw [fluidEngine_Alloc_spec _ _ (by rw [he, hn]; exact hinv) (by rw [hg, hc]; exact hcf)]
  simp only [he, hn]
  exact ⟨_, rfl, rfl, hc⟩

theorem fluidEngineIopadr_calls (csound : CSOUND) (p : FLUIDENGINE) (st : Int)
    (csound1 : CSOUND) (p1 : FLUIDENGINE)
    (h : fluidEngineIopadr csound p = Outcome.ret (st, csound1, p1)) :
    csound1.calls = csound.calls ++ [FluidCall.new_fluid_settings,
      FluidCall.settings_setnum "synth.sample-rate" csound.esr,
      FluidCall.settings_setint "synth.polyphony" 4096,
      FluidCall.settings_setint "synth.midi-channels" 256,
      FluidCall.new_fluid_synth (fluidEngine_new csound).1] ∧
    (fluidEngine_new csound).1 = csound.new_fluid_synth (csound.calls ++
      [FluidCall.new_fluid_settings,
       FluidCall.settings_setnum "synth.sample-rate" csound.esr,
       FluidCall.settings_setint "synth.polyphony" 4096,
       FluidCall.settings_setint "synth.midi-channels" 256]) := by
  have hc : (fluidEngine_new csound).2.calls = csound.calls ++ [FluidCall.new_fluid_settings,
      FluidCall.settings_setnum "synth.sample-rate" csound.esr,
      FluidCall.settings_setint "synth.polyphony" 4096,
      FluidCall.settings_setint "synth.midi-channels" 256,
      FluidCall.new_fluid_synth (fluidEngine_new csound).1] := by
    simp [fluidEngine_new, CSOUND.call, CSOUND.Message]
  refine ⟨?_, by simp [fluidEngine_new, CSOUND.call]⟩
  rw [← hc]
  unfold fluidEngineIopadr fluidEngine_Alloc at h
  rcases fluid_getGlobals_cases (fluidEngine_new csound).2 with ⟨_, _, hd⟩ | ⟨pp, hr, _, _, _⟩
  · rw [hd] at h; simp at h
  · rw [hr] at h
    simp only [] at h
    by_cases hlt : pp.cnt < (c_realloc pp.fluid_engines (pp.cnt + 1)).length
    · rw [if_pos hlt] at h
      simp only [Outcome.ret.injEq, Prod.mk.injEq] at h
      obtain ⟨_, rfl, _⟩ := h
      rfl
    · rw [if_neg hlt] at h; simp at h

theorem fluidEngineIopadr_dies (csound : CSOUND) (p : FLUIDENGINE)
    (hn : csound.globals = none) (hc : csound.createFails = true) :
    fluidEngineIopadr csound p = Outcome.die "fluid: error allocating globals" := by
  obtain ⟨hg, hcf, _⟩ := fluidEngine_new_frame csound
  unfold fluidEngineIopadr fluidEngine_Alloc
  rcases fluid_getGlobals_cases (fluidEngine_new csound).2 with ⟨_, _, hd⟩ | ⟨pp, _, _, _, h4⟩
  · simp only [hd]
  · rw [hg, hcf, hc] at h4
    exact absurd (h4 hn) (by simp)

theorem dropBlock_ret {σ β : Type} (o : Outcome (Int × σ × β)) (st : Int) (cs : σ) :
    o.dropBlock = Outcome.ret (st, cs) ↔ ∃ p, o = Outcome.ret (st, cs, p) := by
  cases o with
  | undef => simp [Outcome.dropBlock]
  | die msg => simp [Outcome.dropBlock]
  | ret v =>
    obtain ⟨s2, c2, p2⟩ := v
    simp [Outcome.dropBlock]

theorem dropBlock_die {σ β : Type} (o : Outcome (Int × σ × β)) (msg : String) :
    o.dropBlock = Outcome.die msg ↔ o = Outcome.die msg := by
  cases o with
  | undef => simp [Outcome.dropBlock]
  | die msg => simp [Outcome.dropBlock]
  | ret v =>
    obtain ⟨s2, c2, p2⟩ := v
    simp [Outcome.dropBlock]

theorem fluid_exec_ret (csound : CSOUND) (op : FluidOpcode) (st : Int) (cs1 : CSOUND)
    (h : op.exec csound = Outcome.ret (st, cs1)) (hne : op.isEngine = false) :
    FluidEffect csound cs1 st := by
  cases op with
  | fluidEngineIopadr p => simp [FluidOpcode.isEngine] at hne
  | fluidProgramSelectIopadr p => exact fluidProgramSelect_ret _ _ _ _ h
  | fluidLoadIopadr p =>
    obtain ⟨p1, hr⟩ := (dropBlock_ret _ _ _).mp h
    exact fluidLoad_ret _ _ _ _ _ hr
  | fluidCC_I_Iopadr p =>
    obtain ⟨p1, hr⟩ := (dropBlock_ret _ _ _).mp h
    exact fluidCC_I_ret _ _ _ _ _ hr
  | fluidCC_K_Iopadr p =>
    obtain ⟨p1, hr⟩ := (dropBlock_ret _ _ _).mp h
    exact fluidCC_K_I_ret _ _ _ _ _ hr
  | fluidCC_K_Kopadr p =>
    obtain ⟨p1, hr⟩ := (dropBlock_ret _ _ _).mp h
    exact fluidCC_K_K_ret _ _ _ _ _ hr
  | fluidNoteTurnoff p =>
    obtain ⟨p1, hr⟩ := (dropBlock_ret _ _ _).mp h
    obtain ⟨h1, rfl⟩ := fluidNoteTurnoff_ret _ _ _ _ _ hr
    exact fluidEffect_of_onlyCalls h1
  | fluidNoteIopadr p =>
    obtain ⟨p1, hr⟩ := (dropBlock_ret _ _ _).mp h
    exact fluidNoteIopadr_ret _ _ _ _ _ hr
  | fluidNoteKopadr p =>
    obtain ⟨p1, hr⟩ := (dropBlock_ret _ _ _).mp h
    obtain ⟨h1, rfl⟩ := fluidNoteKopadr_ret _ _ _ _ _ hr
    exact fluidEffect_of_onlyCalls h1
  | fluidOutIopadr p =>
    obtain ⟨p1, hr⟩ := (dropBlock_ret _ _ _).mp h
    exact fluidOutIopadr_ret _ _ _ _ _ hr
  | fluidOutAopadr p =>
    obtain ⟨p1, hr⟩ := (dropBlock_ret _ _ _).mp h
    exact fluidOutAopadr_ret _ _ _ _ _ hr
  | fluidAllOutIopadr p =>
    obtain ⟨p1, hr⟩ := (dropBlock_ret _ _ _).mp h
    exact fluidAllOutIopadr_ret _ _ _ _ _ hr
  | fluidAllOutAopadr p =>
    obtain ⟨p1, hr⟩ := (dropBlock_ret _ _ _).mp h
    exact fluidAllOutAopadr_ret _ _ _ _ _ hr
  | fluidControl_init p =>
    obtain ⟨p1, hr⟩ := (dropBlock_ret _ _ _).mp h
    exact fluidControl_init_ret _ _ _ _ _ hr
  | fluidControl_kontrol p =>
    obtain ⟨p1, hr⟩ := (dropBlock_ret _ _ _).mp h
    exact fluidControl_kontrol_ret _ _ _ _ _ hr

theorem fluidRun_count : ∀ (ops : List FluidOpcode) (cs0 cs : CSOUND),
    fluidRun ops cs0 = Outcome.ret cs → cs0.engines.length = cs0.cnt →
    cs.engines.length = cs.cnt ∧
    cs.cnt = cs0.cnt + ops.countP FluidOpcode.isEngine ∧
    cs.createFails = cs0.createFails := by
  intro ops
  induction ops with
  | nil =>
    intro cs0 cs h hinv
    simp only [fluidRun, Outcome.ret.injEq] at h
    subst h
    simp [hinv]
  | cons op rest ih =>
    intro cs0 cs h hinv
    simp only [fluidRun] at h
    cases hx : op.exec cs0 with
    | undef => simp [hx] at h
    | die msg => simp [hx] at h
    | ret v =>
      obtain ⟨st, c1⟩ := v
      simp only [hx] at h
      by_cases he : op.isEngine = true
      · cases op with
        | fluidEngineIopadr p =>
          obtain ⟨p1, hr⟩ := (dropBlock_ret _ _ _).mp hx
          by_cases hd : cs0.globals = none ∧ cs0.createFails = true
          · rw [fluidEngineIopadr_dies _ _ hd.1 hd.2] at hr
            cases hr
          · obtain ⟨c2, hr2, hg, hc⟩ := fluidEngineIopadr_spec cs0 p hinv
              (by intro hn; cases hcf : cs0.createFails <;> simp_all)
            rw [hr2] at hr
            simp only [Outcome.ret.injEq, Prod.mk.injEq] at hr
            obtain ⟨_, rfl, _⟩ := hr
            have hE1 : c2.engines = cs0.engines ++ [(fluidEngine_new cs0).1] := by
              rw [CSOUND.engines, hg]
            have hN1 : c2.cnt = cs0.cnt + 1 := by
              rw [CSOUND.cnt, hg]
            have hinv1 : c2.engines.length = c2.cnt := by
              rw [hE1, hN1, List.length_append, hinv]; rfl
            obtain ⟨h1, h2, h3⟩ := ih _ _ h hinv1
            refine ⟨h1, ?_, by rw [h3, hc]⟩
            rw [h2, hN1]
            simp [FluidOpcode.isEngine, List.countP_cons]
            omega
        | _ => simp [FluidOpcode.isEngine] at he
      · have he2 : op.isEngine = false := by simpa using he
        obtain ⟨⟨hc, hE, hN⟩, _⟩ := fluid_exec_ret _ _ _ _ hx he2
        obtain ⟨h1, h2, h3⟩ := ih _ _ h (by rw [hE, hN]; exact hinv)
        refine ⟨h1, ?_, by rw [h3, hc]⟩
        rw [h2, hN]; simp [List.countP_cons, he2]

theorem fluidOutIopadr_ok (csound : CSOUND) (q : FLUIDOUT) (e : fluid_synth_t)
    (hg : csound.globals ≠ none)
    (h0 : 0 ≤ castInt q.iEngineNum) (h1 : castInt q.iEngineNum < toInt32 csound.cnt)
    (he : csound.engines.get? (castInt q.iEngineNum).toNat = some e) :
    fluidOutIopadr csound q = Outcome.ret (OK, csound, { q with fluidEngine := e }) := by
  unfold fluidOutIopadr fluid_getGlobals
  cases hgl : csound.globals with
  | none => exact absurd hgl hg
  | some pp =>
    simp only [CSOUND.cnt, CSOUND.engines, hgl] at h1 he
    have hchk : ¬ (castInt q.iEngineNum ≥ toInt32 pp.cnt ∨ castInt q.iEngineNum < 0) := by omega
    simp only []
    rw [if_neg hchk]
    simp only [fluidSynthGlobals.engine, not_lt.mpr h0, if_false, he]

/-- C6: in a state reached from a fresh engine by any calls of the module of
which `k` are activations of `fluidEngine` (and `k + 1` is below `2^24`, so that
the count fits the `int` it is cast to and the number is exact in a `MYFLT` of
either width), the next activation of `fluidEngine` returns `OK` and the number
`k`, the count goes from `k` to `k + 1`, and the table is the old table with the
new engine added at index `k`.  The new engine `e` is the pointer that
`new_fluid_synth` returned in this activation, after the four calls on the
settings: the history of library calls ends with these calls and the creation
of `e`.  The number `k` passes the test `0 <= n < cnt` of `fluidLoad` and
`fluidOut`: `fluidOut` with that number binds `e`. -/
theorem fluidEngine_numbers_engines (csound0 : CSOUND) (ops : List FluidOpcode)
    (csound : CSOUND) (p : FLUIDENGINE)
    (hnew : csound0.globals = none) (hcreate : csound0.createFails = false)
    (hrun : fluidRun ops csound0 = Outcome.ret csound)
    (hk : ops.countP FluidOpcode.isEngine + 1 < 16777216) :
    ∃ csound1 e,
      e = csound.new_fluid_synth (csound.calls ++
        [FluidCall.new_fluid_settings,
         FluidCall.settings_setnum "synth.sample-rate" csound.esr,
         FluidCall.settings_setint "synth.polyphony" 4096,
         FluidCall.settings_setint "synth.midi-channels" 256]) ∧
      fluidEngineIopadr csound p = Outcome.ret (OK, csound1,
        { p with iEngineNum := (ops.countP FluidOpcode.isEngine : Int) }) ∧
      csound1.calls = csound.calls ++
        [FluidCall.new_fluid_settings,
         FluidCall.settings_setnum "synth.sample-rate" csound.esr,
         FluidCall.settings_setint "synth.polyphony" 4096,
         FluidCall.settings_setint "synth.midi-channels" 256,
         FluidCall.new_fluid_synth e] ∧
      csound.cnt = ops.countP FluidOpcode.isEngine ∧
      csound.engines.length = ops.countP FluidOpcode.isEngine ∧
      csound1.cnt = ops.countP FluidOpcode.isEngine + 1 ∧
      csound1.engines = csound.engines ++ [e] ∧
      csound1.engines.get? (ops.countP FluidOpcode.isEngine) = some e ∧
      (∀ i < ops.countP FluidOpcode.isEngine, csound1.engines.get? i = csound.engines.get? i) ∧
      (0 ≤ (ops.countP FluidOpcode.isEngine : Int) ∧
        (ops.countP FluidOpcode.isEngine : Int) < toInt32 csound1.cnt) ∧
      ∀ q : FLUIDOUT, q.iEngineNum = (ops.countP FluidOpcode.isEngine : Int) →
        fluidOutIopadr csound1 q = Outcome.ret (OK, csound1, { q with fluidEngine := e }) := by
  have h0 : csound0.engines.length = csound0.cnt := by
    simp [CSOUND.engines, CSOUND.cnt, hnew]
  obtain ⟨hinv, hcnt, hcf⟩ := fluidRun_count ops csound0 csound hrun h0
  have hc0 : csound0.cnt = 0 := by simp [CSOUND.cnt, hnew]
  rw [hc0, Nat.zero_add] at hcnt
  obtain ⟨c1, hr, hg, hc⟩ := fluidEngineIopadr_spec csound p hinv
    (by intro _; rw [hcf, hcreate])
  obtain ⟨hcalls, hptr⟩ := fluidEngineIopadr_calls csound p _ _ _ hr
  have hE1 : c1.engines = csound.engines ++ [(fluidEngine_new csound).1] := by
    rw [CSOUND.engines, hg]
  have hN1 : c1.cnt = csound.cnt + 1 := by
    rw [CSOUND.cnt, hg]
  have hget : c1.engines.get? (ops.countP FluidOpcode.isEngine) = some (fluidEngine_new csound).1 := by
    rw [hE1, ← hcnt, ← hinv]; simp
  refine ⟨c1, (fluidEngine_new csound).1, hptr, ?_, hcalls, hcnt, by rw [hinv, hcnt],
    by rw [hN1, hcnt], hE1, hget, ?_, ⟨by omega, ?_⟩, ?_⟩
  · rw [hr, hcnt, toInt32_small _ (by omega)]
  · intro i hi
    rw [hE1, List.get?_eq_getElem?, List.get?_eq_getElem?, List.getElem?_append_left (by rw [hinv, hcnt]; exact hi)]
  · rw [hN1, hcnt, toInt32_small _ (by omega)]; push_cast; exact Int.lt_succ_self _
  · intro q hq
    apply fluidOutIopadr_ok
    · rw [hg]; simp
    · rw [castInt, hq]; omega
    · rw [castInt, hq, hN1, hcnt, toInt32_small _ (by omega)]; push_cast
      exact Int.lt_succ_self _
    · rw [castInt, hq]; simpa using hget

/-! ## fluidNote -/

theorem sounding_append (a b : List FluidCall) : sounding (a ++ b) = sounding a + sounding b := by
  simp [sounding, List.countP_append]; ring

theorem noteStep_balance (csound : CSOUND) (p : FLUID_NOTE) (c : NoteCall) (st : Int)
    (cs1 : CSOUND) (p1 : FLUID_NOTE) (h : noteStep csound p c = Outcome.ret (st, cs1, p1))
    (hi : p.initDone = 0 ∨ p.initDone = 1) :
    (p1.initDone = 0 ∨ p1.initDone = 1) ∧
    sounding cs1.calls - p1.initDone = sounding csound.calls - p.initDone ∧
    (c = NoteCall.deinit → p1.initDone = 0) := by
  cases c with
  | activate e ch k v =>
    simp only [noteStep, fluidNoteIopadr] at h
    rcases fluid_getGlobals_cases csound with ⟨_, _, hd⟩ | ⟨pp, hr, _, _, _⟩
    · simp [hd] at h
    · simp only [hr] at h
      cases hen : pp.engine (castInt e) with
      | none => simp [hen] at h
      | some en =>
        simp only [hen] at h
        rcases hi with hi | hi
        · simp only [hi, ne_eq, not_true_eq_false, if_false, Outcome.ret.injEq, Prod.mk.injEq] at h
          obtain ⟨_, rfl, rfl⟩ := h
          simp [CSOUND.call, sounding_append, sounding, FluidCall.isNoteOn, FluidCall.isNoteOff, hi]
          omega
        · simp only [hi, fluidNoteTurnoff, ne_eq, one_ne_zero, not_false_eq_true, if_true,
            Outcome.ret.injEq, Prod.mk.injEq] at h
          obtain ⟨_, rfl, rfl⟩ := h
          simp [CSOUND.call, sounding_append, sounding, FluidCall.isNoteOn, FluidCall.isNoteOff, hi]
  | control r =>
    simp only [noteStep, fluidNoteKopadr, fluidNoteTurnoff] at h
    by_cases hr : r ≠ 0
    · rcases hi with hi | hi
      · simp only [hr, hi, ne_eq, not_true_eq_false, not_false_eq_true, if_true, if_false,
          Outcome.ret.injEq, Prod.mk.injEq] at h
        obtain ⟨_, rfl, rfl⟩ := h
        simp [hi]
      · simp only [hr, hi, ne_eq, one_ne_zero, not_false_eq_true, if_true,
          Outcome.ret.injEq, Prod.mk.injEq] at h
        obtain ⟨_, rfl, rfl⟩ := h
        simp [CSOUND.call, sounding_append, sounding, FluidCall.isNoteOn, FluidCall.isNoteOff, hi]
        omega
    · simp only [hr, if_false, Outcome.ret.injEq, Prod.mk.injEq] at h
      obtain ⟨_, rfl, rfl⟩ := h
      simp [hi]
  | deinit =>
    simp only [noteStep, fluidNoteTurnoff] at h
    rcases hi with hi | hi
    · simp only [hi, ne_eq, not_true_eq_false, if_false, Outcome.ret.injEq, Prod.mk.injEq] at h
      obtain ⟨_, rfl, rfl⟩ := h
      simp [hi]
    · simp only [hi, ne_eq, one_ne_zero, not_false_eq_true, if_true,
          Outcome.ret.injEq, Prod.mk.injEq] at h
      obtain ⟨_, rfl, rfl⟩ := h
      simp [CSOUND.call, sounding_append, sounding, FluidCall.isNoteOn, FluidCall.isNoteOff, hi]
      omega

theorem noteRun_balance : ∀ (calls : List NoteCall) (csound : CSOUND) (p : FLUID_NOTE)
    (cs1 : CSOUND) (p1 : FLUID_NOTE), noteRun calls csound p = Outcome.ret (cs1, p1) →
    (p.initDone = 0 ∨ p.initDone = 1) →
    (p1.initDone = 0 ∨ p1.initDone = 1) ∧
    sounding cs1.calls - p1.initDone = sounding csound.calls - p.initDone ∧
    (calls.getLast? = some NoteCall.deinit → p1.initDone = 0) := by
  intro calls
  induction calls with
  | nil =>
    intro csound p cs1 p1 h hi
    simp only [noteRun, Outcome.ret.injEq, Prod.mk.injEq] at h
    obtain ⟨rfl, rfl⟩ := h
    simp [hi]
  | cons c rest ih =>
    intro csound p cs1 p1 h hi
    simp only [noteRun] at h
    cases hs : noteStep csound p c with
    | undef => simp [hs] at h
    | die msg => simp [hs] at h
    | ret v =>
      obtain ⟨st, c2, p2⟩ := v
      simp only [hs] at h
      obtain ⟨h1, h2, h3⟩ := noteStep_balance _ _ _ _ _ _ hs hi
      obtain ⟨k1, k2, k3⟩ := ih _ _ _ _ h h1
      refine ⟨k1, by rw [k2, h2], ?_⟩
      intro hl
      cases rest with
      | nil =>
        simp only [noteRun, Outcome.ret.injEq, Prod.mk.injEq] at h
        obtain ⟨rfl, rfl⟩ := h
        simp only [List.getLast?_singleton, Option.some.injEq] at hl
        exact h3 hl
      | cons d rest2 =>
        apply k3
        simpa [List.getLast?_cons_cons] using hl

theorem noteStep_returns (csound : CSOUND) (p : FLUID_NOTE) (c : NoteCall)
    (hv : validNoteCall csound c) :
    ∃ st cs1 p1, noteStep csound p c = Outcome.ret (st, cs1, p1) ∧
      cs1.engines = csound.engines := by
  cases c with
  | activate e ch k v =>
    obtain ⟨h0, h1⟩ := hv
    cases hg : csound.globals with
    | none => simp [CSOUND.engines, hg] at h1
    | some pp =>
      have hE : csound.engines = pp.fluid_engines := by simp [CSOUND.engines, hg]
      rw [hE] at h1
      have hen : pp.engine (castInt e) = some (pp.fluid_engines.get ⟨(castInt e).toNat, h1⟩) := by
        simp [fluidSynthGlobals.engine, not_lt.mpr h0, List.getElem?_eq_getElem h1]
      have hex : ∃ cs1 p1, noteStep csound p (NoteCall.activate e ch k v) =
          Outcome.ret (OK, cs1, p1) := by
        by_cases hi : p.initDone = 0
        · simp only [noteStep, fluidNoteIopadr, fluid_getGlobals, hg, hen, hi, ne_eq,
            not_true_eq_false, if_false]
          exact ⟨_, _, rfl⟩
        · simp only [noteStep, fluidNoteIopadr, fluid_getGlobals, hg, hen, hi, ne_eq,
            not_false_eq_true, if_true, fluidNoteTurnoff]
          exact ⟨_, _, rfl⟩
      obtain ⟨cs1, p1, hr⟩ := hex
      exact ⟨OK, cs1, p1, hr, (fluidNoteIopadr_ret _ _ _ _ _ hr).1.2.1⟩
  | control r =>
    have hex : ∃ cs1 p1, noteStep csound p (NoteCall.control r) =
        Outcome.ret (OK, cs1, p1) := by
      by_cases hr : r = 0
      · simp only [noteStep, fluidNoteKopadr, hr, ne_eq, not_true_eq_false, if_false]
        exact ⟨_, _, rfl⟩
      · by_cases hi : p.initDone = 0
        · simp only [noteStep, fluidNoteKopadr, hr, hi, ne_eq, not_true_eq_false,
            not_false_eq_true, if_true, if_false]
          exact ⟨_, _, rfl⟩
        · simp only [noteStep, fluidNoteKopadr, fluidNoteTurnoff, hr, hi, ne_eq,
            not_false_eq_true, if_true]
          exact ⟨_, _, rfl⟩
    obtain ⟨cs1, p1, hr⟩ := hex
    obtain ⟨⟨l, rfl⟩, _⟩ := fluidNoteKopadr_ret _ _ _ _ _ hr
    exact ⟨OK, _, p1, hr, rfl⟩
  | deinit =>
    have hex : ∃ cs1 p1, noteStep csound p NoteCall.deinit = Outcome.ret (OK, cs1, p1) := by
      by_cases hi : p.initDone = 0
      · simp only [noteStep, fluidNoteTurnoff, hi, ne_eq, not_true_eq_false, if_false]
        exact ⟨_, _, rfl⟩
      · simp only [noteStep, fluidNoteTurnoff, hi, ne_eq, not_false_eq_true, if_true]
        exact ⟨_, _, rfl⟩
    obtain ⟨cs1, p1, hr⟩ := hex
    obtain ⟨⟨l, rfl⟩, _⟩ := fluidNoteTurnoff_ret _ _ _ _ _ hr
    exact ⟨OK, _, p1, hr, rfl⟩

theorem validNoteCall_congr {cs cs1 : CSOUND} (h : cs1.engines = cs.engines) (c : NoteCall) :
    validNoteCall cs c → validNoteCall cs1 c := by
  cases c <;> simp [validNoteCall, h]

theorem noteRun_returns : ∀ (calls : List NoteCall) (csound : CSOUND) (p : FLUID_NOTE),
    (∀ c ∈ calls, validNoteCall csound c) → ∃ cs1 p1, noteRun calls csound p = Outcome.ret (cs1, p1) := by
  intro calls
  induction calls with
  | nil => intro csound p _; exact ⟨csound, p, rfl⟩
  | cons c rest ih =>
    intro csound p hv
    obtain ⟨st, c2, p2, hs, he⟩ := noteStep_returns csound p c (hv c (List.mem_cons_self _ _))
    obtain ⟨c3, p3, hr⟩ := ih c2 p2 (fun d hd =>
      validNoteCall_congr he d (hv d (List.mem_cons_of_mem _ hd)))
    exact ⟨c3, p3, by simp only [noteRun, hs, hr]⟩

/-- C4: for every sequence of calls on one `fluidNote` instance that starts
with `initDone = 0` (activations, control steps with the releasing flag set or
clear, deinit callbacks), the note-ons sent minus the note-offs sent equal
`initDone`, which is 0 or 1, and they are 0 when the last call was the deinit
callback; the sequence runs to its end when every activation names an engine of
the table. -/
theorem fluidNote_on_off_balance (calls : List NoteCall) (csound : CSOUND) (p : FLUID_NOTE)
    (h0 : p.initDone = 0) :
    ((∀ c ∈ calls, validNoteCall csound c) →
      ∃ cs1 p1, noteRun calls csound p = Outcome.ret (cs1, p1)) ∧
    ∀ cs1 p1, noteRun calls csound p = Outcome.ret (cs1, p1) →
      sounding cs1.calls - sounding csound.calls = p1.initDone ∧
      (p1.initDone = 0 ∨ p1.initDone = 1) ∧
      (calls.getLast? = some NoteCall.deinit → sounding cs1.calls - sounding csound.calls = 0) := by
  refine ⟨noteRun_returns calls csound p, ?_⟩
  intro cs1 p1 h
  obtain ⟨h1, h2, h3⟩ := noteRun_balance calls csound p cs1 p1 h (Or.inl h0)
  rw [h0] at h2
  refine ⟨by omega, h1, ?_⟩
  intro hl
  have := h3 hl
  omega

/-! ## fluidOut -/

/-- The loop of `fluidOutAopadr` entered at sample `i` with `n + 1` samples to
go: it requests `n + 1` frames and stores them at `i .. i + n`. -/
theorem fluidOut_loop_spec (ksmps : Int) (n : Nat) :
    ∀ (fuel i : Nat) (cs : CSOUND) (q : FLUIDOUT),
      (i : Int) + n + 1 = ksmps → n < fuel →
      fluidOut_loop ksmps fuel i cs q = some
        ({ cs with calls := cs.calls ++
              List.replicate (n + 1) (FluidCall.write_float q.fluidEngine) },
         { q with
            aLeftOut := fun j =>
              if i ≤ j ∧ j ≤ i + n then (frameAt cs q.fluidEngine (j - i)).1 else q.aLeftOut j,
            aRightOut := fun j =>
              if i ≤ j ∧ j ≤ i + n then (frameAt cs q.fluidEngine (j - i)).2
              else q.aRightOut j }) := by
  induction n with
  | zero =>
    intro fuel i cs q hk hf
    obtain ⟨f, rfl⟩ : ∃ f, fuel = f + 1 := ⟨fuel - 1, by omega⟩
    have h1 : ¬ ((i : Int) + 1 < ksmps) := by omega
    simp only [fluidOut_loop, write_frame, h1, if_false, CSOUND.call, Int.toNat_ofNat]
    congr 2
    · congr 1
      · funext j
        by_cases hj : j = i
        · subst hj; simp [frameAt]
        · have : ¬ (i ≤ j ∧ j ≤ i) := by omega
          simp [Function.update, hj, this]
      · funext j
        by_cases hj : j = i
        · subst hj; simp [frameAt]
        · have : ¬ (i ≤ j ∧ j ≤ i) := by omega
          simp [Function.update, hj, this]
  | succ n ih =>
    intro fuel i cs q hk hf
    obtain ⟨f, rfl⟩ : ∃ f, fuel = f + 1 := ⟨fuel - 1, by omega⟩
    have h1 : (i : Int) + 1 < ksmps := by push_cast at hk; omega
    have hi : ((i : Int) + 1) = ((i + 1 : Nat) : Int) := by push_cast; rfl
    simp only [fluidOut_loop, write_frame, h1, if_true, CSOUND.call, Int.toNat_ofNat]
    rw [hi, ih f (i + 1) _ _ (by push_cast at hk ⊢; omega) (by omega)]
    congr 2
    · simp [List.replicate_succ]
    · congr 1
      · funext j
        by_cases hj : j = i
        · subst hj; simp [frameAt, Function.update]
        · by_cases hr : i + 1 ≤ j ∧ j ≤ i + 1 + n
          · have hr2 : i ≤ j ∧ j ≤ i + (n + 1) := by omega
            have hs : j - i = (j - (i + 1)) + 1 := by omega
            simp [hr, hr2, frameAt, hs, List.replicate_succ]
          · have hr2 : ¬ (i ≤ j ∧ j ≤ i + (n + 1)) := by omega
            simp [hr, hr2, Function.update, hj]
      · funext j
        by_cases hj : j = i
        · subst hj; simp [frameAt, Function.update]
        · by_cases hr : i + 1 ≤ j ∧ j ≤ i + 1 + n
          · have hr2 : i ≤ j ∧ j ≤ i + (n + 1) := by omega
            have hs : j - i = (j - (i + 1)) + 1 := by omega
            simp [hr, hr2, frameAt, hs, List.replicate_succ]
          · have hr2 : ¬ (i ≤ j ∧ j ≤ i + (n + 1)) := by omega
            simp [hr, hr2, Function.update, hj]

/-- C10: for a cycle width `ksmps ≥ 1`, `fluidOutAopadr` returns `OK` after
requesting exactly `ksmps` single frames from its engine; frame `i` is stored at
index `i` of `aLeftOut` and `aRightOut` for `i < ksmps`, and no other index of
the two vectors is written. -/
theorem fluidOutAopadr_fills_block (csound : CSOUND) (p : FLUIDOUT) (h : 1 ≤ csound.ksmps) :
    fluidOutAopadr csound p = Outcome.ret (OK,
      { csound with calls := csound.calls ++
          List.replicate csound.ksmps.toNat (FluidCall.write_float p.fluidEngine) },
      { p with
          aLeftOut := fun i =>
            if i < csound.ksmps.toNat then (frameAt csound p.fluidEngine i).1 else p.aLeftOut i,
          aRightOut := fun i =>
            if i < csound.ksmps.toNat then (frameAt csound p.fluidEngine i).2
            else p.aRightOut i }) := by
  obtain ⟨k, hk⟩ : ∃ k : Nat, csound.ksmps = (k : Int) + 1 :=
    ⟨(csound.ksmps - 1).toNat, by omega⟩
  have hspec := fluidOut_loop_spec csound.ksmps k (csound.ksmps.toNat + 1) 0 csound p
    (by rw [hk]; push_cast; ring) (by omega)
  have h0 : ((0 : Nat) : Int) = 0 := rfl
  rw [h0] at hspec
  have hk2 : csound.ksmps.toNat = k + 1 := by omega
  rw [hk2] at hspec
  simp only [fluidOutAopadr, hspec, hk2]
  congr 3
  congr 1
  · funext i
    by_cases hi : i < k + 1
    · have h2 : i ≤ k := by omega
      simp [hi, h2]
    · have h2 : ¬ i ≤ k := by omega
      simp [hi, h2]
  · funext i
    by_cases hi : i < k + 1
    · have h2 : i ≤ k := by omega
      simp [hi, h2]
    · have h2 : ¬ i ≤ k := by omega
      simp [hi, h2]

/-! ## String opcodes: storage, bounds and reports -/

theorem cstr_nul_free (b : List Char) : NUL ∉ cstr b := by
  intro h
  have := List.mem_takeWhile_imp h
  simp at this

theorem cstr_append_nul (s rest : List Char) (hs : NUL ∉ s) : cstr (s ++ NUL :: rest) = s := by
  unfold cstr
  induction s with
  | nil => simp [List.takeWhile]
  | cons a s ih =>
    have ha : a ≠ NUL := fun h => hs (by simp [h])
    have hs2 : NUL ∉ s := fun h => hs (by simp [h])
    have hb : (a != NUL) = true := by simpa using ha
    simp [List.takeWhile, hb, ih hs2]

theorem cstr_nul_cons (rest : List Char) : cstr (NUL :: rest) = [] := by
  simp [cstr, List.takeWhile]

theorem poke_length {buf bytes b : List Char} {off : Nat} (h : poke buf off bytes = some b) :
    b.length = buf.length := by
  unfold poke at h
  split at h
  · simp only [Option.some.injEq] at h
    subst h
    simp; omega
  · cases h

theorem poke_zero_nul {buf b : List Char} (h : poke buf 0 [NUL] = some b) : cstr b = [] := by
  unfold poke at h
  split at h
  · simp only [Option.some.injEq] at h
    subst h
    simp [cstr_nul_cons]
  · cases h

theorem onRet_ret {α : Type} (v : α) (P : α → Prop) : (Outcome.ret v).OnRet P ↔ P v := Iff.rfl

theorem onRet_of_eq {α : Type} {o : Outcome α} {P : α → Prop} {v : α}
    (h : o.OnRet P) (he : o = Outcome.ret v) : P v := by
  rw [he] at h; exact h

theorem isErrFunc_InitError : IsErrFunc ENVIRON.InitError := fun _ _ => ⟨rfl, rfl⟩
theorem isErrFunc_PerfError : IsErrFunc ENVIRON.PerfError := fun _ _ => ⟨rfl, rfl⟩

theorem strget_init_error (csound : ENVIRON) (p : STRGET_OP) :
    (strget_init csound p).OnRet (fun r => r.1 ≠ OK → cstr (r.2.mem p.r) = []) := by
  unfold strget_init
  cases hp : poke (csound.mem p.r) 0 [NUL] with
  | none => trivial
  | some r0 =>
    have h0 := poke_zero_nul hp
    simp only
    repeat' split
    all_goals simp [Outcome.OnRet, ENVIRON.InitError, ENVIRON.setMem, h0]

theorem strcpy_init_error (csound : ENVIRON) (p : STRCPY_OP) :
    (strcpy_opcode_init csound p).OnRet (fun r => r.1 ≠ OK → r.2.mem = csound.mem) := by
  unfold strcpy_opcode_init
  simp only
  repeat' split
  all_goals simp [Outcome.OnRet, ENVIRON.InitError]

theorem strcpy_perf_error (csound : ENVIRON) (p : STRCPY_OP) :
    (strcpy_opcode_perf csound p).OnRet (fun r => r.1 ≠ OK → r.2.mem = csound.mem) := by
  unfold strcpy_opcode_perf
  simp only
  repeat' split
  all_goals simp [Outcome.OnRet, ENVIRON.PerfError]

theorem strcat_body_status (csound : ENVIRON) (p : STRCAT_OP) :
    (strcat_body csound p).OnRet (fun r => r.1 = OK) := by
  unfold strcat_body
  simp only
  repeat' split
  all_goals simp [Outcome.OnRet]

theorem strcat_init_error (csound : ENVIRON) (p : STRCAT_OP) :
    (strcat_opcode_init csound p).OnRet (fun r => r.1 ≠ OK → r.2.mem = csound.mem) := by
  unfold strcat_opcode_init
  split
  · simp [Outcome.OnRet, ENVIRON.InitError]
  · have := strcat_body_status csound p
    cases hb : strcat_body csound p <;> simp_all [Outcome.OnRet]

theorem strcat_perf_error (csound : ENVIRON) (p : STRCAT_OP) :
    (strcat_opcode_perf csound p).OnRet (fun r => r.1 ≠ OK → r.2.mem = csound.mem) := by
  unfold strcat_opcode_perf
  split
  · simp [Outcome.OnRet, ENVIRON.PerfError]
  · have := strcat_body_status csound p
    cases hb : strcat_body csound p <;> simp_all [Outcome.OnRet]

theorem strtod_error (ls : List Char → MYFLT × List Char) (csound : ENVIRON) (p : STRSET_OP)
    (f : ENVIRON → String → Int × ENVIRON) (hf : IsErrFunc f) :
    (strtod_opcode ls csound p f).OnRet (fun r => r.1 ≠ OK → r.2.fmem = csound.fmem) := by
  unfold strtod_opcode
  simp only
  repeat' split
  all_goals simp [Outcome.OnRet, (hf _ _).2]

theorem strtol_digits_error (csound : ENVIRON) (p : STRSET_OP)
    (f : ENVIRON → String → Int × ENVIRON) (hf : IsErrFunc f) (sgn radix : Nat)
    (s2 : List Char) :
    (strtol_digits csound p f sgn radix s2).OnRet
      (fun r => r.1 ≠ OK → r.2.fmem = csound.fmem) := by
  unfold strtol_digits
  simp only
  repeat' split
  all_goals simp [Outcome.OnRet, (hf _ _).2]

theorem strtol_error (csound : ENVIRON) (p : STRSET_OP)
    (f : ENVIRON → String → Int × ENVIRON) (hf : IsErrFunc f) :
    (strtol_opcode csound p f).OnRet (fun r => r.1 ≠ OK → r.2.fmem = csound.fmem) := by
  unfold strtol_opcode
  simp only
  repeat' split
  all_goals first
    | exact strtol_digits_error csound p f hf _ _ _
    | simp [Outcome.OnRet, (hf _ _).2]

theorem sprintf_fail_output (csound : ENVIRON) (p : SPRINTF_OP)
    (f : ENVIRON → String → Int × ENVIRON) (hf : IsErrFunc f) :
    (sprintf_fail csound p f).OnRet (fun r => cstr (r.2.mem p.r) = []) := by
  unfold sprintf_fail
  cases hp : poke (csound.mem p.r) 0 [NUL] with
  | none => trivial
  | some r0 =>
    simp only [Outcome.OnRet, (hf _ _).1]
    simpa [ENVIRON.setMem] using poke_zero_nul hp

theorem sprintf_init_error (ls : List Char → FmtVal → Option (List Char)) (csound : ENVIRON)
    (p : SPRINTF_OP) :
    (sprintf_opcode_init ls csound p).OnRet (fun r => r.1 ≠ OK → cstr (r.2.mem p.r) = []) := by
  unfold sprintf_opcode_init
  split
  · trivial
  · trivial
  · split
    · rename_i st2 cs2 _ _
      have := sprintf_fail_output cs2 p _ isErrFunc_InitError
      cases hb : sprintf_fail cs2 p ENVIRON.InitError <;> simp_all [Outcome.OnRet]
    · simp [Outcome.OnRet]

theorem sprintf_perf_error (ls : List Char → FmtVal → Option (List Char)) (csound : ENVIRON)
    (p : SPRINTF_OP) :
    (sprintf_opcode_perf ls csound p).OnRet (fun r => r.1 ≠ OK → cstr (r.2.mem p.r) = []) := by
  unfold sprintf_opcode_perf
  split
  · trivial
  · trivial
  · split
    · rename_i st2 cs2 _ _
      have := sprintf_fail_output cs2 p _ isErrFunc_PerfError
      cases hb : sprintf_fail cs2 p ENVIRON.PerfError <;> simp_all [Outcome.OnRet]
    · simp [Outcome.OnRet]

theorem strlen_le_length (b : List Char) : strlen b ≤ b.length := by
  unfold strlen cstr
  exact (List.takeWhile_sublist _).length_le

theorem strlen_lt_of_mem {b : List Char} (h : NUL ∈ b) : strlen b < b.length := by
  unfold strlen cstr
  induction b with
  | nil => simp at h
  | cons a b ih =>
    by_cases ha : a = NUL
    · subst ha; simp [List.takeWhile]
    · have hb : (a != NUL) = true := by simpa using ha
      have : NUL ∈ b := by
        rcases List.mem_cons.mp h with h1 | h1
        · exact absurd h1.symm ha
        · exact h1
      simp [List.takeWhile, hb, ih this]

theorem take_strlen_succ {b : List Char} (h : NUL ∈ b) :
    b.take (strlen b + 1) = cstr b ++ [NUL] := by
  unfold strlen cstr
  induction b with
  | nil => simp at h
  | cons a b ih =>
    by_cases ha : a = NUL
    · subst ha; simp [List.takeWhile]
    · have hb : (a != NUL) = true := by simpa using ha
      have : NUL ∈ b := by
        rcases List.mem_cons.mp h with h1 | h1
        · exact absurd h1.symm ha
        · exact h1
      simp [List.takeWhile, hb, ih this]

theorem poke_eq_some {buf bytes : List Char} {off : Nat} (h : off + bytes.length ≤ buf.length) :
    poke buf off bytes = some (buf.take off ++ bytes ++ buf.drop (off + bytes.length)) := by
  simp [poke, h]

theorem isStrVar_strlen {csound : ENVIRON} {a : Nat} (h : IsStrVar csound a) :
    (strlen (csound.mem a) : Int) ≤ csound.strVarMaxLen - 1 := by
  have := strlen_lt_of_mem h.2
  have h1 := h.1
  omega

theorem isStrVar_setMem {csound : ENVIRON} {a : Nat} {b : List Char}
    (hl : (b.length : Int) = csound.strVarMaxLen) (hn : NUL ∈ b) :
    IsStrVar (csound.setMem a b) a := by
  simp [IsStrVar, ENVIRON.setMem, hl, hn]

theorem keepsBound_ret {csound cs1 : ENVIRON} {r : Nat} {st : Int}
    (h : IsStrVar cs1 r) (hm : cs1.strVarMaxLen = csound.strVarMaxLen) :
    KeepsBound csound r (Outcome.ret (st, cs1)) :=
  ⟨st, cs1, rfl, h, isStrVar_strlen h, hm⟩

/-- a store of a terminated text of at most `max - 1` bytes at the start of a variable -/
theorem poke_text (csound : ENVIRON) (buf s : List Char) (off : Nat)
    (hl : (buf.length : Int) = csound.strVarMaxLen)
    (hs : ((off + s.length : Nat) : Int) < csound.strVarMaxLen) :
    ∃ b, poke buf off (s ++ [NUL]) = some b ∧ (b.length : Int) = csound.strVarMaxLen ∧ NUL ∈ b ∧
      b = buf.take off ++ (s ++ [NUL]) ++ buf.drop (off + (s ++ [NUL]).length) := by
  have hle : off + (s ++ [NUL]).length ≤ buf.length := by
    simp only [List.length_append, List.length_singleton]; omega
  refine ⟨_, poke_eq_some hle, ?_, by simp, rfl⟩
  rw [← hl]
  have := poke_length (poke_eq_some hle)
  exact_mod_cast this

theorem c_strcpy_fits (csound : ENVIRON) (buf src : List Char)
    (hl : (buf.length : Int) = csound.strVarMaxLen)
    (hs : ¬ ((strlen src : Int) ≥ csound.strVarMaxLen)) :
    ∃ b, c_strcpy buf src = some b ∧ (b.length : Int) = csound.strVarMaxLen ∧ NUL ∈ b ∧
      cstr b = cstr src := by
  obtain ⟨b, h1, h2, h3, h4⟩ := poke_text csound buf (cstr src) 0 hl
    (by simp only [Nat.zero_add]; unfold strlen at hs; omega)
  refine ⟨b, h1, h2, h3, ?_⟩
  rw [h4]
  simp only [List.take_zero, List.nil_append, List.append_assoc, List.singleton_append]
  exact cstr_append_nul _ _ (cstr_nul_free _)

theorem c_strcpy_var (csound : ENVIRON) (buf src : List Char)
    (hl : (buf.length : Int) = csound.strVarMaxLen)
    (hfit : strlen src < 2147483648)
    (hs : ¬ (toInt32 (strlen src) ≥ csound.strVarMaxLen)) :
    ∃ b, c_strcpy buf src = some b ∧ (b.length : Int) = csound.strVarMaxLen ∧ NUL ∈ b ∧
      cstr b = cstr src := by
  rw [toInt32_small _ hfit] at hs
  exact c_strcpy_fits csound buf src hl hs

theorem strget_keeps (csound : ENVIRON) (hwf : StrsetsWF csound) (p : STRGET_OP)
    (hr : IsStrVar csound p.r) (hfit : FitsInt csound (StrOpcode.strget_init p)) :
    KeepsBound csound p.r (strget_init csound p) := by
  unfold strget_init
  have hpos : 0 + [NUL].length ≤ (csound.mem p.r).length := by
    have := strlen_lt_of_mem hr.2
    simp; omega
  have hp := poke_eq_some hpos
  have hl0 := poke_length hp
  simp only [hp]
  set r0 := List.take 0 (csound.mem p.r) ++ [NUL] ++ List.drop (0 + [NUL].length) (csound.mem p.r)
    with hr0
  have hn0 : NUL ∈ r0 := by simp [hr0]
  have hlen0 : (r0.length : Int) = csound.strVarMaxLen := by rw [hl0]; exact hr.1
  have hv0 : IsStrVar (csound.setMem p.r r0) p.r := isStrVar_setMem hlen0 hn0
  have hm0 : (csound.setMem p.r r0).mem p.r = r0 := by simp [ENVIRON.setMem]
  split
  · split
    · exact keepsBound_ret hv0 rfl
    · split
      · exact @keepsBound_ret _ (ENVIRON.InitError _ _).2 _ _ hv0 rfl
      · rename_i strarg harg hlen
        obtain ⟨b, h1, h2, h3, _⟩ := c_strcpy_var csound r0 strarg hlen0
          (hfit.1 strarg (by simpa [ENVIRON.setMem] using harg)) hlen
        rw [hm0, h1]
        exact keepsBound_ret (isStrVar_setMem (by simpa [ENVIRON.setMem] using h2) h3) rfl
  · split
    · exact keepsBound_ret hv0 rfl
    · rename_i hidx
      split
      · exact keepsBound_ret hv0 rfl
      · rename_i tbl htbl
        have hlt : (RNDINT ((csound.setMem p.r r0).fmem p.indx)).toNat < tbl.length := by
          have := hwf tbl htbl
          simp only [ENVIRON.setMem] at hidx
          simp only [ENVIRON.setMem]
          omega
        rw [List.get?_eq_getElem?, List.getElem?_eq_getElem hlt]
        split
        · rename_i heq; cases heq
        · exact keepsBound_ret hv0 rfl
        · rename_i s heq
          split
          · exact @keepsBound_ret _ (ENVIRON.InitError _ _).2 _ _ hv0 rfl
          · rename_i hlen
            have hmem : some s ∈ tbl := by
              injection heq with heq
              rw [← heq]; exact List.getElem_mem _
            obtain ⟨b, h1, h2, h3, _⟩ := c_strcpy_var csound r0 s hlen0
              (hfit.2 tbl s (by simpa [ENVIRON.setMem] using htbl) hmem) hlen
            rw [hm0, h1]
            exact keepsBound_ret (isStrVar_setMem (by simpa [ENVIRON.setMem] using h2) h3) rfl

theorem strcpy_init_keeps (csound : ENVIRON) (p : STRCPY_OP)
    (hr : IsStrVar csound p.r) (hfit : strlen (csound.mem p.str) < 2147483648) : KeepsBound csound p.r (strcpy_opcode_init csound p) := by
  unfold strcpy_opcode_init
  simp only
  split
  · exact keepsBound_ret hr rfl
  · split
    · exact @keepsBound_ret _ (ENVIRON.InitError _ _).2 _ _ hr rfl
    · rename_i hlen
      obtain ⟨b, h1, h2, h3, _⟩ := c_strcpy_var csound (csound.mem p.r)
        (csound.mem p.str) hr.1 hfit hlen
      rw [h1]
      exact keepsBound_ret (isStrVar_setMem (by simpa [ENVIRON.setMem] using h2) h3) rfl

theorem strcpy_perf_keeps (csound : ENVIRON) (p : STRCPY_OP)
    (hr : IsStrVar csound p.r) (hfit : strlen (csound.mem p.str) < 2147483648) : KeepsBound csound p.r (strcpy_opcode_perf csound p) := by
  unfold strcpy_opcode_perf
  simp only
  split
  · exact keepsBound_ret hr rfl
  · split
    · exact @keepsBound_ret _ (ENVIRON.PerfError _ _).2 _ _ hr rfl
    · rename_i hlen
      obtain ⟨b, h1, h2, h3, _⟩ := c_strcpy_var csound (csound.mem p.r)
        (csound.mem p.str) hr.1 hfit hlen
      rw [h1]
      exact keepsBound_ret (isStrVar_setMem (by simpa [ENVIRON.setMem] using h2) h3) rfl

theorem c_strcat_var (csound : ENVIRON) (buf src : List Char)
    (hl : (buf.length : Int) = csound.strVarMaxLen)
    (hs : ¬ (((strlen buf + strlen src : Nat) : Int) ≥ csound.strVarMaxLen)) :
    ∃ b, c_strcat buf src = some b ∧ (b.length : Int) = csound.strVarMaxLen ∧ NUL ∈ b := by
  obtain ⟨b, h1, h2, h3, _⟩ := poke_text csound buf (cstr src) (strlen buf) hl
    (by unfold strlen at hs ⊢; omega)
  exact ⟨b, h1, h2, h3⟩

theorem strlen_of_cstr_eq {a b : List Char} (h : cstr a = cstr b) : strlen a = strlen b := by
  unfold strlen; rw [h]

theorem strcat_body_keeps (csound : ENVIRON) (p : STRCAT_OP) (hr : IsStrVar csound p.r)
    (hs : ¬ (((strlen (csound.mem p.str1) + strlen (csound.mem p.str2) : Nat) : Int)
      ≥ csound.strVarMaxLen)) :
    KeepsBound csound p.r (strcat_body csound p) := by
  unfold strcat_body
  by_cases h2 : p.r ≠ p.str2
  · rw [if_pos h2]
    by_cases h1 : p.r ≠ p.str1
    · simp only [if_pos h1]
      obtain ⟨b, hb1, hb2, hb3, hb4⟩ := c_strcpy_fits csound (csound.mem p.r)
        (csound.mem p.str1) hr.1 (by omega)
      simp only [hb1, Option.map_some']
      have hm2 : (csound.setMem p.r b).mem p.str2 = csound.mem p.str2 := by
        simp [ENVIRON.setMem, Function.update, Ne.symm h2]
      have hmr : (csound.setMem p.r b).mem p.r = b := by simp [ENVIRON.setMem]
      rw [hmr, hm2]
      obtain ⟨c, hc1, hc2, hc3⟩ := c_strcat_var csound b (csound.mem p.str2) hb2
        (by rw [strlen_of_cstr_eq hb4]; exact hs)
      simp only [hc1]
      exact keepsBound_ret (isStrVar_setMem (by simpa [ENVIRON.setMem] using hc2) hc3) rfl
    · have h1e : p.r = p.str1 := by simpa using h1
      simp only [if_neg h1]
      obtain ⟨c, hc1, hc2, hc3⟩ := c_strcat_var csound (csound.mem p.r)
        (csound.mem p.str2) hr.1 (by rw [h1e]; exact hs)
      simp only [hc1]
      exact keepsBound_ret (isStrVar_setMem (by simpa [ENVIRON.setMem] using hc2) hc3) rfl
  · have h2e : p.r = p.str2 := by simpa using h2
    rw [if_neg h2]
    split
    · exact keepsBound_ret hr rfl
    · have hvar : IsStrVar csound p.str2 := h2e ▸ hr
      have hlt := strlen_lt_of_mem hvar.2
      have hlen := hvar.1
      have hmm : c_memmove (csound.mem p.str2) (strlen (csound.mem p.str1)) (csound.mem p.str2)
          (strlen (csound.mem p.str2) + 1) = some
            (List.take (strlen (csound.mem p.str1)) (csound.mem p.str2) ++
              (cstr (csound.mem p.str2) ++ [NUL]) ++
              List.drop (strlen (csound.mem p.str1) + (cstr (csound.mem p.str2) ++ [NUL]).length)
                (csound.mem p.str2)) := by
        unfold c_memmove
        rw [if_pos (by omega), take_strlen_succ hvar.2]
        apply poke_eq_some
        simp only [List.length_append, List.length_singleton]
        unfold strlen at hs hlt ⊢
        omega
      simp only [hmm]
      set b1 := List.take (strlen (csound.mem p.str1)) (csound.mem p.str2) ++
              (cstr (csound.mem p.str2) ++ [NUL]) ++
              List.drop (strlen (csound.mem p.str1) + (cstr (csound.mem p.str2) ++ [NUL]).length)
                (csound.mem p.str2) with hb1
      have hb1len : b1.length = (csound.mem p.str2).length := by
        have := @poke_length (csound.mem p.str2) (cstr (csound.mem p.str2) ++ [NUL]) b1
          (strlen (csound.mem p.str1)) (by
            apply poke_eq_some
            simp only [List.length_append, List.length_singleton]
            unfold strlen at hs hlt ⊢
            omega)
        exact this
      have hb1nul : NUL ∈ b1 := by simp [hb1]
      by_cases h1 : p.r ≠ p.str1
      · rw [if_pos h1]
        have h12 : p.str2 ≠ p.str1 := h2e ▸ h1
        have hm1 : (csound.setMem p.str2 b1).mem p.str1 = csound.mem p.str1 := by
          simp [ENVIRON.setMem, Function.update, Ne.symm h12]
        have hm2 : (csound.setMem p.str2 b1).mem p.str2 = b1 := by simp [ENVIRON.setMem]
        rw [hm1, hm2]
        have hla : strlen (csound.mem p.str1) ≤ (csound.mem p.str1).length := strlen_le_length _
        have hcp : c_memmove b1 0 (csound.mem p.str1) (strlen (csound.mem p.str1)) = some
            (List.take 0 b1 ++ List.take (strlen (csound.mem p.str1)) (csound.mem p.str1) ++
              List.drop (0 + (List.take (strlen (csound.mem p.str1)) (csound.mem p.str1)).length) b1) := by
          unfold c_memmove
          rw [if_pos hla]
          apply poke_eq_some
          simp only [List.length_take, Nat.zero_add]
          have : strlen (csound.mem p.str1) < (csound.mem p.str2).length := by omega
          omega
        simp only [hcp]
        rw [h2e]
        refine keepsBound_ret (isStrVar_setMem ?_ ?_) rfl
        · simp only [ENVIRON.setMem]
          have := @poke_length b1
            (List.take (strlen (csound.mem p.str1)) (csound.mem p.str1)) _ 0 (by
              apply poke_eq_some
              simp only [List.length_take, Nat.zero_add]
              have : strlen (csound.mem p.str1) < (csound.mem p.str2).length := by omega
              omega)
          rw [this, hb1len]
          exact hlen
        · have hmin : min (strlen (csound.mem p.str1)) (csound.mem p.str1).length
              = strlen (csound.mem p.str1) := Nat.min_eq_left hla
          have hmin2 : min (strlen (csound.mem p.str1)) (csound.mem p.str2).length
              = strlen (csound.mem p.str1) := Nat.min_eq_left (by omega)
          simp only [List.take_zero, List.nil_append, List.length_take, Nat.zero_add, hmin,
            List.mem_append]
          right
          rw [hb1, List.append_assoc, List.drop_append_of_le_length (by simp [hmin2])]
          simp [hmin2]
      · rw [if_neg h1]
        rw [h2e]
        exact keepsBound_ret (isStrVar_setMem (by rw [hb1len]; exact hlen) hb1nul) rfl

theorem sameEngine_refl (cs : ENVIRON) : SameEngine cs cs := ⟨rfl, rfl, rfl, rfl⟩

theorem sameEngine_trans {a b c : ENVIRON} (h1 : SameEngine a b) (h2 : SameEngine b c) :
    SameEngine a c :=
  ⟨h2.1.trans h1.1, h2.2.1.trans h1.2.1, h2.2.2.1.trans h1.2.2.1, h2.2.2.2.trans h1.2.2.2⟩

theorem sameEngine_setMem (cs : ENVIRON) (a : Nat) (b : List Char) :
    SameEngine cs (cs.setMem a b) := ⟨rfl, rfl, rfl, rfl⟩

theorem quiet_ret {cs cs1 : ENVIRON} (h : SameEngine cs cs1) (st : Int) :
    Quiet cs (Outcome.ret (st, cs1)) := ⟨fun hd => (by cases hd), h⟩

theorem quiet_sprintf_err {cs cs1 : ENVIRON} (h : SameEngine cs cs1) (msg : String) :
    Quiet cs (sprintf_err cs1 msg) := ⟨fun hd => (by cases hd), h⟩

theorem quiet_undef (cs : ENVIRON) : Quiet cs Outcome.undef := ⟨fun hd => (by cases hd), trivial⟩

theorem quiet_die {cs cs1 : ENVIRON} (h : SameEngine cs cs1) (hb : ¬ cs1.HAVE_SNPRINTF = true) :
    Quiet cs (Outcome.die "sprintf: buffer overflow") :=
  ⟨fun _ => ⟨by rw [← h.2.2.2]; simpa using hb, rfl⟩, trivial⟩

theorem sprintf_value_quiet (p : SPRINTF_OP) (code : Char) (pp : Nat) (cs cs1 : ENVIRON)
    (h : SameEngine cs cs1) :
    ∀ e, sprintf_value p code pp cs1 = Except.error e → Quiet cs e := by
  intro e he
  unfold sprintf_value at he
  split_ifs at he
  all_goals simp only [Except.error.injEq, reduceCtorEq] at he
  all_goals (rw [← he]; exact quiet_sprintf_err h _)

theorem setMem_sfmt_length (cs : ENVIRON) (p : SPRINTF_OP) (off : Nat) (bytes r1 : List Char)
    (h : poke (cs.mem p.r) off bytes = some r1) :
    ((cs.setMem p.r r1).mem p.sfmt).length = (cs.mem p.sfmt).length := by
  by_cases hs : p.sfmt = p.r
  · rw [hs]; simp [ENVIRON.setMem, poke_length h]
  · simp [ENVIRON.setMem, Function.update, hs]

theorem sprintf_segment_quiet (ls : List Char → FmtVal → Option (List Char)) (p : SPRINTF_OP)
    (maxLen : Int) (sw : Nat) (L : SprintfLocals) (cs cs1 : ENVIRON) (h : SameEngine cs cs1) :
    StepQuiet cs p (cs1.mem p.sfmt).length Prod.snd (sprintf_segment ls p maxLen sw L cs1) := by
  unfold sprintf_segment
  simp only
  split
  · exact quiet_sprintf_err h _
  · cases hc : (cs1.mem p.sfmt).get? sw with
    | none => exact quiet_undef _
    | some code =>
      simp only
      split
      · exact quiet_sprintf_err h _
      · cases ha : p.args.get? L.j with
        | none => exact quiet_undef _
        | some pp =>
          simp only
          cases hv : sprintf_value p code pp cs1 with
          | error e => exact sprintf_value_quiet p code pp cs cs1 h e hv
          | ok v =>
            simp only
            cases hl : ls L.strseg v with
            | none =>
              simp only
              by_cases hb : cs1.HAVE_SNPRINTF = true
              · rw [if_pos hb]; exact quiet_sprintf_err h _
              · rw [if_neg hb]; exact quiet_die h hb
            | some text =>
              simp only
              cases hp : poke (cs1.mem p.r) L.len.toNat
                  (if cs1.HAVE_SNPRINTF = true then snprintf_bytes (maxLen - L.len) text
                    else text ++ [NUL]) with
              | none => exact quiet_undef _
              | some r1 =>
                simp only
                split
                · by_cases hb : cs1.HAVE_SNPRINTF = true
                  · rw [if_pos hb]
                    exact quiet_sprintf_err (sameEngine_trans h (sameEngine_setMem _ _ _)) _
                  · rw [if_neg hb]; exact quiet_die h hb
                · exact ⟨sameEngine_trans h (sameEngine_setMem _ _ _),
                    setMem_sfmt_length _ _ _ _ _ hp⟩

theorem sprintf_flush_quiet (ls : List Char → FmtVal → Option (List Char)) (p : SPRINTF_OP)
    (maxLen : Int) (L : SprintfLocals) (cs cs1 : ENVIRON) (h : SameEngine cs cs1) :
    StepQuiet cs p (cs1.mem p.sfmt).length Prod.snd (sprintf_flush ls p maxLen L cs1) := by
  unfold sprintf_flush
  split
  · exact ⟨h, rfl⟩
  · exact sprintf_segment_quiet _ _ _ _ _ _ _ h

theorem sprintf_next_quiet (p : SPRINTF_OP) (L : SprintfLocals) (cs cs1 : ENVIRON)
    (h : SameEngine cs cs1) :
    (∀ e, sprintf_next p L cs1 = Except.error e → Quiet cs e) ∧
    (∀ L2, sprintf_next p L cs1 = Except.ok L2 →
      L2.fmt = L.fmt + 1 ∧ L.fmt < (cs1.mem p.sfmt).length) := by
  unfold sprintf_next
  cases hg : (cs1.mem p.sfmt).get? L.fmt with
  | none => simp [quiet_undef]
  | some c =>
    have hlt : L.fmt < (cs1.mem p.sfmt).length := by
      by_contra hge
      rw [List.get?_eq_getElem?, List.getElem?_eq_none (by omega)] at hg
      cases hg
    simp only
    split
    · split
      · simp [quiet_sprintf_err h]
      · simp only [Except.error.injEq, reduceCtorEq, false_implies, implies_true, and_true]
        intro e he
        rw [← he]
        exact quiet_ret h _
    · split
      · simp [quiet_undef]
      · simp only [reduceCtorEq, false_implies, implies_true, Except.ok.injEq, true_and]
        intro L2 hL
        rw [← hL]
        exact ⟨rfl, hlt⟩

theorem sprintf_loop_isSome (ls : List Char → FmtVal → Option (List Char)) (p : SPRINTF_OP)
    (maxLen : Int) :
    ∀ (fuel : Nat) (L : SprintfLocals) (cs1 : ENVIRON),
      (cs1.mem p.sfmt).length < L.fmt + fuel → 0 < fuel →
      (sprintf_loop ls p maxLen fuel L cs1).isSome = true := by
  intro fuel
  induction fuel with
  | zero => intro L cs1 _ h0; omega
  | succ f ih =>
    intro L cs1 hlen _
    unfold sprintf_loop
    split
    · rfl
    · cases hg : (cs1.mem p.sfmt).get? L.fmt with
      | none => rfl
      | some c =>
        have hlt : L.fmt < (cs1.mem p.sfmt).length := by
          by_contra hge
          rw [List.get?_eq_getElem?, List.getElem?_eq_none (by omega)] at hg
          cases hg
        simp only
        split
        · exact ih _ _ (by simp only; omega) (by omega)
        · split
          · rfl
          · exact ih _ _ (by simp only; omega) (by omega)
          · have hf := sprintf_flush_quiet ls p maxLen L cs1 cs1 (sameEngine_refl _)
            have hfmt : ∀ L1 cs2, sprintf_flush ls p maxLen L cs1 = Except.ok (L1, cs2) →
                L1.fmt = L.fmt := by
              intro L1 cs2 hfl
              unfold sprintf_flush at hfl
              split at hfl
              · simp only [Except.ok.injEq, Prod.mk.injEq] at hfl
                rw [← hfl.1]
              · unfold sprintf_segment at hfl
                simp only at hfl
                repeat' split at hfl
                all_goals simp only [Except.ok.injEq, Prod.mk.injEq, reduceCtorEq] at hfl
                all_goals rw [← hfl.1]
            cases hfl : sprintf_flush ls p maxLen L cs1 with
            | error e => rfl
            | ok v =>
              obtain ⟨L1, cs2⟩ := v
              rw [hfl] at hf
              simp only
              have hn := sprintf_next_quiet p L1 cs1 cs2 hf.1
              cases hnx : sprintf_next p L1 cs2 with
              | error e => rfl
              | ok L2 =>
                simp only
                have h1 := (hn.2 L2 hnx).1
                have h2 := hfmt L1 cs2 hfl
                have h3 : (cs2.mem p.sfmt).length = (cs1.mem p.sfmt).length := hf.2
                exact ih _ _ (by omega) (by omega)

theorem reports_undef (cs : ENVIRON) : Reports cs Outcome.undef := ⟨rfl, trivial⟩

theorem reports_ok (cs cs1 : ENVIRON) : Reports cs (Outcome.ret (OK, cs1)) := ⟨rfl, Or.inl rfl⟩

theorem strcat_body_reports (cs : ENVIRON) (p : STRCAT_OP) : Reports cs (strcat_body cs p) := by
  unfold strcat_body
  simp only
  repeat' split
  all_goals first
    | exact reports_undef _
    | exact reports_ok _ _

theorem sprintf_value_cases (p : SPRINTF_OP) (code : Char) (pp : Nat) (cs : ENVIRON) :
    (∃ msg, sprintf_value p code pp cs = Except.error (sprintf_err cs msg) ∧
      msg ∈ sprintfMessages) ∨
    (∃ v, sprintf_value p code pp cs = Except.ok v) := by
  unfold sprintf_value
  split_ifs
  · exact Or.inr ⟨_, rfl⟩
  · exact Or.inr ⟨_, rfl⟩
  · exact Or.inl ⟨_, rfl, by decide⟩
  · exact Or.inr ⟨_, rfl⟩
  · exact Or.inl ⟨_, rfl, by decide⟩

/-- C2: when `strget`, `strcpy`, `strcat`, `sprintf`, `strtod` or `strtol` (init
or perf variant) returns a status other than `OK`, the output string of `strget`
and `sprintf` is empty and the output of `strcpy`, `strcat`, `strtod` and
`strtol` is what it was before the call. -/
theorem error_leaves_output_empty_or_unchanged
    (libc_strtod : List Char → MYFLT × List Char)
    (libc_snprintf : List Char → FmtVal → Option (List Char))
    (csound : ENVIRON) (op : StrOpcode) (st : Int) (cs1 : ENVIRON)
    (h : op.exec libc_strtod libc_snprintf csound = Outcome.ret (st, cs1)) (hst : st ≠ OK) :
    OutputAfterError csound cs1 op := by
  cases op with
  | strset_init p => trivial
  | strcmp_opcode p => trivial
  | puts_opcode_init p => trivial
  | puts_opcode_perf p => trivial
  | strget_init p => exact onRet_of_eq (strget_init_error csound p) h hst
  | sprintf_opcode_init p => exact onRet_of_eq (sprintf_init_error _ csound p) h hst
  | sprintf_opcode_perf p => exact onRet_of_eq (sprintf_perf_error _ csound p) h hst
  | strcpy_opcode_init p =>
    exact congrFun (onRet_of_eq (strcpy_init_error csound p) h hst) p.r
  | strcpy_opcode_perf p =>
    exact congrFun (onRet_of_eq (strcpy_perf_error csound p) h hst) p.r
  | strcat_opcode_init p =>
    exact congrFun (onRet_of_eq (strcat_init_error csound p) h hst) p.r
  | strcat_opcode_perf p =>
    exact congrFun (onRet_of_eq (strcat_perf_error csound p) h hst) p.r
  | strtod_opcode_init p =>
    exact congrFun (onRet_of_eq (strtod_error _ csound p _ isErrFunc_InitError) h hst) p.indx
  | strtod_opcode_perf p =>
    exact congrFun (onRet_of_eq (strtod_error _ csound p _ isErrFunc_PerfError) h hst) p.indx
  | strtol_opcode_init p =>
    exact congrFun (onRet_of_eq (strtol_error csound p _ isErrFunc_InitError) h hst) p.indx
  | strtol_opcode_perf p =>
    exact congrFun (onRet_of_eq (strtol_error csound p _ isErrFunc_PerfError) h hst) p.indx

/-- C2 (witness): `strcat` of "hello" and "abc" into an 8-byte variable fails
and leaves the output cell as it was. -/
theorem error_leaves_output_empty_or_unchanged_witness :
    (StrOpcode.strcat_opcode_init { r := 0, str1 := 1, str2 := 0 }).exec
        (fun s => (0, s)) (fun seg _ => some seg) sampleEnviron =
      Outcome.ret (1, (sampleEnviron.InitError "strcat: buffer overflow").2) ∧
    (1 : Int) ≠ OK ∧
    OutputAfterError sampleEnviron (sampleEnviron.InitError "strcat: buffer overflow").2
      (StrOpcode.strcat_opcode_init { r := 0, str1 := 1, str2 := 0 }) :=
  ⟨rfl, by decide,
    error_leaves_output_empty_or_unchanged (fun s => (0, s)) (fun seg _ => some seg)
      sampleEnviron (StrOpcode.strcat_opcode_init { r := 0, str1 := 1, str2 := 0 }) 1
      (sampleEnviron.InitError "strcat: buffer overflow").2 rfl (by decide)⟩

/-- C3: a string variable is a buffer of `strVarMaxLen` bytes that holds a
terminated string, so its length is at most `strVarMaxLen - 1`; when the output
cell of `strget`, `strcpy` or `strcat` (init or perf variant) is such a
variable, the call returns, with or without an error, and the output cell is
still such a variable: its string has at most `strVarMaxLen - 1` characters,
whatever the strset entry, the event string or the inputs are, as long as the
lengths the call converts to `int` are below 2^31. -/
theorem string_opcodes_keep_strVarMaxLen
    (libc_strtod : List Char → MYFLT × List Char)
    (libc_snprintf : List Char → FmtVal → Option (List Char))
    (csound : ENVIRON) (op : StrOpcode) (r : Nat)
    (hop : op.outVar = some r) (hvar : IsStrVar csound r) (hwf : StrsetsWF csound)
    (hfit : FitsInt csound op) :
    KeepsBound csound r (op.exec libc_strtod libc_snprintf csound) := by
  cases op with
  | strget_init p =>
    simp only [StrOpcode.outVar, Option.some.injEq] at hop
    subst hop
    exact strget_keeps csound hwf p hvar hfit
  | strcpy_opcode_init p =>
    simp only [StrOpcode.outVar, Option.some.injEq] at hop
    subst hop
    exact strcpy_init_keeps csound p hvar hfit
  | strcpy_opcode_perf p =>
    simp only [StrOpcode.outVar, Option.some.injEq] at hop
    subst hop
    exact strcpy_perf_keeps csound p hvar hfit
  | strcat_opcode_init p =>
    simp only [StrOpcode.outVar, Option.some.injEq] at hop
    subst hop
    simp only [StrOpcode.exec, strcat_opcode_init]
    split
    · exact @keepsBound_ret _ (ENVIRON.InitError _ _).2 _ _ hvar rfl
    · rename_i hs
      rw [toInt32_small _ hfit] at hs
      exact strcat_body_keeps csound p hvar hs
  | strcat_opcode_perf p =>
    simp only [StrOpcode.outVar, Option.some.injEq] at hop
    subst hop
    simp only [StrOpcode.exec, strcat_opcode_perf]
    split
    · exact @keepsBound_ret _ (ENVIRON.PerfError _ _).2 _ _ hvar rfl
    · rename_i hs
      rw [toInt32_small _ hfit] at hs
      exact strcat_body_keeps csound p hvar hs
  | strset_init p => simp [StrOpcode.outVar] at hop
  | strcmp_opcode p => simp [StrOpcode.outVar] at hop
  | sprintf_opcode_init p => simp [StrOpcode.outVar] at hop
  | sprintf_opcode_perf p => simp [StrOpcode.outVar] at hop
  | puts_opcode_init p => simp [StrOpcode.outVar] at hop
  | puts_opcode_perf p => simp [StrOpcode.outVar] at hop
  | strtod_opcode_init p => simp [StrOpcode.outVar] at hop
  | strtod_opcode_perf p => simp [StrOpcode.outVar] at hop
  | strtol_opcode_init p => simp [StrOpcode.outVar] at hop
  | strtol_opcode_perf p => simp [StrOpcode.outVar] at hop

/-- C3 (witness): `strcat` of "abc" with itself into its own 8-byte cell. -/
theorem string_opcodes_keep_strVarMaxLen_witness :
    (StrOpcode.strcat_opcode_init { r := 0, str1 := 0, str2 := 0 }).outVar = some 0 ∧
    IsStrVar sampleEnviron 0 ∧ StrsetsWF sampleEnviron ∧
    FitsInt sampleEnviron (StrOpcode.strcat_opcode_init { r := 0, str1 := 0, str2 := 0 }) ∧
    KeepsBound sampleEnviron 0
      ((StrOpcode.strcat_opcode_init { r := 0, str1 := 0, str2 := 0 }).exec
        (fun s => (0, s)) (fun seg _ => some seg) sampleEnviron) :=
  ⟨rfl, ⟨rfl, by decide⟩, (fun _ h => by cases h), by unfold FitsInt; decide,
    string_opcodes_keep_strVarMaxLen (fun s => (0, s)) (fun seg _ => some seg) sampleEnviron
      (StrOpcode.strcat_opcode_init { r := 0, str1 := 0, str2 := 0 }) 0 rfl
      ⟨rfl, by decide⟩ (fun _ h => by cases h) (by unfold FitsInt; decide)⟩

/-- C5 (the failing input): with one engine in the table and the engine number
5, `fluidProgramSelect`, `fluidCCi`, `fluidCCk`, `fluidNote` and `fluidControl`
read the table outside its bounds and report nothing, where `fluidLoad` and
`fluidOut` report 'Illegal Engine Number: 5.' and return `NOTOK`. -/
theorem fluid_engine_number_unchecked :
    fluidProgramSelectIopadr oneEngine ⟨5, 0, 0, 0, 0⟩ = Outcome.undef ∧
    (fluidCC_I_Iopadr oneEngine ⟨5, 0, 0, 0, 0, 0⟩).dropBlock = Outcome.undef ∧
    (fluidCC_K_Iopadr oneEngine ⟨5, 0, 0, 0, 0, 0⟩).dropBlock = Outcome.undef ∧
    (fluidNoteIopadr oneEngine ⟨5, 0, 60, 100, 0, 0, 0, 0, 0⟩).dropBlock = Outcome.undef ∧
    (fluidControl_init oneEngine ⟨5, 0, 0, 0, 0, 0, 0, 0, 0, 0⟩).dropBlock = Outcome.undef ∧
    (fluidLoadIopadr oneEngine ⟨0, ['a'], 5, 0⟩).dropBlock =
      Outcome.ret (NOTOK, oneEngine.InitError "Illegal Engine Number: 5.") ∧
    (fluidOutIopadr oneEngine { sampleOut with iEngineNum := 5 }).dropBlock =
      Outcome.ret (NOTOK, oneEngine.InitError "Illegal Engine Number: 5.") := by
  refine ⟨rfl, rfl, rfl, rfl, rfl, ?_, ?_⟩
  · rfl
  · rfl

/-- C7 (the failing input): of the six opcodes of the SYNTAX section of the man
page, five are registered under their name with the documented numbers of
outputs and arguments (`fluidLoad` with one more, optional argument); no entry
of `localops` has the name `fluidCC`. -/
theorem man_page_names_registered :
    manPageSyntax.map (fun d => (d.1, registered d.1)) =
      [("fluidEngine", some (some "i", some "")),
       ("fluidLoad", some (some "i", some "Tio")),
       ("fluidProgramSelect", some (some "", some "iiiii")),
       ("fluidCC", none),
       ("fluidNote", some (some "", some "iiii")),
       ("fluidOut", some (some "aa", some "i"))] ∧
    localops.filter (fun ep => ep.opname = some "fluidCC") = [] ∧
    localops.filterMap (fun ep => ep.opname) =
      ["fluidEngine", "fluidLoad", "fluidProgramSelect", "fluidCCi", "fluidCCk", "fluidNote",
       "fluidOut", "fluidAllOut", "fluidControl"] := by
  decide

/-- C9 (witness): the entry of `fluidOut`, with `thread` 5. -/
theorem localops_thread_agrees_with_entry_points_witness :
    ({ opname := some "fluidOut", dsblksiz := some DataBlock.FLUIDOUT, thread := 5,
       outypes := some "aa", intypes := some "i",
       iopadr := some SUBR.fluidOutIopadr, kopadr := none,
       aopadr := some SUBR.fluidOutAopadr } : OENTRY) ∈ localops ∧
    (((5 : Nat) &&& 1 ≠ 0 ↔ some SUBR.fluidOutIopadr ≠ none) ∧
     ((5 : Nat) &&& 2 ≠ 0 ↔ (none : Option SUBR) ≠ none) ∧
     ((5 : Nat) &&& 4 ≠ 0 ↔ some SUBR.fluidOutAopadr ≠ none)) :=
  ⟨by decide, localops_thread_agrees_with_entry_points
    { opname := some "fluidOut", dsblksiz := some DataBlock.FLUIDOUT, thread := 5,
      outypes := some "aa", intypes := some "i",
      iopadr := some SUBR.fluidOutIopadr, kopadr := none,
      aopadr := some SUBR.fluidOutAopadr } (by decide)⟩

/-- C10 (witness): a cycle of 4 samples rendered by engine 100. -/
theorem fluidOutAopadr_fills_block_witness :
    1 ≤ sampleCsound.ksmps ∧
    fluidOutAopadr sampleCsound sampleOut = Outcome.ret (OK,
      { sampleCsound with
          calls := sampleCsound.calls ++
            List.replicate sampleCsound.ksmps.toNat
              (FluidCall.write_float sampleOut.fluidEngine) },
      { sampleOut with
          aLeftOut := fun i =>
            if i < sampleCsound.ksmps.toNat then (frameAt sampleCsound sampleOut.fluidEngine i).1
            else sampleOut.aLeftOut i,
          aRightOut := fun i =>
            if i < sampleCsound.ksmps.toNat then (frameAt sampleCsound sampleOut.fluidEngine i).2
            else sampleOut.aRightOut i }) :=
  ⟨by decide, fluidOutAopadr_fills_block sampleCsound sampleOut (by decide)⟩

/-- C6 (witness): after one activation of `fluidEngine` on the sample handle,
the next one returns the number 1. -/
theorem fluidEngine_numbers_engines_witness :
    sampleCsound.globals = none ∧ sampleCsound.createFails = false ∧
    fluidRun [FluidOpcode.fluidEngineIopadr ⟨0⟩] sampleCsound = Outcome.ret afterOneEngine ∧
    [FluidOpcode.fluidEngineIopadr ⟨0⟩].countP FluidOpcode.isEngine + 1 < 16777216 ∧
    ∃ csound1 e,
      e = afterOneEngine.new_fluid_synth (afterOneEngine.calls ++
        [FluidCall.new_fluid_settings,
         FluidCall.settings_setnum "synth.sample-rate" afterOneEngine.esr,
         FluidCall.settings_setint "synth.polyphony" 4096,
         FluidCall.settings_setint "synth.midi-channels" 256]) ∧
      fluidEngineIopadr afterOneEngine ⟨0⟩ = Outcome.ret (OK, csound1, ⟨1⟩) ∧
      csound1.calls = afterOneEngine.calls ++
        [FluidCall.new_fluid_settings,
         FluidCall.settings_setnum "synth.sample-rate" afterOneEngine.esr,
         FluidCall.settings_setint "synth.polyphony" 4096,
         FluidCall.settings_setint "synth.midi-channels" 256,
         FluidCall.new_fluid_synth e] ∧
      afterOneEngine.cnt = 1 ∧
      afterOneEngine.engines.length = 1 ∧
      csound1.cnt = 1 + 1 ∧
      csound1.engines = afterOneEngine.engines ++ [e] ∧
      csound1.engines.get? 1 = some e ∧
      (∀ i < 1, csound1.engines.get? i = afterOneEngine.engines.get? i) ∧
      (0 ≤ (1 : Int) ∧ (1 : Int) < toInt32 csound1.cnt) ∧
      ∀ q : FLUIDOUT, q.iEngineNum = (1 : Int) →
        fluidOutIopadr csound1 q = Outcome.ret (OK, csound1, { q with fluidEngine := e }) :=
  ⟨rfl, rfl, by rfl, by decide,
    fluidEngine_numbers_engines sampleCsound [FluidOpcode.fluidEngineIopadr ⟨0⟩] afterOneEngine
      ⟨0⟩ rfl rfl (by rfl) (by decide)⟩

/-- C4 (witness): a note that is activated, activated again while it sounds,
released and deinitialised. -/
theorem fluidNote_on_off_balance_witness :
    sampleNote.initDone = 0 ∧
    ((∀ c ∈ [NoteCall.activate 0 1 60 100, NoteCall.control 0, NoteCall.activate 0 1 62 100,
              NoteCall.control 1, NoteCall.deinit], validNoteCall oneEngine c) →
      ∃ cs1 p1, noteRun [NoteCall.activate 0 1 60 100, NoteCall.control 0,
        NoteCall.activate 0 1 62 100, NoteCall.control 1, NoteCall.deinit] oneEngine sampleNote =
          Outcome.ret (cs1, p1)) ∧
    ∀ cs1 p1, noteRun [NoteCall.activate 0 1 60 100, NoteCall.control 0,
        NoteCall.activate 0 1 62 100, NoteCall.control 1, NoteCall.deinit] oneEngine sampleNote =
          Outcome.ret (cs1, p1) →
      sounding cs1.calls - sounding oneEngine.calls = p1.initDone ∧
      (p1.initDone = 0 ∨ p1.initDone = 1) ∧
      ([NoteCall.activate 0 1 60 100, NoteCall.control 0, NoteCall.activate 0 1 62 100,
          NoteCall.control 1, NoteCall.deinit].getLast? = some NoteCall.deinit →
        sounding cs1.calls - sounding oneEngine.calls = 0) :=
  ⟨rfl, fluidNote_on_off_balance [NoteCall.activate 0 1 60 100, NoteCall.control 0,
      NoteCall.activate 0 1 62 100, NoteCall.control 1, NoteCall.deinit] oneEngine sampleNote rfl⟩

/-! ## fluidAllOut: the sum over the engines -/

theorem fluidAllOut_inner_spec (i : Nat) (n : Nat) :
    ∀ (fuel j : Nat) (cs : CSOUND) (q : FLUIDALLOUT),
      (j : Int) + n + 1 = q.cnt → n < fuel → j + n + 1 ≤ q.fluidEngines.length →
      fluidAllOut_inner i fuel j cs q = some (some
        ({ cs with calls := cs.calls ++
              ((q.fluidEngines.drop j).take (n + 1)).map FluidCall.write_float },
         { q with
            aLeftOut := Function.update q.aLeftOut i
              (renderAll cs.fluid_synth_write_float cs.calls
                ((q.fluidEngines.drop j).take (n + 1)) (q.aLeftOut i, q.aRightOut i)).1,
            aRightOut := Function.update q.aRightOut i
              (renderAll cs.fluid_synth_write_float cs.calls
                ((q.fluidEngines.drop j).take (n + 1)) (q.aLeftOut i, q.aRightOut i)).2 })) := by
  induction n with
  | zero =>
    intro fuel j cs q hk hf hlen
    obtain ⟨f, rfl⟩ : ∃ f, fuel = f + 1 := ⟨fuel - 1, by omega⟩
    have hj : j < q.fluidEngines.length := by omega
    have hd : q.fluidEngines.drop j = q.fluidEngines[j] :: q.fluidEngines.drop (j + 1) :=
      List.drop_eq_getElem_cons hj
    have h0 : ¬ ((j : Int) < 0) := by omega
    have h1 : ¬ ((j : Int) + 1 < q.cnt) := by omega
    simp only [fluidAllOut_inner, h0, if_false, Int.toNat_ofNat, List.get?_eq_getElem?,
      List.getElem?_eq_getElem hj, write_frame, h1, CSOUND.call, hd, List.take_succ_cons,
      List.take_zero, List.map_cons, List.map_nil, renderAll]
  | succ n ih =>
    intro fuel j cs q hk hf hlen
    obtain ⟨f, rfl⟩ : ∃ f, fuel = f + 1 := ⟨fuel - 1, by omega⟩
    have hj : j < q.fluidEngines.length := by omega
    have hd : q.fluidEngines.drop j = q.fluidEngines[j] :: q.fluidEngines.drop (j + 1) :=
      List.drop_eq_getElem_cons hj
    have h0 : ¬ ((j : Int) < 0) := by omega
    have h1 : (j : Int) + 1 < q.cnt := by push_cast at hk; omega
    have hi : ((j : Int) + 1) = ((j + 1 : Nat) : Int) := by push_cast; rfl
    simp only [fluidAllOut_inner, h0, if_false, Int.toNat_ofNat, List.get?_eq_getElem?,
      List.getElem?_eq_getElem hj, write_frame, h1, if_true, CSOUND.call]
    rw [hi, ih f (j + 1) _ _ (by push_cast at hk ⊢; omega) (by omega) (by simp only [] at hlen ⊢; omega)]
    rw [hd, List.take_succ_cons]
    simp [renderAll, Function.update]

theorem sampleSum_step (cs : CSOUND) (q : FLUIDALLOUT) (a b : Nat → MYFLT) (k : Nat) :
    sampleSum { cs with calls := cs.calls ++ allOutCalls q }
      { q with aLeftOut := a, aRightOut := b } k = sampleSum cs q (k + 1) := by
  simp [sampleSum, allOutCalls, List.replicate_succ, List.append_assoc]

theorem fluidAllOut_outer_spec (ksmps : Int) (n : Nat) :
    ∀ (fuel i : Nat) (cs : CSOUND) (q : FLUIDALLOUT),
      (i : Int) + n + 1 = ksmps → n < fuel → 1 ≤ q.cnt →
      q.cnt.toNat ≤ q.fluidEngines.length →
      fluidAllOut_outer ksmps fuel i cs q = some (some
        ({ cs with calls := cs.calls ++ (List.replicate (n + 1) (allOutCalls q)).flatten },
         { q with
            aLeftOut := fun k =>
              if i ≤ k ∧ k ≤ i + n then (sampleSum cs q (k - i)).1 else q.aLeftOut k,
            aRightOut := fun k =>
              if i ≤ k ∧ k ≤ i + n then (sampleSum cs q (k - i)).2 else q.aRightOut k })) := by
  induction n with
  | zero =>
    intro fuel i cs q hk hf hc hlen
    obtain ⟨f, rfl⟩ : ∃ f, fuel = f + 1 := ⟨fuel - 1, by omega⟩
    have h1 : ¬ ((i : Int) + 1 < ksmps) := by omega
    have hin := fluidAllOut_inner_spec i (q.cnt.toNat - 1) (q.cnt.toNat + 1) 0 cs
      { q with aLeftOut := Function.update q.aLeftOut i 0,
               aRightOut := Function.update q.aRightOut i 0 }
      (by simp only []; omega) (by omega) (by simp only []; omega)
    have hsub : q.cnt.toNat - 1 + 1 = q.cnt.toNat := by omega
    have h00 : ((0 : Nat) : Int) = 0 := rfl
    rw [h00] at hin
    simp only [hsub, List.drop_zero, Function.update_same] at hin
    simp only [fluidAllOut_outer, Int.toNat_ofNat, hin, h1, if_false]
    have hL : ∀ (a : Nat → MYFLT) (v : MYFLT × MYFLT → MYFLT),
        Function.update (Function.update a i 0) i
          (v (renderAll cs.fluid_synth_write_float cs.calls
            (List.take q.cnt.toNat q.fluidEngines) (0, 0))) =
        fun k => if i ≤ k ∧ k ≤ i + 0 then v (sampleSum cs q (k - i)) else a k := by
      intro a v
      funext k
      by_cases hki : k = i
      · subst hki; simp [sampleSum]
      · have : ¬ (i ≤ k ∧ k ≤ i) := by omega
        simp [Function.update, hki, this]
    rw [hL q.aLeftOut Prod.fst, hL q.aRightOut Prod.snd]
    simp [allOutCalls]
  | succ n ih =>
    intro fuel i cs q hk hf hc hlen
    obtain ⟨f, rfl⟩ : ∃ f, fuel = f + 1 := ⟨fuel - 1, by omega⟩
    have h1 : (i : Int) + 1 < ksmps := by push_cast at hk; omega
    have hi : ((i : Int) + 1) = ((i + 1 : Nat) : Int) := by push_cast; rfl
    have hin := fluidAllOut_inner_spec i (q.cnt.toNat - 1) (q.cnt.toNat + 1) 0 cs
      { q with aLeftOut := Function.update q.aLeftOut i 0,
               aRightOut := Function.update q.aRightOut i 0 }
      (by simp only []; omega) (by omega) (by simp only []; omega)
    have hsub : q.cnt.toNat - 1 + 1 = q.cnt.toNat := by omega
    have h00 : ((0 : Nat) : Int) = 0 := rfl
    rw [h00] at hin
    simp only [hsub, List.drop_zero, Function.update_same] at hin
    simp only [fluidAllOut_outer, Int.toNat_ofNat, hin, h1, if_true]
    have hcalls : (List.map FluidCall.write_float (List.take q.cnt.toNat q.fluidEngines))
        = allOutCalls q := rfl
    rw [hi, ih f (i + 1)
      { cs with calls := cs.calls ++
          List.map FluidCall.write_float (List.take q.cnt.toNat q.fluidEngines) }
      { q with
          aLeftOut := Function.update (Function.update q.aLeftOut i 0) i
            (renderAll cs.fluid_synth_write_float cs.calls
              (List.take q.cnt.toNat q.fluidEngines) (0, 0)).1,
          aRightOut := Function.update (Function.update q.aRightOut i 0) i
            (renderAll cs.fluid_synth_write_float cs.calls
              (List.take q.cnt.toNat q.fluidEngines) (0, 0)).2 }
      (by push_cast at hk ⊢; omega) (by omega) hc hlen]
    simp only [hcalls]
    have hq : ∀ a b, allOutCalls { q with aLeftOut := a, aRightOut := b } = allOutCalls q :=
      fun _ _ => rfl
    simp only [hq, sampleSum_step]
    have hL : ∀ (a : Nat → MYFLT) (v : MYFLT × MYFLT → MYFLT),
        (fun k => if i + 1 ≤ k ∧ k ≤ i + 1 + n then v (sampleSum cs q (k - (i + 1) + 1))
          else Function.update (Function.update a i 0) i
            (v (renderAll cs.fluid_synth_write_float cs.calls
              (List.take q.cnt.toNat q.fluidEngines) (0, 0))) k) =
        fun k => if i ≤ k ∧ k ≤ i + (n + 1) then v (sampleSum cs q (k - i)) else a k := by
      intro a v
      funext k
      by_cases hki : k = i
      · subst hki
        have : ¬ (k + 1 ≤ k ∧ k ≤ k + 1 + n) := by omega
        simp [this, sampleSum]
      · by_cases e1 : i + 1 ≤ k ∧ k ≤ i + 1 + n
        · have e3 : (i ≤ k ∧ k ≤ i + (n + 1)) := by omega
          have e2 : k - (i + 1) + 1 = k - i := by omega
          rw [if_pos e1, if_pos e3, e2]
        · have e3 : ¬ (i ≤ k ∧ k ≤ i + (n + 1)) := by omega
          rw [if_neg e1, if_neg e3]
          simp [Function.update, hki]
    rw [hL q.aLeftOut Prod.fst, hL q.aRightOut Prod.snd]
    simp [List.replicate_succ, List.append_assoc]

/-- C11 (as amended): for a cycle width `ksmps ≥ 1` and a data block whose
`cnt` engines are all within the table: with `cnt ≥ 1`, `fluidAllOutAopadr`
returns `OK` after requesting, sample by sample, one frame from each engine in
table order; index `i < ksmps` of both vectors holds the sum, from zero and in
table order, of the frames of sample `i`, and no other index is written.  With
`cnt ≤ 0` it returns `OK` at once: nothing is requested and both vectors are as
they were. -/
theorem fluidAllOutAopadr_sums_engines (csound : CSOUND) (p : FLUIDALLOUT)
    (hk : 1 ≤ csound.ksmps) (hlen : p.cnt.toNat ≤ p.fluidEngines.length) :
    fluidAllOutAopadr csound p =
      if p.cnt ≤ 0 then Outcome.ret (OK, csound, p)
      else Outcome.ret (OK,
        { csound with calls := csound.calls ++
            (List.replicate csound.ksmps.toNat (allOutCalls p)).flatten },
        { p with
            aLeftOut := fun i =>
              if i < csound.ksmps.toNat then (sampleSum csound p i).1 else p.aLeftOut i,
            aRightOut := fun i =>
              if i < csound.ksmps.toNat then (sampleSum csound p i).2 else p.aRightOut i }) := by
  by_cases hc : p.cnt ≤ 0
  · simp [fluidAllOutAopadr, hc]
  · have hspec := fluidAllOut_outer_spec csound.ksmps (csound.ksmps.toNat - 1)
      (csound.ksmps.toNat + 1) 0 csound p (by push_cast; omega) (by omega) (by omega) hlen
    have h00 : ((0 : Nat) : Int) = 0 := rfl
    have hk2 : csound.ksmps.toNat - 1 + 1 = csound.ksmps.toNat := by omega
    rw [h00, hk2] at hspec
    simp only [fluidAllOutAopadr, if_neg hc, hspec]
    congr 3
    · congr 1
      · funext k
        by_cases hkk : k < csound.ksmps.toNat
        · have e : 0 ≤ k ∧ k ≤ 0 + (csound.ksmps.toNat - 1) := by omega
          rw [if_pos e, if_pos hkk, Nat.sub_zero]
        · have e : ¬ (0 ≤ k ∧ k ≤ 0 + (csound.ksmps.toNat - 1)) := by omega
          rw [if_neg e, if_neg hkk]
      · funext k
        by_cases hkk : k < csound.ksmps.toNat
        · have e : 0 ≤ k ∧ k ≤ 0 + (csound.ksmps.toNat - 1) := by omega
          rw [if_pos e, if_pos hkk, Nat.sub_zero]
        · have e : ¬ (0 ≤ k ∧ k ≤ 0 + (csound.ksmps.toNat - 1)) := by omega
          rw [if_neg e, if_neg hkk]

/-- C11 (witness): two engines and a cycle of 4 samples; the library of the
sample state renders (number of calls so far, engine), so sample 0 sums to
(0 + 1, 100 + 101) and sample 1 to (2 + 3, 100 + 101). -/
theorem fluidAllOutAopadr_sums_engines_witness :
    (1 : Int) ≤ sampleCsound.ksmps ∧
    sampleAllOut.cnt.toNat ≤ sampleAllOut.fluidEngines.length ∧
    sampleSum sampleCsound sampleAllOut 0 = (1, 201) ∧
    sampleSum sampleCsound sampleAllOut 1 = (5, 201) ∧
    fluidAllOutAopadr sampleCsound sampleAllOut =
      if sampleAllOut.cnt ≤ 0 then Outcome.ret (OK, sampleCsound, sampleAllOut)
      else Outcome.ret (OK,
        { sampleCsound with calls := sampleCsound.calls ++
            (List.replicate sampleCsound.ksmps.toNat (allOutCalls sampleAllOut)).flatten },
        { sampleAllOut with
            aLeftOut := fun i =>
              if i < sampleCsound.ksmps.toNat then (sampleSum sampleCsound sampleAllOut i).1
              else sampleAllOut.aLeftOut i,
            aRightOut := fun i =>
              if i < sampleCsound.ksmps.toNat then (sampleSum sampleCsound sampleAllOut i).2
              else sampleAllOut.aRightOut i }) :=
  ⟨by decide, by decide, by decide, by decide,
    fluidAllOutAopadr_sums_engines sampleCsound sampleAllOut (by decide) (by decide)⟩

/-- C11 (counterexample): with no engine (`cnt = 0`) and a cycle of 4 samples,
`fluidAllOutAopadr` returns `OK` and index 0 of the left vector still holds the
7 it held before the call, not the empty sum 0. -/
theorem fluidAllOutAopadr_no_engine_writes_nothing :
    fluidAllOutAopadr sampleCsound { sampleAllOut with fluidEngines := [], cnt := 0 } =
      Outcome.ret (OK, sampleCsound, { sampleAllOut with fluidEngines := [], cnt := 0 }) ∧
    ({ sampleAllOut with fluidEngines := [], cnt := 0 } : FLUIDALLOUT).aLeftOut 0 = 7 ∧
    (7 : MYFLT) ≠ 0 := by
  refine ⟨by simp [fluidAllOutAopadr], rfl, by decide⟩

/-! ## fluidControl: note-on with velocity 0 -/

theorem fluidRun_prefix : ∀ (ops : List FluidOpcode) (cs0 cs : CSOUND),
    fluidRun ops cs0 = Outcome.ret cs → cs0.engines.length = cs0.cnt →
    cs0.engines <+: cs.engines := by
  intro ops
  induction ops with
  | nil =>
    intro cs0 cs h hinv
    simp only [fluidRun, Outcome.ret.injEq] at h
    subst h
    exact List.prefix_refl _
  | cons op rest ih =>
    intro cs0 cs h hinv
    simp only [fluidRun] at h
    cases hx : op.exec cs0 with
    | undef => simp [hx] at h
    | die msg => simp [hx] at h
    | ret v =>
      obtain ⟨st, c1⟩ := v
      simp only [hx] at h
      by_cases he : op.isEngine = true
      · cases op with
        | fluidEngineIopadr p =>
          obtain ⟨p1, hr⟩ := (dropBlock_ret _ _ _).mp hx
          by_cases hd : cs0.globals = none ∧ cs0.createFails = true
          · rw [fluidEngineIopadr_dies _ _ hd.1 hd.2] at hr
            cases hr
          · obtain ⟨c2, hr2, hg, hc⟩ := fluidEngineIopadr_spec cs0 p hinv
              (by intro hn; cases hcf : cs0.createFails <;> simp_all)
            rw [hr2] at hr
            simp only [Outcome.ret.injEq, Prod.mk.injEq] at hr
            obtain ⟨_, rfl, _⟩ := hr
            have hE1 : c2.engines = cs0.engines ++ [(fluidEngine_new cs0).1] := by
              rw [CSOUND.engines, hg]
            have hN1 : c2.cnt = cs0.cnt + 1 := by
              rw [CSOUND.cnt, hg]
            have hinv1 : c2.engines.length = c2.cnt := by
              rw [hE1, hN1, List.length_append, hinv]; rfl
            have h1 := ih _ _ h hinv1
            rw [hE1] at h1
            exact List.IsPrefix.trans (List.prefix_append _ _) h1
        | _ => simp [FluidOpcode.isEngine] at he
      · have he2 : op.isEngine = false := by simpa using he
        obtain ⟨⟨hc, hE, hN⟩, _⟩ := fluid_exec_ret _ _ _ _ hx he2
        have h1 := ih _ _ h (by rw [hE, hN]; exact hinv)
        rw [hE] at h1
        exact h1

/-- C13: `fluid_getGlobals` returns the storage of "fluid.engines" as it finds
it when the variable exists, the engine state unchanged; when the variable is
absent it creates it with the count 0 and an empty table (or reaches `Die` when
the creation fails).  So in a run of entry points of the module that returns,
the count is never reset: it is the count before the run plus the number of
engine allocations of the run, and the table of before is a prefix of the table
after. -/
theorem fluid_getGlobals_query_then_create (csound : CSOUND) (ops : List FluidOpcode)
    (cs1 : CSOUND) (hwf : csound.engines.length = csound.cnt)
    (hrun : fluidRun ops csound = Outcome.ret cs1) :
    fluid_getGlobals csound =
      (match csound.globals with
       | some pp => Outcome.ret (pp, csound)
       | none =>
         if csound.createFails then Outcome.die "fluid: error allocating globals"
         else Outcome.ret (⟨[], 0⟩, { csound with globals := some ⟨[], 0⟩ })) ∧
    cs1.cnt = csound.cnt + ops.countP FluidOpcode.isEngine ∧
    csound.cnt ≤ cs1.cnt ∧
    csound.engines <+: cs1.engines := by
  obtain ⟨_, h2, _⟩ := fluidRun_count ops csound cs1 hrun hwf
  refine ⟨?_, h2, by omega, fluidRun_prefix ops csound cs1 hrun hwf⟩
  unfold fluid_getGlobals fluid_allocGlobals
  cases csound.globals <;> rfl

/-- C13 (witness): after one engine, a run of `fluidOut`, `fluidEngine`,
`fluidAllOut` leaves two engines, the first one in its place. -/
theorem fluid_getGlobals_query_then_create_witness :
    afterOneEngine.engines.length = afterOneEngine.cnt ∧
    (fluidRun [FluidOpcode.fluidOutIopadr sampleOut, FluidOpcode.fluidEngineIopadr ⟨0⟩,
        FluidOpcode.fluidAllOutIopadr sampleAllOut] afterOneEngine).OnRet
      (fun cs => cs.globals = some ⟨[104, 109], 2⟩) ∧
    ∃ cs1, fluidRun [FluidOpcode.fluidOutIopadr sampleOut, FluidOpcode.fluidEngineIopadr ⟨0⟩,
        FluidOpcode.fluidAllOutIopadr sampleAllOut] afterOneEngine = Outcome.ret cs1 ∧
      fluid_getGlobals afterOneEngine =
        (match afterOneEngine.globals with
         | some pp => Outcome.ret (pp, afterOneEngine)
         | none =>
           if afterOneEngine.createFails then Outcome.die "fluid: error allocating globals"
           else Outcome.ret (⟨[], 0⟩, { afterOneEngine with globals := some ⟨[], 0⟩ })) ∧
      cs1.cnt = afterOneEngine.cnt +
        [FluidOpcode.fluidOutIopadr sampleOut, FluidOpcode.fluidEngineIopadr ⟨0⟩,
          FluidOpcode.fluidAllOutIopadr sampleAllOut].countP FluidOpcode.isEngine ∧
      afterOneEngine.cnt ≤ cs1.cnt ∧
      afterOneEngine.engines <+: cs1.engines :=
  ⟨rfl, rfl, _, rfl,
    fluid_getGlobals_query_then_create afterOneEngine
      [FluidOpcode.fluidOutIopadr sampleOut, FluidOpcode.fluidEngineIopadr ⟨0⟩,
        FluidOpcode.fluidAllOutIopadr sampleAllOut] _ rfl rfl⟩

/-! ## strcat under aliasing -/

theorem take_strlen (b : List Char) : b.take (strlen b) = cstr b := by
  unfold strlen cstr
  induction b with
  | nil => rfl
  | cons c cs ih =>
    by_cases h : (c != NUL) = true
    · simp only [List.takeWhile_cons, h, if_true, List.length_cons, List.take_succ_cons, ih]
    · simp [List.takeWhile_cons, h]

theorem cstr_of_headD {b : List Char} (h : b.headD NUL = NUL) : cstr b = [] := by
  cases b with
  | nil => rfl
  | cons c cs =>
    simp only [List.headD_cons] at h
    subst h
    exact cstr_nul_cons cs

theorem cstr_two (a b rest : List Char) :
    cstr (cstr a ++ (cstr b ++ [NUL]) ++ rest) = cstr a ++ cstr b := by
  have h : cstr a ++ (cstr b ++ [NUL]) ++ rest = (cstr a ++ cstr b) ++ NUL :: rest := by simp
  rw [h]
  apply cstr_append_nul
  intro hm
  rcases List.mem_append.mp hm with hm | hm
  · exact cstr_nul_free _ hm
  · exact cstr_nul_free _ hm

theorem c_strcat_spec (csound : ENVIRON) (buf src : List Char)
    (hl : (buf.length : Int) = csound.strVarMaxLen)
    (hs : ¬ (((strlen buf + strlen src : Nat) : Int) ≥ csound.strVarMaxLen)) :
    ∃ b, c_strcat buf src = some b ∧ (b.length : Int) = csound.strVarMaxLen ∧ NUL ∈ b ∧
      cstr b = cstr buf ++ cstr src := by
  obtain ⟨b, h1, h2, h3, h4⟩ := poke_text csound buf (cstr src) (strlen buf) hl
    (by unfold strlen at hs ⊢; omega)
  refine ⟨b, h1, h2, h3, ?_⟩
  rw [h4, take_strlen]
  exact cstr_two _ _ _

theorem setMem_setMem (csound : ENVIRON) (a : Nat) (b c : List Char) :
    (csound.setMem a b).setMem a c = csound.setMem a c := by
  simp [ENVIRON.setMem]

theorem setMem_self (csound : ENVIRON) (a : Nat) : csound.setMem a (csound.mem a) = csound := by
  simp [ENVIRON.setMem]

theorem strcat_body_correct (csound : ENVIRON) (p : STRCAT_OP) (hr : IsStrVar csound p.r)
    (hs : ¬ (((strlen (csound.mem p.str1) + strlen (csound.mem p.str2) : Nat) : Int)
      ≥ csound.strVarMaxLen)) :
    ∃ buf, strcat_body csound p = Outcome.ret (OK, csound.setMem p.r buf) ∧
      cstr buf = cstr (csound.mem p.str1) ++ cstr (csound.mem p.str2) ∧
      (buf.length : Int) = csound.strVarMaxLen ∧ NUL ∈ buf := by
  unfold strcat_body
  by_cases h2 : p.r ≠ p.str2
  · rw [if_pos h2]
    by_cases h1 : p.r ≠ p.str1
    · simp only [if_pos h1]
      obtain ⟨b, hb1, hb2, hb3, hb4⟩ := c_strcpy_fits csound (csound.mem p.r)
        (csound.mem p.str1) hr.1 (by omega)
      simp only [hb1, Option.map_some']
      have hm2 : (csound.setMem p.r b).mem p.str2 = csound.mem p.str2 := by
        simp [ENVIRON.setMem, Function.update, Ne.symm h2]
      have hmr : (csound.setMem p.r b).mem p.r = b := by simp [ENVIRON.setMem]
      rw [hmr, hm2]
      obtain ⟨c, hc1, hc2, hc3, hc4⟩ := c_strcat_spec csound b (csound.mem p.str2) hb2
        (by rw [strlen_of_cstr_eq hb4]; exact hs)
      simp only [hc1, setMem_setMem]
      exact ⟨c, rfl, by rw [hc4, hb4], hc2, hc3⟩
    · have h1e : p.r = p.str1 := by simpa using h1
      simp only [if_neg h1]
      obtain ⟨c, hc1, hc2, hc3, hc4⟩ := c_strcat_spec csound (csound.mem p.r)
        (csound.mem p.str2) hr.1 (by rw [h1e]; exact hs)
      simp only [hc1]
      exact ⟨c, rfl, by rw [hc4, h1e], hc2, hc3⟩
  · have h2e : p.r = p.str2 := by simpa using h2
    rw [if_neg h2]
    by_cases h0 : (csound.mem p.str1).headD NUL = NUL
    · rw [if_pos h0]
      refine ⟨csound.mem p.r, by rw [setMem_self], ?_, hr.1, hr.2⟩
      rw [cstr_of_headD h0, h2e]; rfl
    · rw [if_neg h0]
      have hvar : IsStrVar csound p.str2 := h2e ▸ hr
      have hlt := strlen_lt_of_mem hvar.2
      have hlen := hvar.1
      have hfit : strlen (csound.mem p.str1) + (cstr (csound.mem p.str2) ++ [NUL]).length
          ≤ (csound.mem p.str2).length := by
        simp only [List.length_append, List.length_singleton]
        unfold strlen at hs hlt ⊢
        omega
      have hmm : c_memmove (csound.mem p.str2) (strlen (csound.mem p.str1)) (csound.mem p.str2)
          (strlen (csound.mem p.str2) + 1) = some
            (List.take (strlen (csound.mem p.str1)) (csound.mem p.str2) ++
              (cstr (csound.mem p.str2) ++ [NUL]) ++
              List.drop (strlen (csound.mem p.str1) + (cstr (csound.mem p.str2) ++ [NUL]).length)
                (csound.mem p.str2)) := by
        unfold c_memmove
        rw [if_pos (by omega), take_strlen_succ hvar.2]
        exact poke_eq_some hfit
      simp only [hmm]
      set b1 := List.take (strlen (csound.mem p.str1)) (csound.mem p.str2) ++
              (cstr (csound.mem p.str2) ++ [NUL]) ++
              List.drop (strlen (csound.mem p.str1) + (cstr (csound.mem p.str2) ++ [NUL]).length)
                (csound.mem p.str2) with hb1
      have hb1len : b1.length = (csound.mem p.str2).length :=
        poke_length (poke_eq_some hfit)
      have hl1 : strlen (csound.mem p.str1) < (csound.mem p.str2).length := by
        simp only [List.length_append, List.length_singleton] at hfit
        omega
      have htl : (List.take (strlen (csound.mem p.str1)) (csound.mem p.str2)).length
          = strlen (csound.mem p.str1) := by
        rw [List.length_take]; omega
      by_cases h1 : p.r ≠ p.str1
      · rw [if_pos h1]
        have h12 : p.str2 ≠ p.str1 := h2e ▸ h1
        have hm1 : (csound.setMem p.str2 b1).mem p.str1 = csound.mem p.str1 := by
          simp [ENVIRON.setMem, Function.update, Ne.symm h12]
        have hm2 : (csound.setMem p.str2 b1).mem p.str2 = b1 := by simp [ENVIRON.setMem]
        rw [hm1, hm2]
        have hla : strlen (csound.mem p.str1) ≤ (csound.mem p.str1).length := strlen_le_length _
        have hfit2 : 0 + (List.take (strlen (csound.mem p.str1)) (csound.mem p.str1)).length
            ≤ b1.length := by
          simp only [List.length_take, Nat.zero_add]
          omega
        have hcp : c_memmove b1 0 (csound.mem p.str1) (strlen (csound.mem p.str1)) = some
            (List.take 0 b1 ++ List.take (strlen (csound.mem p.str1)) (csound.mem p.str1) ++
              List.drop (0 + (List.take (strlen (csound.mem p.str1)) (csound.mem p.str1)).length)
                b1) := by
          unfold c_memmove
          rw [if_pos hla]
          exact poke_eq_some hfit2
        simp only [hcp, setMem_setMem]
        rw [h2e]
        refine ⟨_, rfl, ?_, ?_, ?_⟩
        · have hd : List.drop (0 + (List.take (strlen (csound.mem p.str1))
              (csound.mem p.str1)).length) b1 = (cstr (csound.mem p.str2) ++ [NUL]) ++
              List.drop (strlen (csound.mem p.str1) + (cstr (csound.mem p.str2) ++ [NUL]).length)
                (csound.mem p.str2) := by
            rw [take_strlen, Nat.zero_add, hb1, List.append_assoc]
            have := List.drop_left (List.take (strlen (csound.mem p.str1)) (csound.mem p.str2))
              ((cstr (csound.mem p.str2) ++ [NUL]) ++
              List.drop (strlen (csound.mem p.str1) + (cstr (csound.mem p.str2) ++ [NUL]).length)
                (csound.mem p.str2))
            rw [htl] at this
            exact this
          rw [hd, take_strlen, List.take_zero, List.nil_append, ← List.append_assoc]
          exact cstr_two _ _ _
        · have := poke_length (poke_eq_some hfit2)
          rw [this, hb1len]
          exact hlen
        · rw [List.mem_append]
          right
          rw [hb1, List.append_assoc, take_strlen, Nat.zero_add]
          have hd := List.drop_left (List.take (strlen (csound.mem p.str1)) (csound.mem p.str2))
              ((cstr (csound.mem p.str2) ++ [NUL]) ++
              List.drop (strlen (csound.mem p.str1) + (cstr (csound.mem p.str2) ++ [NUL]).length)
                (csound.mem p.str2))
          rw [htl] at hd
          have hcl : (cstr (csound.mem p.str1)).length = strlen (csound.mem p.str1) := rfl
          rw [hcl, hd]
          simp
      · have h1e : p.r = p.str1 := by simpa using h1
        rw [if_neg h1, h2e]
        refine ⟨b1, rfl, ?_, by rw [hb1len]; exact hlen, by simp [hb1]⟩
        have h12 : p.str1 = p.str2 := by rw [← h1e, h2e]
        rw [hb1, h12, take_strlen]
        exact cstr_two _ _ _

/-- C17: when the output cell of `strcat` is a string variable and the lengths
of the two inputs add up to less than 2^31, then for every choice of the three
cells, aliased or not: if the lengths add up to less than `strVarMaxLen`, both
variants return `OK` and change the output cell only, which then holds the
first input followed by the second, as they were before the call; otherwise
both return the status of the 'strcat: buffer overflow' report and change no
cell. -/
theorem strcat_correct_under_aliasing (csound : ENVIRON) (p : STRCAT_OP)
    (hvar : IsStrVar csound p.r)
    (hfit : strlen (csound.mem p.str1) + strlen (csound.mem p.str2) < 2147483648) :
    if ((strlen (csound.mem p.str1) + strlen (csound.mem p.str2) : Nat) : Int)
        < csound.strVarMaxLen then
      ∃ buf, strcat_opcode_init csound p = Outcome.ret (OK, csound.setMem p.r buf) ∧
        strcat_opcode_perf csound p = Outcome.ret (OK, csound.setMem p.r buf) ∧
        cstr buf = cstr (csound.mem p.str1) ++ cstr (csound.mem p.str2) ∧
        (buf.length : Int) = csound.strVarMaxLen ∧
        (csound.setMem p.r buf).mem p.str1 = (if p.str1 = p.r then buf else csound.mem p.str1) ∧
        (csound.setMem p.r buf).mem p.str2 = (if p.str2 = p.r then buf else csound.mem p.str2)
    else
      strcat_opcode_init csound p = Outcome.ret (csound.InitError "strcat: buffer overflow") ∧
      strcat_opcode_perf csound p = Outcome.ret (csound.PerfError "strcat: buffer overflow") ∧
      (csound.InitError "strcat: buffer overflow").2.mem = csound.mem ∧
      (csound.PerfError "strcat: buffer overflow").2.mem = csound.mem := by
  by_cases hs : ((strlen (csound.mem p.str1) + strlen (csound.mem p.str2) : Nat) : Int)
      < csound.strVarMaxLen
  · rw [if_pos hs]
    have hs2 : ¬ (((strlen (csound.mem p.str1) + strlen (csound.mem p.str2) : Nat) : Int)
        ≥ csound.strVarMaxLen) := by omega
    have hs3 : ¬ (toInt32 (strlen (csound.mem p.str1) + strlen (csound.mem p.str2))
        ≥ csound.strVarMaxLen) := by rw [toInt32_small _ hfit]; exact hs2
    obtain ⟨buf, hb, hc, hl, _⟩ := strcat_body_correct csound p hvar hs2
    refine ⟨buf, ?_, ?_, hc, hl, ?_, ?_⟩
    · simp only [strcat_opcode_init, if_neg hs3, hb]
    · simp only [strcat_opcode_perf, if_neg hs3, hb]
    · by_cases h : p.str1 = p.r <;> simp [ENVIRON.setMem, Function.update, h]
    · by_cases h : p.str2 = p.r <;> simp [ENVIRON.setMem, Function.update, h]
  · rw [if_neg hs]
    have hs3 : toInt32 (strlen (csound.mem p.str1) + strlen (csound.mem p.str2))
        ≥ csound.strVarMaxLen := by rw [toInt32_small _ hfit]; omega
    refine ⟨?_, ?_, rfl, rfl⟩
    · simp only [strcat_opcode_init, if_pos hs3]
    · simp only [strcat_opcode_perf, if_pos hs3]

/-- C17 (witness): the five ways the cells of "ab" and "cde" can coincide, and
the call on all three cells being the cell of "ab". -/
theorem strcat_correct_under_aliasing_witness :
    IsStrVar aliasEnviron 0 ∧
    strlen (aliasEnviron.mem 0) + strlen (aliasEnviron.mem 0) < 2147483648 ∧
    outString 2 (strcat_opcode_init aliasEnviron ⟨2, 0, 1⟩) = some ['a', 'b', 'c', 'd', 'e'] ∧
    outString 0 (strcat_opcode_init aliasEnviron ⟨0, 0, 1⟩) = some ['a', 'b', 'c', 'd', 'e'] ∧
    outString 1 (strcat_opcode_init aliasEnviron ⟨1, 0, 1⟩) = some ['a', 'b', 'c', 'd', 'e'] ∧
    outString 2 (strcat_opcode_init aliasEnviron ⟨2, 0, 0⟩) = some ['a', 'b', 'a', 'b'] ∧
    outString 0 (strcat_opcode_init aliasEnviron ⟨0, 0, 0⟩) = some ['a', 'b', 'a', 'b'] ∧
    (if ((strlen (aliasEnviron.mem 0) + strlen (aliasEnviron.mem 0) : Nat) : Int)
        < aliasEnviron.strVarMaxLen then
      ∃ buf, strcat_opcode_init aliasEnviron ⟨0, 0, 0⟩ =
          Outcome.ret (OK, aliasEnviron.setMem 0 buf) ∧
        strcat_opcode_perf aliasEnviron ⟨0, 0, 0⟩ = Outcome.ret (OK, aliasEnviron.setMem 0 buf) ∧
        cstr buf = cstr (aliasEnviron.mem 0) ++ cstr (aliasEnviron.mem 0) ∧
        (buf.length : Int) = aliasEnviron.strVarMaxLen ∧
        (aliasEnviron.setMem 0 buf).mem 0 = (if 0 = 0 then buf else aliasEnviron.mem 0) ∧
        (aliasEnviron.setMem 0 buf).mem 0 = (if 0 = 0 then buf else aliasEnviron.mem 0)
    else
      strcat_opcode_init aliasEnviron ⟨0, 0, 0⟩ =
        Outcome.ret (aliasEnviron.InitError "strcat: buffer overflow") ∧
      strcat_opcode_perf aliasEnviron ⟨0, 0, 0⟩ =
        Outcome.ret (aliasEnviron.PerfError "strcat: buffer overflow") ∧
      (aliasEnviron.InitError "strcat: buffer overflow").2.mem = aliasEnviron.mem ∧
      (aliasEnviron.PerfError "strcat: buffer overflow").2.mem = aliasEnviron.mem) :=
  ⟨⟨rfl, by decide⟩, by decide, by decide, by decide, by decide, by decide, by decide,
    strcat_correct_under_aliasing aliasEnviron ⟨0, 0, 0⟩ ⟨rfl, by decide⟩ (by decide)⟩

/-! ## sprintf: a format without a conversion -/

theorem cstr_split {b : List Char} (h : NUL ∈ b) :
    b = cstr b ++ NUL :: b.drop (strlen b + 1) := by
  have h1 := take_strlen_succ h
  have h2 := List.take_append_drop (strlen b + 1) b
  rw [h1] at h2
  simpa using h2.symm

theorem get?_of_drop_cons {b : List Char} {k : Nat} {c : Char} {t : List Char}
    (h : b.drop k = c :: t) : b.get? k = some c ∧ b.drop (k + 1) = t := by
  have hk : k < b.length := by
    by_contra hn
    rw [List.drop_eq_nil_of_le (by omega)] at h
    cases h
  rw [List.drop_eq_getElem_cons hk] at h
  injection h with h1 h2
  exact ⟨by rw [List.get?_eq_getElem?, List.getElem?_eq_getElem hk, h1], h2⟩

theorem sprintf_loop_literal (libc_snprintf : List Char → FmtVal → Option (List Char))
    (p : SPRINTF_OP) (maxLen : Int) (csound : ENVIRON) (rest : List Char) :
    ∀ (s : List Char) (fuel : Nat) (L : SprintfLocals),
      (csound.mem p.sfmt).drop L.fmt = s ++ NUL :: rest →
      '%' ∉ s → NUL ∉ s → L.strseg.length + s.length < 2047 → s.length < fuel →
      L.segwaiting = none → L.numVals ≤ 0 →
      sprintf_loop libc_snprintf p maxLen fuel L csound = some (Outcome.ret (0, csound)) := by
  intro s
  induction s with
  | nil =>
    intro fuel L hd _ _ hlen hf hsw hnv
    obtain ⟨f, rfl⟩ : ∃ f, fuel = f + 1 := ⟨fuel - 1, by simp at hf; omega⟩
    obtain ⟨hg, _⟩ := get?_of_drop_cons (by simpa using hd)
    have h1 : ¬ (L.strseg.length ≥ 2047) := by simp at hlen; omega
    have h2 : ¬ (NUL ≠ '%' ∧ NUL ≠ NUL) := by simp
    have h3 : ¬ (L.numVals > 0) := by omega
    have h4 : ¬ (NUL = '%') := by decide
    simp only [sprintf_loop, if_neg h1, hg, if_neg h2, sprintf_pair, if_neg h4, sprintf_flush,
      hsw, sprintf_next, if_true, if_neg h3]
  | cons c s ih =>
    intro fuel L hd hp hn hlen hf hsw hnv
    obtain ⟨f, rfl⟩ : ∃ f, fuel = f + 1 := ⟨fuel - 1, by simp at hf; omega⟩
    obtain ⟨hg, hd1⟩ := get?_of_drop_cons (by simpa using hd)
    have h1 : ¬ (L.strseg.length ≥ 2047) := by simp at hlen; omega
    have hc : c ≠ '%' ∧ c ≠ NUL := by
      constructor
      · intro h; exact hp (by simp [h])
      · intro h; exact hn (by simp [h])
    simp only [sprintf_loop, if_neg h1, hg, if_pos hc]
    apply ih
    · exact hd1
    · intro h; exact hp (List.mem_cons_of_mem _ h)
    · intro h; exact hn (List.mem_cons_of_mem _ h)
    · simp only [List.length_append, List.length_singleton, List.length_cons, List.length_nil] at hlen ⊢; omega
    · simp only [List.length_cons] at hf; omega
    · exact hsw
    · exact hnv

/-- C20 (what the code does): for a format that holds no '%' and fewer than 2047
characters, called with no value argument, `sprintf_opcode_init` and
`sprintf_opcode_perf` return `OK` and leave the whole state as it was: nothing
is stored in the output cell, which keeps the string it held. -/
theorem sprintf_literal_format_not_copied
    (libc_snprintf : List Char → FmtVal → Option (List Char))
    (csound : ENVIRON) (p : SPRINTF_OP)
    (hnul : NUL ∈ csound.mem p.sfmt) (hpct : '%' ∉ cstr (csound.mem p.sfmt))
    (hlen : strlen (csound.mem p.sfmt) < 2047)
    (hargs : p.args = []) (hx : p.XINCODE = 0) :
    sprintf_opcode_init libc_snprintf csound p = Outcome.ret (OK, csound) ∧
    sprintf_opcode_perf libc_snprintf csound p = Outcome.ret (OK, csound) := by
  have hloop := sprintf_loop_literal libc_snprintf p csound.strVarMaxLen csound
    ((csound.mem p.sfmt).drop (strlen (csound.mem p.sfmt) + 1)) (cstr (csound.mem p.sfmt))
    ((csound.mem p.sfmt).length + 1)
    { len := 0, numVals := ((p.args.length + 1 : Nat) : Int) - 1, strCode := p.XSTRCODE >>> 1,
      strseg := [], fmt := 0, j := 0, segwaiting := none }
    (by simpa using cstr_split hnul) hpct (cstr_nul_free _)
    (by simpa [strlen] using hlen)
    (by have := strlen_le_length (csound.mem p.sfmt); unfold strlen at this; omega)
    rfl (by simp [hargs])
  have hop : sprintf_opcode libc_snprintf csound p = Outcome.ret (0, csound) := by
    have h30 : ¬ (((p.args.length + 1 : Nat) : Int) - 1 > 30) := by simp [hargs]
    simp only [sprintf_opcode, SPRINTF_OP.INOCOUNT, hx, ne_eq, not_true_eq_false, if_false,
      if_neg h30, hloop]
  constructor
  · simp [sprintf_opcode_init, hop, OK]
  · simp [sprintf_opcode_perf, hop, OK]

/-- C20 (the failing input): the format "hello" with no value argument and an
output cell that holds "abc": both variants return `OK` and the output cell
still holds "abc". -/
theorem sprintf_literal_format_not_copied_witness :
    NUL ∈ sampleEnviron.mem 1 ∧ '%' ∉ cstr (sampleEnviron.mem 1) ∧
    strlen (sampleEnviron.mem 1) < 2047 ∧
    cstr (sampleEnviron.mem 1) = ['h', 'e', 'l', 'l', 'o'] ∧
    cstr (sampleEnviron.mem 0) = ['a', 'b', 'c'] ∧
    sprintf_opcode_init (fun seg _ => some seg) sampleEnviron
      { r := 0, sfmt := 1, args := [], XSTRCODE := 1, XINCODE := 0 } =
        Outcome.ret (OK, sampleEnviron) ∧
    sprintf_opcode_perf (fun seg _ => some seg) sampleEnviron
      { r := 0, sfmt := 1, args := [], XSTRCODE := 1, XINCODE := 0 } =
        Outcome.ret (OK, sampleEnviron) :=
  ⟨by decide, by decide, by decide, by decide, by decide,
    sprintf_literal_format_not_copied (fun seg _ => some seg) sampleEnviron
      { r := 0, sfmt := 1, args := [], XSTRCODE := 1, XINCODE := 0 }
      (by decide) (by decide) (by decide) rfl rfl⟩

/-! ## The strset table as a map -/

theorem template_set (pool : Pool) (insno : Nat) (tp tp1 : INSTRTXT)
    (h : pool.template insno = some tp) (pool1 : Pool)
    (h1 : pool1.instrtxt = pool.instrtxt.set insno (some tp1)) :
    pool1.template insno = some tp1 := by
  unfold Pool.template at h ⊢
  have hlt : insno < pool.instrtxt.length := by
    by_contra hn
    rw [List.get?_eq_getElem?, List.getElem?_eq_none (by omega)] at h
    cases h
  rw [h1, List.get?_eq_getElem?, List.getElem?_set_self hlt]
  rfl

theorem release_done (pool : Pool) (ip : Nat) (inst : INSDS) (tp : INSTRTXT)
    (hinst : pool.insds.get? ip = some inst) (hact : inst.actflg = true)
    (htp : pool.template inst.insno = some tp) :
    Release pool ip = (PoolStatus.done ip,
      { pool with
        instrtxt := pool.instrtxt.set inst.insno
          (some { tp with act_instance := ip :: tp.act_instance, active := tp.active - 1 }),
        insds := pool.insds.set ip { inst with actflg := false, relesing := false, held := 0 },
        actlist := pool.actlist.erase ip,
        deactivated := pool.deactivated ++ [ip] }) := by
  unfold Release
  simp only [hinst, hact, htp]
  rfl

theorem release_rejected (pool : Pool) (ip : Nat)
    (h : ∀ inst, pool.insds.get? ip = some inst → inst.actflg = false) :
    Release pool ip = (PoolStatus.rejected, pool) := by
  unfold Release
  cases hg : pool.insds.get? ip with
  | none => rfl
  | some inst => simp [h inst hg]

theorem acquire_pop (pool : Pool) (insno : Nat) (tp : INSTRTXT) (ip : Nat) (rest : List Nat)
    (htp : pool.template insno = some tp) (hfree : tp.act_instance = ip :: rest)
    (hok : ¬ (tp.muted = true ∨ (tp.maxalloc ≠ 0 ∧ tp.active ≥ tp.maxalloc))) :
    Acquire pool insno = (PoolStatus.done ip,
      { pool with
        instrtxt := pool.instrtxt.set insno
          (some { tp with act_instance := rest, active := tp.active + 1 }),
        insds := pool.insds.set ip
          { insno := insno, actflg := true, relesing := false, offtim := 0, held := 0 },
        actlist := pool.actlist ++ [ip] }) := by
  unfold Acquire
  rw [htp]
  simp only [if_neg hok, hfree]

/-- C14: when an active instance of a template that is not muted is released and
an instance of the same template is then acquired, the acquired instance is the
released one: `Release` puts it at the head of the template's free list
(`act_instance`) and `Acquire` takes the head, leaving the free list as it was
before the release. -/
theorem release_then_acquire_is_lifo (pool : Pool) (ip : Nat) (inst : INSDS) (tp : INSTRTXT)
    (hinst : pool.insds.get? ip = some inst) (hact : inst.actflg = true)
    (htp : pool.template inst.insno = some tp) (hmute : tp.muted = false)
    (hmax : tp.maxalloc = 0 ∨ tp.active ≤ tp.maxalloc) (hpos : 1 ≤ tp.active) :
    (Release pool ip).1 = PoolStatus.done ip ∧
    (Release pool ip).2.freeList inst.insno = ip :: pool.freeList inst.insno ∧
    (Acquire (Release pool ip).2 inst.insno).1 = PoolStatus.done ip ∧
    (Acquire (Release pool ip).2 inst.insno).2.freeList inst.insno =
      pool.freeList inst.insno := by
  rw [release_done pool ip inst tp hinst hact htp]
  have ht1 := template_set pool inst.insno tp
    { tp with act_instance := ip :: tp.act_instance, active := tp.active - 1 } htp
    { pool with
      instrtxt := pool.instrtxt.set inst.insno
        (some { tp with act_instance := ip :: tp.act_instance, active := tp.active - 1 }),
      insds := pool.insds.set ip { inst with actflg := false, relesing := false, held := 0 },
      actlist := pool.actlist.erase ip,
      deactivated := pool.deactivated ++ [ip] } rfl
  have hacq := acquire_pop _ inst.insno _ ip tp.act_instance ht1 rfl (by
    rintro (h | ⟨h1, h2⟩)
    · rw [hmute] at h; cases h
    · simp only [] at h1 h2; omega)
  have ht2 := template_set _ inst.insno _
    { tp with act_instance := tp.act_instance, active := tp.active - 1 + 1 } ht1
    (Acquire { pool with
      instrtxt := pool.instrtxt.set inst.insno
        (some { tp with act_instance := ip :: tp.act_instance, active := tp.active - 1 }),
      insds := pool.insds.set ip { inst with actflg := false, relesing := false, held := 0 },
      actlist := pool.actlist.erase ip,
      deactivated := pool.deactivated ++ [ip] } inst.insno).2 (by rw [hacq])
  refine ⟨rfl, ?_, ?_, ?_⟩
  · simp only [Pool.freeList, ht1, htp]
  · rw [hacq]
  · simp only [Pool.freeList, ht2, htp]

/-- C14 (witness): instance 1 of instrument 1 is released and acquired again;
after releasing instances 1 and 2 in that order, instance 2 is acquired first. -/
theorem release_then_acquire_is_lifo_witness :
    samplePool.insds.get? 1 = some ⟨1, true, false, 0, 2⟩ ∧
    samplePool.template 1 = some ⟨false, 0, 3, [0, 1, 2], []⟩ ∧
    (Acquire (Release (Release samplePool 1).2 2).2 1).1 = PoolStatus.done 2 ∧
    (Acquire (Acquire (Release (Release samplePool 1).2 2).2 1).2 1).1 = PoolStatus.done 1 ∧
    (Release samplePool 1).1 = PoolStatus.done 1 ∧
    (Release samplePool 1).2.freeList 1 = 1 :: samplePool.freeList 1 ∧
    (Acquire (Release samplePool 1).2 1).1 = PoolStatus.done 1 ∧
    (Acquire (Release samplePool 1).2 1).2.freeList 1 = samplePool.freeList 1 :=
  ⟨rfl, rfl, by decide, by decide,
    release_then_acquire_is_lifo samplePool 1 ⟨1, true, false, 0, 2⟩
      ⟨false, 0, 3, [0, 1, 2], []⟩ rfl rfl rfl rfl (Or.inl rfl) (by decide)⟩

/-- C15: a `Release` of an instance that is not active is rejected and leaves
the pool, the free lists included, exactly as it was; so after a `Release` that
was carried out, a second `Release` of the same instance is rejected and
changes nothing, and the instance is once on its template's free list. -/
theorem release_is_idempotent (pool : Pool) (ip : Nat) (inst : INSDS) (tp : INSTRTXT)
    (hinst : pool.insds.get? ip = some inst) (hact : inst.actflg = true)
    (htp : pool.template inst.insno = some tp) :
    (Release pool ip).1 = PoolStatus.done ip ∧
    Release (Release pool ip).2 ip = (PoolStatus.rejected, (Release pool ip).2) ∧
    ((Release (Release pool ip).2 ip).2.freeList inst.insno).count ip =
      (pool.freeList inst.insno).count ip + 1 ∧
    ∀ (q : Pool) (k : Nat), (∀ i, q.insds.get? k = some i → i.actflg = false) →
      Release q k = (PoolStatus.rejected, q) := by
  have hlt : ip < pool.insds.length := by
    by_contra hn
    rw [List.get?_eq_getElem?, List.getElem?_eq_none (by omega)] at hinst
    cases hinst
  have hrej : Release (Release pool ip).2 ip = (PoolStatus.rejected, (Release pool ip).2) := by
    apply release_rejected
    intro i hi
    rw [release_done pool ip inst tp hinst hact htp] at hi
    simp only [List.get?_eq_getElem?, List.getElem?_set_self hlt, Option.some.injEq] at hi
    rw [← hi]
  refine ⟨by rw [release_done pool ip inst tp hinst hact htp], hrej, ?_, release_rejected⟩
  rw [hrej, release_done pool ip inst tp hinst hact htp]
  have ht1 := template_set pool inst.insno tp
    { tp with act_instance := ip :: tp.act_instance, active := tp.active - 1 } htp
    { pool with
      instrtxt := pool.instrtxt.set inst.insno
        (some { tp with act_instance := ip :: tp.act_instance, active := tp.active - 1 }),
      insds := pool.insds.set ip { inst with actflg := false, relesing := false, held := 0 },
      actlist := pool.actlist.erase ip,
      deactivated := pool.deactivated ++ [ip] } rfl
  simp only [Pool.freeList, ht1, htp, List.count_cons_self]

/-- C15 (witness): instance 1 of the sample pool, released twice. -/
theorem release_is_idempotent_witness :
    samplePool.insds.get? 1 = some ⟨1, true, false, 0, 2⟩ ∧
    samplePool.template 1 = some ⟨false, 0, 3, [0, 1, 2], []⟩ ∧
    (Release (Release samplePool 1).2 1).2.freeList 1 = [1] ∧
    (Release samplePool 1).1 = PoolStatus.done 1 ∧
    Release (Release samplePool 1).2 1 = (PoolStatus.rejected, (Release samplePool 1).2) ∧
    ((Release (Release samplePool 1).2 1).2.freeList 1).count 1 =
      (samplePool.freeList 1).count 1 + 1 ∧
    ∀ (q : Pool) (k : Nat), (∀ i, q.insds.get? k = some i → i.actflg = false) →
      Release q k = (PoolStatus.rejected, q) :=
  ⟨rfl, rfl, by decide,
    release_is_idempotent samplePool 1 ⟨1, true, false, 0, 2⟩ ⟨false, 0, 3, [0, 1, 2], []⟩
      rfl rfl rfl⟩

/-! ## The scheduler clock (modelled from the spec) -/

theorem runCycles_succ (n : Nat) (st : Performance) :
    runCycles (n + 1) st = runCycle (runCycles n st) := by
  induction n generalizing st with
  | zero => rfl
  | succ k ih =>
    show runCycles (k + 1) (runCycle st) = _
    rw [ih]
    rfl

theorem runCycles_active : ∀ (k : Nat) (st : Performance), st.actflg = true →
    k < st.cyclesRemaining →
    runCycles k st =
      { st with performed := st.performed + k, kcounter := st.kcounter + k,
                curTime := st.curTime + k * st.curTime_inc,
                cyclesRemaining := st.cyclesRemaining - k } := by
  intro k
  induction k with
  | zero => intro st _ _; simp [runCycles]
  | succ k ih =>
    intro st ha hk
    rw [runCycles_succ, ih st ha (by omega)]
    have hne : ¬ (st.cyclesRemaining - k - 1 = 0) := by omega
    simp only [runCycle, ha, if_true, if_neg hne]
    congr 1
    push_cast; ring

theorem runCycles_release (st : Performance) (ha : st.actflg = true)
    (hn : 1 ≤ st.cyclesRemaining) :
    runCycles st.cyclesRemaining st =
      { st with performed := st.performed + st.cyclesRemaining,
                kcounter := st.kcounter + st.cyclesRemaining,
                curTime := st.curTime + st.cyclesRemaining * st.curTime_inc,
                cyclesRemaining := 0,
                actflg := false,
                releasedOn := some (st.kcounter + st.cyclesRemaining) } := by
  obtain ⟨m, hm⟩ : ∃ m, st.cyclesRemaining = m + 1 := ⟨st.cyclesRemaining - 1, by omega⟩
  rw [hm, runCycles_succ, runCycles_active m st ha (by omega)]
  have h0 : st.cyclesRemaining - m - 1 = 0 := by omega
  simp only [runCycle, ha, if_true, h0]
  congr 1
  push_cast; ring

theorem runCycles_idle : ∀ (k : Nat) (st : Performance), st.actflg = false →
    (runCycles k st).actflg = false ∧ (runCycles k st).performed = st.performed ∧
    (runCycles k st).releasedOn = st.releasedOn := by
  intro k
  induction k with
  | zero => intro st h; exact ⟨h, rfl, rfl⟩
  | succ k ih =>
    intro st h
    have h1 : (runCycle st).actflg = false := by simp [runCycle, h]
    have h2 := ih (runCycle st) h1
    show (runCycles k (runCycle st)).actflg = false ∧ _
    refine ⟨h2.1, ?_, ?_⟩
    · show (runCycles k (runCycle st)).performed = _
      rw [h2.2.1]; simp [runCycle, h]
    · show (runCycles k (runCycle st)).releasedOn = _
      rw [h2.2.2]; simp [runCycle, h]

theorem twoSecondNote_eq : twoSecondNote =
    { curTime := 0, curTime_inc := 10 / 44100, beatTime := 1, cyclesRemaining := 8820,
      kcounter := 0, actflg := true, offtim := 2, performed := 0, releasedOn := none } := by
  have h1 : ((DFLT_KSMPS.toNat : Nat) : ℚ) = 10 := by
    simp [DFLT_KSMPS]
  have h2 : ((DFLT_SR : Int) : ℚ) = 44100 := by simp [DFLT_SR]
  have h3 : cyclesUntil (1 / 4410) 0 2 = 8820 := by
    unfold cyclesUntil
    have : ((2 : ℚ) - 0) / (1 / 4410) = ((8820 : Nat) : ℚ) := by norm_num
    rw [this, Nat.ceil_natCast]
  unfold twoSecondNote activateEvent
  rw [h1, h2]
  norm_num
  exact h3

/-- C16: with tempo 60, the default sample rate 44100 and cycle width 10 (whose
quotient is the default control rate 4410), an instance activated at beat 0 for
2 seconds has its termination due after 8820 cycles; it is active and runs its
chain in each of the first 8820 cycles, the clock staying below the termination
time before the last of them; it is released on cycle 8820, the cycle in which
the clock reaches the termination time, and never runs again. -/
theorem two_seconds_last_8820_cycles :
    DFLT_SR = DFLT_KR * DFLT_KSMPS ∧
    twoSecondNote.cyclesRemaining = 8820 ∧ (8820 : Int) = 2 * DFLT_SR / DFLT_KSMPS ∧
    (∀ k, k < 8820 →
      (runCycles k twoSecondNote).actflg = true ∧ (runCycles k twoSecondNote).performed = k ∧
      (runCycles k twoSecondNote).kcounter = k ∧
      (runCycles k twoSecondNote).curTime < (runCycles k twoSecondNote).offtim) ∧
    (runCycles 8820 twoSecondNote).actflg = false ∧
    (runCycles 8820 twoSecondNote).performed = 8820 ∧
    (runCycles 8820 twoSecondNote).releasedOn = some 8820 ∧
    (runCycles 8820 twoSecondNote).offtim ≤ (runCycles 8820 twoSecondNote).curTime ∧
    (∀ k, (runCycles (8820 + k) twoSecondNote).actflg = false ∧
      (runCycles (8820 + k) twoSecondNote).performed = 8820 ∧
      (runCycles (8820 + k) twoSecondNote).releasedOn = some 8820) := by
  have hrel := runCycles_release twoSecondNote (by rw [twoSecondNote_eq]) (by rw [twoSecondNote_eq]; decide)
  have hcr : twoSecondNote.cyclesRemaining = 8820 := by rw [twoSecondNote_eq]
  rw [hcr] at hrel
  refine ⟨by decide, hcr, by decide, ?_, ?_, ?_, ?_, ?_, ?_⟩
  · intro k hk
    rw [runCycles_active k twoSecondNote (by rw [twoSecondNote_eq]) (by rw [hcr]; exact hk)]
    refine ⟨by rw [twoSecondNote_eq], by rw [twoSecondNote_eq]; simp, by rw [twoSecondNote_eq]; simp, ?_⟩
    rw [twoSecondNote_eq]
    simp only
    have : (k : ℚ) ≤ 8819 := by exact_mod_cast (by omega : k ≤ 8819)
    linarith
  · rw [hrel]
  · rw [hrel, twoSecondNote_eq]
  · rw [hrel, twoSecondNote_eq]
  · rw [hrel, twoSecondNote_eq]
    norm_num
  · intro k
    have hadd : ∀ (a b : Nat) (st : Performance),
        runCycles (a + b) st = runCycles b (runCycles a st) := by
      intro a
      induction a with
      | zero => intro b st; simp [runCycles]
      | succ a ih =>
        intro b st
        have : a + 1 + b = (a + b) + 1 := by omega
        rw [this]
        show runCycles (a + b) (runCycle st) = runCycles b (runCycles a (runCycle st))
        exact ih b (runCycle st)
    rw [hadd]
    have h0 : (runCycles 8820 twoSecondNote).actflg = false := by rw [hrel]
    obtain ⟨i1, i2, i3⟩ := runCycles_idle k _ h0
    refine ⟨i1, ?_, ?_⟩
    · rw [i2, hrel, twoSecondNote_eq]
    · rw [i3, hrel, twoSecondNote_eq]

/-! ## fluidNote: the note-off of a re-activation -/

/-- C23 (what the code does): when `fluidNoteIopadr` runs on a data block whose
note is still sounding (`initDone` is not 0), it first stores the new channel,
key and engine in the block and then sends the note-off from the block: the
note-off goes to the engine, channel and key of the new activation, whatever the
engine, channel and key of the note-on before (`p.fluidEngine`, `p.iChn`,
`p.iKey`) were; the note-on of the new note follows. -/
theorem fluidNote_reactivation_turns_off_new_key
    (csound csound1 : CSOUND) (p : FLUID_NOTE) (pp : fluidSynthGlobals) (e : fluid_synth_t)
    (hg : fluid_getGlobals csound = Outcome.ret (pp, csound1))
    (he : pp.engine (castInt p.iEngineNumber) = some e)
    (hd : p.initDone ≠ 0) :
    fluidNoteIopadr csound p =
      Outcome.ret (OK,
        (csound1.call (FluidCall.noteoff e (castInt p.iChannelNumber)
            (castInt p.iMidiKeyNumber))).call
          (FluidCall.noteon e (castInt p.iChannelNumber) (castInt p.iMidiKeyNumber)
            (castInt p.iVelocity)),
        { p with iChn := castInt p.iChannelNumber, iKey := castInt p.iMidiKeyNumber,
                 fluidEngine := e, initDone := 1 }) := by
  unfold fluidNoteIopadr
  rw [hg]
  simp only [he]
  rw [if_pos hd]
  unfold fluidNoteTurnoff
  rw [if_pos hd]

/-- C23 (the failing input): an instance plays key 60 on engine 0, channel 0 and
is activated again with key 64 while the note sounds: the note-off goes to key
64, so key 60 is never turned off, and the history does not have every note-off
follow its note-on. -/
theorem fluidNote_reactivation_turns_off_new_key_witness :
    fluid_getGlobals oneEngine = Outcome.ret (⟨[100], 1⟩, oneEngine) ∧
    fluidSynthGlobals.engine ⟨[100], 1⟩ (castInt 0) = some 100 ∧
    (1 : Int) ≠ 0 ∧
    fluidNoteIopadr oneEngine
        { sampleNote with iMidiKeyNumber := 64, iVelocity := 100, initDone := 1, iKey := 60,
                          fluidEngine := 100 } =
      Outcome.ret (OK,
        (oneEngine.call (FluidCall.noteoff 100 0 64)).call (FluidCall.noteon 100 0 64 100),
        { sampleNote with iMidiKeyNumber := 64, iVelocity := 100, initDone := 1, iKey := 64,
                          fluidEngine := 100 }) ∧
    callsOf (noteRun [NoteCall.activate 0 0 60 100, NoteCall.activate 0 0 64 100]
        oneEngine sampleNote) =
      some [FluidCall.noteon 100 0 60 100, FluidCall.noteoff 100 0 64,
            FluidCall.noteon 100 0 64 100] ∧
    noteOffsFollow none [FluidCall.noteon 100 0 60 100, FluidCall.noteoff 100 0 64,
      FluidCall.noteon 100 0 64 100] = false :=
  ⟨rfl, rfl, by decide,
    fluidNote_reactivation_turns_off_new_key oneEngine oneEngine
      { sampleNote with iMidiKeyNumber := 64, iVelocity := 100, initDone := 1, iKey := 60,
                        fluidEngine := 100 } ⟨[100], 1⟩ 100 rfl rfl (by decide),
    rfl, by decide⟩

/-! ## puts: the trigger and the last printed value -/

/-- C24 (what the code does): `puts_opcode_perf` compares the trigger with
`prv_ktrig` and stores the trigger in `prv_ktrig` only on a cycle on which it
prints.  So after a print with the positive trigger value `v` (`prv_ktrig = v`),
a cycle with a trigger `z` that is not positive prints nothing and leaves
`prv_ktrig` at `v`, and the next cycle with the trigger `v` again prints nothing
either, although the trigger is positive and differs from its value on the
cycle before. -/
theorem puts_perf_compares_with_last_printed
    (csound : ENVIRON) (p : PUTS_OP) (v z : MYFLT)
    (hv : v > 0) (hz : z ≤ 0) (hprv : p.prv_ktrig = v) :
    puts_opcode_perf (csound.setF p.ktrig z) p = Outcome.ret (OK, csound.setF p.ktrig z, p) ∧
    puts_opcode_perf ((csound.setF p.ktrig z).setF p.ktrig v) p =
      Outcome.ret (OK, (csound.setF p.ktrig z).setF p.ktrig v, p) ∧
    (v > 0 ∧ v ≠ z) := by
  have hv1 : (0 : Int) < v := hv
  have hz1 : z ≤ (0 : Int) := hz
  have hne : v ≠ z := fun h => by rw [h] at hv1; exact absurd hv1 (not_lt.mpr hz1)
  refine ⟨?_, ?_, hv, hne⟩
  · unfold puts_opcode_perf
    have h : ¬ ((csound.setF p.ktrig z).fmem p.ktrig ≠ p.prv_ktrig ∧
        (csound.setF p.ktrig z).fmem p.ktrig > 0) := by
      simp only [ENVIRON.setF, Function.update_same]
      exact fun h => absurd h.2 (not_lt.mpr hz1)
    rw [if_neg h]
  · unfold puts_opcode_perf
    have h : ¬ (((csound.setF p.ktrig z).setF p.ktrig v).fmem p.ktrig ≠ p.prv_ktrig ∧
        ((csound.setF p.ktrig z).setF p.ktrig v).fmem p.ktrig > 0) := by
      simp only [ENVIRON.setF, Function.update_same, hprv]
      exact fun h => h.1 rfl
    rw [if_neg h]

/-- C24 (the failing input): the trigger sequence 1 (initialization), 0, 1 for
the string "hello".  The text is printed once, at initialization; the second
control cycle prints nothing, where the claim has a second print. -/
theorem puts_perf_compares_with_last_printed_witness :
    (1 : MYFLT) > 0 ∧ (0 : MYFLT) ≤ 0 ∧
    (putsRun 1 [] sampleEnviron samplePuts).2.prv_ktrig = 1 ∧
    (puts_opcode_perf ((putsRun 1 [] sampleEnviron samplePuts).1.setF 5 0)
        (putsRun 1 [] sampleEnviron samplePuts).2 =
      Outcome.ret (OK, (putsRun 1 [] sampleEnviron samplePuts).1.setF 5 0,
        (putsRun 1 [] sampleEnviron samplePuts).2) ∧
     puts_opcode_perf (((putsRun 1 [] sampleEnviron samplePuts).1.setF 5 0).setF 5 1)
        (putsRun 1 [] sampleEnviron samplePuts).2 =
      Outcome.ret (OK, ((putsRun 1 [] sampleEnviron samplePuts).1.setF 5 0).setF 5 1,
        (putsRun 1 [] sampleEnviron samplePuts).2) ∧
     ((1 : MYFLT) > 0 ∧ (1 : MYFLT) ≠ 0)) ∧
    (putsRun 1 [0, 1] sampleEnviron samplePuts).1.log = [Event.Message "hello"] ∧
    putsPrints [0, 1] (putsRun 1 [] sampleEnviron samplePuts).1
      (putsRun 1 [] sampleEnviron samplePuts).2 = [false, false] ∧
    spec_putsPrints 1 [0, 1] = [false, true] :=
  ⟨by decide, by decide, rfl,
    puts_perf_compares_with_last_printed (putsRun 1 [] sampleEnviron samplePuts).1
      (putsRun 1 [] sampleEnviron samplePuts).2 1 0 (by decide) (by decide) rfl,
    by decide, by decide, by decide⟩

/-! ## The init and perf variants differ only in the report -/

theorem differOnly_of_cases {F : (ENVIRON → String → Int × ENVIRON) → Outcome (Int × ENVIRON)}
    {csound : ENVIRON}
    (h : (∃ cs1, ∀ f, F f = Outcome.ret (OK, cs1)) ∨
         (∃ msg, ∀ f, F f = Outcome.ret (f csound msg)) ∨
         (∀ f, F f = Outcome.undef) ∨ (∃ msg, ∀ f, F f = Outcome.die msg)) :
    DifferOnlyInReport (F ENVIRON.InitError) (F ENVIRON.PerfError) := by
  rcases h with ⟨cs1, h⟩ | ⟨msg, h⟩ | h | ⟨msg, h⟩
  · exact Or.inl ⟨cs1, h _, h _⟩
  · exact Or.inr (Or.inl ⟨csound, msg, h _, h _⟩)
  · exact Or.inr (Or.inr (Or.inl ⟨h _, h _⟩))
  · exact Or.inr (Or.inr (Or.inr ⟨msg, h _, h _⟩))

theorem strtod_opcode_cases (ls : List Char → MYFLT × List Char) (csound : ENVIRON)
    (p : STRSET_OP) :
    (∃ cs1, ∀ f, strtod_opcode ls csound p f = Outcome.ret (OK, cs1)) ∨
    (∃ msg, ∀ f, strtod_opcode ls csound p f = Outcome.ret (f csound msg)) ∨
    (∀ f, strtod_opcode ls csound p f = Outcome.undef) ∨
    (∃ msg, ∀ f, strtod_opcode ls csound p f = Outcome.die msg) := by
  unfold strtod_opcode
  cases hs : strarg_of csound p with
  | undef => exact Or.inr (Or.inr (Or.inl fun _ => rfl))
  | die msg => exact Or.inr (Or.inr (Or.inr ⟨msg, fun _ => rfl⟩))
  | ret v =>
    cases v with
    | none => exact Or.inr (Or.inl ⟨_, fun _ => rfl⟩)
    | some s0 =>
      simp only
      by_cases h1 : skipBlanks (cstr s0) = []
      · exact Or.inr (Or.inl ⟨"strtod: empty string", fun f => by rw [if_pos h1]⟩)
      · by_cases h2 : (ls (skipBlanks (cstr s0))).2 ≠ []
        · exact Or.inr (Or.inl ⟨"strtod: invalid format", fun f => by
            rw [if_neg h1, if_pos h2]⟩)
        · exact Or.inl ⟨_, fun f => by rw [if_neg h1, if_neg h2]⟩

theorem strtol_digits_cases (csound : ENVIRON) (p : STRSET_OP) (sgn radix : Nat)
    (s2 : List Char) :
    (∃ cs1, ∀ f, strtol_digits csound p f sgn radix s2 = Outcome.ret (OK, cs1)) ∨
    (∃ msg, ∀ f, strtol_digits csound p f sgn radix s2 = Outcome.ret (f csound msg)) ∨
    (∀ f, strtol_digits csound p f sgn radix s2 = Outcome.undef) := by
  unfold strtol_digits
  cases (if radix = 8 then strtol_oct 0 s2
         else if radix = 10 then strtol_dec 0 s2
         else strtol_hex 0 s2) with
  | none => exact Or.inr (Or.inr fun _ => rfl)
  | some v =>
    obtain ⟨x, s3⟩ := v
    simp only
    by_cases h : s3 ≠ []
    · exact Or.inr (Or.inl ⟨"strtol: invalid format", fun f => by rw [if_pos h]⟩)
    · exact Or.inl ⟨_, fun f => by rw [if_neg h]⟩

theorem strtol_opcode_cases (csound : ENVIRON) (p : STRSET_OP) :
    (∃ cs1, ∀ f, strtol_opcode csound p f = Outcome.ret (OK, cs1)) ∨
    (∃ msg, ∀ f, strtol_opcode csound p f = Outcome.ret (f csound msg)) ∨
    (∀ f, strtol_opcode csound p f = Outcome.undef) ∨
    (∃ msg, ∀ f, strtol_opcode csound p f = Outcome.die msg) := by
  unfold strtol_opcode
  cases hs : strarg_of csound p with
  | undef => exact Or.inr (Or.inr (Or.inl fun _ => rfl))
  | die msg => exact Or.inr (Or.inr (Or.inr ⟨msg, fun _ => rfl⟩))
  | ret v =>
    cases v with
    | none => exact Or.inr (Or.inl ⟨_, fun _ => rfl⟩)
    | some s0 =>
      simp only
      by_cases h1 : skipBlanks (cstr s0) = []
      · exact Or.inr (Or.inl ⟨"strtol: empty string", fun f => by rw [if_pos h1]⟩)
      · simp only [if_neg h1]
        repeat' split
        all_goals first
          | exact Or.inl ⟨_, fun _ => rfl⟩
          | exact Or.inr (Or.inl ⟨"strtol: invalid format", fun _ => rfl⟩)
          | (rcases strtol_digits_cases csound p _ _ _ with h | h | h
             · exact Or.inl h
             · exact Or.inr (Or.inl h)
             · exact Or.inr (Or.inr (Or.inl h)))

theorem sprintf_fail_cases (csound : ENVIRON) (p : SPRINTF_OP) :
    (∃ (base : ENVIRON) (msg : String), ∀ f, sprintf_fail csound p f = Outcome.ret (f base msg)) ∨
    (∀ f, sprintf_fail csound p f = Outcome.undef) := by
  unfold sprintf_fail
  cases poke (csound.mem p.r) 0 [NUL] with
  | none => exact Or.inr fun _ => rfl
  | some r0 => exact Or.inl ⟨_, _, fun _ => rfl⟩

/-- C25: for every engine state and arguments, the init and the perf variant of
`strcpy`, `strcat`, `sprintf`, `strtod` and `strtol` either both return `OK`
with the same engine state (so with the same output), or both fail with the same
message on the same state, the init variant through `InitError` and the perf
variant through `PerfError`, or both leave the defined behaviour or reach `Die`
alike. -/
theorem init_and_perf_variants_differ_only_in_report
    (libc_strtod : List Char → MYFLT × List Char)
    (libc_snprintf : List Char → FmtVal → Option (List Char)) (csound : ENVIRON) :
    (∀ p, DifferOnlyInReport (strcpy_opcode_init csound p) (strcpy_opcode_perf csound p)) ∧
    (∀ p, DifferOnlyInReport (strcat_opcode_init csound p) (strcat_opcode_perf csound p)) ∧
    (∀ p, DifferOnlyInReport (sprintf_opcode_init libc_snprintf csound p)
      (sprintf_opcode_perf libc_snprintf csound p)) ∧
    (∀ p, DifferOnlyInReport (strtod_opcode_init libc_strtod csound p)
      (strtod_opcode_perf libc_strtod csound p)) ∧
    (∀ p, DifferOnlyInReport (strtol_opcode_init csound p) (strtol_opcode_perf csound p)) := by
  refine ⟨?_, ?_, ?_, ?_, ?_⟩
  · intro p
    unfold strcpy_opcode_init strcpy_opcode_perf
    simp only
    split
    · exact Or.inl ⟨_, rfl, rfl⟩
    · split
      · exact Or.inr (Or.inl ⟨csound, _, rfl, rfl⟩)
      · cases c_strcpy (csound.mem p.r) (csound.mem p.str) with
        | none => exact Or.inr (Or.inr (Or.inl ⟨rfl, rfl⟩))
        | some r1 => exact Or.inl ⟨_, rfl, rfl⟩
  · intro p
    unfold strcat_opcode_init strcat_opcode_perf
    split
    · exact Or.inr (Or.inl ⟨csound, _, rfl, rfl⟩)
    · have h1 := (strcat_body_reports csound p).1
      have h2 := strcat_body_status csound p
      cases hb : strcat_body csound p with
      | undef => exact Or.inr (Or.inr (Or.inl ⟨rfl, rfl⟩))
      | die msg => rw [hb] at h1; cases h1
      | ret v =>
        obtain ⟨st, cs1⟩ := v
        rw [hb] at h2
        have h3 : st = OK := h2
        subst h3
        exact Or.inl ⟨cs1, rfl, rfl⟩
  · intro p
    unfold sprintf_opcode_init sprintf_opcode_perf
    cases sprintf_opcode libc_snprintf csound p with
    | undef => exact Or.inr (Or.inr (Or.inl ⟨rfl, rfl⟩))
    | die msg => exact Or.inr (Or.inr (Or.inr ⟨msg, rfl, rfl⟩))
    | ret v =>
      obtain ⟨st, cs1⟩ := v
      simp only
      split
      · rcases sprintf_fail_cases cs1 p with ⟨base, msg, h⟩ | h
        · exact Or.inr (Or.inl ⟨base, msg, h _, h _⟩)
        · exact Or.inr (Or.inr (Or.inl ⟨h _, h _⟩))
      · exact Or.inl ⟨_, rfl, rfl⟩
  · intro p
    exact differOnly_of_cases (strtod_opcode_cases libc_strtod csound p)
  · intro p
    exact differOnly_of_cases (strtol_opcode_cases csound p)

/-! ## stripString and isEmptyString -/

theorem cstr_of_not_mem {s : List Char} (h : NUL ∉ s) : cstr s = s := by
  unfold cstr
  rw [List.takeWhile_eq_self_iff]
  intro c hc
  simp only [bne_iff_ne, ne_eq]
  intro hn
  exact h (hn ▸ hc)

theorem rdropWhile_eq_take (p : Char → Bool) (b : List Char) :
    b.rdropWhile p = b.take (b.length - (b.reverse.takeWhile p).length) := by
  have h := List.takeWhile_append_dropWhile p b.reverse
  have hb : b = (b.reverse.dropWhile p).reverse ++ (b.reverse.takeWhile p).reverse := by
    rw [← List.reverse_append, h, List.reverse_reverse]
  have hl : (b.reverse.dropWhile p).reverse.length =
      b.length - (b.reverse.takeWhile p).length := by
    have := congrArg List.length hb
    simp only [List.length_append, List.length_reverse] at this ⊢
    omega
  have ht := congrArg (List.take (b.reverse.dropWhile p).reverse.length) hb
  rw [List.take_left', hl] at ht
  · exact ht.symm
  · rfl

theorem takeWhile_append_of_stop (p : Char → Bool) (l m : List Char)
    (h : ∃ c ∈ l, p c = false) : (l ++ m).takeWhile p = l.takeWhile p := by
  induction l with
  | nil => obtain ⟨c, hc, _⟩ := h; simp at hc
  | cons a l ih =>
    by_cases ha : p a = true
    · simp only [List.cons_append, List.takeWhile_cons, ha, if_true]
      obtain ⟨c, hc, hpc⟩ := h
      rcases List.mem_cons.mp hc with rfl | hc1
      · rw [ha] at hpc; cases hpc
      · rw [ih ⟨c, hc1, hpc⟩]
    · simp [List.takeWhile_cons, ha]

theorem takeWhile_reverse_of_drop (p : Char → Bool) (s : List Char)
    (hne : s.dropWhile p ≠ []) :
    s.reverse.takeWhile p = (s.dropWhile p).reverse.takeWhile p := by
  have h := List.takeWhile_append_dropWhile p s
  have hr : s.reverse = (s.dropWhile p).reverse ++ (s.takeWhile p).reverse := by
    rw [← List.reverse_append, h]
  have hex : ∃ c ∈ (s.dropWhile p).reverse, p c = false := by
    cases hd : s.dropWhile p with
    | nil => exact absurd hd hne
    | cons c t =>
      refine ⟨c, by simp, ?_⟩
      have := List.head_dropWhile_not p s (by rw [hd]; simp)
      simpa [hd] using this
  have := takeWhile_append_of_stop p _ (s.takeWhile p).reverse hex
  rw [← hr] at this
  exact this

theorem stripString_eq (dst s : List Char) (hnul : NUL ∉ s) (hfit : s.length < 2147483648) :
    stripString dst (some s) = spec_strip s := by
  unfold stripString spec_strip
  simp only [cstr_of_not_mem hnul, toInt32_small _ hfit, Int.toNat_ofNat, List.take_length]
  by_cases hs : s = []
  · subst hs; simp [List.rdropWhile]
  · rw [if_pos hs]
    have hsplit := List.takeWhile_append_dropWhile isWhiteSpace s
    have hlen : s.length = (s.takeWhile isWhiteSpace).length +
        (s.dropWhile isWhiteSpace).length := by
      have := congrArg List.length hsplit
      simp only [List.length_append] at this
      omega
    have hdrop : s.drop (s.takeWhile isWhiteSpace).length = s.dropWhile isWhiteSpace := by
      have := List.drop_left (s.takeWhile isWhiteSpace) (s.dropWhile isWhiteSpace)
      rw [hsplit] at this
      exact this
    rw [rdropWhile_eq_take]
    by_cases hd : s.dropWhile isWhiteSpace = []
    · have hall : s.takeWhile isWhiteSpace = s := by
        have := hsplit
        rw [hd, List.append_nil] at this
        exact this
      have hall2 : ∀ c ∈ s, isWhiteSpace c = true := by
        rw [← hall]; intro c hc; exact List.mem_takeWhile_imp hc
      have hrev : s.reverse.takeWhile isWhiteSpace = s.reverse := by
        rw [List.takeWhile_eq_self_iff]
        intro c hc
        exact hall2 c (List.mem_reverse.mp hc)
      rw [hrev, hd, hall]
      simp
    · rw [takeWhile_reverse_of_drop _ _ hd]
      have hk : ((s.dropWhile isWhiteSpace).reverse.takeWhile isWhiteSpace).length ≤
          (s.dropWhile isWhiteSpace).length := by
        have := (List.takeWhile_sublist isWhiteSpace
          (l := (s.dropWhile isWhiteSpace).reverse)).length_le
        simpa using this
      rw [hdrop]
      congr 1
      omega

theorem rdropWhile_append_rest (p : Char → Bool) (b : List Char) :
    b = b.rdropWhile p ++ (b.reverse.takeWhile p).reverse := by
  have h := List.takeWhile_append_dropWhile p b.reverse
  unfold List.rdropWhile
  rw [← List.reverse_append, h, List.reverse_reverse]

theorem dropWhile_head_not (p : Char → Bool) (s : List Char) (c : Char)
    (h : (s.dropWhile p).head? = some c) : p c = false := by
  induction s with
  | nil => simp at h
  | cons a t ih =>
    by_cases ha : p a = true
    · rw [List.dropWhile_cons_of_pos ha] at h
      exact ih h
    · rw [List.dropWhile_cons_of_neg ha] at h
      simp only [List.head?_cons, Option.some.injEq] at h
      rw [← h]
      simpa using ha

theorem spec_strip_head (s : List Char) (c : Char) (h : (spec_strip s).head? = some c) :
    isWhiteSpace c = false := by
  unfold spec_strip at h
  obtain ⟨t, ht⟩ := List.rdropWhile_prefix isWhiteSpace (s.dropWhile isWhiteSpace)
  apply dropWhile_head_not isWhiteSpace s c
  rw [← ht]
  cases hr : List.rdropWhile isWhiteSpace (s.dropWhile isWhiteSpace) with
  | nil => rw [hr] at h; simp at h
  | cons a l => rw [hr] at h; simpa using h

theorem spec_strip_last (s : List Char) (c : Char) (h : (spec_strip s).getLast? = some c) :
    isWhiteSpace c = false := by
  have hne : spec_strip s ≠ [] := by
    intro h0; rw [h0] at h; simp at h
  have := List.rdropWhile_last_not isWhiteSpace (s.dropWhile isWhiteSpace) hne
  rw [List.getLast?_eq_getLast _ hne] at h
  simp only [Option.some.injEq] at h
  rw [← h]
  simpa [spec_strip] using this

theorem spec_strip_nil_iff (s : List Char) :
    spec_strip s = [] ↔ ∀ c ∈ s, isWhiteSpace c = true := by
  unfold spec_strip
  rw [List.rdropWhile_eq_nil_iff]
  constructor
  · intro h
    have hd : s.dropWhile isWhiteSpace = [] := by
      cases hc : s.dropWhile isWhiteSpace with
      | nil => rfl
      | cons a l =>
        have h1 := dropWhile_head_not isWhiteSpace s a (by rw [hc]; rfl)
        have h2 := h a (by rw [hc]; simp)
        rw [h1] at h2; cases h2
    intro c hc
    have := List.dropWhile_eq_nil_iff.mp hd
    exact this c hc
  · intro h x hx
    exact h x ((List.dropWhile_sublist _).subset hx)

theorem spec_strip_idem (s : List Char) : spec_strip (spec_strip s) = spec_strip s := by
  have hd : (spec_strip s).dropWhile isWhiteSpace = spec_strip s := by
    cases hc : spec_strip s with
    | nil => rfl
    | cons a l =>
      have := spec_strip_head s a (by rw [hc]; rfl)
      rw [List.dropWhile_cons_of_neg (by simp [this])]
  have h2 : spec_strip (spec_strip s) = (spec_strip s).rdropWhile isWhiteSpace := by
    have : spec_strip (spec_strip s) =
        ((spec_strip s).dropWhile isWhiteSpace).rdropWhile isWhiteSpace := rfl
    rw [this, hd]
  rw [h2]
  unfold spec_strip
  exact List.rdropWhile_idempotent _ _

theorem spec_strip_sublist (s : List Char) : (spec_strip s).Sublist s :=
  ((List.rdropWhile_prefix isWhiteSpace _).sublist).trans (List.dropWhile_sublist _)

/-- C29: for a string `s` without NUL (and short enough for its length to be an
`int`), `stripString` yields the substring of `s` from its first to its last
character that is not white space: `s` is the result between a run of white
space before it and a run of white space after it, the result neither begins
nor ends with white space, stripping the result again gives the result, and the
result is empty exactly when `isEmptyString(s)` is true.  The same holds when
the source pointer is null and `s` is the string in `dst`. -/
theorem stripString_yields_trimmed_substring (dst s : List Char)
    (hnul : NUL ∉ s) (hfit : s.length < 2147483648) :
    stripString dst (some s) = spec_strip s ∧
    stripString s none = spec_strip s ∧
    (∃ lead trail, s = lead ++ stripString dst (some s) ++ trail ∧
      (∀ c ∈ lead, isWhiteSpace c = true) ∧ (∀ c ∈ trail, isWhiteSpace c = true)) ∧
    (∀ c, (stripString dst (some s)).head? = some c → isWhiteSpace c = false) ∧
    (∀ c, (stripString dst (some s)).getLast? = some c → isWhiteSpace c = false) ∧
    stripString dst (some (stripString dst (some s))) = stripString dst (some s) ∧
    (stripString dst (some s) = [] ↔ isEmptyString s = true) := by
  have heq := stripString_eq dst s hnul hfit
  have hsub := spec_strip_sublist s
  have hnul2 : NUL ∉ spec_strip s := fun h => hnul (hsub.subset h)
  have hfit2 : (spec_strip s).length < 2147483648 := lt_of_le_of_lt hsub.length_le hfit
  refine ⟨heq, stripString_eq s s hnul hfit, ?_, ?_, ?_, ?_, ?_⟩
  · refine ⟨s.takeWhile isWhiteSpace,
      ((s.dropWhile isWhiteSpace).reverse.takeWhile isWhiteSpace).reverse, ?_, ?_, ?_⟩
    · rw [heq, List.append_assoc]
      unfold spec_strip
      rw [← rdropWhile_append_rest, List.takeWhile_append_dropWhile]
    · intro c hc; exact List.mem_takeWhile_imp hc
    · intro c hc; exact List.mem_takeWhile_imp (List.mem_reverse.mp hc)
  · rw [heq]; exact spec_strip_head s
  · rw [heq]; exact spec_strip_last s
  · rw [heq, stripString_eq dst _ hnul2 hfit2, spec_strip_idem]
  · rw [heq, spec_strip_nil_iff]
    unfold isEmptyString
    rw [toInt32_small _ hfit, Int.toNat_ofNat, List.take_length, List.all_eq_true]

/-- C29 (witness): "  ab c" followed by a blank, a tab and a line feed is
stripped to "ab c". -/
theorem stripString_yields_trimmed_substring_witness :
    NUL ∉ [' ', ' ', 'a', 'b', ' ', 'c', ' ', '\t', '\n'] ∧
    [' ', ' ', 'a', 'b', ' ', 'c', ' ', '\t', '\n'].length < 2147483648 ∧
    stripString [] (some [' ', ' ', 'a', 'b', ' ', 'c', ' ', '\t', '\n']) =
      ['a', 'b', ' ', 'c'] ∧
    isEmptyString [' ', ' ', 'a', 'b', ' ', 'c', ' ', '\t', '\n'] = false ∧
    stripString [] (some [' ', ' ', 'a', 'b', ' ', 'c', ' ', '\t', '\n']) =
      spec_strip [' ', ' ', 'a', 'b', ' ', 'c', ' ', '\t', '\n'] :=
  ⟨by decide, by decide, by decide, by decide,
    (stripString_yields_trimmed_substring [] [' ', ' ', 'a', 'b', ' ', 'c', ' ', '\t', '\n']
      (by decide) (by decide)).1⟩

/-! ## isRtAudioDevice -/

theorem digit_bounds {c : Char} (h : ¬ (c < '0' ∨ c > '9')) :
    48 ≤ c.toNat ∧ c.toNat ≤ 57 ∧ isDecDigit c = true ∧ digitValue c = (c.toNat : Int) - 48 := by
  have h1 : '0' ≤ c := not_lt.mp (fun hh => h (Or.inl hh))
  have h2 : c ≤ '9' := not_lt.mp (fun hh => h (Or.inr hh))
  have h3 : (48 : Nat) ≤ c.toNat := h1
  have h4 : c.toNat ≤ 57 := h2
  refine ⟨h3, h4, by simp [isDecDigit, h1, h2], by simp [digitValue, h1, h2]⟩

theorem not_digit_of {c : Char} (h : c < '0' ∨ c > '9') : isDecDigit c = false := by
  unfold isDecDigit
  rcases h with h | h
  · simp [not_le.mpr h]
  · have : ¬ c ≤ '9' := not_le.mpr h
    simp [this]

theorem valueFrom_ge (ds : List Char) (hd : ∀ c ∈ ds, isDecDigit c = true) :
    ∀ x : Int, 0 ≤ x → x ≤ valueFrom 10 x ds := by
  induction ds with
  | nil => intro x _; simp [valueFrom]
  | cons c t ih =>
    intro x hx
    have hc := hd c (by simp)
    have hdv : 0 ≤ digitValue c := by
      unfold isDecDigit at hc
      simp only [decide_eq_true_eq] at hc
      have h3 : (48 : Nat) ≤ c.toNat := hc.1
      simp only [digitValue, hc, and_self, if_true]
      omega
    have := ih (fun c hc => hd c (List.mem_cons_of_mem _ hc)) (x * 10 + digitValue c) (by omega)
    have hv : valueFrom 10 x (c :: t) = valueFrom 10 (x * 10 + digitValue c) t := rfl
    rw [hv]
    omega

theorem isRtAudioDevice_loop_spec (s : List Char) :
    ∀ devNum : Int, 0 ≤ devNum → devNum ≤ 1023 →
      isRtAudioDevice_loop devNum s =
        some (decide ((∀ c ∈ s, isDecDigit c = true) ∧ valueFrom 10 devNum s ≤ 1023)) ∧
      ∀ v ∈ isRtAudioDevice_devNums devNum s, v ≤ 10239 := by
  induction s with
  | nil =>
    intro devNum _ h1
    simp [isRtAudioDevice_loop, isRtAudioDevice_devNums, valueFrom, h1]
  | cons c t ih =>
    intro devNum h0 h1
    by_cases hc : c < '0' ∨ c > '9'
    · have := not_digit_of hc
      simp [isRtAudioDevice_loop, isRtAudioDevice_devNums, hc, this]
    · obtain ⟨hb1, hb2, hb3, hb4⟩ := digit_bounds hc
      have hv : valueFrom 10 devNum (c :: t) =
          valueFrom 10 (devNum * 10 + ((c.toNat : Int) - 48)) t := by
        show valueFrom 10 (devNum * 10 + digitValue c) t = _
        rw [hb4]
      have hmax : ¬ (devNum * 10 + ((c.toNat : Int) - 48) > INT_MAX) := by
        unfold INT_MAX; omega
      simp only [isRtAudioDevice_loop, isRtAudioDevice_devNums, if_neg hc, if_neg hmax, hv]
      by_cases hbig : devNum * 10 + ((c.toNat : Int) - 48) > 1023
      · rw [if_pos hbig, if_pos hbig]
        constructor
        · by_cases hall : ∀ c ∈ t, isDecDigit c = true
          · have := valueFrom_ge t hall (devNum * 10 + ((c.toNat : Int) - 48)) (by omega)
            have hn : ¬ (valueFrom 10 (devNum * 10 + ((c.toNat : Int) - 48)) t ≤ 1023) := by
              omega
            simp [hn]
          · have hn : ¬ (∀ x ∈ c :: t, isDecDigit x = true) := by
              intro h
              exact hall (fun x hx => h x (List.mem_cons_of_mem _ hx))
            simp only [hn, false_and, decide_False]
        · intro v hv1
          simp only [List.mem_singleton] at hv1
          omega
      · rw [if_neg hbig, if_neg hbig]
        obtain ⟨ih1, ih2⟩ := ih (devNum * 10 + ((c.toNat : Int) - 48)) (by omega) (by omega)
        constructor
        · rw [ih1]
          simp [hb3]
        · intro v hv1
          rcases List.mem_cons.mp hv1 with rfl | hv2
          · omega
          · exact ih2 v hv2

theorem isRtAudioDevice_rest_spec (R : List Char) :
    ∃ b, isRtAudioDevice_rest R = some b ∧ (b = true ↔ spec_rtRest R) := by
  cases R with
  | nil => exact ⟨true, rfl, by simp [spec_rtRest]⟩
  | cons c t =>
    by_cases hc : c = ':'
    · exact ⟨true, by simp [isRtAudioDevice_rest, hc], by simp [spec_rtRest, hc]⟩
    · have h := (isRtAudioDevice_loop_spec (c :: t) 0 (le_refl _) (by decide)).1
      refine ⟨_, by simp only [isRtAudioDevice_rest, if_neg hc]; exact h, ?_⟩
      simp only [decide_eq_true_eq, spec_rtRest, List.head?_cons, Option.some.injEq, hc,
        ne_eq, reduceCtorEq, not_false_eq_true, true_and, false_or]
      rfl

theorem take_of_append {name P R : List Char} (h : name = P ++ R) :
    name.take P.length = P ∧ name.drop P.length = R := by
  subst h
  exact ⟨List.take_left P R, List.drop_left P R⟩

/-- C28: for a name without NUL (and short enough for its length to be an
`int`), `isRtAudioDevice` returns, and it returns true exactly when the name is
a prefix `P` followed by a rest `R`, with `P` "devaudio", or "dac" for an output,
or "adc" for an input, and `R` empty, or beginning with ':', or a non-empty
string of decimal digits of value at most 1023, leading zeros allowed.  On any
text the loop assigns to `devNum` only values up to 10239, so the device number
does not leave the range of `int`. -/
theorem isRtAudioDevice_iff_prefix_and_rest (name : List Char) (isOutput : Bool)
    (hnul : NUL ∉ name) (hfit : name.length < 2147483648) :
    (∃ b, isRtAudioDevice name isOutput = some b ∧
      (b = true ↔ spec_isRtAudioDevice name isOutput)) ∧
    ∀ R : List Char, ∀ v ∈ isRtAudioDevice_devNums 0 R, v ≤ 10239 := by
  refine ⟨?_, fun R => (isRtAudioDevice_loop_spec R 0 (le_refl _) (by decide)).2⟩
  have hspec : ∀ P : List Char, name.take P.length = P →
      (spec_rtRest (name.drop P.length) ↔
        ∃ R, name = P ++ R ∧ spec_rtRest R) := by
    intro P hP
    constructor
    · intro h
      refine ⟨name.drop P.length, ?_, h⟩
      conv_lhs => rw [← List.take_append_drop P.length name]
      rw [hP]
    · rintro ⟨R, hR, h⟩
      rw [(take_of_append hR).2]
      exact h
  unfold isRtAudioDevice
  rw [toInt32_small _ hfit, cstr_of_not_mem hnul]
  by_cases hlen : (name.length : Int) < 3
  · rw [if_pos hlen]
    refine ⟨false, rfl, ?_⟩
    simp only [reduceCtorEq, false_iff]
    rintro ⟨P, R, hname, hP, _⟩
    have hl : 3 ≤ P.length := by
      rcases hP with h | ⟨_, h⟩ | ⟨_, h⟩ <;> rw [h] <;> decide
    have := congrArg List.length hname
    simp only [List.length_append] at this
    omega
  · rw [if_neg hlen]
    simp only [c_strncmp_eq, decide_eq_true_eq]
    have hlit8 : "devaudio".toList.take 8 = "devaudio".toList := by decide
    have hlit3d : "dac".toList.take 3 = "dac".toList := by decide
    have hlit3a : "adc".toList.take 3 = "adc".toList := by decide
    rw [hlit8, hlit3d, hlit3a]
    have h83 : name.take 8 = "devaudio".toList → name.take 3 = ['d', 'e', 'v'] := by
      intro h
      have := congrArg (List.take 3) h
      rw [List.take_take] at this
      simpa using this
    by_cases h8 : name.take 8 = "devaudio".toList
    · rw [if_pos h8]
      obtain ⟨b, hb, hiff⟩ := isRtAudioDevice_rest_spec (name.drop 8)
      refine ⟨b, hb, hiff.trans ?_⟩
      have hs := hspec "devaudio".toList h8
      have h8l : "devaudio".toList.length = 8 := by decide
      rw [h8l] at hs
      rw [hs]
      constructor
      · rintro ⟨R, hR, h⟩
        exact ⟨_, R, hR, Or.inl rfl, h⟩
      · rintro ⟨P, R, hR, hP, h⟩
        rcases hP with hP | ⟨_, hP⟩ | ⟨_, hP⟩
        · subst hP; exact ⟨R, hR, h⟩
        · subst hP
          have h3 := (take_of_append hR).1
          have : "dac".toList.length = 3 := by decide
          rw [this, h83 h8] at h3
          exact absurd h3 (by decide)
        · subst hP
          have h3 := (take_of_append hR).1
          have : "adc".toList.length = 3 := by decide
          rw [this, h83 h8] at h3
          exact absurd h3 (by decide)
    · rw [if_neg h8]
      have hnot8 : ∀ R, name ≠ "devaudio".toList ++ R := by
        intro R hR
        exact h8 (take_of_append hR).1
      by_cases h3 : (isOutput = true ∧ name.take 3 = "dac".toList) ∨
          (¬ isOutput = true ∧ name.take 3 = "adc".toList)
      · rw [if_pos h3]
        obtain ⟨b, hb, hiff⟩ := isRtAudioDevice_rest_spec (name.drop 3)
        refine ⟨b, hb, hiff.trans ?_⟩
        rcases h3 with ⟨ho, h3⟩ | ⟨ho, h3⟩
        · have hs := hspec "dac".toList h3
          have h3l : "dac".toList.length = 3 := by decide
          rw [h3l] at hs
          rw [hs]
          constructor
          · rintro ⟨R, hR, h⟩
            exact ⟨_, R, hR, Or.inr (Or.inl ⟨ho, rfl⟩), h⟩
          · rintro ⟨P, R, hR, hP, h⟩
            rcases hP with hP | ⟨_, hP⟩ | ⟨hf, hP⟩
            · subst hP; exact absurd hR (hnot8 R)
            · subst hP; exact ⟨R, hR, h⟩
            · rw [ho] at hf; cases hf
        · have hs := hspec "adc".toList h3
          have h3l : "adc".toList.length = 3 := by decide
          rw [h3l] at hs
          rw [hs]
          have hof : isOutput = false := by simpa using ho
          constructor
          · rintro ⟨R, hR, h⟩
            exact ⟨_, R, hR, Or.inr (Or.inr ⟨hof, rfl⟩), h⟩
          · rintro ⟨P, R, hR, hP, h⟩
            rcases hP with hP | ⟨ht, hP⟩ | ⟨_, hP⟩
            · subst hP; exact absurd hR (hnot8 R)
            · rw [hof] at ht; cases ht
            · subst hP; exact ⟨R, hR, h⟩
      · rw [if_neg h3]
        refine ⟨false, rfl, ?_⟩
        simp only [reduceCtorEq, false_iff]
        rintro ⟨P, R, hR, hP, _⟩
        rcases hP with hP | ⟨ho, hP⟩ | ⟨ho, hP⟩
        · subst hP; exact hnot8 R hR
        · subst hP
          exact h3 (Or.inl ⟨ho, (take_of_append hR).1⟩)
        · subst hP
          exact h3 (Or.inr ⟨by simp [ho], (take_of_append hR).1⟩)

/-- C28 (witness): "dac0001023" names a device for output, with the device
number 1023 after three zeros. -/
theorem isRtAudioDevice_iff_prefix_and_rest_witness :
    NUL ∉ "dac0001023".toList ∧ "dac0001023".toList.length < 2147483648 ∧
    isRtAudioDevice "dac0001023".toList true = some true ∧
    isRtAudioDevice "dac1024".toList true = some false ∧
    ((∃ b, isRtAudioDevice "dac0001023".toList true = some b ∧
      (b = true ↔ spec_isRtAudioDevice "dac0001023".toList true)) ∧
     ∀ R : List Char, ∀ v ∈ isRtAudioDevice_devNums 0 R, v ≤ 10239) :=
  ⟨by decide, by decide, by decide, by decide,
    isRtAudioDevice_iff_prefix_and_rest "dac0001023".toList true (by decide) (by decide)⟩

/-! ## runCmd: the tokens of a command line -/

theorem runCmd_fold_spec (s : List Char) :
    ∀ L : RunCmdLocals, L.WF →
      (s.foldl runCmd_step L).WF ∧
      (s.foldl runCmd_step L).args.flatten ++ (s.foldl runCmd_step L).curToken =
        L.args.flatten ++ L.curToken ++ spec_unquote (decide (L.mode = 2)) s ∧
      ((s.foldl runCmd_step L).mode = 2 ↔ endsQuoted (decide (L.mode = 2)) s = true) := by
  induction s with
  | nil =>
    intro L hL
    simp [spec_unquote, endsQuoted, hL]
  | cons c t ih =>
    intro L hL
    simp only [List.foldl_cons]
    by_cases hq : c = DQUOTE
    · subst hq
      have hws : isWhiteSpace DQUOTE = false := by decide
      have hq : DQUOTE = DQUOTE := rfl
      by_cases hm : L.mode = 2
      · have hstep : runCmd_step L DQUOTE = { L with mode := 1 } := by
          simp [runCmd_step, hws, hm]
        obtain ⟨h1, h2, h3⟩ := ih { L with mode := 1 } (Or.inr (Or.inl rfl))
        rw [hstep]
        refine ⟨h1, ?_, ?_⟩
        · rw [h2]; simp [spec_unquote, hq, hm]
        · rw [h3]; simp [endsQuoted, hq, hm]
      · have hstep : runCmd_step L DQUOTE = { L with mode := 2 } := by
          simp [runCmd_step, hws, hm]
        obtain ⟨h1, h2, h3⟩ := ih { L with mode := 2 } (Or.inr (Or.inr rfl))
        rw [hstep]
        refine ⟨h1, ?_, ?_⟩
        · rw [h2]; simp [spec_unquote, hq, hm]
        · rw [h3]; simp [endsQuoted, hq, hm]
    · by_cases hw : isWhiteSpace c = true ∧ L.mode ≠ 2
      · by_cases h0 : L.mode ≠ 0
        · have hstep : runCmd_step L c =
              { mode := 0, args := L.args ++ [L.curToken], curToken := [] } := by
            simp only [runCmd_step, if_pos hw, if_pos h0]
          obtain ⟨h1, h2, h3⟩ := ih { mode := 0, args := L.args ++ [L.curToken], curToken := [] }
            (Or.inl ⟨rfl, rfl⟩)
          rw [hstep]
          refine ⟨h1, ?_, ?_⟩
          · rw [h2]; simp [spec_unquote, hq, hw.1, hw.2]
          · rw [h3]; simp [endsQuoted, hq, hw.2]
        · have hstep : runCmd_step L c = L := by
            simp only [runCmd_step, if_pos hw, if_neg h0]
          obtain ⟨h1, h2, h3⟩ := ih L hL
          rw [hstep]
          refine ⟨h1, ?_, ?_⟩
          · rw [h2]; simp [spec_unquote, hq, hw.1, hw.2]
          · rw [h3]; simp [endsQuoted, hq]
      · have hstep : runCmd_step L c =
            { L with mode := if L.mode = 0 then 1 else L.mode, curToken := L.curToken ++ [c] } := by
          simp only [runCmd_step, if_neg hw, if_neg hq]
        have hwf : RunCmdLocals.WF
            { L with mode := if L.mode = 0 then 1 else L.mode, curToken := L.curToken ++ [c] } := by
          rcases hL with ⟨h, _⟩ | h | h
          · exact Or.inr (Or.inl (by simp [h]))
          · exact Or.inr (Or.inl (by simp [h]))
          · exact Or.inr (Or.inr (by simp [h]))
        have hm2 : decide ((if L.mode = 0 then 1 else L.mode) = 2) = decide (L.mode = 2) := by
          by_cases h0 : L.mode = 0
          · simp [h0]
          · simp [h0]
        obtain ⟨h1, h2, h3⟩ := ih _ hwf
        rw [hstep]
        refine ⟨h1, ?_, ?_⟩
        · rw [h2]
          simp only [hm2]
          have hsp : spec_unquote (decide (L.mode = 2)) (c :: t) =
              c :: spec_unquote (decide (L.mode = 2)) t := by
            have hw2 : ¬ (isWhiteSpace c = true ∧ decide (L.mode = 2) = false) := by
              simpa using hw
            simp only [spec_unquote, if_neg hq, if_neg hw2]
          rw [hsp]
          simp
        · rw [h3]
          simp only [hm2, endsQuoted, if_neg hq]

theorem runCmd_loop_spec (cmdLine : List Char) (hfit : cmdLine.length < 2147483648) :
    (runCmd_loop cmdLine).WF ∧
    (runCmd_loop cmdLine).args.flatten ++ (runCmd_loop cmdLine).curToken =
      spec_unquote false cmdLine ∧
    ((runCmd_loop cmdLine).mode = 2 ↔ endsQuoted false cmdLine = true) := by
  have h := runCmd_fold_spec cmdLine { curToken := [], args := [], mode := 0 }
    (Or.inl ⟨rfl, rfl⟩)
  unfold runCmd_loop
  rw [toInt32_small _ hfit, Int.toNat_ofNat, List.take_length]
  simpa using h

/-- C26 (what the code does): for a command line that does not end inside a
quoted region, the concatenation of the tokens `runCmd` builds is the command
line without its double quotes and without the white space outside quoted
regions.  For a command line that ends inside a quoted region the token
collected last is not added to the tokens (the test after the loop is
`mode == 1`): the concatenation of the tokens lacks the characters of that
token. -/
theorem runCmd_drops_unterminated_token (cmdLine : List Char)
    (hfit : cmdLine.length < 2147483648) :
    (endsQuoted false cmdLine = false →
      (runCmd_args cmdLine).flatten = spec_unquote false cmdLine) ∧
    (endsQuoted false cmdLine = true →
      runCmd_args cmdLine = (runCmd_loop cmdLine).args ∧
      (runCmd_args cmdLine).flatten ++ (runCmd_loop cmdLine).curToken =
        spec_unquote false cmdLine) := by
  obtain ⟨hwf, hcat, hmode⟩ := runCmd_loop_spec cmdLine hfit
  constructor
  · intro hq
    have hm2 : (runCmd_loop cmdLine).mode ≠ 2 := by
      intro h
      rw [hmode.mp h] at hq
      cases hq
    rw [← hcat]
    unfold runCmd_args
    rcases hwf with ⟨h0, hc⟩ | h1 | h2
    · simp [h0, hc]
    · simp [h1]
    · exact absurd h2 hm2
  · intro hq
    have hm2 := hmode.mpr hq
    have hargs : runCmd_args cmdLine = (runCmd_loop cmdLine).args := by
      unfold runCmd_args
      simp [hm2]
    exact ⟨hargs, by rw [hargs, hcat]⟩

/-- C26 (the failing input): the command line of the three characters a, blank,
double quote followed by b ends inside a quoted string.  The only token is "a";
the quoted b is lost, where the claim has the concatenation "ab". -/
theorem runCmd_drops_unterminated_token_witness :
    ['a', ' ', DQUOTE, 'b'].length < 2147483648 ∧
    endsQuoted false ['a', ' ', DQUOTE, 'b'] = true ∧
    runCmd_args ['a', ' ', DQUOTE, 'b'] = [['a']] ∧
    (runCmd_loop ['a', ' ', DQUOTE, 'b']).curToken = ['b'] ∧
    spec_unquote false ['a', ' ', DQUOTE, 'b'] = ['a', 'b'] ∧
    (runCmd_args ['a', ' ', DQUOTE, 'b']).flatten ≠ spec_unquote false ['a', ' ', DQUOTE, 'b'] ∧
    (runCmd_args ['a', ' ', DQUOTE, 'b'] = (runCmd_loop ['a', ' ', DQUOTE, 'b']).args ∧
      (runCmd_args ['a', ' ', DQUOTE, 'b']).flatten ++
          (runCmd_loop ['a', ' ', DQUOTE, 'b']).curToken =
        spec_unquote false ['a', ' ', DQUOTE, 'b']) :=
  ⟨by decide, by decide, by decide, by decide, by decide, by decide,
    (runCmd_drops_unterminated_token ['a', ' ', DQUOTE, 'b'] (by decide)).2 (by decide)⟩

/-! ## The quoted file name of the editor commands -/

theorem wordsFrom_nil_left (e : List Char) : wordsFrom [] e = spec_words e := by
  unfold wordsFrom spec_words
  cases h : e.splitOnP isWhiteSpace with
  | nil => rfl
  | cons a l => simp [List.modifyHead]

theorem wordsFrom_nil (cur : List Char) :
    wordsFrom cur [] = if cur = [] then [] else [cur] := by
  unfold wordsFrom
  by_cases h : cur = []
  · simp [h, List.modifyHead]
  · simp [h, List.modifyHead]

theorem wordsFrom_cons_blank (cur : List Char) (c : Char) (t : List Char)
    (hc : isWhiteSpace c = true) :
    wordsFrom cur (c :: t) = (if cur = [] then [] else [cur]) ++ wordsFrom [] t := by
  rw [wordsFrom_nil_left]
  unfold wordsFrom spec_words
  rw [List.splitOnP_cons, if_pos hc]
  by_cases h : cur = []
  · simp [h, List.modifyHead]
  · simp [h, List.modifyHead]

theorem wordsFrom_cons_other (cur : List Char) (c : Char) (t : List Char)
    (hc : isWhiteSpace c = false) :
    wordsFrom cur (c :: t) = wordsFrom (cur ++ [c]) t := by
  unfold wordsFrom
  rw [List.splitOnP_cons, if_neg (by simp [hc])]
  cases h : t.splitOnP isWhiteSpace with
  | nil => rfl
  | cons a l => simp [List.modifyHead]

theorem wordsFrom_blanks (trail : List Char) (h : ∀ c ∈ trail, isWhiteSpace c = true) :
    ∀ cur, wordsFrom cur trail = if cur = [] then [] else [cur] := by
  induction trail with
  | nil => exact wordsFrom_nil
  | cons c t ih =>
    intro cur
    rw [wordsFrom_cons_blank cur c t (h c (by simp)),
      ih (fun x hx => h x (List.mem_cons_of_mem _ hx)) []]
    simp

theorem wordsFrom_append_blanks (trail : List Char) (h : ∀ c ∈ trail, isWhiteSpace c = true)
    (x : List Char) : ∀ cur, wordsFrom cur (x ++ trail) = wordsFrom cur x := by
  induction x with
  | nil =>
    intro cur
    rw [List.nil_append, wordsFrom_blanks trail h, wordsFrom_nil]
  | cons c t ih =>
    intro cur
    by_cases hc : isWhiteSpace c = true
    · rw [List.cons_append, wordsFrom_cons_blank _ _ _ hc, wordsFrom_cons_blank _ _ _ hc, ih]
    · have hc1 : isWhiteSpace c = false := by simpa using hc
      rw [List.cons_append, wordsFrom_cons_other _ _ _ hc1, wordsFrom_cons_other _ _ _ hc1, ih]

theorem wordsFrom_blanks_append (lead : List Char) (h : ∀ c ∈ lead, isWhiteSpace c = true)
    (x : List Char) : wordsFrom [] (lead ++ x) = wordsFrom [] x := by
  induction lead with
  | nil => rfl
  | cons c t ih =>
    rw [List.cons_append, wordsFrom_cons_blank _ _ _ (h c (by simp)),
      ih (fun x hx => h x (List.mem_cons_of_mem _ hx))]
    simp

theorem spec_words_strip (e : List Char) : spec_words (spec_strip e) = spec_words e := by
  have h1 : e = e.takeWhile isWhiteSpace ++ (spec_strip e ++
      ((e.dropWhile isWhiteSpace).reverse.takeWhile isWhiteSpace).reverse) := by
    unfold spec_strip
    rw [← rdropWhile_append_rest, List.takeWhile_append_dropWhile]
  rw [← wordsFrom_nil_left, ← wordsFrom_nil_left]
  conv_rhs => rw [h1]
  rw [wordsFrom_blanks_append _ (fun c hc => List.mem_takeWhile_imp hc),
    wordsFrom_append_blanks _ (fun c hc => List.mem_takeWhile_imp (List.mem_reverse.mp hc))]

theorem runCmd_fold_words (s : List Char) (hq : DQUOTE ∉ s) :
    ∀ L : RunCmdLocals,
      ((L.mode = 0 ∧ L.curToken = []) ∨ (L.mode = 1 ∧ L.curToken ≠ [])) →
      (((s.foldl runCmd_step L).mode = 0 ∧ (s.foldl runCmd_step L).curToken = []) ∨
        ((s.foldl runCmd_step L).mode = 1 ∧ (s.foldl runCmd_step L).curToken ≠ [])) ∧
      (s.foldl runCmd_step L).args ++
          (if (s.foldl runCmd_step L).curToken = [] then []
           else [(s.foldl runCmd_step L).curToken]) =
        L.args ++ wordsFrom L.curToken s := by
  induction s with
  | nil =>
    intro L hL
    exact ⟨hL, by rw [wordsFrom_nil]; rfl⟩
  | cons c t ih =>
    intro L hL
    have hqt : DQUOTE ∉ t := fun h => hq (List.mem_cons_of_mem _ h)
    have hc : c ≠ DQUOTE := fun h => hq (by rw [h]; exact List.mem_cons_self _ _)
    have hm2 : L.mode ≠ 2 := by
      rcases hL with ⟨h, _⟩ | ⟨h, _⟩ <;> rw [h] <;> decide
    simp only [List.foldl_cons]
    by_cases hw : isWhiteSpace c = true
    · rcases hL with ⟨h0, hcur⟩ | ⟨h1, hcur⟩
      · have hstep : runCmd_step L c = L := by
          simp [runCmd_step, hw, h0]
        rw [hstep, wordsFrom_cons_blank _ _ _ hw, hcur]
        have := ih hqt L (Or.inl ⟨h0, hcur⟩)
        rw [hcur] at this
        simpa using this
      · have hstep : runCmd_step L c =
            { mode := 0, args := L.args ++ [L.curToken], curToken := [] } := by
          simp [runCmd_step, hw, h1]
        rw [hstep, wordsFrom_cons_blank _ _ _ hw, if_neg hcur]
        have := ih hqt { mode := 0, args := L.args ++ [L.curToken], curToken := [] }
          (Or.inl ⟨rfl, rfl⟩)
        simpa using this
    · have hw1 : isWhiteSpace c = false := by simpa using hw
      have hstep : runCmd_step L c = { L with mode := 1, curToken := L.curToken ++ [c] } := by
        rcases hL with ⟨h, _⟩ | ⟨h, _⟩ <;> simp [runCmd_step, hw1, hc, h]
      rw [hstep, wordsFrom_cons_other _ _ _ hw1]
      exact ih hqt { L with mode := 1, curToken := L.curToken ++ [c] }
        (Or.inr ⟨rfl, by simp⟩)

theorem runCmd_fold_quoted (f : List Char) (hq : DQUOTE ∉ f) :
    ∀ L : RunCmdLocals, L.mode = 2 →
      f.foldl runCmd_step L = { L with curToken := L.curToken ++ f } := by
  induction f with
  | nil => intro L _; simp
  | cons c t ih =>
    intro L hm
    have hqt : DQUOTE ∉ t := fun h => hq (List.mem_cons_of_mem _ h)
    have hc : c ≠ DQUOTE := fun h => hq (by rw [h]; exact List.mem_cons_self _ _)
    have hstep : runCmd_step L c = { L with curToken := L.curToken ++ [c] } := by
      simp [runCmd_step, hc, hm]
    have := ih hqt { L with curToken := L.curToken ++ [c] } hm
    rw [List.foldl_cons, hstep, this]
    simp

theorem runCmd_args_quoted (s f : List Char) (hs : DQUOTE ∉ s) (hf : DQUOTE ∉ f)
    (hfit : s.length + f.length + 3 < 2147483648) :
    runCmd_args (((s ++ [' ', DQUOTE]) ++ f) ++ [DQUOTE]) = spec_words s ++ [f] := by
  have hlen : ((((s ++ [' ', DQUOTE]) ++ f) ++ [DQUOTE]).length : Nat) < 2147483648 := by
    simp only [List.length_append, List.length_cons, List.length_nil]
    omega
  unfold runCmd_args runCmd_loop
  rw [toInt32_small _ hlen, Int.toNat_ofNat, List.take_length]
  obtain ⟨hwf, hargs⟩ := runCmd_fold_words s hs { curToken := [], args := [], mode := 0 }
    (Or.inl ⟨rfl, rfl⟩)
  rw [wordsFrom_nil_left] at hargs
  simp only [List.nil_append] at hargs
  have hblank : isWhiteSpace ' ' = true := by decide
  have hqws : isWhiteSpace DQUOTE = false := by decide
  have h1 : runCmd_step (s.foldl runCmd_step { curToken := [], args := [], mode := 0 }) ' ' =
      { curToken := [], args := spec_words s, mode := 0 } := by
    generalize s.foldl runCmd_step { curToken := [], args := [], mode := 0 } = L1 at hwf hargs
    obtain ⟨cur, args, mode⟩ := L1
    simp only at hwf hargs
    rcases hwf with ⟨h0, hcur⟩ | ⟨h1, hcur⟩
    · subst h0 hcur
      simp only [if_true, List.append_nil] at hargs
      subst hargs
      simp [runCmd_step, hblank]
    · subst h1
      rw [if_neg hcur] at hargs
      rw [← hargs]
      simp [runCmd_step, hblank]
  have h2 : runCmd_step { curToken := [], args := spec_words s, mode := 0 } DQUOTE =
      { curToken := [], args := spec_words s, mode := 2 } := by
    simp [runCmd_step, hqws]
  have h3 : runCmd_step { curToken := [] ++ f, args := spec_words s, mode := 2 } DQUOTE =
      { curToken := f, args := spec_words s, mode := 1 } := by
    simp [runCmd_step, hqws]
  simp only [List.foldl_append, List.foldl_cons, List.foldl_nil, h1, h2]
  rw [runCmd_fold_quoted f hf _ rfl, h3]
  simp

/-- C27: for an editor command `e` and a file name `f` without a double quote
and not blank (`e` without NUL, both short enough for the length of the command
line to be an `int`), `runCmd` splits the command line that `editOrcFile`,
`editScoreFile` and `editSoundFile` build (stripped `e`, a space, `f` between
double quotes) into the white-space-separated words of `e` followed by exactly
one more argument, `f` itself, white space included.  For `editSoundFile` `f`
is the stripped file name, and the command is run when `f` is not a real-time
audio device. -/
theorem quoted_file_name_is_one_argument (e f : List Char)
    (he : DQUOTE ∉ e) (hf : DQUOTE ∉ f) (hnul : NUL ∉ e)
    (hne : isEmptyString e = false) (hnf : isEmptyString f = false)
    (hfit : e.length + f.length + 3 < 2147483648) :
    runCmd_args (editCmdLine e f) = spec_words e ++ [f] ∧
    editOrcFile f e = some (spec_words e ++ [f]) ∧
    editScoreFile f e = some (spec_words e ++ [f]) ∧
    (∀ name, stripString [] (some name) = f → isRtAudioDevice f true = some false →
      editSoundFile (some name) e = some (some (spec_words e ++ [f]))) := by
  have hstrip := stripString_eq [] e hnul (by omega)
  have hsub := spec_strip_sublist e
  have hq : DQUOTE ∉ spec_strip e := fun h => he (hsub.subset h)
  have hl := hsub.length_le
  have hargs : runCmd_args (editCmdLine e f) = spec_words e ++ [f] := by
    unfold editCmdLine
    rw [hstrip, runCmd_args_quoted _ _ hq hf (by omega), spec_words_strip]
  have hf0 : f ≠ [] := by
    intro h
    rw [h] at hnf
    exact absurd hnf (by decide)
  refine ⟨hargs, ?_, ?_, ?_⟩
  · simp [editOrcFile, hne, hnf, hargs]
  · simp [editScoreFile, hne, hnf, hargs]
  · intro name hname hrt
    have hlen0 : ¬ (toInt32 f.length = 0) := by
      rw [toInt32_small _ (by omega)]
      have : 0 < f.length := List.length_pos.mpr hf0
      omega
    simp [editSoundFile, hname, hne, hrt, hargs, hlen0]

/-- C27 (witness): the editor command "vi -x" with blanks around it and the
file name "my file.orc" give the three arguments "vi", "-x" and
"my file.orc". -/
theorem quoted_file_name_is_one_argument_witness :
    DQUOTE ∉ "  vi  -x ".toList ∧ DQUOTE ∉ "my file.orc".toList ∧ NUL ∉ "  vi  -x ".toList ∧
    isEmptyString "  vi  -x ".toList = false ∧ isEmptyString "my file.orc".toList = false ∧
    "  vi  -x ".toList.length + "my file.orc".toList.length + 3 < 2147483648 ∧
    spec_words "  vi  -x ".toList ++ ["my file.orc".toList] =
      ["vi".toList, "-x".toList, "my file.orc".toList] ∧
    editOrcFile "my file.orc".toList "  vi  -x ".toList =
      some ["vi".toList, "-x".toList, "my file.orc".toList] ∧
    (runCmd_args (editCmdLine "  vi  -x ".toList "my file.orc".toList) =
        spec_words "  vi  -x ".toList ++ ["my file.orc".toList] ∧
      editOrcFile "my file.orc".toList "  vi  -x ".toList =
        some (spec_words "  vi  -x ".toList ++ ["my file.orc".toList]) ∧
      editScoreFile "my file.orc".toList "  vi  -x ".toList =
        some (spec_words "  vi  -x ".toList ++ ["my file.orc".toList]) ∧
      (∀ name, stripString [] (some name) = "my file.orc".toList →
        isRtAudioDevice "my file.orc".toList true = some false →
        editSoundFile (some name) "  vi  -x ".toList =
          some (some (spec_words "  vi  -x ".toList ++ ["my file.orc".toList])))) :=
  ⟨by decide, by decide, by decide, by decide, by decide, by decide, by decide, by decide,
    quoted_file_name_is_one_argument "  vi  -x ".toList "my file.orc".toList
      (by decide) (by decide) (by decide) (by decide) (by decide) (by decide)⟩

/-! ## setTimeDisplay -/

theorem digitChar_toNat (d : Int) (h0 : 0 ≤ d) (h9 : d ≤ 9) :
    (digitChar d).toNat = d.toNat + 48 ∧ digitChar d ≠ NUL ∧ digitChar d ≠ ' ' := by
  obtain ⟨n, rfl⟩ := Int.eq_ofNat_of_zero_le h0
  have hn : n ≤ 9 := by omega
  simp only [digitChar, Int.toNat_ofNat]
  interval_cases n <;> decide

theorem time_digits_arith (n : Int) (h0 : 0 ≤ n) (h1 : n < 36000000) :
    n = ((((n / 10 / 10 / 6 / 10 / 6 / 10 / 10 % 10) * 100 +
              (n / 10 / 10 / 6 / 10 / 6 / 10 % 10) * 10 + n / 10 / 10 / 6 / 10 / 6 % 10) * 60 +
            (n / 10 / 10 / 6 / 10 % 6 * 10 + n / 10 / 10 / 6 % 10)) * 60 +
          (n / 10 / 10 % 6 * 10 + n / 10 % 10)) * 10 + n % 10 ∧
    n / 10 / 10 / 6 / 10 / 6 / 10 / 10 < 10 := by
  omega

theorem setTimeDisplay_digits {double : Type} (fp : DoubleArith double)
    (self : CsoundGUIMain) (timeVal : double) (n : Int)
    (hlt : fp.ltZero timeVal = false) (hn : fp.mul10ToInt timeVal = some n)
    (h0 : 0 ≤ n) (h1 : n < 36000000) (hprv : n ≠ self.prvTime) :
    setTimeDisplay fp self timeVal = Outcome.ret
      { prvTime := n,
        scoreTimeDisplay :=
          [' ', if n / 3600000 ≠ 0 then digitChar (n / 3600000 % 10) else ' ',
           digitChar (n / 360000 % 10), digitChar (n / 36000 % 10), ':',
           digitChar (n / 6000 % 6), digitChar (n / 600 % 10), ':',
           digitChar (n / 100 % 6), digitChar (n / 10 % 10), '.', digitChar (n % 10)] } := by
  have hmax : ¬ (n < -INT_MAX - 1 ∨ n > INT_MAX) := by
    unfold INT_MAX; omega
  unfold setTimeDisplay
  rw [hlt]
  simp only [Bool.false_eq_true, if_false, hn]
  rw [if_neg hmax, if_neg hprv]
  have hnn : ¬ n < 0 := by omega
  rw [if_neg hnn]
  have e1 : n / 10 / 10 / 6 / 10 / 6 / 10 / 10 = n / 3600000 := by omega
  have e2 : n / 10 / 10 / 6 / 10 / 6 / 10 = n / 360000 := by omega
  have e3 : n / 10 / 10 / 6 / 10 / 6 = n / 36000 := by omega
  have e4 : n / 10 / 10 / 6 / 10 = n / 6000 := by omega
  have e5 : n / 10 / 10 / 6 = n / 600 := by omega
  have e6 : n / 10 / 10 = n / 100 := by omega
  rw [e1, e2, e3, e4, e5, e6]
  have d1 := digitChar_toNat (n / 3600000 % 10) (by omega) (by omega)
  have d2 := digitChar_toNat (n / 360000 % 10) (by omega) (by omega)
  have d3 := digitChar_toNat (n / 36000 % 10) (by omega) (by omega)
  have d4 := digitChar_toNat (n / 6000 % 6) (by omega) (by omega)
  have d5 := digitChar_toNat (n / 600 % 10) (by omega) (by omega)
  have d6 := digitChar_toNat (n / 100 % 6) (by omega) (by omega)
  have d7 := digitChar_toNat (n / 10 % 10) (by omega) (by omega)
  have d8 := digitChar_toNat (n % 10) (by omega) (by omega)
  have hsp : (' ' != NUL) = true := by decide
  have hco : (':' != NUL) = true := by decide
  have hdo : ('.' != NUL) = true := by decide
  by_cases ht : n / 3600000 ≠ 0
  · simp only [if_pos ht, List.replicate, List.set, cstr, List.takeWhile, hsp, hco, hdo,
      bne_iff_ne.mpr d1.2.1, bne_iff_ne.mpr d2.2.1, bne_iff_ne.mpr d3.2.1, bne_iff_ne.mpr d4.2.1,
      bne_iff_ne.mpr d5.2.1, bne_iff_ne.mpr d6.2.1, bne_iff_ne.mpr d7.2.1, bne_iff_ne.mpr d8.2.1]
    simp [NUL]
  · simp only [if_neg ht, List.replicate, List.set, cstr, List.takeWhile, hsp, hco, hdo,
      bne_iff_ne.mpr d2.2.1, bne_iff_ne.mpr d3.2.1, bne_iff_ne.mpr d4.2.1,
      bne_iff_ne.mpr d5.2.1, bne_iff_ne.mpr d6.2.1, bne_iff_ne.mpr d7.2.1, bne_iff_ne.mpr d8.2.1]
    simp [NUL]

theorem setTimeDisplay_below_zero {double : Type} (fp : DoubleArith double)
    (self : CsoundGUIMain) (timeVal : double) (n : Int)
    (hn : (if fp.ltZero timeVal then some (-1) else fp.mul10ToInt timeVal) = some n)
    (hmin : -INT_MAX - 1 ≤ n) (hneg : n < 0) :
    setTimeDisplay fp self timeVal =
      if n = self.prvTime then Outcome.ret self
      else Outcome.ret { prvTime := n, scoreTimeDisplay := noTimeText } := by
  have hmax : ¬ (n < -INT_MAX - 1 ∨ n > INT_MAX) := by
    unfold INT_MAX at hmin ⊢; omega
  unfold setTimeDisplay
  rw [hn]
  simp only []
  rw [if_neg hmax]
  by_cases hp : n = self.prvTime
  · rw [if_pos hp, if_pos hp]
  · rw [if_neg hp, if_neg hp, if_pos hneg]
    rfl

theorem setTimeDisplay_negative {double : Type} (fp : DoubleArith double)
    (self : CsoundGUIMain) (timeVal : double) (hneg : fp.ltZero timeVal = true) :
    setTimeDisplay fp self timeVal =
      if self.prvTime = -1 then Outcome.ret self
      else Outcome.ret { prvTime := -1, scoreTimeDisplay := noTimeText } := by
  rw [setTimeDisplay_below_zero fp self timeVal (-1) (by rw [hneg]; rfl)
    (by unfold INT_MAX; decide) (by decide)]
  by_cases hp : self.prvTime = -1
  · rw [if_pos hp.symm, if_pos hp]
  · rw [if_neg (fun h => hp h.symm), if_neg hp]

/-- After a call of `setTimeDisplay` that wrote the display, the remembered
count is -1 only with the text of dashes on the display. -/
theorem setTimeDisplay_in_step {double : Type} (fp : DoubleArith double)
    (self self1 : CsoundGUIMain) (timeVal : double)
    (h : setTimeDisplay fp self timeVal = Outcome.ret self1) :
    self1 = self ∨ (self1.prvTime < 0 ∧ self1.scoreTimeDisplay = noTimeText) ∨
      0 ≤ self1.prvTime := by
  cases hv : (if fp.ltZero timeVal then some (-1) else fp.mul10ToInt timeVal) with
  | none =>
    unfold setTimeDisplay at h
    rw [hv] at h
    simp at h
  | some n =>
    by_cases hr : n < -INT_MAX - 1 ∨ n > INT_MAX
    · unfold setTimeDisplay at h
      rw [hv] at h
      simp only [] at h
      rw [if_pos hr] at h
      simp at h
    · by_cases hp : n = self.prvTime
      · unfold setTimeDisplay at h
        rw [hv] at h
        simp only [] at h
        rw [if_neg hr, if_pos hp] at h
        simp only [Outcome.ret.injEq] at h
        exact Or.inl h.symm
      · by_cases hneg : n < 0
        · rw [setTimeDisplay_below_zero fp self timeVal n hv (by omega) hneg, if_neg hp] at h
          simp only [Outcome.ret.injEq] at h
          subst h
          exact Or.inr (Or.inl ⟨hneg, rfl⟩)
        · unfold setTimeDisplay at h
          rw [hv] at h
          simp only [] at h
          rw [if_neg hr, if_neg hp] at h
          simp only [Outcome.ret.injEq] at h
          subst h
          exact Or.inr (Or.inr (by simpa using hneg))

theorem digitChar_reads (d : Int) (h0 : 0 ≤ d) (h9 : d ≤ 9) :
    digitChar d ≠ ' ' ∧ isDigitChar (digitChar d) ∧ digitOf (digitChar d) = d := by
  have h := digitChar_toNat d h0 h9
  refine ⟨h.2.2, ?_, ?_⟩
  · unfold isDigitChar
    rw [h.1]
    omega
  · unfold digitOf
    rw [h.1]
    omega

theorem time_digits_split (n : Int) :
    n / 3600000 = n / 10 / 10 / 6 / 10 / 6 / 10 / 10 ∧
    n / 360000 = n / 10 / 10 / 6 / 10 / 6 / 10 ∧
    n / 36000 = n / 10 / 10 / 6 / 10 / 6 ∧
    n / 6000 = n / 10 / 10 / 6 / 10 ∧
    n / 600 = n / 10 / 10 / 6 ∧
    n / 100 = n / 10 / 10 := by
  omega

theorem setTimeDisplay_reads (n : Int) (h0 : 0 ≤ n) (h1 : n < 36000000)
    (h H1 H2 M1 M2 S1 S2 T : Char)
    (hh : h = if n / 3600000 ≠ 0 then digitChar (n / 3600000 % 10) else ' ')
    (hH1 : H1 = digitChar (n / 360000 % 10)) (hH2 : H2 = digitChar (n / 36000 % 10))
    (hM1 : M1 = digitChar (n / 6000 % 6)) (hM2 : M2 = digitChar (n / 600 % 10))
    (hS1 : S1 = digitChar (n / 100 % 6)) (hS2 : S2 = digitChar (n / 10 % 10))
    (hT : T = digitChar (n % 10)) :
    (h = ' ' ∨ isDigitChar h) ∧ isDigitChar H1 ∧ isDigitChar H2 ∧ isDigitChar M1 ∧
    isDigitChar M2 ∧ isDigitChar S1 ∧ isDigitChar S2 ∧ isDigitChar T ∧
    (h = ' ' ↔ hoursOf h H1 H2 < 100) ∧ twoDigits M1 M2 < 60 ∧ twoDigits S1 S2 < 60 ∧
    n = ((hoursOf h H1 H2 * 60 + twoDigits M1 M2) * 60 + twoDigits S1 S2) * 10 + digitOf T := by
  obtain ⟨e1, e2, e3, e4, e5, e6⟩ := time_digits_split n
  have ha := time_digits_arith n h0 h1
  rw [e1] at hh
  rw [e2] at hH1
  rw [e3] at hH2
  rw [e4] at hM1
  rw [e5] at hM2
  rw [e6] at hS1
  clear e1 e2 e3 e4 e5 e6
  have g1 := digitChar_reads (n / 10 / 10 / 6 / 10 / 6 / 10 / 10 % 10) (by omega) (by omega)
  have g2 := digitChar_reads (n / 10 / 10 / 6 / 10 / 6 / 10 % 10) (by omega) (by omega)
  have g3 := digitChar_reads (n / 10 / 10 / 6 / 10 / 6 % 10) (by omega) (by omega)
  have g4 := digitChar_reads (n / 10 / 10 / 6 / 10 % 6) (by omega) (by omega)
  have g5 := digitChar_reads (n / 10 / 10 / 6 % 10) (by omega) (by omega)
  have g6 := digitChar_reads (n / 10 / 10 % 6) (by omega) (by omega)
  have g7 := digitChar_reads (n / 10 % 10) (by omega) (by omega)
  have g8 := digitChar_reads (n % 10) (by omega) (by omega)
  subst hH1 hH2 hM1 hM2 hS1 hS2 hT
  by_cases ht : n / 10 / 10 / 6 / 10 / 6 / 10 / 10 ≠ 0
  · rw [if_pos ht] at hh
    subst hh
    simp only [hoursOf, twoDigits, if_neg g1.1, g1.2.2, g2.2.2, g3.2.2, g4.2.2, g5.2.2, g6.2.2,
      g7.2.2, g8.2.2, g1.1, false_iff, if_false]
    refine ⟨Or.inr g1.2.1, g2.2.1, g3.2.1, g4.2.1, g5.2.1, g6.2.1, g7.2.1, g8.2.1, ?_, ?_, ?_, ?_⟩
    all_goals clear g1 g2 g3 g4 g5 g6 g7 g8
    all_goals omega
  · rw [if_neg ht] at hh
    subst hh
    simp only [hoursOf, twoDigits, if_true, g2.2.2, g3.2.2, g4.2.2, g5.2.2, g6.2.2,
      g7.2.2, g8.2.2, true_iff]
    refine ⟨Or.inl trivial, g2.2.1, g3.2.1, g4.2.1, g5.2.1, g6.2.1, g7.2.1, g8.2.1, ?_, ?_, ?_, ?_⟩
    all_goals clear g1 g2 g3 g4 g5 g6 g7 g8
    all_goals omega

theorem setTimeDisplay_decodes {double : Type} (fp : DoubleArith double)
    (self : CsoundGUIMain) (timeVal : double) (n : Int)
    (hlt : fp.ltZero timeVal = false) (hn : fp.mul10ToInt timeVal = some n)
    (h0 : 0 ≤ n) (h1 : n < 36000000) (hprv : n ≠ self.prvTime) :
    ∃ h H1 H2 M1 M2 S1 S2 T : Char,
      setTimeDisplay fp self timeVal = Outcome.ret
        { prvTime := n,
          scoreTimeDisplay := [' ', h, H1, H2, ':', M1, M2, ':', S1, S2, '.', T] } ∧
      (h = ' ' ∨ isDigitChar h) ∧ isDigitChar H1 ∧ isDigitChar H2 ∧ isDigitChar M1 ∧
      isDigitChar M2 ∧ isDigitChar S1 ∧ isDigitChar S2 ∧ isDigitChar T ∧
      (h = ' ' ↔ hoursOf h H1 H2 < 100) ∧ twoDigits M1 M2 < 60 ∧ twoDigits S1 S2 < 60 ∧
      n = ((hoursOf h H1 H2 * 60 + twoDigits M1 M2) * 60 + twoDigits S1 S2) * 10 + digitOf T :=
  ⟨_, _, _, _, _, _, _, _, setTimeDisplay_digits fp self timeVal n hlt hn h0 h1 hprv,
    setTimeDisplay_reads n h0 h1 _ _ _ _ _ _ _ _ rfl rfl rfl rfl rfl rfl rfl rfl⟩

/-- C30: `setTimeDisplay` shows the score time exactly, whatever the arithmetic
of `double` is.  For a time that is not below zero and whose count of tenths
`n`, the value of `(int) (timeVal * 10.0)`, satisfies `0 <= n < 36000000` and
differs from the count shown last, the display is the twelve characters blank,
h, H, H, colon, M, M, colon, S, S, point, T: h is a blank exactly when the
hours are below 100, the minutes and the seconds are below 60, and
`n = ((hours * 60 + MM) * 60 + SS) * 10 + T`; the count is remembered.  For a
time below zero the display is the text with dashes after the call, in every
state in which the remembered count and the display are in step (the count is
-1 only while the dashes are shown).  A call keeps the two in step, and they
are in step after every call that changed the state. -/
theorem setTimeDisplay_shows_time {double : Type} (fp : DoubleArith double)
    (self : CsoundGUIMain) (timeVal : double) :
    (∀ n : Int, fp.ltZero timeVal = false → fp.mul10ToInt timeVal = some n →
      0 ≤ n → n < 36000000 → n ≠ self.prvTime →
      ∃ h H1 H2 M1 M2 S1 S2 T : Char,
        setTimeDisplay fp self timeVal = Outcome.ret
          { prvTime := n,
            scoreTimeDisplay := [' ', h, H1, H2, ':', M1, M2, ':', S1, S2, '.', T] } ∧
        (h = ' ' ∨ isDigitChar h) ∧ isDigitChar H1 ∧ isDigitChar H2 ∧ isDigitChar M1 ∧
        isDigitChar M2 ∧ isDigitChar S1 ∧ isDigitChar S2 ∧ isDigitChar T ∧
        (h = ' ' ↔ hoursOf h H1 H2 < 100) ∧ twoDigits M1 M2 < 60 ∧ twoDigits S1 S2 < 60 ∧
        n = ((hoursOf h H1 H2 * 60 + twoDigits M1 M2) * 60 + twoDigits S1 S2) * 10 + digitOf T) ∧
    (fp.ltZero timeVal = true → inStep self →
      ∃ self1, setTimeDisplay fp self timeVal = Outcome.ret self1 ∧
        self1.prvTime = -1 ∧ self1.scoreTimeDisplay = noTimeText) ∧
    (∀ self1, setTimeDisplay fp self timeVal = Outcome.ret self1 →
      (self1 ≠ self → inStep self1) ∧ (inStep self → inStep self1)) := by
  refine ⟨fun n hlt hn h0 h1 hprv => setTimeDisplay_decodes fp self timeVal n hlt hn h0 h1 hprv,
    ?_, ?_⟩
  · intro hneg hstep
    rw [setTimeDisplay_negative fp self timeVal hneg]
    by_cases hp : self.prvTime = -1
    · rw [if_pos hp]
      exact ⟨self, rfl, hp, hstep hp⟩
    · rw [if_neg hp]
      exact ⟨_, rfl, rfl, rfl⟩
  · intro self1 h
    rcases setTimeDisplay_in_step fp self self1 timeVal h with h1 | h1 | h1
    · exact ⟨fun hne => absurd h1 hne, fun hs => h1 ▸ hs⟩
    · exact ⟨fun _ _ => h1.2, fun _ _ => h1.2⟩
    · have hne : self1.prvTime ≠ -1 := by omega
      exact ⟨fun _ hp => absurd hp hne, fun _ hp => absurd hp hne⟩

/-- C30 (witness): on a machine that evaluates the product in binary64, the
time 0.3 has 3 tenths (the product of the `double` 0.3 and 10.0 rounds to 3.0)
and is shown as 00:00:00.3 after two blanks; then the time -1.0 is shown with
dashes, and the count and the display stay in step. -/
theorem setTimeDisplay_shows_time_witness :
    ieee.ltZero time_0_3 = false ∧ ieee.mul10ToInt time_0_3 = some 3 ∧
    (0 : Int) ≤ 3 ∧ (3 : Int) < 36000000 ∧
    (3 : Int) ≠ (CsoundGUIMain.mk (-1) noTimeText).prvTime ∧
    (∃ h H1 H2 M1 M2 S1 S2 T : Char,
      setTimeDisplay ieee (CsoundGUIMain.mk (-1) noTimeText) time_0_3 = Outcome.ret
        { prvTime := 3,
          scoreTimeDisplay := [' ', h, H1, H2, ':', M1, M2, ':', S1, S2, '.', T] } ∧
      (h = ' ' ∨ isDigitChar h) ∧ isDigitChar H1 ∧ isDigitChar H2 ∧ isDigitChar M1 ∧
      isDigitChar M2 ∧ isDigitChar S1 ∧ isDigitChar S2 ∧ isDigitChar T ∧
      (h = ' ' ↔ hoursOf h H1 H2 < 100) ∧ twoDigits M1 M2 < 60 ∧ twoDigits S1 S2 < 60 ∧
      (3 : Int) =
        ((hoursOf h H1 H2 * 60 + twoDigits M1 M2) * 60 + twoDigits S1 S2) * 10 + digitOf T) ∧
    displayOf (setTimeDisplay ieee (CsoundGUIMain.mk (-1) noTimeText) time_0_3) =
      some "  00:00:00.3".toList ∧
    ieee.ltZero time_minus_1 = true ∧
    inStep (CsoundGUIMain.mk 3 "  00:00:00.3".toList) ∧
    (∃ self1, setTimeDisplay ieee (CsoundGUIMain.mk 3 "  00:00:00.3".toList) time_minus_1 =
        Outcome.ret self1 ∧ self1.prvTime = -1 ∧ self1.scoreTimeDisplay = noTimeText) ∧
    displayOf (setTimeDisplay ieee (CsoundGUIMain.mk 3 "  00:00:00.3".toList) time_minus_1) =
      some noTimeText :=
  ⟨by decide, by decide, by decide, by decide, by decide,
    (setTimeDisplay_shows_time ieee (CsoundGUIMain.mk (-1) noTimeText) time_0_3).1 3
      (by decide) (by decide) (by decide) (by decide) (by decide),
    by decide, by decide, fun h => absurd h (by decide),
    (setTimeDisplay_shows_time ieee (CsoundGUIMain.mk 3 "  00:00:00.3".toList)
      time_minus_1).2.1 (by decide) (fun h => absurd h (by decide)),
    by decide⟩

/-! ## sprintf: the segment buffer -/

theorem sprintf_traced_result (ls : List Char → FmtVal → Option (List Char)) (p : SPRINTF_OP)
    (maxLen : Int) :
    ∀ (fuel : Nat) (L : SprintfLocals) (cs : ENVIRON),
      (sprintf_traced ls p maxLen fuel L cs).2 = sprintf_loop ls p maxLen fuel L cs := by
  intro fuel
  induction fuel with
  | zero => intro L cs; rfl
  | succ f ih =>
    intro L cs
    unfold sprintf_traced sprintf_loop
    simp only
    by_cases hlen : L.strseg.length ≥ 2047
    · rw [if_pos hlen, if_pos hlen]
    · rw [if_neg hlen, if_neg hlen]
      cases hg : (cs.mem p.sfmt).get? L.fmt with
      | none => rfl
      | some c =>
        simp only
        by_cases hc : c ≠ '%' ∧ c ≠ NUL
        · rw [if_pos hc, if_pos hc]
          exact ih _ _
        · rw [if_neg hc, if_neg hc]
          cases hp : sprintf_pair (cs.mem p.sfmt) L.fmt c with
          | none => rfl
          | some b =>
            cases b with
            | true => exact ih _ _
            | false =>
              simp only
              cases hfl : sprintf_flush ls p maxLen L cs with
              | error e => rfl
              | ok v =>
                obtain ⟨L1, cs1⟩ := v
                simp only
                cases hnx : sprintf_next p L1 cs1 with
                | error e => rfl
                | ok L2 => exact ih _ _

theorem sprintf_flush_locals (ls : List Char → FmtVal → Option (List Char)) (p : SPRINTF_OP)
    (maxLen : Int) (L L1 : SprintfLocals) (cs cs1 : ENVIRON)
    (h : sprintf_flush ls p maxLen L cs = Except.ok (L1, cs1)) :
    L1.fmt = L.fmt ∧ L1.strseg.length ≤ L.strseg.length := by
  unfold sprintf_flush at h
  split at h
  · simp only [Except.ok.injEq, Prod.mk.injEq] at h
    rw [← h.1]
    exact ⟨rfl, le_refl _⟩
  · unfold sprintf_segment at h
    simp only at h
    repeat' split at h
    all_goals simp only [Except.ok.injEq, Prod.mk.injEq, reduceCtorEq] at h
    all_goals rw [← h.1]
    all_goals exact ⟨rfl, Nat.zero_le _⟩

theorem sprintf_traced_writes (ls : List Char → FmtVal → Option (List Char)) (p : SPRINTF_OP)
    (maxLen : Int) :
    ∀ (fuel : Nat) (L : SprintfLocals) (cs : ENVIRON),
      (∀ it ∈ (sprintf_traced ls p maxLen fuel L cs).1, ∀ k ∈ it.2, k < 2048) ∧
      (∀ it ∈ (sprintf_traced ls p maxLen fuel L cs).1, L.fmt ≤ it.1) ∧
      List.Pairwise (fun a b => a < b) ((sprintf_traced ls p maxLen fuel L cs).1.map Prod.fst) := by
  intro fuel
  induction fuel with
  | zero =>
    intro L cs
    simp [sprintf_traced]
  | succ f ih =>
    intro L cs
    unfold sprintf_traced
    simp only
    by_cases hlen : L.strseg.length ≥ 2047
    · rw [if_pos hlen]
      simp
    · rw [if_neg hlen]
      cases hg : (cs.mem p.sfmt).get? L.fmt with
      | none => simp
      | some c =>
        simp only
        have hcons : ∀ (w : List Nat) (L2 : SprintfLocals) (cs2 : ENVIRON),
            (∀ k ∈ w, k < 2048) → L.fmt < L2.fmt →
            (∀ it ∈ (L.fmt, w) :: (sprintf_traced ls p maxLen f L2 cs2).1,
                ∀ k ∈ it.2, k < 2048) ∧
            (∀ it ∈ (L.fmt, w) :: (sprintf_traced ls p maxLen f L2 cs2).1, L.fmt ≤ it.1) ∧
            List.Pairwise (fun a b => a < b)
              (((L.fmt, w) :: (sprintf_traced ls p maxLen f L2 cs2).1).map Prod.fst) := by
          intro w L2 cs2 hw hlt
          obtain ⟨h1, h2, h3⟩ := ih L2 cs2
          refine ⟨?_, ?_, ?_⟩
          · intro it hit
            rcases List.mem_cons.mp hit with rfl | hit
            · exact hw
            · exact h1 it hit
          · intro it hit
            rcases List.mem_cons.mp hit with rfl | hit
            · exact le_refl _
            · exact le_of_lt (lt_of_lt_of_le hlt (h2 it hit))
          · rw [List.map_cons, List.pairwise_cons]
            refine ⟨?_, h3⟩
            intro b hb
            obtain ⟨it, hit, rfl⟩ := List.mem_map.mp hb
            exact lt_of_lt_of_le hlt (h2 it hit)
        have hsingle : ∀ w : List Nat, (∀ k ∈ w, k < 2048) →
            (∀ it ∈ [(L.fmt, w)], ∀ k ∈ it.2, k < 2048) ∧
            (∀ it ∈ [(L.fmt, w)], L.fmt ≤ it.1) ∧
            List.Pairwise (fun a b => a < b) ([(L.fmt, w)].map Prod.fst) := by
          intro w hw
          simp only [List.mem_singleton, forall_eq, le_refl, List.map_cons, List.map_nil,
            List.pairwise_cons, List.not_mem_nil, false_implies, implies_true,
            List.Pairwise.nil, and_self, and_true]
          exact hw
        split
        · exact hcons _ _ _ (by intro k hk; simp only [List.mem_singleton] at hk; omega)
            (by simp)
        · cases hp : sprintf_pair (cs.mem p.sfmt) L.fmt c with
          | none => exact hsingle [] (by simp)
          | some b =>
            cases b with
            | true =>
              exact hcons _ _ _ (by
                intro k hk
                simp only [List.mem_cons, List.mem_singleton, List.not_mem_nil, or_false] at hk
                omega) (by simp)
            | false =>
              simp only
              have hw0 : ∀ k ∈ (if L.segwaiting.isSome = true then [L.strseg.length] else []),
                  k < 2048 := by
                intro k hk
                split at hk
                · simp only [List.mem_singleton] at hk; omega
                · simp at hk
              cases hfl : sprintf_flush ls p maxLen L cs with
              | error e => exact hsingle _ hw0
              | ok v =>
                obtain ⟨L1, cs1⟩ := v
                simp only
                obtain ⟨hf1, hf2⟩ := sprintf_flush_locals ls p maxLen L L1 cs cs1 hfl
                cases hnx : sprintf_next p L1 cs1 with
                | error e => exact hsingle _ hw0
                | ok L2 =>
                  simp only
                  have hn := ((sprintf_next_quiet p L1 cs1 cs1 (sameEngine_refl _)).2 L2 hnx).1
                  refine hcons _ _ _ ?_ (by omega)
                  intro k hk
                  rcases List.mem_append.mp hk with hk | hk
                  · exact hw0 k hk
                  · simp only [List.mem_singleton] at hk; omega

theorem sprintf_loop_too_long (ls : List Char → FmtVal → Option (List Char)) (p : SPRINTF_OP)
    (maxLen : Int) (cs : ENVIRON) (rest : List Char) :
    ∀ (s : List Char) (fuel : Nat) (L : SprintfLocals),
      (cs.mem p.sfmt).drop L.fmt = s ++ rest → (∀ c ∈ s, c ≠ '%' ∧ c ≠ NUL) →
      2047 ≤ L.strseg.length + s.length → s.length < fuel →
      sprintf_loop ls p maxLen fuel L cs =
        some (sprintf_err cs "sprintf: format string too long") := by
  intro s
  induction s with
  | nil =>
    intro fuel L _ _ hlen hf
    obtain ⟨f, rfl⟩ : ∃ f, fuel = f + 1 := ⟨fuel - 1, by simp at hf; omega⟩
    have h1 : L.strseg.length ≥ 2047 := by simpa using hlen
    simp only [sprintf_loop, if_pos h1]
  | cons c t ih =>
    intro fuel L hd hord hlen hf
    obtain ⟨f, rfl⟩ : ∃ f, fuel = f + 1 := ⟨fuel - 1, by simp at hf; omega⟩
    by_cases h1 : L.strseg.length ≥ 2047
    · simp only [sprintf_loop, if_pos h1]
    · obtain ⟨hg, hd1⟩ := get?_of_drop_cons (by simpa using hd)
      have hc := hord c (List.mem_cons_self _ _)
      simp only [sprintf_loop, if_neg h1, hg, if_pos hc]
      apply ih
      · exact hd1
      · exact fun x hx => hord x (List.mem_cons_of_mem _ hx)
      · simp only [List.length_append, List.length_singleton, List.length_cons] at hlen ⊢
        omega
      · simp only [List.length_cons] at hf
        omega

/-- C22: in every call of `sprintf_opcode` each store into the 2048-character
buffer `strseg` (an ordinary character, the two characters of a '%%' pair, the
copied '%' and the terminating NUL) is at an index below 2048; the loop moves
`fmt` forward on every iteration and ends within one iteration per byte of the
format buffer, plus one; and once the characters collected and the ordinary
characters ahead of `fmt` make 2047 or more, the loop returns the error
'sprintf: format string too long'.  The record `sprintf_traced` keeps is that
of the loop `sprintf_loop` of the model: both give the same result. -/
theorem sprintf_strseg_writes_stay_in_buffer
    (libc_snprintf : List Char → FmtVal → Option (List Char))
    (csound : ENVIRON) (p : SPRINTF_OP) :
    (sprintf_traced libc_snprintf p csound.strVarMaxLen ((csound.mem p.sfmt).length + 1)
        (SprintfLocals.initial p) csound).2 =
      sprintf_loop libc_snprintf p csound.strVarMaxLen ((csound.mem p.sfmt).length + 1)
        (SprintfLocals.initial p) csound ∧
    (∀ it ∈ sprintf_opcode_trace libc_snprintf csound p, ∀ k ∈ it.2, k < 2048) ∧
    List.Pairwise (fun a b => a < b)
      ((sprintf_opcode_trace libc_snprintf csound p).map Prod.fst) ∧
    (sprintf_loop libc_snprintf p csound.strVarMaxLen ((csound.mem p.sfmt).length + 1)
        (SprintfLocals.initial p) csound).isSome = true ∧
    (∀ (maxLen : Int) (fuel : Nat) (L : SprintfLocals) (cs : ENVIRON) (s rest : List Char),
      (cs.mem p.sfmt).drop L.fmt = s ++ rest → (∀ c ∈ s, c ≠ '%' ∧ c ≠ NUL) →
      2047 ≤ L.strseg.length + s.length → s.length < fuel →
      sprintf_loop libc_snprintf p maxLen fuel L cs =
        some (sprintf_err cs "sprintf: format string too long")) := by
  obtain ⟨h1, _, h3⟩ := sprintf_traced_writes libc_snprintf p csound.strVarMaxLen
    ((csound.mem p.sfmt).length + 1) (SprintfLocals.initial p) csound
  refine ⟨sprintf_traced_result _ _ _ _ _ _, h1, h3, ?_, ?_⟩
  · exact sprintf_loop_isSome _ _ _ _ _ _ (by simp [SprintfLocals.initial]) (by omega)
  · intro maxLen fuel L cs s rest hd hord hlen hf
    exact sprintf_loop_too_long _ _ _ _ rest s fuel L hd hord hlen hf

/-- C22 (witness): a format of 2047 letters is rejected by the loop started by
`sprintf_opcode`, with the message 'sprintf: format string too long'. -/
theorem sprintf_strseg_writes_stay_in_buffer_witness :
    (longFormatEnviron.mem sampleSprintf.sfmt).drop (SprintfLocals.initial sampleSprintf).fmt =
      List.replicate 2047 'a' ++ [NUL] ∧
    (∀ c ∈ List.replicate 2047 'a', c ≠ '%' ∧ c ≠ NUL) ∧
    2047 ≤ (SprintfLocals.initial sampleSprintf).strseg.length +
      (List.replicate 2047 'a').length ∧
    (List.replicate 2047 'a').length < 2049 ∧
    sprintf_loop (fun seg _ => some seg) sampleSprintf 8 2049
        (SprintfLocals.initial sampleSprintf) longFormatEnviron =
      some (sprintf_err longFormatEnviron "sprintf: format string too long") :=
  have h1 : (longFormatEnviron.mem sampleSprintf.sfmt).drop
      (SprintfLocals.initial sampleSprintf).fmt = List.replicate 2047 'a' ++ [NUL] := rfl
  have h2 : ∀ c ∈ List.replicate 2047 'a', c ≠ '%' ∧ c ≠ NUL := by
    intro c hc
    rw [List.eq_of_mem_replicate hc]
    decide
  have h3 : 2047 ≤ (SprintfLocals.initial sampleSprintf).strseg.length +
      (List.replicate 2047 'a').length := by
    rw [List.length_replicate]
    exact Nat.le_add_left _ _
  have h4 : (List.replicate 2047 'a').length < 2049 := by
    rw [List.length_replicate]; decide
  ⟨h1, h2, h3, h4,
    (sprintf_strseg_writes_stay_in_buffer (fun seg _ => some seg) longFormatEnviron
      sampleSprintf).2.2.2.2 8 2049 (SprintfLocals.initial sampleSprintf) longFormatEnviron
      (List.replicate 2047 'a') [NUL] h1 h2 h3 h4⟩

/-! ## sprintf: arguments that do not match the format -/

theorem mismatchFrom_zero (p : SPRINTF_OP) (format : List Char) (h : spec_mismatch p format) :
    mismatchFrom p 0 (spec_conversions format) := by
  rcases h with h | ⟨k, c, h1, h2, h3⟩
  · left
    intro he
    apply h
    simp only [Nat.cast_zero, sub_zero] at he
    exact_mod_cast he
  · right
    exact ⟨k, c, h1, by simpa using h2, by simpa using h3⟩

theorem mismatchFrom_tail (p : SPRINTF_OP) (j : Nat) (c : Char) (convs : List Char)
    (h : mismatchFrom p j (c :: convs))
    (hc : (c = 's' ↔ p.isStringArg j = true)) :
    mismatchFrom p (j + 1) convs := by
  rcases h with h | ⟨k, d, h1, h2, h3⟩
  · left
    intro he
    apply h
    simp only [List.length_cons, Nat.cast_add, Nat.cast_one] at he ⊢
    omega
  · cases k with
    | zero =>
      simp only [List.get?_cons_zero, Option.some.injEq] at h1
      subst h1
      simp only [Nat.add_zero] at h3
      rcases h3 with ⟨h4, h5⟩ | ⟨h4, h5⟩
      · rw [hc.mp h4] at h5; cases h5
      · exact absurd (hc.mpr h5) h4
    | succ k =>
      right
      refine ⟨k, d, by simpa using h1, by omega, ?_⟩
      have : j + (k + 1) = j + 1 + k := by omega
      rw [this] at h3
      exact h3

theorem spec_conversions_other (c : Char) (t : List Char) (hc : c ≠ '%') :
    spec_conversions (c :: t) = spec_conversions t := by
  cases t with
  | nil => simp [spec_conversions, hc]
  | cons d t => simp [spec_conversions, hc]

theorem spec_conversions_pair (t : List Char) :
    spec_conversions ('%' :: '%' :: t) = spec_conversions t := by
  simp [spec_conversions]

theorem spec_conversions_conv (t : List Char) (ht : t.head? ≠ some '%') :
    spec_conversions ('%' :: t) = spec_conversionLetter t :: spec_conversions t := by
  cases t with
  | nil => simp [spec_conversions, spec_conversionLetter]
  | cons d t =>
    have hd : d ≠ '%' := by simpa using ht
    simp [spec_conversions, hd]

theorem scanAlpha_letter (B : List Char) (tail : List Char) :
    ∀ (t : List Char) (off : Nat), B.drop off = t ++ NUL :: tail → NUL ∉ t →
      ∃ sw, scanAlpha B off = some sw ∧ B.get? sw = some (spec_conversionLetter t) := by
  intro t
  induction t with
  | nil =>
    intro off hd _
    obtain ⟨hg, _⟩ := get?_of_drop_cons (by simpa using hd)
    have hlt : off < B.length := by
      by_contra hge
      rw [List.get?_eq_getElem?, List.getElem?_eq_none (by omega)] at hg
      cases hg
    refine ⟨off, ?_, by simpa [spec_conversionLetter] using hg⟩
    simp only [scanAlpha, hd, List.nil_append]
    have : ((NUL :: tail).takeWhile (fun c => !isalpha c && c != NUL)) = [] := by
      simp [List.takeWhile]
    rw [this]
    simp [hlt]
  | cons a t ih =>
    intro off hd hn
    obtain ⟨hg, hd1⟩ := get?_of_drop_cons (by simpa using hd)
    have hlt : off < B.length := by
      by_contra hge
      rw [List.get?_eq_getElem?, List.getElem?_eq_none (by omega)] at hg
      cases hg
    have ha : a ≠ NUL := fun h => hn (by rw [h]; exact List.mem_cons_self _ _)
    have hnt : NUL ∉ t := fun h => hn (List.mem_cons_of_mem _ h)
    by_cases hal : isalpha a = true
    · refine ⟨off, ?_, by simpa [spec_conversionLetter, List.find?, hal] using hg⟩
      simp only [scanAlpha, hd, List.cons_append]
      have : ((a :: (t ++ NUL :: tail)).takeWhile (fun c => !isalpha c && c != NUL)) = [] := by
        simp [List.takeWhile, hal]
      rw [this]
      simp [hlt]
    · obtain ⟨sw, hs, hget⟩ := ih (off + 1) hd1 hnt
      refine ⟨sw, ?_, ?_⟩
      · simp only [scanAlpha] at hs ⊢
        rw [hd]
        rw [hd1] at hs
        have hal' : isalpha a = false := by simpa using hal
        have : ((a :: t ++ NUL :: tail).takeWhile (fun c => !isalpha c && c != NUL)) =
            a :: ((t ++ NUL :: tail).takeWhile (fun c => !isalpha c && c != NUL)) := by
          have hb : (a != NUL) = true := bne_iff_ne.mpr ha
          simp [List.takeWhile, hal', hb]
        rw [this]
        simp only [List.length_cons]
        have e : off + (((t ++ NUL :: tail).takeWhile
            (fun c => !isalpha c && c != NUL)).length + 1) =
            off + 1 + ((t ++ NUL :: tail).takeWhile
              (fun c => !isalpha c && c != NUL)).length := by omega
        rw [e]
        exact hs
      · have hal' : isalpha a = false := by simpa using hal
        simpa [spec_conversionLetter, List.find?, hal'] using hget

theorem isStringArg_iff (p : SPRINTF_OP) (j : Nat) :
    p.isStringArg j = true ↔ (p.XSTRCODE >>> (j + 1)) &&& 1 ≠ 0 := by
  simp [SPRINTF_OP.isStringArg, Nat.testBit, Nat.and_comm]

theorem snprintf_bytes_length (maxChars : Int) (text : List Char) (h : 0 < maxChars) :
    (snprintf_bytes maxChars text).length ≤ maxChars.toNat := by
  unfold snprintf_bytes
  rw [if_neg (by omega), if_neg (by omega)]
  simp only [List.length_append, List.length_take, List.length_singleton]
  omega

theorem sprintf_segment_cases (ls : List Char → FmtVal → Option (List Char)) (p : SPRINTF_OP)
    (maxLen : Int) (sw : Nat) (L : SprintfLocals) (cs : ENVIRON) (B : List Char) (code : Char)
    (hne : p.r ≠ p.sfmt) (hinv : SprintfInv p maxLen B L cs) (hsw : B.get? sw = some code) :
    (∃ msg cs1, sprintf_segment ls p maxLen sw L cs = Except.error (sprintf_err cs1 msg) ∧
      msg ∈ sprintfMessages ∧ SameEngine cs cs1 ∧ ((cs1.mem p.r).length : Int) = maxLen) ∨
    (∃ L1 cs1, sprintf_segment ls p maxLen sw L cs = Except.ok (L1, cs1) ∧
      SprintfInv p maxLen B L1 cs1 ∧ SameEngine cs cs1 ∧ L.j < p.args.length ∧
      (code = 's' ↔ p.isStringArg L.j = true) ∧ L1.j = L.j + 1 ∧ L1.fmt = L.fmt ∧
      L1.strseg = [] ∧ L1.segwaiting = L.segwaiting) := by
  obtain ⟨hB, hrl, hl0, hl1, hj, hnum, hcode, hH⟩ := hinv
  unfold sprintf_segment
  simp only
  by_cases hnv : L.numVals ≤ 0
  · rw [if_pos hnv]
    exact Or.inl ⟨_, cs, rfl, by decide, sameEngine_refl _, hrl⟩
  · rw [if_neg hnv]
    have hjlt : L.j < p.args.length := by omega
    rw [hB, hsw]
    simp only
    by_cases hty : (code = 's' ∧ L.strCode &&& 1 = 0) ∨ (code ≠ 's' ∧ L.strCode &&& 1 ≠ 0)
    · rw [if_pos hty]
      exact Or.inl ⟨_, cs, rfl, by decide, sameEngine_refl _, hrl⟩
    · rw [if_neg hty]
      have htype : code = 's' ↔ p.isStringArg L.j = true := by
        rw [isStringArg_iff, ← hcode]
        constructor
        · intro h1 h2
          exact hty (Or.inl ⟨h1, h2⟩)
        · intro h1
          by_contra h2
          exact hty (Or.inr ⟨h2, h1⟩)
      obtain ⟨pp, hpp⟩ : ∃ pp, p.args.get? L.j = some pp :=
        ⟨p.args.get ⟨L.j, hjlt⟩, List.get?_eq_get hjlt⟩
      rw [hpp]
      simp only
      rcases sprintf_value_cases p code pp cs with ⟨msg, hv, hm⟩ | ⟨v, hv⟩
      · rw [hv]
        exact Or.inl ⟨msg, cs, rfl, hm, sameEngine_refl _, hrl⟩
      · rw [hv]
        simp only
        cases hls : ls L.strseg v with
        | none =>
          simp only
          rw [if_pos hH]
          exact Or.inl ⟨_, cs, rfl, by decide, sameEngine_refl _, hrl⟩
        | some text =>
          simp only [hH, if_true]
          have hbytes := snprintf_bytes_length (maxLen - L.len) text (by omega)
          have hfit : L.len.toNat + (snprintf_bytes (maxLen - L.len) text).length ≤
              (cs.mem p.r).length := by
            have : ((cs.mem p.r).length : Int) = maxLen := hrl
            omega
          rw [poke_eq_some hfit]
          simp only
          have hr1 : (((cs.setMem p.r (List.take L.len.toNat (cs.mem p.r) ++
              snprintf_bytes (maxLen - L.len) text ++
              List.drop (L.len.toNat + (snprintf_bytes (maxLen - L.len) text).length)
                (cs.mem p.r))).mem p.r).length : Int) = maxLen := by
            have := poke_length (poke_eq_some hfit)
            simp only [ENVIRON.setMem, Function.update_same]
            rw [this]
            exact hrl
          by_cases hov : (text.length : Int) ≥ maxLen - L.len
          · rw [if_pos hov]
            exact Or.inl ⟨_, _, rfl, by decide, sameEngine_setMem _ _ _, hr1⟩
          · rw [if_neg hov]
            refine Or.inr ⟨_, _, rfl, ⟨?_, hr1, ?_, ?_, ?_, ?_, ?_, hH⟩, sameEngine_setMem _ _ _,
              hjlt, htype, rfl, rfl, rfl, rfl⟩
            · simp only [ENVIRON.setMem]
              rw [Function.update_noteq (Ne.symm hne)]
              exact hB
            · simp only; omega
            · simp only; omega
            · simp only; omega
            · simp only
              rw [hnum]
              push_cast
              omega
            · simp only
              rw [hcode]
              simp only [Nat.shiftRight_succ, Nat.shiftRight_zero]

theorem sprintf_flush_cases (ls : List Char → FmtVal → Option (List Char)) (p : SPRINTF_OP)
    (maxLen : Int) (L : SprintfLocals) (cs : ENVIRON) (B : List Char) (R : List Char)
    (hne : p.r ≠ p.sfmt) (hinv : SprintfInv p maxLen B L cs)
    (hwf : ∀ sw, L.segwaiting = some sw → ∃ code, B.get? sw = some code)
    (hmis : mismatchFrom p L.j (pendingConv B L ++ R)) :
    (∃ msg cs1, sprintf_flush ls p maxLen L cs = Except.error (sprintf_err cs1 msg) ∧
      msg ∈ sprintfMessages ∧ SameEngine cs cs1 ∧ ((cs1.mem p.r).length : Int) = maxLen) ∨
    (∃ L1 cs1, sprintf_flush ls p maxLen L cs = Except.ok (L1, cs1) ∧
      SprintfInv p maxLen B L1 cs1 ∧ SameEngine cs cs1 ∧ L1.fmt = L.fmt ∧
      mismatchFrom p L1.j R) := by
  unfold sprintf_flush
  cases hs : L.segwaiting with
  | none =>
    simp only
    refine Or.inr ⟨L, cs, rfl, hinv, sameEngine_refl _, rfl, ?_⟩
    simpa [pendingConv, hs] using hmis
  | some sw =>
    simp only
    obtain ⟨code, hcode⟩ := hwf sw hs
    rcases sprintf_segment_cases ls p maxLen sw L cs B code hne hinv hcode with
      h | ⟨L1, cs1, h1, h2, h3, h4, h5, h6, h7, _, _⟩
    · exact Or.inl h
    · refine Or.inr ⟨L1, cs1, h1, h2, h3, h7, ?_⟩
      rw [h6]
      apply mismatchFrom_tail p L.j code R _ h5
      have hp : pendingConv B L = [code] := by
        unfold pendingConv
        rw [hs]
        simp only
        rw [hcode]
        rfl
      rw [hp] at hmis
      exact hmis

theorem sprintf_next_nul (p : SPRINTF_OP) (L : SprintfLocals) (cs : ENVIRON)
    (h : (cs.mem p.sfmt).get? L.fmt = some NUL) :
    sprintf_next p L cs =
      if L.numVals > 0 then
        Except.error (sprintf_err cs "sprintf: too many arguments for format")
      else Except.error (Outcome.ret (0, cs)) := by
  unfold sprintf_next
  rw [h]
  simp

theorem sprintf_next_conv (p : SPRINTF_OP) (L : SprintfLocals) (cs : ENVIRON) (c : Char)
    (sw : Nat) (h : (cs.mem p.sfmt).get? L.fmt = some c) (hc : c ≠ NUL)
    (hs : scanAlpha (cs.mem p.sfmt) (L.fmt + 1) = some sw) :
    sprintf_next p L cs =
      Except.ok { L with strseg := L.strseg ++ [c], fmt := L.fmt + 1, segwaiting := some sw } := by
  unfold sprintf_next
  rw [h]
  simp only
  rw [if_neg hc, hs]

theorem sprintf_loop_mismatch (ls : List Char → FmtVal → Option (List Char)) (p : SPRINTF_OP)
    (maxLen : Int) (B tail : List Char) (hne : p.r ≠ p.sfmt) :
    ∀ (fuel : Nat) (s : List Char) (L : SprintfLocals) (cs : ENVIRON),
      SprintfInv p maxLen B L cs →
      (∀ sw, L.segwaiting = some sw → ∃ code, B.get? sw = some code) →
      B.drop L.fmt = s ++ NUL :: tail → NUL ∉ s → s.length < fuel →
      mismatchFrom p L.j (pendingConv B L ++ spec_conversions s) →
      ∃ msg cs1, sprintf_loop ls p maxLen fuel L cs = some (sprintf_err cs1 msg) ∧
        msg ∈ sprintfMessages ∧ SameEngine cs cs1 ∧ ((cs1.mem p.r).length : Int) = maxLen := by
  intro fuel
  induction fuel with
  | zero => intro s L cs _ _ _ _ hf; omega
  | succ f ih =>
    intro s L cs hinv hwf hd hn hf hmis
    have hB : cs.mem p.sfmt = B := hinv.1
    unfold sprintf_loop
    by_cases hlen : L.strseg.length ≥ 2047
    · rw [if_pos hlen]
      exact ⟨_, cs, rfl, by decide, sameEngine_refl _, hinv.2.1⟩
    · rw [if_neg hlen]
      -- the rest of an iteration that has found '%' or the end of the format
      have key : ∀ (c : Char) (t : List Char), B.get? L.fmt = some c →
          (c = NUL → mismatchFrom p L.j (pendingConv B L ++ [])) →
          (c ≠ NUL → B.drop (L.fmt + 1) = t ++ NUL :: tail ∧ NUL ∉ t ∧ t.length < f ∧
            mismatchFrom p L.j (pendingConv B L ++
              (spec_conversionLetter t :: spec_conversions t))) →
          ∃ msg cs1,
            (match sprintf_flush ls p maxLen L cs with
              | Except.error e => some e
              | Except.ok (L1, csound1) =>
                match sprintf_next p L1 csound1 with
                | Except.error e => some e
                | Except.ok L2 => sprintf_loop ls p maxLen f L2 csound1) =
              some (sprintf_err cs1 msg) ∧
            msg ∈ sprintfMessages ∧ SameEngine cs cs1 ∧
            ((cs1.mem p.r).length : Int) = maxLen := by
        intro c t hg hnul hconv
        by_cases hc : c = NUL
        · rcases sprintf_flush_cases ls p maxLen L cs B [] hne hinv hwf (hnul hc) with
            ⟨msg, cs1, h1, h2, h3, h4⟩ | ⟨L1, cs1, h1, h2, h3, h4, h5⟩
          · exact ⟨msg, cs1, by rw [h1], h2, h3, h4⟩
          · rw [h1]
            simp only
            have hg1 : (cs1.mem p.sfmt).get? L1.fmt = some NUL := by
              rw [h2.1, h4, hg, hc]
            rw [sprintf_next_nul p L1 cs1 hg1]
            have hpos : L1.numVals > 0 := by
              obtain ⟨_, _, _, _, hj, hnum, _⟩ := h2
              rcases h5 with h5 | ⟨k, d, h6, _, _⟩
              · simp only [List.length_nil, Nat.cast_zero] at h5
                omega
              · simp at h6
            rw [if_pos hpos]
            exact ⟨_, cs1, rfl, by decide, h3, h2.2.1⟩
        · obtain ⟨hd1, hnt, hft, hm⟩ := hconv hc
          rcases sprintf_flush_cases ls p maxLen L cs B _ hne hinv hwf hm with
            ⟨msg, cs1, h1, h2, h3, h4⟩ | ⟨L1, cs1, h1, h2, h3, h4, h5⟩
          · exact ⟨msg, cs1, by rw [h1], h2, h3, h4⟩
          · rw [h1]
            simp only
            have hg1 : (cs1.mem p.sfmt).get? L1.fmt = some c := by
              rw [h2.1, h4, hg]
            obtain ⟨sw, hsw, hget⟩ := scanAlpha_letter B tail t (L.fmt + 1) hd1 hnt
            rw [sprintf_next_conv p L1 cs1 c sw hg1 hc (by rw [h2.1, h4]; exact hsw)]
            simp only
            obtain ⟨msg, cs2, e1, e2, e3, e4⟩ := ih t
              { L1 with strseg := L1.strseg ++ [c], fmt := L1.fmt + 1, segwaiting := some sw }
              cs1 h2
              (by
                intro sw1 hsw1
                simp only [Option.some.injEq] at hsw1
                subst hsw1
                exact ⟨_, hget⟩)
              (by simp only [h4]; exact hd1) hnt hft
              (by
                have hp : pendingConv B
                    { L1 with strseg := L1.strseg ++ [c], fmt := L1.fmt + 1,
                              segwaiting := some sw } = [spec_conversionLetter t] := by
                  unfold pendingConv
                  simp only
                  rw [hget]
                  rfl
                rw [hp]
                exact h5)
            exact ⟨msg, cs2, e1, e2, sameEngine_trans h3 e3, e4⟩
      cases s with
      | nil =>
        obtain ⟨hg, _⟩ := get?_of_drop_cons (by simpa using hd)
        rw [hB, hg]
        simp only
        have h2 : ¬ (NUL ≠ '%' ∧ NUL ≠ NUL) := by simp
        have h4 : ¬ (NUL = '%') := by decide
        rw [if_neg h2]
        simp only [sprintf_pair, if_neg h4]
        exact key NUL [] hg (fun _ => by simpa [spec_conversions] using hmis)
          (fun h => absurd rfl h)
      | cons c t =>
        obtain ⟨hg, hd1⟩ := get?_of_drop_cons (by simpa using hd)
        have hcn : c ≠ NUL := fun h => hn (by rw [h]; exact List.mem_cons_self _ _)
        have hnt : NUL ∉ t := fun h => hn (List.mem_cons_of_mem _ h)
        have hft : t.length < f := by simp only [List.length_cons] at hf; omega
        rw [hB, hg]
        simp only
        by_cases hp : c = '%'
        · have h2 : ¬ (c ≠ '%' ∧ c ≠ NUL) := fun h => h.1 hp
          rw [if_neg h2]
          subst hp
          cases t with
          | nil =>
            obtain ⟨hg2, _⟩ := get?_of_drop_cons (by simpa using hd1)
            have hpair : sprintf_pair B L.fmt '%' = some false := by
              simp only [sprintf_pair, if_true, hg2, Option.map_some']
              rfl
            rw [hpair]
            simp only
            exact key '%' [] hg (fun h => absurd h hcn)
              (fun _ => ⟨hd1, hnt, hft, by
                rw [spec_conversions_conv [] (by simp)] at hmis
                exact hmis⟩)
          | cons d t1 =>
            obtain ⟨hg2, hd2⟩ := get?_of_drop_cons (by simpa using hd1)
            by_cases hdp : d = '%'
            · subst hdp
              have hpair : sprintf_pair B L.fmt '%' = some true := by
                simp only [sprintf_pair, if_true, hg2, Option.map_some']
                rfl
              rw [hpair]
              simp only
              apply ih t1 { L with strseg := L.strseg ++ ['%', '%'], fmt := L.fmt + 2 } cs hinv
                hwf hd2
                (fun h => hnt (List.mem_cons_of_mem _ h))
                (by simp only [List.length_cons] at hft; omega)
              rw [spec_conversions_pair] at hmis
              exact hmis
            · have hpair : sprintf_pair B L.fmt '%' = some false := by
                simp only [sprintf_pair, if_true, hg2, Option.map_some']
                simp [hdp]
              rw [hpair]
              simp only
              exact key '%' (d :: t1) hg (fun h => absurd h hcn)
                (fun _ => ⟨hd1, hnt, hft, by
                  rw [spec_conversions_conv (d :: t1) (by simpa using hdp)] at hmis
                  exact hmis⟩)
        · have h2 : c ≠ '%' ∧ c ≠ NUL := ⟨hp, hcn⟩
          rw [if_pos h2]
          apply ih t { L with strseg := L.strseg ++ [c], fmt := L.fmt + 1 } cs hinv hwf hd1
            hnt hft
          rw [spec_conversions_other c t hp] at hmis
          exact hmis

theorem sprintf_opcode_mismatch (ls : List Char → FmtVal → Option (List Char))
    (csound : ENVIRON) (p : SPRINTF_OP)
    (hbuild : csound.HAVE_SNPRINTF = true)
    (hfmt : NUL ∈ csound.mem p.sfmt) (hout : IsStrVar csound p.r) (hne : p.r ≠ p.sfmt)
    (hargs : p.args.length ≤ 30) (hmis : spec_mismatch p (cstr (csound.mem p.sfmt))) :
    ∃ msg cs1, sprintf_opcode ls csound p = sprintf_err cs1 msg ∧ msg ∈ sprintfMessages ∧
      SameEngine csound cs1 ∧ ((cs1.mem p.r).length : Int) = csound.strVarMaxLen := by
  unfold sprintf_opcode
  simp only [SPRINTF_OP.INOCOUNT]
  by_cases hx : p.XINCODE ≠ 0
  · rw [if_pos hx]
    exact ⟨_, csound, rfl, by decide, sameEngine_refl _, hout.1⟩
  · rw [if_neg hx]
    have hn : ¬ (((p.args.length + 1 : Nat) : Int) - 1 > 30) := by
      push_cast
      omega
    rw [if_neg hn]
    have hpos : (0 : Int) < csound.strVarMaxLen := by
      rw [← hout.1]
      have := List.length_pos_of_mem hout.2
      omega
    obtain ⟨msg, cs1, h1, h2, h3, h4⟩ := sprintf_loop_mismatch ls p csound.strVarMaxLen
      (csound.mem p.sfmt) ((csound.mem p.sfmt).drop (strlen (csound.mem p.sfmt) + 1)) hne
      ((csound.mem p.sfmt).length + 1) (cstr (csound.mem p.sfmt))
      { len := 0, numVals := ((p.args.length + 1 : Nat) : Int) - 1, strCode := p.XSTRCODE >>> 1,
        strseg := [], fmt := 0, j := 0, segwaiting := none } csound
      ⟨rfl, hout.1, le_refl _, hpos, Nat.zero_le _, by push_cast; omega, rfl, hbuild⟩
      (by intro sw h; cases h)
      (by simpa using cstr_split hfmt) (cstr_nul_free _)
      (by have := strlen_le_length (csound.mem p.sfmt); unfold strlen at this; omega)
      (by
        have := mismatchFrom_zero p _ hmis
        simpa [pendingConv] using this)
    rw [h1]
    exact ⟨msg, cs1, rfl, h2, h3, h4⟩

/-- Arguments that do not match the format are rejected when the output cell is
not the cell of the format: the build has `snprintf`, the format is a
terminated string, the output cell a string variable, there are at most 30
value arguments, and the arguments do not match the format.  Then
`sprintf_opcode_init` and `sprintf_opcode_perf` return what the engine's
`InitError` and `PerfError` return for one of the messages of `sprintf_opcode`,
having reported it, and the output string is empty. -/
theorem sprintf_rejects_mismatched_arguments
    (libc_snprintf : List Char → FmtVal → Option (List Char))
    (csound : ENVIRON) (p : SPRINTF_OP) (hbuild : csound.HAVE_SNPRINTF = true)
    (hfmt : NUL ∈ csound.mem p.sfmt) (hout : IsStrVar csound p.r) (hne : p.r ≠ p.sfmt)
    (hargs : p.args.length ≤ 30) (hmis : spec_mismatch p (cstr (csound.mem p.sfmt))) :
    ∃ msg ∈ sprintfMessages, ∃ ci cp,
      sprintf_opcode_init libc_snprintf csound p =
        Outcome.ret (csound.initErrStatus msg, ci) ∧
      ci.log = csound.log ++ [Event.InitError msg] ∧ cstr (ci.mem p.r) = [] ∧
      sprintf_opcode_perf libc_snprintf csound p =
        Outcome.ret (csound.perfErrStatus msg, cp) ∧
      cp.log = csound.log ++ [Event.PerfError msg] ∧ cstr (cp.mem p.r) = [] := by
  obtain ⟨msg, cs1, h1, h2, h3, h4⟩ :=
    sprintf_opcode_mismatch libc_snprintf csound p hbuild hfmt hout hne hargs hmis
  have hlen : 0 + [NUL].length ≤ (cs1.mem p.r).length := by
    have := List.length_pos_of_mem hout.2
    have h5 : ((csound.mem p.r).length : Int) = csound.strVarMaxLen := hout.1
    simp only [List.length_singleton]
    omega
  have hfail : ∀ f : ENVIRON → String → Int × ENVIRON,
      sprintf_fail { cs1 with errmsg := msg } p f =
        Outcome.ret (f (({ cs1 with errmsg := msg } : ENVIRON).setMem p.r
          ((cs1.mem p.r).take 0 ++ [NUL] ++ (cs1.mem p.r).drop (0 + [NUL].length))) msg) := by
    intro f
    unfold sprintf_fail
    simp only
    rw [poke_eq_some hlen]
  have hempty : cstr ((cs1.mem p.r).take 0 ++ [NUL] ++
      (cs1.mem p.r).drop (0 + [NUL].length)) = [] := poke_zero_nul (poke_eq_some hlen)
  obtain ⟨hlog, hie, hpe, _⟩ := h3
  refine ⟨msg, h2,
    ((({ cs1 with errmsg := msg } : ENVIRON).setMem p.r
      ((cs1.mem p.r).take 0 ++ [NUL] ++ (cs1.mem p.r).drop (0 + [NUL].length))).InitError msg).2,
    ((({ cs1 with errmsg := msg } : ENVIRON).setMem p.r
      ((cs1.mem p.r).take 0 ++ [NUL] ++ (cs1.mem p.r).drop (0 + [NUL].length))).PerfError msg).2,
    ?_, ?_, ?_, ?_, ?_, ?_⟩
  · unfold sprintf_opcode_init
    rw [h1]
    simp only [sprintf_err]
    rw [if_pos (by decide), hfail]
    simp only [ENVIRON.InitError, ENVIRON.setMem, hie]
  · simp only [ENVIRON.InitError, ENVIRON.setMem, hlog]
  · simp only [ENVIRON.InitError, ENVIRON.setMem, Function.update_same]
    exact hempty
  · unfold sprintf_opcode_perf
    rw [h1]
    simp only [sprintf_err]
    rw [if_pos (by decide), hfail]
    simp only [ENVIRON.PerfError, ENVIRON.setMem, hpe]
  · simp only [ENVIRON.PerfError, ENVIRON.setMem, hlog]
  · simp only [ENVIRON.PerfError, ENVIRON.setMem, Function.update_same]
    exact hempty

/-- C21 (the failing input): the output cell is the cell of the format.  The
cell holds "%s%d", two conversion specifiers, and there is one value argument,
the string "ab".  Printing the first segment stores "ab" and its NUL over the
format, so the loop, still reading the format at offset 2, finds the end of the
string.  Both variants return `OK`, report nothing and leave "ab" in the output,
where the claim has the error 'sprintf: insufficient arguments for format' and
an empty output.  With the output in another cell (cell 2) the same format and
argument are rejected. -/
theorem sprintf_output_as_format_accepts_mismatch :
    spec_conversions (cstr (formatEnviron.mem 0)) = ['s', 'd'] ∧
    spec_mismatch { r := 0, sfmt := 0, args := [1], XSTRCODE := 3, XINCODE := 0 }
      (cstr (formatEnviron.mem 0)) ∧
    sprintf_opcode_init sampleSnprintf formatEnviron
        { r := 0, sfmt := 0, args := [1], XSTRCODE := 3, XINCODE := 0 } =
      Outcome.ret (OK, formatEnviron.setMem 0 ['a', 'b', NUL, 'd', NUL, NUL, NUL, NUL]) ∧
    sprintf_opcode_perf sampleSnprintf formatEnviron
        { r := 0, sfmt := 0, args := [1], XSTRCODE := 3, XINCODE := 0 } =
      Outcome.ret (OK, formatEnviron.setMem 0 ['a', 'b', NUL, 'd', NUL, NUL, NUL, NUL]) ∧
    cstr ((formatEnviron.setMem 0 ['a', 'b', NUL, 'd', NUL, NUL, NUL, NUL]).mem 0) = ['a', 'b'] ∧
    (formatEnviron.setMem 0 ['a', 'b', NUL, 'd', NUL, NUL, NUL, NUL]).log = [] ∧
    outString 2 (sprintf_opcode_init sampleSnprintf formatEnviron
        { r := 2, sfmt := 0, args := [1], XSTRCODE := 3, XINCODE := 0 }) = none :=
  ⟨by decide, Or.inl (by decide), rfl, rfl, by decide, rfl, by decide⟩

/-- The arguments of `sprintf_rejects_mismatched_arguments` on an example: the
format "%s%d" in cell 0, one string argument, the output in cell 2. -/
theorem sprintf_rejects_mismatched_arguments_witness :
    formatEnviron.HAVE_SNPRINTF = true ∧ NUL ∈ formatEnviron.mem 0 ∧ IsStrVar formatEnviron 2 ∧ (2 : Nat) ≠ 0 ∧
    [1].length ≤ 30 ∧
    spec_mismatch { r := 2, sfmt := 0, args := [1], XSTRCODE := 3, XINCODE := 0 }
      (cstr (formatEnviron.mem 0)) ∧
    ∃ msg ∈ sprintfMessages, ∃ ci cp,
      sprintf_opcode_init sampleSnprintf formatEnviron
          { r := 2, sfmt := 0, args := [1], XSTRCODE := 3, XINCODE := 0 } =
        Outcome.ret (formatEnviron.initErrStatus msg, ci) ∧
      ci.log = formatEnviron.log ++ [Event.InitError msg] ∧ cstr (ci.mem 2) = [] ∧
      sprintf_opcode_perf sampleSnprintf formatEnviron
          { r := 2, sfmt := 0, args := [1], XSTRCODE := 3, XINCODE := 0 } =
        Outcome.ret (formatEnviron.perfErrStatus msg, cp) ∧
      cp.log = formatEnviron.log ++ [Event.PerfError msg] ∧ cstr (cp.mem 2) = [] :=
  ⟨rfl, by decide, ⟨rfl, by decide⟩, by decide, by decide, Or.inl (by decide),
    sprintf_rejects_mismatched_arguments sampleSnprintf formatEnviron
      { r := 2, sfmt := 0, args := [1], XSTRCODE := 3, XINCODE := 0 }
      rfl (by decide) ⟨rfl, by decide⟩ (by decide) (by decide) (Or.inl (by decide))⟩

end Csound
